import Mathlib

/-!
# Store v2 (relational backend) of sensu-go: embedding and verified properties

Shallow embedding of `backend/store/postgres/storev2.go` and of the entity state
statements of `backend/store/postgres/entity_states_schema.go`.

* The relational driver (pgx pool, transactions) and the key/value store are external
  collaborators. They are records of state transformers over arbitrary state types, so a
  theorem quantified over such a record holds for every behaviour of the collaborator.
* Every driver call is appended to a log, which is how "issues no statement" and
  "commits / rolls back" are stated.
* Go results `(value, error)` are pairs of options; a Go panic is `Outcome.panic`.
-/

namespace SensuStore

/-! ## Part I. Definitions -/

/-! ### Requests, wrappers, errors -/

/-- Sort order of a request (`storev2.SortOrder`). -/
inductive SortOrder where
  | SortNone
  | SortAscend
  | SortDescend
  deriving DecidableEq, Repr

/-- Resource descriptor (`storev2.ResourceRequest`). `Context` stands for the
`context.Context` value the descriptor carries, by its identity: it is a field of the
descriptor, so two descriptors that differ only in it are different keys of the result map
of `GetMultiple`. It is handed to every driver call; what a driver makes of it is part of
the behaviour of the driver. -/
structure ResourceRequest where
  Namespace : String
  Name : String
  StoreName : String
  SortOrder : SortOrder
  UsePostgres : Bool
  Context : Nat := 0
  deriving DecidableEq, Repr

/-- Operation selector `crudOp` of storev2.go. -/
inductive crudOp where
  | createOrUpdateQ
  | updateIfExistsQ
  | createIfNotExistsQ
  | getQ
  | deleteQ
  | listQ
  | listAllQ
  | existsQ
  | patchQ
  | getMultipleQ
  deriving DecidableEq, Repr

/-- Store name of entity configs, `new(corev3.EntityConfig).StoreName()`. The value is the
table name, as the test `TestStoreCreateOrUpdate` selects `FROM entityConfigStoreName`. -/
def entityConfigStoreName : String := "entity_configs"

/-- Store name of entity states, `new(corev3.EntityState).StoreName()`. -/
def entityStateStoreName : String := "entity_states"

/-- Store name of namespaces, `new(corev3.Namespace).StoreName()`. -/
def namespaceStoreName : String := "namespaces"

/-- The statement constants of the postgres package, by name. The entity state statements
are given in entity_states_schema.go; the others are declared elsewhere in the package. -/
inductive Query where
  | createOrUpdateEntityConfigQuery
  | updateIfExistsEntityConfigQuery
  | createIfNotExistsEntityConfigQuery
  | getEntityConfigQuery
  | getEntityConfigsQuery
  | deleteEntityConfigQuery
  | listEntityConfigQuery
  | listEntityConfigDescQuery
  | existsEntityConfigQuery
  | createOrUpdateEntityStateQuery
  | updateIfExistsEntityStateQuery
  | createIfNotExistsEntityStateQuery
  | getEntityStateQuery
  | getEntityStatesQuery
  | hardDeleteEntityStateQuery
  | deleteEntityStateQuery
  | hardDeletedEntityStateQuery
  | listEntityStateQuery
  | listEntityStateDescQuery
  | existsEntityStateQuery
  | patchEntityStateQuery
  | createOrUpdateNamespaceQuery
  | updateIfExistsNamespaceQuery
  | createIfNotExistsNamespaceQuery
  | getNamespaceQuery
  | getNamespacesQuery
  | deleteNamespaceQuery
  | listNamespaceQuery
  | listNamespaceDescQuery
  | existsNamespaceQuery
  deriving DecidableEq, Repr

/-- A value bound to a statement parameter or read from a result column. -/
inductive SqlValue where
  | null
  | text (s : String)
  | int (i : Int)
  | bool (b : Bool)
  | textArray (xs : List String)
  deriving DecidableEq, Repr

/-- The three wrapper types `lookupWrapper` can allocate. -/
inductive WrapperKind where
  | EntityConfigWrapper
  | EntityStateWrapper
  | NamespaceWrapper
  deriving DecidableEq, Repr

/-- A wrapper of the postgres package (`namedWrapperWithParams`): `Name` is what `GetName()`
returns and `Params` are the values `SQLParams()` points at, which serve both as statement
parameters and as scan destinations. -/
structure PgWrapper where
  kind : WrapperKind
  Name : String
  Params : List SqlValue
  deriving DecidableEq, Repr

/-- Method `SQLParams` of a postgres wrapper. -/
def PgWrapper.SQLParams (w : PgWrapper) : List SqlValue := w.Params

/-- Method `GetName` of a postgres wrapper. -/
def PgWrapper.GetName (w : PgWrapper) : String := w.Name

/-- A value of interface type `storev2.Wrapper`: either a postgres wrapper, or any other
wrapper (one that does not implement `wrapperWithParams`), kept with its Go type name. -/
inductive Wrapper where
  | pg (w : PgWrapper)
  | generic (typeName : String) (payload : String)
  deriving DecidableEq, Repr

/-- A result row as delivered by the driver: the name column and all columns in scan
order. -/
structure Row where
  Name : String
  Columns : List SqlValue
  deriving DecidableEq, Repr

/-- Errors of the relational driver (pgx / pgconn). A `pgconn.PgError` carries the SQLSTATE
code of the server (23505 is a unique violation), the name of the violated constraint and
the message. -/
inductive DriverError where
  | ErrNoRows
  | ErrTxClosed
  | PgError (Code : String) (ConstraintName : String) (Message : String)
  | other (Message : String)
  deriving DecidableEq, Repr

/-- Method `Error()` of a driver error. -/
def DriverError.Error : DriverError → String
  | .ErrNoRows => "no rows in result set"
  | .ErrTxClosed => "tx is closed"
  | .PgError _ _ m => m
  | .other m => m

/-- A Go `error` value: one of the seven kinds of package `store`, a driver error returned
as it is, or any other error value (`fmt.Errorf`, helper libraries). -/
inductive GoError where
  | ErrNotFound (Key : String)
  | ErrAlreadyExists (Key : String)
  | ErrNotValid (Err : String)
  | ErrInternal (Message : String)
  | ErrDecode (Key : String) (Err : String)
  | ErrEncode (Err : String)
  | ErrPreconditionFailed (Key : String)
  | driver (e : DriverError)
  | plain (msg : String)
  deriving DecidableEq, Repr

/-- Method `Error()` of an error value, as far as the store uses it (the text wrapped into
another error). -/
def GoError.Error : GoError → String
  | .ErrNotFound k => "key " ++ k ++ " not found"
  | .ErrAlreadyExists k => "could not create the key " ++ k
  | .ErrNotValid e => "resource is invalid: " ++ e
  | .ErrInternal m => "internal error: " ++ m
  | .ErrDecode k e => "could not decode the key " ++ k ++ ": " ++ e
  | .ErrEncode e => "could not encode the key: " ++ e
  | .ErrPreconditionFailed k => "precondition failed for the key " ++ k
  | .driver e => e.Error
  | .plain m => m

/-- Result of a Go call that may panic. -/
inductive Outcome (α : Type) where
  | ret (a : α)
  | panic (msg : String)
  deriving DecidableEq, Repr

/-- Selection predicate (`store.SelectionPredicate`), with the two fields storev2.go uses. -/
structure SelectionPredicate where
  Limit : Int
  Continue : String
  deriving DecidableEq, Repr

/-- Preconditions of a patch (`store.ETagCondition`). -/
structure ETagCondition where
  IfMatch : String
  IfNoneMatch : String
  deriving DecidableEq, Repr

/-- Dynamic type of a `corev3.Resource` value, as far as `wrapWithPostgres` tells them
apart. -/
inductive ResourceType where
  | EntityConfig
  | EntityState
  | Namespace
  | Other (typeName : String)
  deriving DecidableEq, Repr

/-- A domain resource; its content is not interpreted by the store. -/
structure Resource where
  type : ResourceType
  content : String
  deriving DecidableEq, Repr

/-- Serialized form of a resource. -/
abbrev Bytes := String

/-- The patch engine `patch.Patcher`: a pure function on bytes. -/
abbrev Patcher := Bytes → Except GoError Bytes

/-! ### lookupWrapper, lookupQuery, errNoQuery -/

/-- Function `lookupWrapper` of storev2.go: the type of the freshly allocated wrapper, or
a panic for any other store name. -/
def lookupWrapper (req : ResourceRequest) (_op : crudOp) : Outcome WrapperKind :=
  let storeName := req.StoreName
  if storeName = entityConfigStoreName then .ret .EntityConfigWrapper
  else if storeName = entityStateStoreName then .ret .EntityStateWrapper
  else if storeName = namespaceStoreName then .ret .NamespaceWrapper
  else .panic ("no wrapper type defined for store: " ++ storeName)

/-- Function `lookupQuery` of storev2.go; `none` stands for the result `("", false)`. -/
def lookupQuery (req : ResourceRequest) (op : crudOp) : Option Query :=
  let storeName := req.StoreName
  let ordering := req.SortOrder
  if storeName = entityConfigStoreName then
    match op with
    | .createOrUpdateQ => some .createOrUpdateEntityConfigQuery
    | .updateIfExistsQ => some .updateIfExistsEntityConfigQuery
    | .createIfNotExistsQ => some .createIfNotExistsEntityConfigQuery
    | .getQ => some .getEntityConfigQuery
    | .getMultipleQ => some .getEntityConfigsQuery
    | .deleteQ => some .deleteEntityConfigQuery
    | .listQ | .listAllQ =>
      match ordering with
      | .SortDescend => some .listEntityConfigDescQuery
      | _ => some .listEntityConfigQuery
    | .existsQ => some .existsEntityConfigQuery
    | _ => none
  else if storeName = entityStateStoreName then
    match op with
    | .createOrUpdateQ => some .createOrUpdateEntityStateQuery
    | .updateIfExistsQ => some .updateIfExistsEntityStateQuery
    | .createIfNotExistsQ => some .createIfNotExistsEntityStateQuery
    | .getQ => some .getEntityStateQuery
    | .getMultipleQ => some .getEntityStatesQuery
    | .deleteQ => some .deleteEntityStateQuery
    | .listQ | .listAllQ =>
      match ordering with
      | .SortDescend => some .listEntityStateDescQuery
      | _ => some .listEntityStateQuery
    | .existsQ => some .existsEntityStateQuery
    | .patchQ => some .patchEntityStateQuery
  else if storeName = namespaceStoreName then
    match op with
    | .createOrUpdateQ => some .createOrUpdateNamespaceQuery
    | .updateIfExistsQ => some .updateIfExistsNamespaceQuery
    | .createIfNotExistsQ => some .createIfNotExistsNamespaceQuery
    | .getQ => some .getNamespaceQuery
    | .getMultipleQ => some .getNamespacesQuery
    | .deleteQ => some .deleteNamespaceQuery
    | .listQ | .listAllQ =>
      match ordering with
      | .SortDescend => some .listNamespaceDescQuery
      | _ => some .listNamespaceQuery
    | .existsQ => some .existsNamespaceQuery
    | _ => none
  else none

/-- Function `errNoQuery` of storev2.go. -/
def errNoQuery (storeName : String) : GoError :=
  .ErrNotValid ("postgres storage requested for " ++ storeName ++ ", but not supported")

/-! ### External collaborators -/

/-- Outcome of one row that `rows.Next()` delivers: the scan succeeds, the scan fails, or
the scan succeeds and `rows.Err()` then reports an error. -/
inductive RowOutcome where
  | row (r : Row)
  | scanError (e : DriverError)
  | rowThenErr (r : Row) (e : DriverError)
  deriving DecidableEq, Repr

/-- The relational driver (`pgxpool.Pool` and its transactions) as state transformers on a
database state `σ`. `exec` yields the number of affected rows and `queryRow` what
`QueryRow(...).Scan` delivers; both report every error of the statement. `query` yields
the error that `Query` itself returns (the statement could not be sent or prepared), or
else the rows that `rows.Next()` delivers until it returns false. An error raised while
the statement runs is not returned by `Query`: it ends the rows, and `rows.Err()` reports
it afterwards. `queryErr` is what `rows.Err()` reports after the rows of the same call of
`query` (nil when the result set simply ended), and `txQueryErr` likewise for `txQuery`.
No function of storev2.go reads `rows.Err()` after its loop over the rows. -/
structure Pg (σ : Type) where
  exec : Query → List SqlValue → σ → Except DriverError Nat × σ
  query : Query → List SqlValue → σ → Except DriverError (List RowOutcome) × σ
  queryRow : Query → List SqlValue → σ → Except DriverError Row × σ
  beginTx : σ → Option DriverError × σ
  txExec : Query → List SqlValue → σ → Except DriverError Nat × σ
  txQuery : Query → List SqlValue → σ → Except DriverError (List RowOutcome) × σ
  txQueryRow : Query → List SqlValue → σ → Except DriverError Row × σ
  commit : σ → Option DriverError × σ
  rollback : σ → Option DriverError × σ
  queryErr : Query → List SqlValue → σ → Option DriverError
  txQueryErr : Query → List SqlValue → σ → Option DriverError

/-- The key/value store behind `storev2.Interface`, as state transformers on its state
`τ`. The interface has no `GetMultiple`. -/
structure Etcd (τ : Type) where
  CreateOrUpdate : ResourceRequest → Wrapper → τ → Option GoError × τ
  UpdateIfExists : ResourceRequest → Wrapper → τ → Option GoError × τ
  CreateIfNotExists : ResourceRequest → Wrapper → τ → Option GoError × τ
  Get : ResourceRequest → τ → (Option Wrapper × Option GoError) × τ
  Delete : ResourceRequest → τ → Option GoError × τ
  List : ResourceRequest → Option SelectionPredicate → τ →
    ((Option (List Wrapper) × Option GoError) × Option SelectionPredicate) × τ
  Exists : ResourceRequest → τ → (Bool × Option GoError) × τ
  Patch : ResourceRequest → Wrapper → Patcher → Option ETagCondition → τ → Option GoError × τ

/-- Helper code the store calls that lives outside storev2.go: request validation, the
limit and offset of a predicate (`getLimitAndOffset` gives what the helper returns and
`getLimitAndOffsetEffect` what it leaves in the predicate it was given a pointer to), the
decode of a wrapper, the ETag helper, the JSON codec, resource validation, the wrapper
constructors and the key of a request. -/
structure Deps where
  Validate : ResourceRequest → Option String
  getLimitAndOffset : Option SelectionPredicate → SqlValue × SqlValue × Option GoError
  getLimitAndOffsetEffect : SelectionPredicate → SelectionPredicate
  Unwrap : PgWrapper → Except GoError Resource
  ETag : Resource → Except GoError String
  CheckIfMatch : String → String → Bool
  CheckIfNoneMatch : String → String → Bool
  Marshal : Resource → Except GoError Bytes
  Unmarshal : Bytes → Resource → Except GoError Resource
  ResourceValidate : Resource → Option GoError
  WrapEntityConfig : Resource → PgWrapper
  WrapEntityState : Resource → PgWrapper
  WrapNamespace : Resource → PgWrapper
  WrapResource : Resource → Except GoError (String × String)
  StoreKey : ResourceRequest → String

/-- One call on the relational driver. -/
inductive DbEvent where
  | Exec (q : Query) (params : List SqlValue)
  | Query (q : Query) (params : List SqlValue)
  | QueryRow (q : Query) (params : List SqlValue)
  | Begin
  | TxExec (q : Query) (params : List SqlValue)
  | TxQuery (q : Query) (params : List SqlValue)
  | TxQueryRow (q : Query) (params : List SqlValue)
  | Commit
  | Rollback
  deriving DecidableEq, Repr

/-- State of everything outside the store value: the database, the key/value store, and
the log of driver calls made so far. -/
structure World (σ τ : Type) where
  pg : σ
  etcd : τ
  log : List DbEvent

/-- The store (`StoreV2`): the pool and the key/value store it delegates to. -/
structure StoreV2 (σ τ : Type) where
  db : Pg σ
  etcdStoreV2 : Etcd τ

variable {σ τ : Type}

/-- Call `Exec` on the pool. -/
def dbExec (s : StoreV2 σ τ) (q : Query) (ps : List SqlValue) (w : World σ τ) :
    Except DriverError Nat × World σ τ :=
  ((s.db.exec q ps w.pg).1, { w with pg := (s.db.exec q ps w.pg).2, log := w.log ++ [.Exec q ps] })

/-- Call `Query` on the pool. -/
def dbQuery (s : StoreV2 σ τ) (q : Query) (ps : List SqlValue) (w : World σ τ) :
    Except DriverError (List RowOutcome) × World σ τ :=
  ((s.db.query q ps w.pg).1,
    { w with pg := (s.db.query q ps w.pg).2, log := w.log ++ [.Query q ps] })

/-- Call `QueryRow` on the pool and scan the row. -/
def dbQueryRow (s : StoreV2 σ τ) (q : Query) (ps : List SqlValue) (w : World σ τ) :
    Except DriverError Row × World σ τ :=
  ((s.db.queryRow q ps w.pg).1,
    { w with pg := (s.db.queryRow q ps w.pg).2, log := w.log ++ [.QueryRow q ps] })

/-- Call `Begin` on the pool. -/
def dbBegin (s : StoreV2 σ τ) (w : World σ τ) : Option DriverError × World σ τ :=
  ((s.db.beginTx w.pg).1, { w with pg := (s.db.beginTx w.pg).2, log := w.log ++ [.Begin] })

/-- Call `Exec` on the open transaction. -/
def txExec (s : StoreV2 σ τ) (q : Query) (ps : List SqlValue) (w : World σ τ) :
    Except DriverError Nat × World σ τ :=
  ((s.db.txExec q ps w.pg).1,
    { w with pg := (s.db.txExec q ps w.pg).2, log := w.log ++ [.TxExec q ps] })

/-- Call `Query` on the open transaction. -/
def txQuery (s : StoreV2 σ τ) (q : Query) (ps : List SqlValue) (w : World σ τ) :
    Except DriverError (List RowOutcome) × World σ τ :=
  ((s.db.txQuery q ps w.pg).1,
    { w with pg := (s.db.txQuery q ps w.pg).2, log := w.log ++ [.TxQuery q ps] })

/-- Call `QueryRow` on the open transaction and scan the row. -/
def txQueryRow (s : StoreV2 σ τ) (q : Query) (ps : List SqlValue) (w : World σ τ) :
    Except DriverError Row × World σ τ :=
  ((s.db.txQueryRow q ps w.pg).1,
    { w with pg := (s.db.txQueryRow q ps w.pg).2, log := w.log ++ [.TxQueryRow q ps] })

/-- Call `Commit` on the transaction. -/
def txCommit (s : StoreV2 σ τ) (w : World σ τ) : Option DriverError × World σ τ :=
  ((s.db.commit w.pg).1, { w with pg := (s.db.commit w.pg).2, log := w.log ++ [.Commit] })

/-- Call `Rollback` on the transaction. -/
def txRollback (s : StoreV2 σ τ) (w : World σ τ) : Option DriverError × World σ τ :=
  ((s.db.rollback w.pg).1, { w with pg := (s.db.rollback w.pg).2, log := w.log ++ [.Rollback] })

/-- Run an operation of the key/value store on its part of the world. -/
def onEtcd {α : Type} (f : τ → α × τ) (w : World σ τ) : α × World σ τ :=
  ((f w.etcd).1, { w with etcd := (f w.etcd).2 })

/-- The wrapper a scan fills: the freshly allocated wrapper of the given type, holding
the columns of the row. -/
def scanInto (kind : WrapperKind) (r : Row) : PgWrapper :=
  { kind := kind, Name := r.Name, Params := r.Columns }

/-- The parameters `[namespace, name]` of the single row statements; the namespace is
left out for the namespace store. -/
def keyParams (req : ResourceRequest) : List SqlValue :=
  let params : List SqlValue := []
  let params := if req.StoreName ≠ namespaceStoreName then params ++ [.text req.Namespace] else params
  params ++ [.text req.Name]

/-- The text `fmt.Sprintf("%s.%s", req.Namespace, req.Name)`. -/
def dotKey (req : ResourceRequest) : String := req.Namespace ++ "." ++ req.Name

/-- The text `fmt.Sprintf("%s/%s", req.Namespace, req.Name)`. -/
def slashKey (req : ResourceRequest) : String := req.Namespace ++ "/" ++ req.Name

/-- The error for a wrapper that does not implement `wrapperWithParams`. -/
def badWrapper (typeName : String) : GoError :=
  .ErrNotValid ("bad wrapper type for postgres: " ++ typeName)

/-! ### The single statement operations -/

/-- Method `StoreV2.CreateOrUpdate`. -/
def StoreV2.CreateOrUpdate (s : StoreV2 σ τ) (req : ResourceRequest) (wrapper : Wrapper)
    (w : World σ τ) : Option GoError × World σ τ :=
  if !req.UsePostgres then onEtcd (s.etcdStoreV2.CreateOrUpdate req wrapper) w
  else
    match wrapper with
    | .generic typeName _ => (some (badWrapper typeName), w)
    | .pg pwrap =>
      match lookupQuery req .createOrUpdateQ with
      | none => (some (errNoQuery req.StoreName), w)
      | some query =>
        let params := pwrap.SQLParams
        match dbExec s query params w with
        | (.error err, w1) => (some (.ErrInternal err.Error), w1)
        | (.ok _, w1) => (none, w1)

/-- Method `StoreV2.UpdateIfExists`; the rows of the result are only counted. -/
def StoreV2.UpdateIfExists (s : StoreV2 σ τ) (req : ResourceRequest) (wrapper : Wrapper)
    (w : World σ τ) : Option GoError × World σ τ :=
  if !req.UsePostgres then onEtcd (s.etcdStoreV2.UpdateIfExists req wrapper) w
  else
    match wrapper with
    | .generic typeName _ => (some (badWrapper typeName), w)
    | .pg pwrap =>
      match lookupQuery req .updateIfExistsQ with
      | none => (some (errNoQuery req.StoreName), w)
      | some query =>
        let params := pwrap.SQLParams
        match dbQuery s query params w with
        | (.error err, w1) => (some (.ErrInternal err.Error), w1)
        | (.ok rows, w1) =>
          let rowCount := rows.length
          if rowCount = 0 then (some (.ErrNotFound (dotKey req)), w1) else (none, w1)

/-- Method `StoreV2.CreateIfNotExists`. -/
def StoreV2.CreateIfNotExists (s : StoreV2 σ τ) (req : ResourceRequest) (wrapper : Wrapper)
    (w : World σ τ) : Option GoError × World σ τ :=
  if !req.UsePostgres then onEtcd (s.etcdStoreV2.CreateIfNotExists req wrapper) w
  else
    match wrapper with
    | .generic typeName _ => (some (badWrapper typeName), w)
    | .pg pwrap =>
      match lookupQuery req .createIfNotExistsQ with
      | none => (some (errNoQuery req.StoreName), w)
      | some query =>
        let params := pwrap.SQLParams
        match dbExec s query params w with
        | (.error err, w1) =>
          match err with
          | .PgError _ constraintName _ =>
            if constraintName = "entity_config_unique" ∨ constraintName = "entity_state_unique"
                ∨ constraintName = "namespace_unique" then
              (some (.ErrAlreadyExists (slashKey req)), w1)
            else (some (.ErrInternal err.Error), w1)
          | _ => (some (.ErrInternal err.Error), w1)
        | (.ok _, w1) => (none, w1)

/-- Method `StoreV2.Get`. -/
def StoreV2.Get (s : StoreV2 σ τ) (req : ResourceRequest) (w : World σ τ) :
    Outcome (Option Wrapper × Option GoError) × World σ τ :=
  if !req.UsePostgres then
    (.ret (onEtcd (s.etcdStoreV2.Get req) w).1, (onEtcd (s.etcdStoreV2.Get req) w).2)
  else
    let op := crudOp.getQ
    match lookupQuery req op with
    | none => (.ret (none, some (errNoQuery req.StoreName)), w)
    | some query =>
      let params := keyParams req
      match dbQueryRow s query params w with
      | (row, w1) =>
        match lookupWrapper req op with
        | .panic msg => (.panic msg, w1)
        | .ret kind =>
          match row with
          | .error err =>
            if err = .ErrNoRows then (.ret (none, some (.ErrNotFound (dotKey req))), w1)
            else (.ret (none, some (.ErrInternal err.Error)), w1)
          | .ok r => (.ret (some (.pg (scanInto kind r)), none), w1)

/-- Method `StoreV2.Delete`. -/
def StoreV2.Delete (s : StoreV2 σ τ) (req : ResourceRequest) (w : World σ τ) :
    Option GoError × World σ τ :=
  if !req.UsePostgres then onEtcd (s.etcdStoreV2.Delete req) w
  else
    match lookupQuery req .deleteQ with
    | none => (some (errNoQuery req.StoreName), w)
    | some query =>
      let params := keyParams req
      match dbExec s query params w with
      | (.error err, w1) => (some (.ErrInternal err.Error), w1)
      | (.ok affected, w1) =>
        if affected < 1 then (some (.ErrNotFound (dotKey req)), w1) else (none, w1)

/-- The scan of the single boolean column of the exists statements into `found`. -/
def scanBool (r : Row) : Except DriverError Bool :=
  match r.Columns with
  | [.bool b] => .ok b
  | _ => .error (.other "can't scan into dest[0]")

/-- Method `StoreV2.Exists`. -/
def StoreV2.Exists (s : StoreV2 σ τ) (req : ResourceRequest) (w : World σ τ) :
    (Bool × Option GoError) × World σ τ :=
  if !req.UsePostgres then onEtcd (s.etcdStoreV2.Exists req) w
  else
    match lookupQuery req .existsQ with
    | none => ((false, some (errNoQuery req.StoreName)), w)
    | some query =>
      let params := keyParams req
      match dbQueryRow s query params w with
      | (row, w1) =>
        match row.bind scanBool with
        | .ok found => ((found, none), w1)
        | .error err =>
          if err = .ErrNoRows then ((false, none), w1)
          else ((false, some (.ErrInternal err.Error)), w1)

/-! ### GetMultiple -/

/-- The key type `requestKey` local to `GetMultiple`. -/
structure requestKey where
  Namespace : String
  Name : String
  deriving DecidableEq, Repr

/-- Lookup in a Go map, kept as an association list with unique keys. -/
def mapGet {κ ν : Type} [DecidableEq κ] : List (κ × ν) → κ → Option ν
  | [], _ => none
  | (k1, v) :: m, k => if k1 = k then some v else mapGet m k

/-- Assignment `m[k] = v` in a Go map. -/
def mapSet {κ ν : Type} [DecidableEq κ] : List (κ × ν) → κ → ν → List (κ × ν)
  | [], k, v => [(k, v)]
  | (k1, v1) :: m, k, v => if k1 = k then (k, v) :: m else (k1, v1) :: mapSet m k v

/-- The order in which a `range` over a Go map visits its entries is not specified; the
`seed` selects one of the orders. -/
def mapRange {α : Type} (seed : Nat) (m : List α) : List α :=
  (m.permutations').getD seed m

/-- The result map `map[storev2.ResourceRequest]storev2.Wrapper`. -/
abbrev ResultMap := List (ResourceRequest × Wrapper)

/-- Variables of the first loop of `GetMultiple`. -/
structure Grouping where
  storeName : String
  keyedResourceRequests : List (requestKey × ResourceRequest)
  namespacedResources : List (String × List String)

/-- The first loop of `GetMultiple`, from index `i` on: at index 0 the store name is
taken from the first request; each request is validated, compared with the store name,
keyed by (namespace, name) and its name appended to the group of its namespace. -/
def groupRequests (D : Deps) :
    Nat → List ResourceRequest → Grouping → Outcome (Except GoError Grouping)
  | _, [], g => .ret (.ok g)
  | i, req :: rest, g =>
    let storeName := if i = 0 then req.StoreName else g.storeName
    match D.Validate req with
    | some msg => .ret (.error (.ErrNotValid msg))
    | none =>
      if storeName ≠ req.StoreName then
        .panic "GetMultiple() does not support requests with differing store names"
      else
        let key : requestKey := { Namespace := req.Namespace, Name := req.Name }
        groupRequests D (i + 1) rest
          { storeName := storeName
            keyedResourceRequests := mapSet g.keyedResourceRequests key req
            namespacedResources :=
              mapSet g.namespacedResources req.Namespace
                ((mapGet g.namespacedResources req.Namespace).getD [] ++ [req.Name]) }

/-- The row loop of `GetMultiple` for one namespace group. A scan that reports
`ErrNoRows` skips the row; `rows.Err()` is not consulted. -/
def scanGroupRows (req0 : ResourceRequest)
    (keyedResourceRequests : List (requestKey × ResourceRequest)) (namespace_ : String) :
    List RowOutcome → ResultMap → Outcome (Except GoError ResultMap)
  | [], wrappers => .ret (.ok wrappers)
  | r :: rest, wrappers =>
    match lookupWrapper req0 .getMultipleQ with
    | .panic msg => .panic msg
    | .ret kind =>
      match r with
      | .scanError err =>
        if err = .ErrNoRows then scanGroupRows req0 keyedResourceRequests namespace_ rest wrappers
        else .ret (.error (.ErrInternal err.Error))
      | .row row | .rowThenErr row _ =>
        let wrapper := scanInto kind row
        let key : requestKey := { Namespace := namespace_, Name := wrapper.GetName }
        match mapGet keyedResourceRequests key with
        | none => .panic "keyedResourceRequests key does not exist"
        | some req =>
          scanGroupRows req0 keyedResourceRequests namespace_ rest (mapSet wrappers req (.pg wrapper))

/-- The arguments of a get-multiple statement: the namespace (left out for the namespace
store) and the array of names. -/
def groupArgs (storeName namespace_ : String) (resourceNames : List String) : List SqlValue :=
  let args : List SqlValue := []
  let args := if storeName ≠ namespaceStoreName then args ++ [.text namespace_] else args
  args ++ [.textArray resourceNames]

/-- The second loop of `GetMultiple`, over the namespace groups in the order given. -/
def queryGroups (s : StoreV2 σ τ) (reqs : List ResourceRequest) (storeName : String)
    (keyedResourceRequests : List (requestKey × ResourceRequest)) :
    List (String × List String) → ResultMap → World σ τ →
      Outcome (Except GoError ResultMap) × World σ τ
  | [], wrappers, w => (.ret (.ok wrappers), w)
  | (namespace_, resourceNames) :: rest, wrappers, w =>
    match reqs with
    | [] => (.panic "index out of range [0] with length 0", w)
    | req0 :: _ =>
      match lookupQuery req0 .getMultipleQ with
      | none => (.ret (.error (errNoQuery storeName)), w)
      | some query =>
        let args := groupArgs storeName namespace_ resourceNames
        match txQuery s query args w with
        | (.error err, w1) => (.ret (.error (.driver err)), w1)
        | (.ok rows, w1) =>
          match scanGroupRows req0 keyedResourceRequests namespace_ rows wrappers with
          | .panic msg => (.panic msg, w1)
          | .ret (.error e) => (.ret (.error e), w1)
          | .ret (.ok wrappers1) =>
            queryGroups s reqs storeName keyedResourceRequests rest wrappers1 w1

/-- The body of `GetMultiple` after the transaction was opened, up to and including the
explicit `tx.Commit`. -/
def getMultipleBody (s : StoreV2 σ τ) (D : Deps) (seed : Nat) (reqs : List ResourceRequest)
    (w : World σ τ) : Outcome (Option ResultMap × Option GoError) × World σ τ :=
  match groupRequests D 0 reqs { storeName := "", keyedResourceRequests := [], namespacedResources := [] } with
  | .panic msg => (.panic msg, w)
  | .ret (.error e) => (.ret (none, some e), w)
  | .ret (.ok g) =>
    match queryGroups s reqs g.storeName g.keyedResourceRequests
        (mapRange seed g.namespacedResources) [] w with
    | (.panic msg, w1) => (.panic msg, w1)
    | (.ret (.error e), w1) => (.ret (none, some e), w1)
    | (.ret (.ok wrappers), w1) =>
      match txCommit s w1 with
      | (some _, w2) =>
        (.ret (none, some (.plain "error committing transaction for GetMultiple()")), w2)
      | (none, w2) => (.ret (some wrappers, none), w2)

/-- Method `StoreV2.GetMultiple`. The backend selector of the requests is never read. The
deferred function calls `tx.Commit` on every exit of the body, a panic included, and only
logs its error. -/
def StoreV2.GetMultiple (s : StoreV2 σ τ) (D : Deps) (seed : Nat) (reqs : List ResourceRequest)
    (w : World σ τ) : Outcome (Option ResultMap × Option GoError) × World σ τ :=
  match dbBegin s w with
  | (some err, w1) => (.ret (none, some (.driver err)), w1)
  | (none, w1) =>
    ((getMultipleBody s D seed reqs w1).1, (txCommit s (getMultipleBody s D seed reqs w1).2).2)

/-! ### Patch -/

/-- Function `wrapWithPostgres` of storev2.go. -/
def wrapWithPostgres (D : Deps) (resource : Resource) : Except GoError Wrapper :=
  match resource.type with
  | .EntityConfig => .ok (.pg (D.WrapEntityConfig resource))
  | .EntityState => .ok (.pg (D.WrapEntityState resource))
  | .Namespace => .ok (.pg (D.WrapNamespace resource))
  | .Other _ =>
    match D.WrapResource resource with
    | .error e => .error e
    | .ok (typeName, payload) => .ok (.generic typeName payload)

/-- The steps of `Patch` between the scan of the stored row and the upsert: decode, ETag,
preconditions, marshal, patch engine, unmarshal, validation, re-wrap, type assertion and
lookup of the upsert statement. The result is the statement and its parameters, or the
error the body returns. -/
def patchPrepare (D : Deps) (req : ResourceRequest) (originalWrapper : PgWrapper)
    (patcher : Patcher) (conditions : Option ETagCondition) :
    Except GoError (Query × List SqlValue) :=
  match D.Unwrap originalWrapper with
  | .error err => .error (.ErrDecode (D.StoreKey req) err.Error)
  | .ok resource =>
    match D.ETag resource with
    | .error err => .error err
    | .ok etag =>
      let failed :=
        match conditions with
        | some c => !D.CheckIfMatch c.IfMatch etag || !D.CheckIfNoneMatch c.IfNoneMatch etag
        | none => false
      if failed then .error (.ErrPreconditionFailed (D.StoreKey req))
      else
        match D.Marshal resource with
        | .error err => .error err
        | .ok original =>
          match patcher original with
          | .error err => .error err
          | .ok patchedResource =>
            match D.Unmarshal patchedResource resource with
            | .error err => .error err
            | .ok resource1 =>
              match D.ResourceValidate resource1 with
              | some err => .error err
              | none =>
                match wrapWithPostgres D resource1 with
                | .error err => .error (.ErrEncode err.Error)
                | .ok (.generic typeName _) => .error (badWrapper typeName)
                | .ok (.pg pwrap) =>
                  match lookupQuery req .createOrUpdateQ with
                  | none => .error (errNoQuery req.StoreName)
                  | some query => .ok (query, pwrap.SQLParams)

/-- The body of `Patch` inside the open transaction: read and scan the stored row, run
the steps of `patchPrepare`, execute the upsert. The result is the value of the named
result `err` when the body returns. -/
def patchBody (s : StoreV2 σ τ) (D : Deps) (req : ResourceRequest) (query : Query)
    (params : List SqlValue) (kind : WrapperKind) (patcher : Patcher)
    (conditions : Option ETagCondition) (w : World σ τ) : Option GoError × World σ τ :=
  match txQueryRow s query params w with
  | (.error err, w1) =>
    if err = .ErrNoRows then (some (.ErrNotFound (dotKey req)), w1)
    else (some (.ErrInternal err.Error), w1)
  | (.ok row, w1) =>
    match patchPrepare D req (scanInto kind row) patcher conditions with
    | .error e => (some e, w1)
    | .ok (upsert, upsertParams) =>
      match txExec s upsert upsertParams w1 with
      | (.error err, w2) => (some (.ErrInternal err.Error), w2)
      | (.ok _, w2) => (none, w2)

/-- The deferred function of `Patch`: commit when the named result is nil and return what
the commit returns; otherwise roll back, and replace the result by the error of the
rollback if it has one. -/
def patchDeferred (s : StoreV2 σ τ) (err : Option GoError) (w : World σ τ) :
    Option GoError × World σ τ :=
  match err with
  | none => (((txCommit s w).1).map GoError.driver, (txCommit s w).2)
  | some e =>
    match txRollback s w with
    | (some txerr, w1) => (some (.driver txerr), w1)
    | (none, w1) => (some e, w1)

/-- Method `StoreV2.Patch`. After `Begin` the code tests the named result `err`, which is
nil there, instead of `txerr`; so a failed `Begin` is not returned, the transaction value
is nil and the first call on it panics. -/
def StoreV2.Patch (s : StoreV2 σ τ) (D : Deps) (req : ResourceRequest) (wrapper : Wrapper)
    (patcher : Patcher) (conditions : Option ETagCondition) (w : World σ τ) :
    Outcome (Option GoError) × World σ τ :=
  if !req.UsePostgres then
    (.ret (onEtcd (s.etcdStoreV2.Patch req wrapper patcher conditions) w).1,
      (onEtcd (s.etcdStoreV2.Patch req wrapper patcher conditions) w).2)
  else
    match D.Validate req with
    | some msg => (.ret (some (.ErrNotValid msg)), w)
    | none =>
      let op := crudOp.getQ
      match lookupQuery req op with
      | none => (.ret (some (errNoQuery req.StoreName)), w)
      | some query =>
        let params := keyParams req
        match lookupWrapper req op with
        | .panic msg => (.panic msg, w)
        | .ret kind =>
          match dbBegin s w with
          | (some _, w1) => (.panic "invalid memory address or nil pointer dereference", w1)
          | (none, w1) =>
            (.ret (patchDeferred s (patchBody s D req query params kind patcher conditions w1).1
                (patchBody s D req query params kind patcher conditions w1).2).1,
              (patchDeferred s (patchBody s D req query params kind patcher conditions w1).1
                (patchBody s D req query params kind patcher conditions w1).2).2)

/-! ### List -/

/-- The row loop of `StoreV2.List`: counts the row, allocates the wrapper, scans, checks
`rows.Err()`, appends. -/
def listRows (req : ResourceRequest) :
    List RowOutcome → List Wrapper → Int → Outcome (Except GoError (List Wrapper × Int))
  | [], wrapList, rowCount => .ret (.ok (wrapList, rowCount))
  | r :: rest, wrapList, rowCount =>
    let rowCount := rowCount + 1
    match lookupWrapper req .listQ with
    | .panic msg => .panic msg
    | .ret kind =>
      match r with
      | .scanError err => .ret (.error (.ErrInternal err.Error))
      | .rowThenErr _ err => .ret (.error (.ErrInternal err.Error))
      | .row row => listRows req rest (wrapList ++ [.pg (scanInto kind row)]) rowCount

/-- The parameters of a list statement: the nullable namespace (left out for the namespace
store), the limit and the offset. -/
def listParams (req : ResourceRequest) (limit offset : SqlValue) : List SqlValue :=
  let params : List SqlValue := []
  let params :=
    if req.StoreName ≠ namespaceStoreName then
      let namespace_ : SqlValue := if req.Namespace ≠ "" then .text req.Namespace else .null
      params ++ [namespace_]
    else params
  let params := params ++ [limit]
  params ++ [offset]

/-- Method `StoreV2.List`. The predicate is passed by reference, so the predicate after
the call is part of the result. -/
def StoreV2.List (s : StoreV2 σ τ) (D : Deps) (req : ResourceRequest)
    (pred : Option SelectionPredicate) (w : World σ τ) :
    Outcome ((Option (List Wrapper) × Option GoError) × Option SelectionPredicate) × World σ τ :=
  if !req.UsePostgres then
    (.ret (onEtcd (s.etcdStoreV2.List req pred) w).1, (onEtcd (s.etcdStoreV2.List req pred) w).2)
  else
    let op := crudOp.listQ
    match lookupQuery req op with
    | none => (.ret ((none, some (errNoQuery req.StoreName)), pred), w)
    | some query =>
      let pred1 := pred.map D.getLimitAndOffsetEffect
      match D.getLimitAndOffset pred with
      | (_, _, some err) => (.ret ((none, some err), pred1), w)
      | (limit, offset, none) =>
        let params := listParams req limit offset
        match dbQuery s query params w with
        | (.error rerr, w1) => (.ret ((none, some (.ErrInternal rerr.Error)), pred1), w1)
        | (.ok rows, w1) =>
          match listRows req rows [] 0 with
          | .panic msg => (.panic msg, w1)
          | .ret (.error e) => (.ret ((none, some e), pred1), w1)
          | .ret (.ok (wrapList, rowCount)) =>
            let pred2 :=
              match pred1 with
              | some p => if rowCount < p.Limit then some { p with Continue := "" } else some p
              | none => none
            (.ret ((some wrapList, none), pred2), w1)

/-! ### Concrete collaborators used to evaluate the operations -/

/-- A driver with a fixed answer for every kind of call; its state counts the calls. -/
structure Script where
  execResult : Except DriverError Nat
  queryResult : Except DriverError (List RowOutcome)
  queryRowResult : Except DriverError Row
  beginResult : Option DriverError
  commitResult : Option DriverError
  rollbackResult : Option DriverError
  rowsErrResult : Option DriverError

/-- The driver that follows a script. -/
def scriptedPg (sc : Script) : Pg Nat where
  exec := fun _ _ n => (sc.execResult, n + 1)
  query := fun _ _ n => (sc.queryResult, n + 1)
  queryRow := fun _ _ n => (sc.queryRowResult, n + 1)
  beginTx := fun n => (sc.beginResult, n + 1)
  txExec := fun _ _ n => (sc.execResult, n + 1)
  txQuery := fun _ _ n => (sc.queryResult, n + 1)
  txQueryRow := fun _ _ n => (sc.queryRowResult, n + 1)
  commit := fun n => (sc.commitResult, n + 1)
  rollback := fun n => (sc.rollbackResult, n + 1)
  queryErr := fun _ _ _ => sc.rowsErrResult
  txQueryErr := fun _ _ _ => sc.rowsErrResult

/-- A row named foo. -/
def fooRow : Row := { Name := "foo", Columns := [.text "default", .text "foo"] }

/-- The script in which every call succeeds and every read yields the row foo. -/
def okScript : Script where
  execResult := .ok 1
  queryResult := .ok [.row fooRow]
  queryRowResult := .ok fooRow
  beginResult := none
  commitResult := none
  rollbackResult := none
  rowsErrResult := none

/-- A key/value store that holds nothing and counts its calls: reads find nothing,
conditional updates fail with not-found, the other writes succeed. -/
def emptyEtcd : Etcd Nat where
  CreateOrUpdate := fun _ _ n => (none, n + 1)
  UpdateIfExists := fun req _ n => (some (.ErrNotFound req.Name), n + 1)
  CreateIfNotExists := fun _ _ n => (none, n + 1)
  Get := fun req n => ((none, some (.ErrNotFound req.Name)), n + 1)
  Delete := fun req n => (some (.ErrNotFound req.Name), n + 1)
  List := fun _ pred n => (((some [], none), pred), n + 1)
  Exists := fun _ n => ((false, none), n + 1)
  Patch := fun req _ _ _ n => (some (.ErrNotFound req.Name), n + 1)

/-- Modelled from the spec: `ResourceRequest.Validate`, which is declared outside the
files at hand. The spec asks for a non-empty name and a known store kind. -/
def specValidate (req : ResourceRequest) : Option String :=
  if req.Name = "" then some "invalid resource request: missing name"
  else if req.StoreName = entityConfigStoreName ∨ req.StoreName = entityStateStoreName
      ∨ req.StoreName = namespaceStoreName then none
  else some "invalid resource request: unknown store"

/-- Helpers in which every step succeeds: the content of a resource is its serialized
form, the ETag is the content, a condition matches when it equals the ETag. -/
def plainDeps : Deps where
  Validate := specValidate
  getLimitAndOffset := fun _ => (.null, .int 0, none)
  getLimitAndOffsetEffect := fun pred => pred
  Unwrap := fun w =>
    .ok { type := match w.kind with
                  | .EntityConfigWrapper => .EntityConfig
                  | .EntityStateWrapper => .EntityState
                  | .NamespaceWrapper => .Namespace,
          content := w.Name }
  ETag := fun r => .ok r.content
  CheckIfMatch := fun header etag => header = "" ∨ header = etag
  CheckIfNoneMatch := fun header etag => header = "" ∨ header ≠ etag
  Marshal := fun r => .ok r.content
  Unmarshal := fun b r => .ok { r with content := b }
  ResourceValidate := fun r => if r.content = "" then some (.plain "name cannot be empty") else none
  WrapEntityConfig := fun r => { kind := .EntityConfigWrapper, Name := r.content, Params := [.text r.content] }
  WrapEntityState := fun r => { kind := .EntityStateWrapper, Name := r.content, Params := [.text r.content] }
  WrapNamespace := fun r => { kind := .NamespaceWrapper, Name := r.content, Params := [.text r.content] }
  WrapResource := fun r => .ok ("*wrap.Wrapper", r.content)
  StoreKey := fun req => "/sensu.io/" ++ req.StoreName ++ "/" ++ req.Namespace ++ "/" ++ req.Name

/-- The store over a scripted driver and the empty key/value store. -/
def scriptedStore (sc : Script) : StoreV2 Nat Nat where
  db := scriptedPg sc
  etcdStoreV2 := emptyEtcd

/-- The world before any call. -/
def world0 : World Nat Nat := { pg := 0, etcd := 0, log := [] }

/-- A request for the entity config foo of namespace default, for the key/value store. -/
def etcdReq : ResourceRequest :=
  { Namespace := "default", Name := "foo", StoreName := entityConfigStoreName,
    SortOrder := .SortNone, UsePostgres := false }

/-- The same request with the relational backend selected. -/
def pgReq : ResourceRequest := { etcdReq with UsePostgres := true }

/-- A postgres wrapper for the entity config foo. -/
def fooWrapper : PgWrapper :=
  { kind := .EntityConfigWrapper, Name := "foo", Params := [.text "default", .text "foo"] }

/-! ### Statement level semantics and transactions -/

/-- What the statements do to a database state `δ` when they run on their own: the
affected rows, the result set, or the scanned first row, with the state after the
statement. A statement that fails leaves the state as it was. -/
structure Stmts (δ : Type) where
  exec : Query → List SqlValue → δ → Except DriverError (Nat × δ)
  query : Query → List SqlValue → δ → Except DriverError (List RowOutcome × δ)
  queryRow : Query → List SqlValue → δ → Except DriverError (Row × δ)

/-- State of the single transaction of a connection. -/
inductive TxStatus (δ : Type) where
  | idle
  | active (working : δ)
  | aborted

/-- A database with at most one open transaction: the committed state and the working
copy of the transaction. -/
structure TxState (δ : Type) where
  committed : δ
  tx : TxStatus δ

/-- Run a statement inside the open transaction: it works on the working copy, and a
failure aborts the transaction. -/
def inTx {δ α : Type} (f : δ → Except DriverError (α × δ)) (st : TxState δ) :
    Except DriverError α × TxState δ :=
  match st.tx with
  | .idle => (.error .ErrTxClosed, st)
  | .aborted => (.error (.PgError "25P02" "" "current transaction is aborted"), st)
  | .active d =>
    match f d with
    | .error e => (.error e, { st with tx := .aborted })
    | .ok (a, d1) => (.ok a, { st with tx := .active d1 })

/-- Run a statement on the pool, outside any transaction: it works on the committed
state. -/
def autoCommit {δ α : Type} (f : δ → Except DriverError (α × δ)) (st : TxState δ) :
    Except DriverError α × TxState δ :=
  match f st.committed with
  | .error e => (.error e, st)
  | .ok (a, d1) => (.ok a, { st with committed := d1 })

/-- Run a query statement on the pool. `Query` returns no error for a statement that
fails while it runs: no row is delivered and the tables stay as they were. -/
def autoCommitRows {δ : Type} (f : δ → Except DriverError (List RowOutcome × δ))
    (st : TxState δ) : Except DriverError (List RowOutcome) × TxState δ :=
  match f st.committed with
  | .error _ => (.ok [], st)
  | .ok (rows, d1) => (.ok rows, { st with committed := d1 })

/-- What `rows.Err()` reports after the rows of a query statement run on the pool: the
error of the statement, if it failed. -/
def autoCommitRowsErr {δ : Type} (f : δ → Except DriverError (List RowOutcome × δ))
    (st : TxState δ) : Option DriverError :=
  match f st.committed with
  | .error e => some e
  | .ok _ => none

/-- Run a query statement inside the open transaction. On a closed transaction `Query`
returns `ErrTxClosed`. A statement that fails while it runs delivers no row and aborts the
transaction; a statement sent to an aborted transaction delivers no row either. -/
def inTxRows {δ : Type} (f : δ → Except DriverError (List RowOutcome × δ)) (st : TxState δ) :
    Except DriverError (List RowOutcome) × TxState δ :=
  match st.tx with
  | .idle => (.error .ErrTxClosed, st)
  | .aborted => (.ok [], st)
  | .active d =>
    match f d with
    | .error _ => (.ok [], { st with tx := .aborted })
    | .ok (rows, d1) => (.ok rows, { st with tx := .active d1 })

/-- What `rows.Err()` reports after the rows of a query statement run inside the
transaction. -/
def inTxRowsErr {δ : Type} (f : δ → Except DriverError (List RowOutcome × δ))
    (st : TxState δ) : Option DriverError :=
  match st.tx with
  | .idle => some .ErrTxClosed
  | .aborted => some (.PgError "25P02" "" "current transaction is aborted")
  | .active d =>
    match f d with
    | .error e => some e
    | .ok _ => none

/-- The driver over statement semantics `stmts`: Begin takes a working copy of the
committed state, Commit installs the working copy (or reports the rollback of an aborted
transaction), Rollback discards it. `Exec` and `QueryRow(...).Scan` return the error of a
statement that fails; `Query` does not: the rows end and the error is left to
`rows.Err()`. -/
def txPg {δ : Type} (stmts : Stmts δ) : Pg (TxState δ) where
  exec := fun q ps st => autoCommit (stmts.exec q ps) st
  query := fun q ps st => autoCommitRows (stmts.query q ps) st
  queryRow := fun q ps st => autoCommit (stmts.queryRow q ps) st
  beginTx := fun st => (none, { st with tx := .active st.committed })
  txExec := fun q ps st => inTx (stmts.exec q ps) st
  txQuery := fun q ps st => inTxRows (stmts.query q ps) st
  txQueryRow := fun q ps st => inTx (stmts.queryRow q ps) st
  queryErr := fun q ps st => autoCommitRowsErr (stmts.query q ps) st
  txQueryErr := fun q ps st => inTxRowsErr (stmts.query q ps) st
  commit := fun st =>
    match st.tx with
    | .idle => (some .ErrTxClosed, st)
    | .aborted => (some (.other "commit unexpectedly resulted in rollback"), { st with tx := .idle })
    | .active d => (none, { committed := d, tx := .idle })
  rollback := fun st =>
    match st.tx with
    | .idle => (some .ErrTxClosed, st)
    | _ => (none, { st with tx := .idle })

/-- The driver keeps the part `stored` of its state fixed in every call on a transaction
except Commit. -/
structure Pg.Atomic {σ κ : Type} (pg : Pg σ) (stored : σ → κ) : Prop where
  beginTx : ∀ st, stored (pg.beginTx st).2 = stored st
  txExec : ∀ q ps st, stored (pg.txExec q ps st).2 = stored st
  txQuery : ∀ q ps st, stored (pg.txQuery q ps st).2 = stored st
  txQueryRow : ∀ q ps st, stored (pg.txQueryRow q ps st).2 = stored st
  rollback : ∀ st, stored (pg.rollback st).2 = stored st

/-! ### The entity state tables and the statements of entity_states_schema.go -/

/-- Row of table `namespaces`, as far as the entity state statements read it. -/
structure NamespaceRow where
  id : Nat
  name : String
  deriving DecidableEq, Repr

/-- Row of table `entity_configs`, as far as the entity state statements read it. -/
structure EntityConfigRow where
  id : Nat
  namespace_id : Nat
  name : String
  deriving DecidableEq, Repr

/-- Row of table `entity_states`. -/
structure EntityStateRow where
  id : Nat
  entity_config_id : Nat
  namespace_id : Nat
  name : String
  expires_at : Int
  last_seen : Int
  selectors : String
  annotations : String
  created_at : Int
  updated_at : Int
  deleted_at : Option Int
  deriving DecidableEq, Repr

/-- Row of table `entities_systems`: the entity state it belongs to and the thirteen
system columns (hostname to sensu_agent_version). -/
structure EntitySystemRow where
  entity_id : Nat
  facts : List SqlValue
  deriving DecidableEq, Repr

/-- Row of table `entities_networks`. -/
structure EntityNetworkRow where
  entity_id : Nat
  name : String
  mac : String
  addresses : String
  deriving DecidableEq, Repr

/-- The tables the entity state statements touch, and the clock read by `now()`. -/
structure Database where
  namespaces : List NamespaceRow
  entity_configs : List EntityConfigRow
  entity_states : List EntityStateRow
  entities_systems : List EntitySystemRow
  entities_networks : List EntityNetworkRow
  now : Int
  deriving DecidableEq, Repr

/-- A subquery used as an expression: NULL for no row, the value for one row, an error
for more. -/
def scalarSubquery (ids : List Nat) : Except DriverError (Option Nat) :=
  match ids with
  | [] => .ok none
  | [x] => .ok (some x)
  | _ => .error (.PgError "21000" "" "more than one row returned by a subquery used as an expression")

/-- The common table `namespace AS (SELECT id FROM namespaces WHERE name = $1)`. -/
def namespaceCte (db : Database) (ns : String) : List NamespaceRow :=
  db.namespaces.filter (fun r => r.name = ns)

/-- The condition `namespace_id = (SELECT id FROM namespace) AND name = $2`; it is not
true when the subquery is NULL. -/
def keyMatches (nsid : Option Nat) (name : String) (r : EntityStateRow) : Bool :=
  decide (some r.namespace_id = nsid ∧ r.name = name)

/-- Statement `deleteEntityStateQuery`: sets `deleted_at = now()` on every row with the
key, whether or not it is set already; yields the number of rows updated. -/
def deleteEntityState (db : Database) (ns name : String) : Except DriverError (Nat × Database) :=
  match scalarSubquery ((namespaceCte db ns).map (fun r => r.id)) with
  | .error e => .error e
  | .ok nsid =>
    .ok ((db.entity_states.filter (keyMatches nsid name)).length,
      { db with entity_states := db.entity_states.map (fun r =>
          if keyMatches nsid name r then { r with deleted_at := some db.now } else r) })

/-- An `array_agg` over text values: NULL over no rows. -/
def arrayAgg (xs : List String) : SqlValue :=
  if xs = [] then .null else .textArray xs

/-- An optional timestamp as a column value. -/
def timestampValue : Option Int → SqlValue
  | none => .null
  | some t => .int t

/-- Statement `getEntityStateQuery`: the rows of the final select. The common table
`state` holds the ids of the rows with the key that are not soft deleted; `network` is
one row of aggregates over the network rows of those ids; the select joins
`entity_states` (left joined with `entities_systems`) with `namespace`, `network` and
`state` on `entity_states.id = state.id`. -/
def getEntityStateRows (db : Database) (ns name : String) : Except DriverError (List Row) :=
  match scalarSubquery ((namespaceCte db ns).map (fun r => r.id)) with
  | .error e => .error e
  | .ok nsid =>
    let state := (db.entity_states.filter (fun r =>
      keyMatches nsid name r && decide (r.deleted_at = none))).map (fun r => r.id)
    let nets := db.entities_networks.flatMap (fun n =>
      (state.filter (fun sid => n.entity_id = sid)).map (fun _ => n))
    .ok (db.entity_states.flatMap (fun e =>
      let systems := db.entities_systems.filter (fun y => y.entity_id = e.id)
      let joined : List (List SqlValue) :=
        if systems = [] then [List.replicate 13 .null] else systems.map (fun y => y.facts)
      joined.flatMap (fun facts =>
        (namespaceCte db ns).flatMap (fun nsrow =>
          (state.filter (fun sid => e.id = sid)).map (fun _ =>
            { Name := e.name,
              Columns :=
                [.text ns, .text e.name, .int e.last_seen, .text e.selectors, .text e.annotations]
                ++ facts
                ++ [arrayAgg (nets.map (fun n => n.name)), arrayAgg (nets.map (fun n => n.mac)),
                    arrayAgg (nets.map (fun n => n.addresses)),
                    .int e.id, .int nsrow.id, .int e.entity_config_id,
                    .int e.created_at, .int e.updated_at, timestampValue e.deleted_at] })))))

/-- Statement `existsEntityStateQuery`: one row `true` for every row with the key that is
not soft deleted. -/
def existsEntityStateRows (db : Database) (ns name : String) : Except DriverError (List Row) :=
  match scalarSubquery ((namespaceCte db ns).map (fun r => r.id)) with
  | .error e => .error e
  | .ok nsid =>
    .ok ((db.entity_states.filter (fun r =>
      keyMatches nsid name r && decide (r.deleted_at = none))).map (fun _ =>
        { Name := "", Columns := [.bool true] }))

/-- What `QueryRow(...).Scan` delivers for a result set: its first row, or `ErrNoRows`. -/
def firstRow (rows : Except DriverError (List Row)) : Except DriverError Row :=
  match rows with
  | .error e => .error e
  | .ok [] => .error .ErrNoRows
  | .ok (r :: _) => .ok r

/-- The parameters of the entity state write statements, as their header documents them:
$1 namespace, $2 name, $3 last seen, $4 selectors, $5 annotations, $6 to $18 the system
columns, $19 to $21 the names, MAC addresses and addresses of the network interfaces
(unnested in parallel), $23 the namespace id and $24 the entity config id. $22 and $25
to $27 are only selected by the common table `ignored`. -/
structure EntityStateParams where
  Namespace : String
  Name : String
  LastSeen : Int
  Selectors : String
  Annotations : String
  System : List SqlValue
  Networks : List (String × String × String)
  NamespaceID : Int
  EntityConfigID : Int
  deriving DecidableEq, Repr

/-- A text array parameter; NULL unnests to no row, like the empty array. -/
def asTextArray : SqlValue → Option (List String)
  | .textArray xs => some xs
  | .null => some []
  | _ => none

/-- An id parameter under `NULLIF($n, 0)`: NULL and 0 both give NULL, kept as 0. -/
def asBigint : SqlValue → Option Int
  | .int i => some i
  | .null => some 0
  | _ => none

/-- The parameter list of an entity state write statement, read as `EntityStateParams`.
Only lists of 27 values of the documented types are read, and only when the three
network arrays have the same length. -/
def entityStateParams (ps : List SqlValue) : Option EntityStateParams :=
  match ps with
  | .text ns :: .text name :: .int lastSeen :: .text selectors :: .text annotations :: rest =>
    match rest.drop 13 with
    | [names, macs, addrs, _, nsid, cfgid, _, _, _] =>
      match asTextArray names, asTextArray macs, asTextArray addrs, asBigint nsid,
          asBigint cfgid with
      | some nameList, some macList, some addrList, some n, some c =>
        if nameList.length = macList.length ∧ macList.length = addrList.length then
          some { Namespace := ns, Name := name, LastSeen := lastSeen, Selectors := selectors,
                 Annotations := annotations, System := rest.take 13,
                 Networks := nameList.zip (macList.zip addrList),
                 NamespaceID := n, EntityConfigID := c }
        else none
      | _, _, _, _, _ => none
    | _ => none
  | _ => none

/-- The expression `COALESCE(NULLIF($n, 0), (subquery))`: the id given, or else the value
of the subquery, which is evaluated only then. -/
def resolveId (given : Int) (lookup : Except DriverError (Option Nat)) :
    Except DriverError (Option Int) :=
  if given ≠ 0 then .ok (some given)
  else
    match lookup with
    | .error e => .error e
    | .ok v => .ok (v.map Int.ofNat)

/-- The subquery of the common table `config`: the id of the entity config with the
namespace id and the name. -/
def configLookup (db : Database) (nsid : Option Int) (name : String) :
    Except DriverError (Option Nat) :=
  scalarSubquery ((db.entity_configs.filter (fun c =>
    decide (some (c.namespace_id : Int) = nsid ∧ c.name = name))).map (fun c => c.id))

/-- The conflict target `(namespace_id, name)` of the entity state upsert. -/
def conflictsWith (n : Int) (name : String) (r : EntityStateRow) : Bool :=
  decide ((r.namespace_id : Int) = n ∧ r.name = name)

/-- Modelled from the spec: the foreign keys of table `entity_states`, which is declared
in a migration outside the files at hand (the spec speaks of normalized tables with
foreign keys): a new row must refer to an existing namespace and entity config. -/
def foreignKeysHold (db : Database) (n c : Int) : Bool :=
  db.namespaces.any (fun r => decide ((r.id : Int) = n))
    && db.entity_configs.any (fun r => decide ((r.id : Int) = c))

/-- Modelled from the spec: the id the sequence of table `entity_states` gives to a new
row; the table is declared in a migration outside the files at hand. -/
def nextEntityStateId (db : Database) : Nat :=
  (db.entity_states.map (fun r => r.id)).foldr max 0 + 1

/-- The sub-statement `sys_update`: insert the system row of the entity state, or replace
its columns on a conflict on `entity_id`. -/
def upsertSystem (systems : List EntitySystemRow) (entityId : Nat) (facts : List SqlValue) :
    List EntitySystemRow :=
  if systems.any (fun y => y.entity_id = entityId) then
    systems.map (fun y => if y.entity_id = entityId then { y with facts := facts } else y)
  else systems ++ [{ entity_id := entityId, facts := facts }]

/-- The network rows the statement supplies for an entity state. -/
def suppliedNetworks (entityId : Nat) (nics : List (String × String × String)) :
    List EntityNetworkRow :=
  nics.map (fun n => { entity_id := entityId, name := n.1, mac := n.2.1, addresses := n.2.2 })

/-- The sub-statements `del` and the final insert into `entities_networks`. `del` joins
`state` with `networks`, so it deletes nothing when no interface is supplied; otherwise
it deletes the rows of the entity state that are not among the supplied ones. The insert
adds the supplied rows that are not there yet (`ON CONFLICT DO NOTHING`). Both work on
the rows as they were before the statement. -/
def syncNetworks (nets : List EntityNetworkRow) (entityId : Nat)
    (nics : List (String × String × String)) : List EntityNetworkRow :=
  let supplied := suppliedNetworks entityId nics
  let kept :=
    if nics = [] then nets
    else nets.filter (fun r => decide (r.entity_id ≠ entityId ∨ r ∈ supplied))
  kept ++ (supplied.dedup.filter (fun r => decide (r ∉ nets)))

/-- The sub-statements that follow `state` for one entity state id: system row and
network rows. The number is that of the network rows inserted. -/
def writeSubRecords (db : Database) (entityId : Nat) (p : EntityStateParams) : Nat × Database :=
  (((suppliedNetworks entityId p.Networks).dedup.filter (fun r =>
      decide (r ∉ db.entities_networks))).length,
    { db with
      entities_systems := upsertSystem db.entities_systems entityId p.System
      entities_networks := syncNetworks db.entities_networks entityId p.Networks })

/-- Statement `createOrUpdateEntityStateQuery`. The ids of namespace and entity config
are resolved; a row with the same (namespace_id, name) is updated in place, with
`deleted_at` reset to NULL; otherwise a row is inserted. Then the sub-records are
written. A NULL id violates the not-null columns of the table. -/
def createOrUpdateEntityState (db : Database) (p : EntityStateParams) :
    Except DriverError (Nat × Database) :=
  match resolveId p.NamespaceID (scalarSubquery ((namespaceCte db p.Namespace).map (fun r => r.id))) with
  | .error e => .error e
  | .ok nsid =>
    match resolveId p.EntityConfigID (configLookup db nsid p.Name) with
    | .error e => .error e
    | .ok cfgid =>
      match nsid, cfgid with
      | some n, some c =>
        match db.entity_states.find? (conflictsWith n p.Name) with
        | some existing =>
          .ok (writeSubRecords
            { db with entity_states := db.entity_states.map (fun r =>
                if conflictsWith n p.Name r then
                  { r with last_seen := p.LastSeen, selectors := p.Selectors,
                           annotations := p.Annotations, deleted_at := none }
                else r) }
            existing.id p)
        | none =>
          if foreignKeysHold db n c then
            .ok (writeSubRecords
              { db with entity_states := db.entity_states ++
                  [{ id := nextEntityStateId db, entity_config_id := c.toNat,
                     namespace_id := n.toNat, name := p.Name, expires_at := db.now,
                     last_seen := p.LastSeen, selectors := p.Selectors,
                     annotations := p.Annotations, created_at := db.now,
                     updated_at := db.now, deleted_at := none }] }
              (nextEntityStateId db) p)
          else .error (.PgError "23503" "" "insert violates foreign key constraint")
      | _, _ => .error (.PgError "23502" "" "null value violates not-null constraint")

/-- Statement `createIfNotExistsEntityStateQuery`: a plain insert of the entity state,
its system row and its network rows. A row with the same (namespace_id, name) violates
the unique constraint `entity_state_unique`, the name storev2.go tests for; supplied
network rows that repeat violate the unique index of `entities_networks` on
(entity_id, name, mac, addresses), the conflict target of the upsert statements. The name
of that index is not in the files at hand; it is given as `entities_networks_unique`. -/
def createIfNotExistsEntityState (db : Database) (p : EntityStateParams) :
    Except DriverError (Nat × Database) :=
  match resolveId p.NamespaceID (scalarSubquery ((namespaceCte db p.Namespace).map (fun r => r.id))) with
  | .error e => .error e
  | .ok nsid =>
    match resolveId p.EntityConfigID (configLookup db nsid p.Name) with
    | .error e => .error e
    | .ok cfgid =>
      match nsid, cfgid with
      | some n, some c =>
        if db.entity_states.any (conflictsWith n p.Name) then
          .error (.PgError "23505" "entity_state_unique"
            "duplicate key value violates unique constraint")
        else if foreignKeysHold db n c then
          if (suppliedNetworks (nextEntityStateId db) p.Networks).Nodup then
            .ok ((suppliedNetworks (nextEntityStateId db) p.Networks).length,
              { db with
                entity_states := db.entity_states ++
                  [{ id := nextEntityStateId db, entity_config_id := c.toNat,
                     namespace_id := n.toNat, name := p.Name, expires_at := db.now,
                     last_seen := p.LastSeen, selectors := p.Selectors,
                     annotations := p.Annotations, created_at := db.now,
                     updated_at := db.now, deleted_at := none }]
                entities_systems := db.entities_systems ++
                  [{ entity_id := nextEntityStateId db, facts := p.System }]
                entities_networks := db.entities_networks ++
                  suppliedNetworks (nextEntityStateId db) p.Networks })
          else
            .error (.PgError "23505" "entities_networks_unique"
              "duplicate key value violates unique constraint")
        else .error (.PgError "23503" "" "insert violates foreign key constraint")
      | _, _ => .error (.PgError "23502" "" "null value violates not-null constraint")

/-- Statement `updateIfExistsEntityStateQuery`. The common table `state` holds the ids of
the rows with the key, soft deleted or not; those rows are updated, with `deleted_at`
reset to NULL, their sub-records are written, and the statement returns the rows of
`state`. -/
def updateIfExistsEntityState (db : Database) (p : EntityStateParams) :
    Except DriverError (List RowOutcome × Database) :=
  match scalarSubquery ((namespaceCte db p.Namespace).map (fun r => r.id)) with
  | .error e => .error e
  | .ok nsid =>
    let state : List Nat := (db.entity_states.filter (keyMatches nsid p.Name)).map (fun r => r.id)
    .ok (state.map (fun (sid : Nat) => RowOutcome.row { Name := "", Columns := [.int sid] }),
      state.foldl (fun d sid => (writeSubRecords d sid p).2)
        { db with entity_states := db.entity_states.map (fun r =>
            if keyMatches nsid p.Name r then
              { r with last_seen := p.LastSeen, selectors := p.Selectors,
                       annotations := p.Annotations, deleted_at := none }
            else r) })

/-- The columns of a row of the entity state read statements. -/
def entityStateColumns (nsName : String) (nsId : Nat) (e : EntityStateRow)
    (facts : List SqlValue) (nets : List EntityNetworkRow) : List SqlValue :=
  [.text nsName, .text e.name, .int e.last_seen, .text e.selectors, .text e.annotations]
  ++ facts
  ++ [arrayAgg (nets.map (fun n => n.name)), arrayAgg (nets.map (fun n => n.mac)),
      arrayAgg (nets.map (fun n => n.addresses)),
      .int e.id, .int nsId, .int e.entity_config_id,
      .int e.created_at, .int e.updated_at, timestampValue e.deleted_at]

/-- The left outer join of an entity state with `entities_systems`: the system columns of
each matching row, or one row of NULLs. -/
def systemJoin (db : Database) (e : EntityStateRow) : List (List SqlValue) :=
  if db.entities_systems.filter (fun y => y.entity_id = e.id) = [] then [List.replicate 13 .null]
  else (db.entities_systems.filter (fun y => y.entity_id = e.id)).map (fun y => y.facts)

/-- Statement `getEntityStatesQuery`. The common table `state` holds the ids of the rows
of the namespace whose name is among `$2` and that are not soft deleted; `network` has a
group for every such id that has a network row; the select joins on
`entity_states.id = state.id AND entity_states.id = network.entity_id`. -/
def getEntityStatesRows (db : Database) (ns : String) (names : List String) :
    Except DriverError (List Row) :=
  match scalarSubquery ((namespaceCte db ns).map (fun r => r.id)) with
  | .error e => .error e
  | .ok nsid =>
    let state : List Nat := (db.entity_states.filter (fun r =>
      decide (some r.namespace_id = nsid ∧ r.name ∈ names ∧ r.deleted_at = none))).map
        (fun r => r.id)
    .ok (db.entity_states.flatMap (fun e =>
      (systemJoin db e).flatMap (fun facts =>
        (namespaceCte db ns).flatMap (fun nsrow =>
          let nets := db.entities_networks.filter (fun n =>
            decide (n.entity_id = e.id ∧ e.id ∈ state))
          if nets = [] then []
          else (state.filter (fun sid => e.id = sid)).map (fun _ =>
            { Name := e.name, Columns := entityStateColumns nsrow.name nsrow.id e facts nets })))))

/-- The order `ORDER BY (namespace.name, entity_states.name)`, ascending or descending,
on the pairs of namespace name and name; texts are compared character by character. -/
def listOrder (descending : Bool) (a b : String × String) : Bool :=
  if descending then decide (b.1.toList < a.1.toList ∨ (b.1 = a.1 ∧ b.2.toList ≤ a.2.toList))
  else decide (a.1.toList < b.1.toList ∨ (a.1 = b.1 ∧ a.2.toList ≤ b.2.toList))

/-- Statements `listEntityStateQuery` and `listEntityStateDescQuery`, before the window
is cut. The common table `namespace` holds the namespace named `$1`, or every namespace
when `$1` is NULL. `network` is built from `entities_networks, entity_states` with no
condition between the two: it has a group for every entity state of the namespace (every
entity state when `$1` is NULL, where the subquery is not evaluated) as soon as
`entities_networks` has a row, and the group aggregates every network row. The select
joins `entity_states` with `network` on the id and with `namespace` without a condition,
and keeps the rows that are not soft deleted. -/
def listEntityStateAll (db : Database) (nsParam : Option String) (descending : Bool) :
    Except DriverError (List Row) :=
  let namespaceRows := db.namespaces.filter (fun r => decide (nsParam = none ∨ some r.name = nsParam))
  let inNamespace : Except DriverError (EntityStateRow → Bool) :=
    match nsParam with
    | none => .ok (fun _ => true)
    | some _ =>
      match scalarSubquery (namespaceRows.map (fun r => r.id)) with
      | .error e => .error e
      | .ok nsid => .ok (fun e => decide (some e.namespace_id = nsid))
  match inNamespace with
  | .error e => .error e
  | .ok grouped =>
    let joined := db.entity_states.flatMap (fun e =>
      if e.deleted_at = none ∧ grouped e = true ∧ db.entities_networks ≠ [] then
        (systemJoin db e).flatMap (fun facts => namespaceRows.map (fun nsrow => (nsrow, e, facts)))
      else [])
    let sorted := joined.insertionSort (fun a b =>
      listOrder descending (a.1.name, a.2.1.name) (b.1.name, b.2.1.name) = true)
    .ok (sorted.map (fun t =>
      { Name := t.2.1.name,
        Columns := entityStateColumns t.1.name t.1.id t.2.1 t.2.2 db.entities_networks }))

/-- The window `LIMIT $2 OFFSET $3`; a NULL limit is no limit. -/
def window {α : Type} (limit : Option Nat) (offset : Nat) (rows : List α) : List α :=
  match limit with
  | none => rows.drop offset
  | some l => (rows.drop offset).take l

/-- The parameters of a list statement, read as the nullable namespace, the nullable
limit and the offset. Negative numbers are not read. -/
def listStatementParams (ps : List SqlValue) : Option (Option String × Option Nat × Nat) :=
  match ps with
  | [nsv, limitv, .int o] =>
    let ns : Option (Option String) :=
      match nsv with
      | .null => some none
      | .text n => some (some n)
      | _ => none
    let limit : Option (Option Nat) :=
      match limitv with
      | .null => some none
      | .int l => if 0 ≤ l then some (some l.toNat) else none
      | _ => none
    match ns, limit with
    | some n, some l => if 0 ≤ o then some (n, l, o.toNat) else none
    | _, _ => none
  | _ => none

/-- The statements of entity_states_schema.go that `lookupQuery` can select, as functions
of the tables; every other statement, and every parameter list that is not of the shape
of the statement, is left to `rest`. -/
def entityStateStmts (rest : Stmts Database) : Stmts Database where
  exec := fun q ps db =>
    match q with
    | .deleteEntityStateQuery =>
      match ps with
      | [.text ns, .text name] => deleteEntityState db ns name
      | _ => rest.exec q ps db
    | .createOrUpdateEntityStateQuery =>
      match entityStateParams ps with
      | some p => createOrUpdateEntityState db p
      | none => rest.exec q ps db
    | .createIfNotExistsEntityStateQuery =>
      match entityStateParams ps with
      | some p => createIfNotExistsEntityState db p
      | none => rest.exec q ps db
    | _ => rest.exec q ps db
  query := fun q ps db =>
    match q with
    | .updateIfExistsEntityStateQuery =>
      match entityStateParams ps with
      | some p => updateIfExistsEntityState db p
      | none => rest.query q ps db
    | .getEntityStatesQuery =>
      match ps with
      | [.text ns, .textArray names] =>
        (getEntityStatesRows db ns names).map (fun rows => (rows.map RowOutcome.row, db))
      | _ => rest.query q ps db
    | .listEntityStateQuery =>
      match listStatementParams ps with
      | some (ns, limit, offset) =>
        (listEntityStateAll db ns false).map (fun rows =>
          ((window limit offset rows).map RowOutcome.row, db))
      | none => rest.query q ps db
    | .listEntityStateDescQuery =>
      match listStatementParams ps with
      | some (ns, limit, offset) =>
        (listEntityStateAll db ns true).map (fun rows =>
          ((window limit offset rows).map RowOutcome.row, db))
      | none => rest.query q ps db
    | _ => rest.query q ps db
  queryRow := fun q ps db =>
    match q, ps with
    | .getEntityStateQuery, [.text ns, .text name] =>
      (firstRow (getEntityStateRows db ns name)).map (fun r => (r, db))
    | .existsEntityStateQuery, [.text ns, .text name] =>
      (firstRow (existsEntityStateRows db ns name)).map (fun r => (r, db))
    | _, _ => rest.queryRow q ps db

/-- Statement semantics in which no statement is known. -/
def noStmts : Stmts Database where
  exec := fun _ _ _ => .error (.PgError "26000" "" "statement not available")
  query := fun _ _ _ => .error (.PgError "26000" "" "statement not available")
  queryRow := fun _ _ _ => .error (.PgError "26000" "" "statement not available")

/-- The store over the entity state tables. -/
def entityStateStore : StoreV2 (TxState Database) Nat where
  db := txPg (entityStateStmts noStmts)
  etcdStoreV2 := emptyEtcd

/-- A database with namespace default and the entity state foo in it, not deleted. -/
def fooDatabase : Database where
  namespaces := [{ id := 1, name := "default" }]
  entity_configs := [{ id := 1, namespace_id := 1, name := "foo" }]
  entity_states :=
    [{ id := 1, entity_config_id := 1, namespace_id := 1, name := "foo", expires_at := 0,
       last_seen := 12345, selectors := "{}", annotations := "{}", created_at := 0,
       updated_at := 0, deleted_at := none }]
  entities_systems := []
  entities_networks := []
  now := 100

/-- The world in which the database is `fooDatabase` and nothing was called yet. -/
def fooWorld : World (TxState Database) Nat :=
  { pg := { committed := fooDatabase, tx := .idle }, etcd := 0, log := [] }

/-- The request for the entity state foo of namespace default on the relational backend. -/
def fooStateReq : ResourceRequest :=
  { Namespace := "default", Name := "foo", StoreName := entityStateStoreName,
    SortOrder := .SortNone, UsePostgres := true }

/-- The row the get statement yields for the entity state foo of `fooDatabase`. -/
def fooStateRow : Row :=
  { Name := "foo",
    Columns :=
      [.text "default", .text "foo", .int 12345, .text "{}", .text "{}"]
      ++ List.replicate 13 .null
      ++ [.null, .null, .null, .int 1, .int 1, .int 1, .int 0, .int 0, .null] }

/-- Preconditions that the entity state foo does not meet: its ETag under `plainDeps` is
its name. -/
def staleCondition : ETagCondition := { IfMatch := "some-other-etag", IfNoneMatch := "" }

/-- The request for an entity state of namespace default that is not stored. -/
def missingStateReq : ResourceRequest := { fooStateReq with Name := "missing" }

/-! ### Vocabulary for the result of GetMultiple -/

/-- The names a batch requests in a namespace, in the order of the batch. -/
def namesOf (reqs : List ResourceRequest) (ns : String) : List String :=
  (reqs.filter (fun r => r.Namespace = ns)).map (fun r => r.Name)

/-- The key (namespace, name) of a request. -/
def keyOf (r : ResourceRequest) : requestKey := { Namespace := r.Namespace, Name := r.Name }

/-- The last request of a batch with the key `k`, if there is one. -/
def lastWithKey (reqs : List ResourceRequest) (k : requestKey) : Option ResourceRequest :=
  (reqs.filter (fun r => keyOf r = k)).getLast?

/-- The variables of the first loop of GetMultiple describe the requests `P` processed so
far: the store name is the common one, every namespace is mapped to the names requested
in it, and every key is mapped to the last request with that key. -/
structure GroupingOf (P : List ResourceRequest) (sn : String) (g : Grouping) : Prop where
  storeName : P ≠ [] → g.storeName = sn
  nodup : (g.namespacedResources.map Prod.fst).Nodup
  names : ∀ ns, mapGet g.namespacedResources ns
    = if namesOf P ns = [] then none else some (namesOf P ns)
  keyed_sound : ∀ k r, mapGet g.keyedResourceRequests k = some r → r ∈ P ∧ keyOf r = k
  keyed_complete : ∀ r ∈ P, ∃ r1, mapGet g.keyedResourceRequests (keyOf r) = some r1
  keyed_last : ∀ k, mapGet g.keyedResourceRequests k = lastWithKey P k

/-- The request `pgReq` with another sort order: a different descriptor with the same
(namespace, name). -/
def pgReqAscending : ResourceRequest := { pgReq with SortOrder := .SortAscend }

/-- The request `fooStateReq` with an empty name: another store kind than `pgReq`, and not
valid. -/
def namelessStateReq : ResourceRequest := { fooStateReq with Name := "" }

/-- The store over the entity state tables, with any semantics `rest` for the statements
that are not modelled and any key/value store. -/
def entityStoreOver {τ : Type} (rest : Stmts Database) (etcd : Etcd τ) :
    StoreV2 (TxState Database) τ where
  db := txPg (entityStateStmts rest)
  etcdStoreV2 := etcd

/-- Modelled from the spec: the unique constraint `namespace_unique` on the names of
table `namespaces`, declared in a migration outside the files at hand; storev2.go tests
for its name. -/
def namespaceUnique (db : Database) : Prop := (db.namespaces.map (fun r => r.name)).Nodup

/-- Modelled from the spec: the unique constraint `entity_state_unique` on
(namespace_id, name) of table `entity_states`, declared in a migration outside the files
at hand; it is the conflict target of the upsert and storev2.go tests for its name. -/
def entityStateUnique (db : Database) : Prop :=
  ∀ (n : Int) (name : String), (db.entity_states.filter (conflictsWith n name)).length ≤ 1

/-- The parameter list of an entity state wrapper: the 27 values in the order the write
statements document, with ids 0 and timestamps NULL. -/
def stateParams (ns name : String) (nics : List (String × String × String)) : List SqlValue :=
  [.text ns, .text name, .int 12345, .text "{}", .text "{}"]
  ++ List.replicate 12 (.text "") ++ [.text "6.0.0"]
  ++ [.textArray (nics.map (fun n => n.1)), .textArray (nics.map (fun n => n.2.1)),
      .textArray (nics.map (fun n => n.2.2)),
      .int 0, .int 0, .int 0, .null, .null, .null]

/-- An entity state wrapper with the given identity and network interfaces. -/
def stateWrapper (ns name : String) (nics : List (String × String × String)) : PgWrapper :=
  { kind := .EntityStateWrapper, Name := name, Params := stateParams ns name nics }

/-- A database with the namespaces default and other, the entity configs foo and bar in
default and foo in other, and no entity state. -/
def emptyStates : Database where
  namespaces := [{ id := 1, name := "default" }, { id := 2, name := "other" }]
  entity_configs :=
    [{ id := 1, namespace_id := 1, name := "foo" }, { id := 2, namespace_id := 1, name := "bar" },
     { id := 3, namespace_id := 2, name := "foo" }]
  entity_states := []
  entities_systems := []
  entities_networks := []
  now := 100

/-- The world over a database, with no open transaction and nothing called yet. -/
def worldOf (db : Database) : World (TxState Database) Nat :=
  { pg := { committed := db, tx := .idle }, etcd := 0, log := [] }

/-- The request for the entity state `name` of namespace `ns` on the relational backend. -/
def stateReq (ns name : String) : ResourceRequest :=
  { Namespace := ns, Name := name, StoreName := entityStateStoreName,
    SortOrder := .SortNone, UsePostgres := true }

/-- What the entity state write statements read from `stateParams "default" "foo" []`. -/
def fooStateParams : EntityStateParams where
  Namespace := "default"
  Name := "foo"
  LastSeen := 12345
  Selectors := "{}"
  Annotations := "{}"
  System := List.replicate 12 (.text "") ++ [.text "6.0.0"]
  Networks := []
  NamespaceID := 0
  EntityConfigID := 0

/-- The script in which every statement fails with a violation of a unique constraint
(SQLSTATE 23505) that is none of the three constraints `CreateIfNotExists` names. -/
def otherUniqueScript : Script :=
  { okScript with
    execResult := .error (.PgError "23505" "entities_systems_pkey"
      "duplicate key value violates unique constraint") }

/-- One network interface. -/
def eth0 : String × String × String := ("eth0", "00:00:00:00:00:01", "[\"127.0.0.1\"]")

/-- The values are a window: the limit is NULL or a natural number and the offset is a
natural number. -/
def windowValues (limit offset : SqlValue) : Prop :=
  (limit = .null ∨ ∃ l : Nat, limit = .int l) ∧ ∃ o : Nat, offset = .int o

/-- A database with the namespaces default and other and one entity state, foo of
namespace default, not deleted, with one network interface. -/
def twoNamespaces : Database where
  namespaces := [{ id := 1, name := "default" }, { id := 2, name := "other" }]
  entity_configs := [{ id := 1, namespace_id := 1, name := "foo" }]
  entity_states :=
    [{ id := 1, entity_config_id := 1, namespace_id := 1, name := "foo", expires_at := 0,
       last_seen := 12345, selectors := "{}", annotations := "{}", created_at := 0,
       updated_at := 0, deleted_at := none }]
  entities_systems := []
  entities_networks :=
    [{ entity_id := 1, name := "eth0", mac := "00:00:00:00:00:01", addresses := "[\"127.0.0.1\"]" }]
  now := 100

/-- The request that lists the entity states of every namespace. -/
def listAllStatesReq : ResourceRequest :=
  { Namespace := "", Name := "", StoreName := entityStateStoreName,
    SortOrder := .SortNone, UsePostgres := true }

/-- The namespace and the name a listed wrapper reports: the first two columns of its
row. -/
def listedAs (x : Wrapper) : List SqlValue :=
  match x with
  | .pg pw => pw.Params.take 2
  | .generic _ _ => []

/-- The namespace and name of every wrapper a call of List returned. -/
def listing
    (r : Outcome ((Option (List Wrapper) × Option GoError) × Option SelectionPredicate)) :
    Option (List (List SqlValue)) :=
  match r with
  | .ret ((some wl, none), _) => some (wl.map listedAs)
  | _ => none

/-! ### Continuation tokens -/

/-- The script in which Begin fails and every other call succeeds. -/
def beginFailsScript : Script :=
  { okScript with beginResult := some (.other "connection refused") }

/-- The request for the namespace bar on the relational backend, with an empty namespace
field. -/
def barNamespaceReq : ResourceRequest :=
  { Namespace := "", Name := "bar", StoreName := namespaceStoreName,
    SortOrder := .SortNone, UsePostgres := true }

/-- The pair a list statement orders a row by: the namespace name in the first column and
the name. -/
def rowKey (r : Row) : String × String :=
  (match r.Columns.head? with
    | some (.text ns) => ns
    | _ => "",
   r.Name)

/-- A database with the namespace default and the entity states foo-0 to foo-9 in it, with
ids 1 to 10, stored in the order foo-3, foo-4, ..., foo-9, foo-0, foo-1, foo-2; foo-0 has
one network interface. -/
def tenStates : Database where
  namespaces := [{ id := 1, name := "default" }]
  entity_configs := []
  entity_states :=
    [3, 4, 5, 6, 7, 8, 9, 0, 1, 2].map (fun i =>
      { id := i + 1, entity_config_id := i + 1, namespace_id := 1,
        name := "foo-" ++ String.singleton (Char.ofNat (48 + i)), expires_at := 0,
        last_seen := 0, selectors := "", annotations := "", created_at := 0,
        updated_at := 0, deleted_at := none })
  entities_systems := []
  entities_networks :=
    [{ entity_id := 1, name := "eth0", mac := "00:00:00:00:00:01", addresses := "[]" }]
  now := 100

/-- The request that lists the entity states of namespace default in the given order. -/
def listStatesReq (order : SortOrder) : ResourceRequest :=
  { Namespace := "default", Name := "", StoreName := entityStateStoreName,
    SortOrder := order, UsePostgres := true }

/-- Another network interface. -/
def eth1 : String × String × String := ("eth1", "00:00:00:00:00:02", "[\"10.0.0.1\"]")

/-- The world after CreateOrUpdate of the entity state foo of namespace default with the
single interface `eth0`, on tables without an entity state. -/
def fooWithEth0 : World (TxState Database) Nat :=
  ((entityStoreOver noStmts emptyEtcd).CreateOrUpdate (stateReq "default" "foo")
    (.pg (stateWrapper "default" "foo" [eth0])) (worldOf emptyStates)).2

/-- A database with the namespace default and two entity states that are not deleted: foo
without a network interface and bar with the interface eth0. -/
def fooAndBar : Database where
  namespaces := [{ id := 1, name := "default" }]
  entity_configs :=
    [{ id := 1, namespace_id := 1, name := "foo" }, { id := 2, namespace_id := 1, name := "bar" }]
  entity_states :=
    [{ id := 1, entity_config_id := 1, namespace_id := 1, name := "foo", expires_at := 0,
       last_seen := 12345, selectors := "{}", annotations := "{}", created_at := 0,
       updated_at := 0, deleted_at := none },
     { id := 2, entity_config_id := 2, namespace_id := 1, name := "bar", expires_at := 0,
       last_seen := 12345, selectors := "{}", annotations := "{}", created_at := 0,
       updated_at := 0, deleted_at := none }]
  entities_systems := []
  entities_networks :=
    [{ entity_id := 2, name := "eth0", mac := "00:00:00:00:00:01", addresses := "[\"127.0.0.1\"]" }]
  now := 100

/-- The name and the three network columns (names, MAC addresses, addresses) of a wrapper
scanned from a row of the entity state read statements. -/
def nameAndNetworks (x : Wrapper) : String × List SqlValue :=
  match x with
  | .pg pw => (pw.Name, (pw.Params.drop 18).take 3)
  | .generic _ _ => ("", [])

/-- The world after Delete of the entity state foo on `fooWorld`: foo is soft deleted. -/
def fooDeleted : World (TxState Database) Nat :=
  ((entityStoreOver noStmts emptyEtcd).Delete fooStateReq fooWorld).2

/-! ### Wrapper lists -/

/-- The type `WrapList` of storev2.go. Its elements are taken to be non-nil. -/
abbrev WrapList := List Wrapper

/-- Address of a resource variable: its index in the memory. -/
abbrev Addr := Nat

/-- One call of the method `UnwrapInto` of an element of a wrapper list: the element, the
variable it was given a pointer to, and the error it returned. -/
structure DecodeEvent where
  wrapper : Wrapper
  dest : Addr
  err : Option GoError
  deriving DecidableEq, Repr

/-- The memory a wrapper list decodes into: the resource variables, each with its Go type
and its content, and the calls of `UnwrapInto` on elements made so far. -/
structure Heap where
  cells : List Resource
  decoded : List DecodeEvent
  deriving DecidableEq, Repr

/-- The zero value of a resource type. -/
def zeroValue (T : ResourceType) : Resource := { type := T, content := "" }

/-- The variable at an address. The addresses a destination holds are allocated; the value
given for any other address is never used by them. -/
def Heap.read (h : Heap) (p : Addr) : Resource :=
  h.cells.getD p (zeroValue (.Other "invalid address"))

/-- Allocation `new(T)`: a fresh variable holding the zero value. -/
def Heap.alloc (h : Heap) (T : ResourceType) : Addr × Heap :=
  (h.cells.length, { h with cells := h.cells ++ [zeroValue T] })

/-- Allocation `make([]T, n)` of a sequence of values: the addresses of the `n` elements
of a fresh backing array, all zero. -/
def Heap.make (h : Heap) (T : ResourceType) (n : Nat) : List Addr × Heap :=
  (List.range' h.cells.length n, { h with cells := h.cells ++ List.replicate n (zeroValue T) })

/-- The method `UnwrapInto` of the elements of a wrapper list, which is declared outside
the files at hand: called with a pointer to a resource variable, it returns an error or
nil and leaves a content in the variable. It writes through that pointer only, and the Go
type of the variable stays what it is. -/
structure ElementCodec where
  UnwrapInto : Wrapper → Resource → Option GoError × String

/-- The call `elem.UnwrapInto(ptr)` of the loops of the wrapper list. -/
def decodeInto (C : ElementCodec) (elem : Wrapper) (ptr : Addr) (h : Heap) :
    Option GoError × Heap :=
  let r := C.UnwrapInto elem (h.read ptr)
  (r.1,
    { cells := h.cells.set ptr { type := (h.read ptr).type, content := r.2 }
      decoded := h.decoded ++ [{ wrapper := elem, dest := ptr, err := r.1 }] })

/-- The loop `for i, x := range w` of the functions that decode into a sequence of values:
`ptr := &((*list)[i])`, then `x.UnwrapInto(ptr)`; the first error ends the loop. The loop
visits index `i` of both sequences, which is written here as a walk along both; a
destination that is shorter than `w` is the index out of range panic of Go. -/
def valueLoop (C : ElementCodec) : WrapList → List Addr → Heap → Outcome (Option GoError) × Heap
  | [], _, h => (.ret none, h)
  | _ :: _, [], h => (.panic "index out of range", h)
  | x :: rest, ptr :: tail, h =>
    match decodeInto C x ptr h with
    | (some err, h1) => (.ret (some err), h1)
    | (none, h1) => valueLoop C rest tail h1

/-- The loop `for i, x := range w` of the functions that decode into a sequence of
references: `ptr := (*list)[i]`; a nil `ptr` is replaced by `new(T)` and stored at index
`i`; then `x.UnwrapInto(ptr)`; the first error ends the loop. Written as a walk along both
sequences, as `valueLoop`. -/
def pointerLoop (C : ElementCodec) (T : ResourceType) :
    WrapList → List (Option Addr) → Heap → Outcome (Option GoError) × List (Option Addr) × Heap
  | [], list, h => (.ret none, list, h)
  | _ :: _, [], h => (.panic "index out of range", [], h)
  | x :: rest, slot :: tail, h =>
    let alloc : Addr × Heap :=
      match slot with
      | some ptr => (ptr, h)
      | none => h.alloc T
    match decodeInto C x alloc.1 alloc.2 with
    | (some err, h1) => (.ret (some err), some alloc.1 :: tail, h1)
    | (none, h1) =>
      ((pointerLoop C T rest tail h1).1, some alloc.1 :: (pointerLoop C T rest tail h1).2.1,
        (pointerLoop C T rest tail h1).2.2)

/-- The common shape of `unwrapIntoEntityConfigList`, `unwrapIntoEntityStateList` and
`unwrapIntoNamespaceList`: replace the destination by `make([]T, len(w))` when its length
differs, then run the loop. The result carries the destination after the call. -/
def unwrapIntoValueList (C : ElementCodec) (T : ResourceType) (w : WrapList)
    (list : List Addr) (h : Heap) : Outcome (Option GoError) × List Addr × Heap :=
  let made : List Addr × Heap := if list.length ≠ w.length then h.make T w.length else (list, h)
  ((valueLoop C w made.1 made.2).1, made.1, (valueLoop C w made.1 made.2).2)

/-- The common shape of `unwrapIntoEntityConfigPointerList`,
`unwrapIntoEntityStatePointerList` and `unwrapIntoNamespacePointerList`: replace the
destination by `make([]*T, len(w))`, all nil, when its length differs, then run the
loop. -/
def unwrapIntoPointerList (C : ElementCodec) (T : ResourceType) (w : WrapList)
    (list : List (Option Addr)) (h : Heap) :
    Outcome (Option GoError) × List (Option Addr) × Heap :=
  let made : List (Option Addr) :=
    if list.length ≠ w.length then List.replicate w.length none else list
  pointerLoop C T w made h

/-- Method `WrapList.unwrapIntoEntityConfigList`. -/
def WrapList.unwrapIntoEntityConfigList (C : ElementCodec) (w : WrapList) (list : List Addr)
    (h : Heap) : Outcome (Option GoError) × List Addr × Heap :=
  unwrapIntoValueList C .EntityConfig w list h

/-- Method `WrapList.unwrapIntoEntityConfigPointerList`. -/
def WrapList.unwrapIntoEntityConfigPointerList (C : ElementCodec) (w : WrapList)
    (list : List (Option Addr)) (h : Heap) :
    Outcome (Option GoError) × List (Option Addr) × Heap :=
  unwrapIntoPointerList C .EntityConfig w list h

/-- Method `WrapList.unwrapIntoEntityStateList`. -/
def WrapList.unwrapIntoEntityStateList (C : ElementCodec) (w : WrapList) (list : List Addr)
    (h : Heap) : Outcome (Option GoError) × List Addr × Heap :=
  unwrapIntoValueList C .EntityState w list h

/-- Method `WrapList.unwrapIntoEntityStatePointerList`. -/
def WrapList.unwrapIntoEntityStatePointerList (C : ElementCodec) (w : WrapList)
    (list : List (Option Addr)) (h : Heap) :
    Outcome (Option GoError) × List (Option Addr) × Heap :=
  unwrapIntoPointerList C .EntityState w list h

/-- Method `WrapList.unwrapIntoNamespaceList`. -/
def WrapList.unwrapIntoNamespaceList (C : ElementCodec) (w : WrapList) (list : List Addr)
    (h : Heap) : Outcome (Option GoError) × List Addr × Heap :=
  unwrapIntoValueList C .Namespace w list h

/-- Method `WrapList.unwrapIntoNamespacePointerList`. -/
def WrapList.unwrapIntoNamespacePointerList (C : ElementCodec) (w : WrapList)
    (list : List (Option Addr)) (h : Heap) :
    Outcome (Option GoError) × List (Option Addr) × Heap :=
  unwrapIntoPointerList C .Namespace w list h

/-- Method `WrapList.unwrapIntoResourceList`. The elements of the destination are
interface values, nil or a reference to a resource of any type; a nil element is replaced
by `new(corev3.EntityState)` whatever the wrapper is. -/
def WrapList.unwrapIntoResourceList (C : ElementCodec) (w : WrapList)
    (list : List (Option Addr)) (h : Heap) :
    Outcome (Option GoError) × List (Option Addr) × Heap :=
  let made : List (Option Addr) :=
    if list.length ≠ w.length then List.replicate w.length none else list
  pointerLoop C .EntityState w made h

/-- The value behind the argument `dest` of `WrapList.UnwrapInto`: a (non-nil) pointer to
one of the seven sequence types of the type switch, given by the sequence it points to, or
a value of any other type, given by the name `%T` prints for it. -/
inductive Destination where
  | EntityConfigList (list : List Addr)
  | EntityConfigPointerList (list : List (Option Addr))
  | EntityStateList (list : List Addr)
  | EntityStatePointerList (list : List (Option Addr))
  | NamespaceList (list : List Addr)
  | NamespacePointerList (list : List (Option Addr))
  | ResourceList (list : List (Option Addr))
  | other (typeName : String)
  deriving DecidableEq, Repr

/-- Method `WrapList.UnwrapInto`. The result carries the destination after the call. -/
def WrapList.UnwrapInto (C : ElementCodec) (w : WrapList) (dest : Destination) (h : Heap) :
    Outcome (Option GoError) × Destination × Heap :=
  match dest with
  | .EntityConfigList list =>
    ((WrapList.unwrapIntoEntityConfigList C w list h).1,
      .EntityConfigList (WrapList.unwrapIntoEntityConfigList C w list h).2.1,
      (WrapList.unwrapIntoEntityConfigList C w list h).2.2)
  | .EntityConfigPointerList list =>
    ((WrapList.unwrapIntoEntityConfigPointerList C w list h).1,
      .EntityConfigPointerList (WrapList.unwrapIntoEntityConfigPointerList C w list h).2.1,
      (WrapList.unwrapIntoEntityConfigPointerList C w list h).2.2)
  | .EntityStateList list =>
    ((WrapList.unwrapIntoEntityStateList C w list h).1,
      .EntityStateList (WrapList.unwrapIntoEntityStateList C w list h).2.1,
      (WrapList.unwrapIntoEntityStateList C w list h).2.2)
  | .EntityStatePointerList list =>
    ((WrapList.unwrapIntoEntityStatePointerList C w list h).1,
      .EntityStatePointerList (WrapList.unwrapIntoEntityStatePointerList C w list h).2.1,
      (WrapList.unwrapIntoEntityStatePointerList C w list h).2.2)
  | .NamespaceList list =>
    ((WrapList.unwrapIntoNamespaceList C w list h).1,
      .NamespaceList (WrapList.unwrapIntoNamespaceList C w list h).2.1,
      (WrapList.unwrapIntoNamespaceList C w list h).2.2)
  | .NamespacePointerList list =>
    ((WrapList.unwrapIntoNamespacePointerList C w list h).1,
      .NamespacePointerList (WrapList.unwrapIntoNamespacePointerList C w list h).2.1,
      (WrapList.unwrapIntoNamespacePointerList C w list h).2.2)
  | .ResourceList list =>
    ((WrapList.unwrapIntoResourceList C w list h).1,
      .ResourceList (WrapList.unwrapIntoResourceList C w list h).2.1,
      (WrapList.unwrapIntoResourceList C w list h).2.2)
  | .other typeName => (.ret (some (.plain ("can't unwrap list into " ++ typeName))), dest, h)

/-- Method `WrapList.Unwrap`: `result := make([]corev3.Resource, len(w))`, all nil, then
`w.UnwrapInto(&result)`; both are returned. -/
def WrapList.Unwrap (C : ElementCodec) (w : WrapList) (h : Heap) :
    (List (Option Addr) × Outcome (Option GoError)) × Heap :=
  let result : List (Option Addr) := List.replicate w.length none
  match WrapList.UnwrapInto C w (.ResourceList result) h with
  | (err, .ResourceList result1, h1) => ((result1, err), h1)
  | (err, _, h1) => ((result, err), h1)

/-- Method `WrapList.Len`. -/
def WrapList.Len (w : WrapList) : Nat := w.length

/-- The destination is one of the seven sequence types of the type switch. -/
def Destination.supported : Destination → Bool
  | .other _ => false
  | _ => true

/-- The elements of a destination, as far as they refer to a variable. -/
def Destination.elements : Destination → List (Option Addr)
  | .EntityConfigList list => list.map some
  | .EntityConfigPointerList list => list
  | .EntityStateList list => list.map some
  | .EntityStatePointerList list => list
  | .NamespaceList list => list.map some
  | .NamespacePointerList list => list
  | .ResourceList list => list
  | .other _ => []

/-- The destination is a sequence of values; the other supported ones hold references. -/
def Destination.ofValues : Destination → Bool
  | .EntityConfigList _ => true
  | .EntityStateList _ => true
  | .NamespaceList _ => true
  | _ => false

/-- The resource type `new` allocates for a nil element of the destination. -/
def Destination.elementType : Destination → ResourceType
  | .EntityConfigList _ => .EntityConfig
  | .EntityConfigPointerList _ => .EntityConfig
  | .EntityStateList _ => .EntityState
  | .EntityStatePointerList _ => .EntityState
  | .NamespaceList _ => .Namespace
  | .NamespacePointerList _ => .Namespace
  | .ResourceList _ => .EntityState
  | .other _ => .Other ""

/-- A codec for evaluation: a wrapper of the postgres package decodes into a variable of
the type of its store kind only, and leaves its name there; any other wrapper leaves its
payload, and fails when the payload is empty. -/
def strictCodec : ElementCodec where
  UnwrapInto := fun elem cell =>
    match elem with
    | .pg x =>
      if (x.kind = .EntityConfigWrapper ∧ cell.type = .EntityConfig)
          ∨ (x.kind = .EntityStateWrapper ∧ cell.type = .EntityState)
          ∨ (x.kind = .NamespaceWrapper ∧ cell.type = .Namespace) then (none, x.Name)
      else (some (.plain "unsupported destination type"), cell.content)
    | .generic _ payload =>
      if payload = "" then (some (.plain "unexpected end of JSON input"), cell.content)
      else (none, payload)

/-- A codec for evaluation that never fails: every wrapper leaves its name or payload in
the variable, whatever the type of the variable. -/
def lenientCodec : ElementCodec where
  UnwrapInto := fun elem _ =>
    match elem with
    | .pg x => (none, x.Name)
    | .generic _ payload => (none, payload)

/-- A postgres wrapper for the entity state bar. -/
def barStateWrapper : PgWrapper :=
  { kind := .EntityStateWrapper, Name := "bar", Params := [.text "default", .text "bar"] }

/-- An empty memory. -/
def heap0 : Heap := { cells := [], decoded := [] }

/-- A memory with two entity config variables holding old contents. -/
def heap2 : Heap :=
  { cells := [{ type := .EntityConfig, content := "old-0" },
              { type := .EntityConfig, content := "old-1" }],
    decoded := [] }

/-- One pass of the loop of `pointerLoop` from the call of `UnwrapInto` on, with `ptr`
known. -/
def pointerStep (C : ElementCodec) (T : ResourceType) (x : Wrapper) (rest : WrapList)
    (ptr : Addr) (tail : List (Option Addr)) (h : Heap) :
    Outcome (Option GoError) × List (Option Addr) × Heap :=
  match decodeInto C x ptr h with
  | (some err, h1) => (.ret (some err), some ptr :: tail, h1)
  | (none, h1) =>
    ((pointerLoop C T rest tail h1).1, some ptr :: (pointerLoop C T rest tail h1).2.1,
      (pointerLoop C T rest tail h1).2.2)

/-- The variable the loop of `pointerLoop` decodes element `i` into, as it is before the
loop: the one the destination refers to at index `i`, or the zero value of a fresh one
where the destination holds nil. -/
def cellBefore (T : ResourceType) (list : List (Option Addr)) (h : Heap) (i : Nat) : Resource :=
  match list[i]? with
  | some (some q) => h.read q
  | _ => zeroValue T

/-- The sequence and the memory the loop of `WrapList.UnwrapInto` starts from: the
destination as it is when it has `len(w)` elements, else the result of `make`, which for a
sequence of references is all nil and for a sequence of values is a fresh backing array
of zero values. -/
def prepared (w : WrapList) (dest : Destination) (h : Heap) : List (Option Addr) × Heap :=
  if dest.elements.length ≠ w.length then
    if dest.ofValues then
      ((h.make dest.elementType w.length).1.map some, (h.make dest.elementType w.length).2)
    else (List.replicate w.length none, h)
  else (dest.elements, h)

/-- The script of a driver on which every query statement fails while it runs: `Query`
returns no error, no row is delivered, and `rows.Err()` reports a violation of a not-null
constraint. -/
def failsWhileRunningScript : Script :=
  { okScript with
    queryResult := .ok []
    rowsErrResult := some (.PgError "23502" "" "null value violates not-null constraint") }

/-- The row the get-multiple statement of the entity states builds for bar of namespace
default on `fooAndBar`. -/
def barStateRow : Row :=
  { Name := "bar"
    Columns := entityStateColumns "default" 1
      { id := 2, entity_config_id := 2, namespace_id := 1, name := "bar", expires_at := 0,
        last_seen := 12345, selectors := "{}", annotations := "{}", created_at := 0,
        updated_at := 0, deleted_at := none }
      (List.replicate 13 .null)
      [{ entity_id := 2, name := "eth0", mac := "00:00:00:00:00:01",
         addresses := "[\"127.0.0.1\"]" }] }

/-- A batch of entity state requests over two namespaces: bar of default twice, with
different sort orders, a name that is not stored, bar of a namespace that does not exist,
and foo of default. -/
def mixedBatch : List ResourceRequest :=
  [{ stateReq "default" "bar" with SortOrder := .SortAscend }, stateReq "default" "missing",
   stateReq "other" "bar", stateReq "default" "bar", stateReq "default" "foo"]

/-- The rows the get-multiple statement delivers on `fooAndBar` for the groups of
`mixedBatch`: bar for namespace default (foo has no network interface, and the statement
joins the network rows), none for another namespace. -/
def mixedBatchRows (ns : String) : List Row := if ns = "default" then [barStateRow] else []

/-- The driver state inside a transaction opened on `fooAndBar`. -/
def insideFooAndBar : TxState Database := { committed := fooAndBar, tx := .active fooAndBar }

/-- C1: when the backend selector of the request is unset, each of CreateOrUpdate,
UpdateIfExists, CreateIfNotExists, Get, Delete, List, Exists and Patch returns exactly
what the operation of the same name of the key/value store returns for the same
arguments, leaves the key/value store in the state that operation produced, and makes no
call on the relational driver (the database state and the call log are unchanged). -/
theorem C1_unset_selector_delegates (s : StoreV2 σ τ) (D : Deps) (req : ResourceRequest)
    (wrapper : Wrapper) (pred : Option SelectionPredicate) (patcher : Patcher)
    (conditions : Option ETagCondition) (w : World σ τ) (h : req.UsePostgres = false) :
    s.CreateOrUpdate req wrapper w
        = ((s.etcdStoreV2.CreateOrUpdate req wrapper w.etcd).1,
            { w with etcd := (s.etcdStoreV2.CreateOrUpdate req wrapper w.etcd).2 })
    ∧ s.UpdateIfExists req wrapper w
        = ((s.etcdStoreV2.UpdateIfExists req wrapper w.etcd).1,
            { w with etcd := (s.etcdStoreV2.UpdateIfExists req wrapper w.etcd).2 })
    ∧ s.CreateIfNotExists req wrapper w
        = ((s.etcdStoreV2.CreateIfNotExists req wrapper w.etcd).1,
            { w with etcd := (s.etcdStoreV2.CreateIfNotExists req wrapper w.etcd).2 })
    ∧ s.Get req w
        = (.ret (s.etcdStoreV2.Get req w.etcd).1,
            { w with etcd := (s.etcdStoreV2.Get req w.etcd).2 })
    ∧ s.Delete req w
        = ((s.etcdStoreV2.Delete req w.etcd).1,
            { w with etcd := (s.etcdStoreV2.Delete req w.etcd).2 })
    ∧ s.List D req pred w
        = (.ret (s.etcdStoreV2.List req pred w.etcd).1,
            { w with etcd := (s.etcdStoreV2.List req pred w.etcd).2 })
    ∧ s.Exists req w
        = ((s.etcdStoreV2.Exists req w.etcd).1,
            { w with etcd := (s.etcdStoreV2.Exists req w.etcd).2 })
    ∧ s.Patch D req wrapper patcher conditions w
        = (.ret (s.etcdStoreV2.Patch req wrapper patcher conditions w.etcd).1,
            { w with etcd := (s.etcdStoreV2.Patch req wrapper patcher conditions w.etcd).2 }) := by
  refine ⟨?_, ?_, ?_, ?_, ?_, ?_, ?_, ?_⟩
  · simp [StoreV2.CreateOrUpdate, h, onEtcd]
  · simp [StoreV2.UpdateIfExists, h, onEtcd]
  · simp [StoreV2.CreateIfNotExists, h, onEtcd]
  · simp [StoreV2.Get, h, onEtcd]
  · simp [StoreV2.Delete, h, onEtcd]
  · simp [StoreV2.List, h, onEtcd]
  · simp [StoreV2.Exists, h, onEtcd]
  · simp [StoreV2.Patch, h, onEtcd]

/-- Witness of C1: a request with the selector unset, on a store whose driver would
answer every call; Get comes back with the not-found of the key/value store and the call
log stays empty. -/
theorem C1_unset_selector_delegates_witness :
    etcdReq.UsePostgres = false
    ∧ (scriptedStore okScript).Get etcdReq world0
        = (.ret (none, some (.ErrNotFound "foo")), { pg := 0, etcd := 1, log := [] }) :=
  ⟨rfl, (C1_unset_selector_delegates (scriptedStore okScript) plainDeps etcdReq (.pg fooWrapper)
    none (fun b => .ok b) none world0 rfl).2.2.2.1⟩

/-! ### GetMultiple: the driver calls it makes -/

theorem txQuery_log (s : StoreV2 σ τ) (q : Query) (ps : List SqlValue) (w : World σ τ) :
    (txQuery s q ps w).2.log = w.log ++ [.TxQuery q ps] ∧ (txQuery s q ps w).2.etcd = w.etcd := by
  simp [txQuery]

theorem txCommit_log (s : StoreV2 σ τ) (w : World σ τ) :
    (txCommit s w).2.log = w.log ++ [.Commit] ∧ (txCommit s w).2.etcd = w.etcd := by
  simp [txCommit]

theorem txRollback_log (s : StoreV2 σ τ) (w : World σ τ) :
    (txRollback s w).2.log = w.log ++ [.Rollback] ∧ (txRollback s w).2.etcd = w.etcd := by
  simp [txRollback]

theorem dbBegin_log (s : StoreV2 σ τ) (w : World σ τ) :
    (dbBegin s w).2.log = w.log ++ [.Begin] ∧ (dbBegin s w).2.etcd = w.etcd := by
  simp [dbBegin]

/-- The second loop of GetMultiple only issues queries on the transaction. -/
theorem queryGroups_log (s : StoreV2 σ τ) (reqs : List ResourceRequest) (storeName : String)
    (keyed : List (requestKey × ResourceRequest)) (groups : List (String × List String)) :
    ∀ (wrappers : ResultMap) (w : World σ τ),
      (queryGroups s reqs storeName keyed groups wrappers w).2.etcd = w.etcd
      ∧ ∃ l, (queryGroups s reqs storeName keyed groups wrappers w).2.log = w.log ++ l
          ∧ ∀ e ∈ l, ∃ q ps, e = DbEvent.TxQuery q ps := by
  induction groups with
  | nil => intro wrappers w; exact ⟨rfl, [], by simp [queryGroups], by simp⟩
  | cons g rest ih =>
    intro wrappers w
    obtain ⟨ns, names⟩ := g
    cases reqs with
    | nil => exact ⟨rfl, [], by simp [queryGroups], by simp⟩
    | cons req0 tl =>
      simp only [queryGroups]
      cases hq : lookupQuery req0 .getMultipleQ with
      | none => exact ⟨rfl, [], by simp, by simp⟩
      | some query =>
        simp only []
        have hl := txQuery_log s query (groupArgs storeName ns names) w
        generalize txQuery s query (groupArgs storeName ns names) w = r at hl
        obtain ⟨res, w1⟩ := r
        cases res with
        | error err =>
          exact ⟨hl.2, [.TxQuery query (groupArgs storeName ns names)], hl.1, by simp⟩
        | ok rows =>
          simp only []
          cases hs : scanGroupRows req0 keyed ns rows wrappers with
          | panic msg =>
            exact ⟨hl.2, [.TxQuery query (groupArgs storeName ns names)], hl.1, by simp⟩
          | ret x =>
            cases x with
            | error e =>
              exact ⟨hl.2, [.TxQuery query (groupArgs storeName ns names)], hl.1, by simp⟩
            | ok wrappers1 =>
              simp only []
              obtain ⟨h1, l, h2, h3⟩ := ih wrappers1 w1
              refine ⟨by rw [h1]; exact hl.2,
                DbEvent.TxQuery query (groupArgs storeName ns names) :: l, ?_, ?_⟩
              · rw [h2]; simp only [] at hl; rw [hl.1]; simp
              · intro e he
                rcases List.mem_cons.mp he with h | h
                · exact ⟨_, _, h⟩
                · exact h3 e h

/-- The body of GetMultiple issues queries on the transaction and then, only if both loops
ran to their end, the explicit commit. -/
theorem getMultipleBody_log (s : StoreV2 σ τ) (D : Deps) (seed : Nat)
    (reqs : List ResourceRequest) (w : World σ τ) :
    (getMultipleBody s D seed reqs w).2.etcd = w.etcd
    ∧ ∃ l, (∀ e ∈ l, ∃ q ps, e = DbEvent.TxQuery q ps)
      ∧ (((getMultipleBody s D seed reqs w).2.log = w.log ++ l
            ∧ ((∃ msg, (getMultipleBody s D seed reqs w).1 = .panic msg)
              ∨ ∃ e, (getMultipleBody s D seed reqs w).1 = .ret (none, some e)
                  ∧ e ≠ .plain "error committing transaction for GetMultiple()"))
        ∨ ((getMultipleBody s D seed reqs w).2.log = w.log ++ l ++ [.Commit]
            ∧ ((∃ m, (getMultipleBody s D seed reqs w).1 = .ret (some m, none))
              ∨ (getMultipleBody s D seed reqs w).1
                  = .ret (none, some (.plain "error committing transaction for GetMultiple()"))))) := by
  unfold getMultipleBody
  cases hg : groupRequests D 0 reqs
      { storeName := "", keyedResourceRequests := [], namespacedResources := [] } with
  | panic msg => exact ⟨rfl, [], by simp, Or.inl ⟨by simp, Or.inl ⟨msg, rfl⟩⟩⟩
  | ret x =>
    cases x with
    | error e =>
      refine ⟨rfl, [], by simp, Or.inl ⟨by simp, Or.inr ⟨e, rfl, ?_⟩⟩⟩
      intro he
      subst he
      have : ∀ (rs : List ResourceRequest) (i : Nat) (g : Grouping),
          groupRequests D i rs g ≠ .ret (.error (.plain "error committing transaction for GetMultiple()")) := by
        intro rs
        induction rs with
        | nil => intro i g; simp [groupRequests]
        | cons r rest ih =>
          intro i g
          simp only [groupRequests]
          cases D.Validate r with
          | some msg => simp
          | none =>
            simp only []
            split_ifs
            all_goals first | exact ih _ _ | simp
      exact this _ _ _ hg
    | ok g =>
      simp only []
      obtain ⟨h1, l, h2, h3⟩ := queryGroups_log s reqs g.storeName g.keyedResourceRequests
        (mapRange seed g.namespacedResources) [] w
      have hne : ∀ e, (queryGroups s reqs g.storeName g.keyedResourceRequests
          (mapRange seed g.namespacedResources) [] w).1 = .ret (.error e) →
          e ≠ .plain "error committing transaction for GetMultiple()" := by
        have : ∀ (gs : List (String × List String)) (m : ResultMap) (w : World σ τ) (e : GoError),
            (queryGroups s reqs g.storeName g.keyedResourceRequests gs m w).1 = .ret (.error e) →
            e ≠ .plain "error committing transaction for GetMultiple()" := by
          intro gs
          induction gs with
          | nil => intro m w e h; simp [queryGroups] at h
          | cons x rest ih =>
            intro m w e h
            obtain ⟨ns, names⟩ := x
            cases reqs with
            | nil => simp [queryGroups] at h
            | cons req0 tl =>
              simp only [queryGroups] at h
              cases hq : lookupQuery req0 .getMultipleQ with
              | none =>
                rw [hq] at h
                simp only [Outcome.ret.injEq, Except.error.injEq] at h
                subst h
                simp [errNoQuery]
              | some query =>
                rw [hq] at h
                simp only [] at h
                generalize txQuery s query (groupArgs g.storeName ns names) w = r at h
                obtain ⟨res, w1⟩ := r
                cases res with
                | error err =>
                  simp only [Outcome.ret.injEq, Except.error.injEq] at h
                  subst h
                  simp
                | ok rows =>
                  simp only [] at h
                  cases hs : scanGroupRows req0 g.keyedResourceRequests ns rows m with
                  | panic msg => rw [hs] at h; simp at h
                  | ret y =>
                    rw [hs] at h
                    cases y with
                    | error e1 =>
                      simp only [Outcome.ret.injEq, Except.error.injEq] at h
                      subst h
                      have : ∀ (rows : List RowOutcome) (m : ResultMap) (e1 : GoError),
                          scanGroupRows req0 g.keyedResourceRequests ns rows m = .ret (.error e1) →
                          e1 ≠ .plain "error committing transaction for GetMultiple()" := by
                        intro rows
                        induction rows with
                        | nil => intro m e1 h; simp [scanGroupRows] at h
                        | cons r rest ih2 =>
                          intro m e1 h
                          simp only [scanGroupRows] at h
                          cases hw : lookupWrapper req0 .getMultipleQ with
                          | panic msg => rw [hw] at h; simp at h
                          | ret kind =>
                            rw [hw] at h
                            cases r with
                            | scanError err =>
                              simp only [] at h
                              split at h
                              · exact ih2 _ _ h
                              · simp only [Outcome.ret.injEq, Except.error.injEq] at h
                                subst h; simp
                            | row row =>
                              simp only [] at h
                              split at h
                              · simp at h
                              · exact ih2 _ _ h
                            | rowThenErr row e2 =>
                              simp only [] at h
                              split at h
                              · simp at h
                              · exact ih2 _ _ h
                      exact this _ _ _ hs
                    | ok m1 => exact ih m1 w1 e h
        exact this _ _ _
      generalize queryGroups s reqs g.storeName g.keyedResourceRequests
          (mapRange seed g.namespacedResources) [] w = r at h1 h2 hne
      obtain ⟨res, w1⟩ := r
      cases res with
      | panic msg => exact ⟨h1, l, h3, Or.inl ⟨h2, Or.inl ⟨msg, rfl⟩⟩⟩
      | ret y =>
        cases y with
        | error e => exact ⟨h1, l, h3, Or.inl ⟨h2, Or.inr ⟨e, rfl, hne e rfl⟩⟩⟩
        | ok wrappers =>
          simp only []
          have hc := txCommit_log s w1
          generalize txCommit s w1 = c at hc
          obtain ⟨cres, w2⟩ := c
          simp only [] at hc h1 h2
          cases cres with
          | some err =>
            refine ⟨by rw [hc.2, h1], l, h3, Or.inr ⟨by rw [hc.1, h2], Or.inr rfl⟩⟩
          | none =>
            refine ⟨by rw [hc.2, h1], l, h3, Or.inr ⟨by rw [hc.1, h2], Or.inl ⟨wrappers, rfl⟩⟩⟩

/-- C2 (as amended): GetMultiple never reads the backend selector. For every batch,
whatever the selectors of its requests, its first action is to open a transaction on the
relational pool, and it makes no call on the key/value store, whose interface has no
GetMultiple. -/
theorem C2_getMultiple_always_relational (s : StoreV2 σ τ) (D : Deps) (seed : Nat)
    (reqs : List ResourceRequest) (w : World σ τ) :
    (s.GetMultiple D seed reqs w).2.etcd = w.etcd
    ∧ ∃ l, (s.GetMultiple D seed reqs w).2.log = w.log ++ DbEvent.Begin :: l := by
  unfold StoreV2.GetMultiple
  have hb := dbBegin_log s w
  generalize dbBegin s w = b at hb
  obtain ⟨res, w1⟩ := b
  simp only [] at hb
  cases res with
  | some err => exact ⟨hb.2, [], hb.1⟩
  | none =>
    simp only []
    obtain ⟨h1, l, -, h2⟩ := getMultipleBody_log s D seed reqs w1
    refine ⟨by rw [(txCommit_log s _).2, h1, hb.2], ?_⟩
    rcases h2 with ⟨h2, -⟩ | ⟨h2, -⟩
    · exact ⟨l ++ [.Commit], by rw [(txCommit_log s _).1, h2, hb.1]; simp⟩
    · exact ⟨l ++ [.Commit, .Commit], by rw [(txCommit_log s _).1, h2, hb.1]; simp⟩

/-- Counterexample to C2 as stated: a batch of one request with the selector unset. The
call opens a relational transaction, queries it, and never reaches the key/value store
(whose call counter stays 0). -/
theorem C2_counterexample :
    (∀ r ∈ [etcdReq], r.UsePostgres = false)
    ∧ ((scriptedStore okScript).GetMultiple plainDeps 0 [etcdReq] world0).2.log
        = [.Begin, .TxQuery .getEntityConfigsQuery [.text "default", .textArray ["foo"]],
            .Commit, .Commit]
    ∧ ((scriptedStore okScript).GetMultiple plainDeps 0 [etcdReq] world0).2.etcd = 0 := by
  decide

/-- C9 (as amended): once the transaction of GetMultiple is open, Rollback is never
called: the calls logged are Begin, queries on the transaction, and Commit. When the
call panics or returns an error from inside the transaction (invalid request, missing
query, failed query, failed row scan), the deferred function commits, and that is the
only Commit. When both loops run to their end, Commit is called twice: the explicit call
(whose failure is the only other error) and the deferred one. -/
theorem C9_getMultiple_commits_never_rolls_back (s : StoreV2 σ τ) (D : Deps) (seed : Nat)
    (reqs : List ResourceRequest) (w : World σ τ) (hb : (s.db.beginTx w.pg).1 = none) :
    ∃ l, (∀ e ∈ l, ∃ q ps, e = DbEvent.TxQuery q ps)
      ∧ (((s.GetMultiple D seed reqs w).2.log = w.log ++ [.Begin] ++ l ++ [.Commit]
            ∧ ((∃ msg, (s.GetMultiple D seed reqs w).1 = .panic msg)
              ∨ ∃ e, (s.GetMultiple D seed reqs w).1 = .ret (none, some e)
                  ∧ e ≠ .plain "error committing transaction for GetMultiple()"))
        ∨ ((s.GetMultiple D seed reqs w).2.log = w.log ++ [.Begin] ++ l ++ [.Commit, .Commit]
            ∧ ((∃ m, (s.GetMultiple D seed reqs w).1 = .ret (some m, none))
              ∨ (s.GetMultiple D seed reqs w).1
                  = .ret (none, some (.plain "error committing transaction for GetMultiple()"))))) := by
  unfold StoreV2.GetMultiple
  have hl := dbBegin_log s w
  have hr : (dbBegin s w).1 = none := by simpa [dbBegin] using hb
  generalize dbBegin s w = b at hl hr
  obtain ⟨res, w1⟩ := b
  simp only [] at hl hr
  subst hr
  simp only []
  obtain ⟨-, l, hq, h2⟩ := getMultipleBody_log s D seed reqs w1
  refine ⟨l, hq, ?_⟩
  rcases h2 with ⟨h2, h3⟩ | ⟨h2, h3⟩
  · exact Or.inl ⟨by rw [(txCommit_log s _).1, h2, hl.1], h3⟩
  · exact Or.inr ⟨by rw [(txCommit_log s _).1, h2, hl.1]; simp, h3⟩

/-- Witness of C9: a batch of one valid request on a driver that answers every call. -/
theorem C9_getMultiple_commits_never_rolls_back_witness :
    ((scriptedStore okScript).db.beginTx world0.pg).1 = none
    ∧ ∃ l, (∀ e ∈ l, ∃ q ps, e = DbEvent.TxQuery q ps)
      ∧ ((((scriptedStore okScript).GetMultiple plainDeps 0 [pgReq] world0).2.log
              = world0.log ++ [.Begin] ++ l ++ [.Commit]
            ∧ ((∃ msg, ((scriptedStore okScript).GetMultiple plainDeps 0 [pgReq] world0).1 = .panic msg)
              ∨ ∃ e, ((scriptedStore okScript).GetMultiple plainDeps 0 [pgReq] world0).1
                    = .ret (none, some e)
                  ∧ e ≠ .plain "error committing transaction for GetMultiple()"))
        ∨ (((scriptedStore okScript).GetMultiple plainDeps 0 [pgReq] world0).2.log
              = world0.log ++ [.Begin] ++ l ++ [.Commit, .Commit]
            ∧ ((∃ m, ((scriptedStore okScript).GetMultiple plainDeps 0 [pgReq] world0).1
                    = .ret (some m, none))
              ∨ ((scriptedStore okScript).GetMultiple plainDeps 0 [pgReq] world0).1
                  = .ret (none, some (.plain "error committing transaction for GetMultiple()"))))) :=
  ⟨rfl, C9_getMultiple_commits_never_rolls_back (scriptedStore okScript) plainDeps 0 [pgReq]
    world0 rfl⟩

/-- Counterexample to C9 as stated: a batch whose only request has an empty name. The
call returns a not-valid error from inside the transaction, and the transaction is
committed, not rolled back. -/
theorem C9_counterexample :
    ((scriptedStore okScript).GetMultiple plainDeps 0 [{ pgReq with Name := "" }] world0).1
        = .ret (none, some (.ErrNotValid "invalid resource request: missing name"))
    ∧ ((scriptedStore okScript).GetMultiple plainDeps 0 [{ pgReq with Name := "" }] world0).2.log
        = [.Begin, .Commit] := by
  decide

/-! ### Error kinds of the single statement operations -/

theorem createOrUpdate_domain (s : StoreV2 σ τ) (req : ResourceRequest) (wrapper : Wrapper)
    (w : World σ τ) (h : req.UsePostgres = true) (e : GoError)
    (he : (s.CreateOrUpdate req wrapper w).1 = some e) :
    e = badWrapper (match wrapper with | .generic t _ => t | .pg _ => "")
    ∨ e = errNoQuery req.StoreName ∨ ∃ m, e = .ErrInternal m := by
  simp only [StoreV2.CreateOrUpdate, h] at he
  cases wrapper with
  | generic t pl => simp at he; exact Or.inl he.symm
  | pg pw =>
    simp only [Bool.not_true, Bool.false_eq_true, if_false] at he
    cases hq : lookupQuery req .createOrUpdateQ with
    | none => rw [hq] at he; simp at he; exact Or.inr (Or.inl he.symm)
    | some q =>
      rw [hq] at he
      simp only [] at he
      generalize dbExec s q pw.SQLParams w = r at he
      obtain ⟨res, w1⟩ := r
      cases res with
      | error err => simp at he; exact Or.inr (Or.inr ⟨_, he.symm⟩)
      | ok n => simp at he

/-- A store name for which lookupQuery finds a statement is one lookupWrapper knows. -/
theorem lookupWrapper_of_lookupQuery (req : ResourceRequest) (op op1 : crudOp) (q : Query)
    (h : lookupQuery req op = some q) : ∃ kind, lookupWrapper req op1 = .ret kind := by
  unfold lookupQuery at h
  unfold lookupWrapper
  simp only [] at h ⊢
  split_ifs at h ⊢
  · exact ⟨_, rfl⟩
  · exact ⟨_, rfl⟩
  · exact ⟨_, rfl⟩

/-- On the relational path, with a valid request of a known store and a transaction that
opened, Patch is its body followed by its deferred function. -/
theorem patch_eq (s : StoreV2 σ τ) (D : Deps) (req : ResourceRequest) (wrapper : Wrapper)
    (patcher : Patcher) (conditions : Option ETagCondition) (w : World σ τ) (q : Query)
    (kind : WrapperKind) (hu : req.UsePostgres = true) (hv : D.Validate req = none)
    (hq : lookupQuery req .getQ = some q) (hk : lookupWrapper req .getQ = .ret kind)
    (hb : (s.db.beginTx w.pg).1 = none) :
    s.Patch D req wrapper patcher conditions w
      = (.ret (patchDeferred s
            (patchBody s D req q (keyParams req) kind patcher conditions (dbBegin s w).2).1
            (patchBody s D req q (keyParams req) kind patcher conditions (dbBegin s w).2).2).1,
          (patchDeferred s
            (patchBody s D req q (keyParams req) kind patcher conditions (dbBegin s w).2).1
            (patchBody s D req q (keyParams req) kind patcher conditions (dbBegin s w).2).2).2) := by
  have hr : (dbBegin s w).1 = none := by simpa [dbBegin] using hb
  unfold StoreV2.Patch
  simp only [hu, hv, hq, hk, Bool.not_true, Bool.false_eq_true, if_false]
  generalize dbBegin s w = b at hr ⊢
  obtain ⟨res, w1⟩ := b
  simp only [] at hr
  subst hr
  rfl

theorem groupRequests_invalid (D : Deps) (rs : List ResourceRequest)
    (h : ∃ r ∈ rs, D.Validate r ≠ none) :
    ∀ (i : Nat) (g : Grouping),
      (∃ msg, groupRequests D i rs g = .panic msg)
      ∨ ∃ m, groupRequests D i rs g = .ret (.error (.ErrNotValid m)) := by
  induction rs with
  | nil => obtain ⟨r, hr, -⟩ := h; cases hr
  | cons a rest ih =>
    intro i g
    simp only [groupRequests]
    cases hv : D.Validate a with
    | some msg => exact Or.inr ⟨msg, rfl⟩
    | none =>
      have h1 : ∃ r ∈ rest, D.Validate r ≠ none := by
        obtain ⟨r, hr, hne⟩ := h
        rcases List.mem_cons.mp hr with h2 | h2
        · subst h2; exact absurd hv hne
        · exact ⟨r, h2, hne⟩
      simp only []
      split_ifs
      all_goals first | exact ih h1 _ _ | exact Or.inl ⟨_, rfl⟩

theorem lookupQuery_unknown (req : ResourceRequest) (op : crudOp)
    (h1 : req.StoreName ≠ entityConfigStoreName) (h2 : req.StoreName ≠ entityStateStoreName)
    (h3 : req.StoreName ≠ namespaceStoreName) : lookupQuery req op = none := by
  unfold lookupQuery
  simp only [h1, h2, h3, if_false]

/-- C4 (as amended): only Patch and GetMultiple call Validate. For a request that fails
Validate, Patch on the relational path returns a not-valid error without any call on the
driver. GetMultiple, for a batch that contains such a request, opens its transaction
first, then issues no query, does not succeed, and its deferred function commits. The
other seven operations do not validate the request: for a request of an unknown store
kind they return an error without any call on the driver (the name is not looked at). -/
theorem C4_validation_before_statements (s : StoreV2 σ τ) (D : Deps) (req : ResourceRequest)
    (wrapper : Wrapper) (pred : Option SelectionPredicate) (patcher : Patcher)
    (conditions : Option ETagCondition) (seed : Nat) (reqs : List ResourceRequest)
    (w : World σ τ) (hu : req.UsePostgres = true) :
    (∀ msg, D.Validate req = some msg →
        s.Patch D req wrapper patcher conditions w = (.ret (some (.ErrNotValid msg)), w))
    ∧ ((∃ r ∈ reqs, D.Validate r ≠ none) → (s.db.beginTx w.pg).1 = none →
        (s.GetMultiple D seed reqs w).2.log = w.log ++ [.Begin, .Commit]
        ∧ ((∃ msg, (s.GetMultiple D seed reqs w).1 = .panic msg)
          ∨ ∃ m, (s.GetMultiple D seed reqs w).1 = .ret (none, some (.ErrNotValid m))))
    ∧ (req.StoreName ≠ entityConfigStoreName → req.StoreName ≠ entityStateStoreName →
        req.StoreName ≠ namespaceStoreName →
        (s.CreateOrUpdate req wrapper w).2 = w ∧ (s.CreateOrUpdate req wrapper w).1 ≠ none
        ∧ (s.UpdateIfExists req wrapper w).2 = w ∧ (s.UpdateIfExists req wrapper w).1 ≠ none
        ∧ (s.CreateIfNotExists req wrapper w).2 = w ∧ (s.CreateIfNotExists req wrapper w).1 ≠ none
        ∧ s.Get req w = (.ret (none, some (errNoQuery req.StoreName)), w)
        ∧ s.Delete req w = (some (errNoQuery req.StoreName), w)
        ∧ s.List D req pred w = (.ret ((none, some (errNoQuery req.StoreName)), pred), w)
        ∧ s.Exists req w = ((false, some (errNoQuery req.StoreName)), w)) := by
  refine ⟨?_, ?_, ?_⟩
  · intro msg hv
    simp [StoreV2.Patch, hu, hv]
  · intro hinv hb
    have hr : (dbBegin s w).1 = none := by simpa [dbBegin] using hb
    have hl := dbBegin_log s w
    unfold StoreV2.GetMultiple
    generalize dbBegin s w = b at hr hl
    obtain ⟨res, w1⟩ := b
    simp only [] at hr hl
    subst hr
    simp only []
    unfold getMultipleBody
    rcases groupRequests_invalid D reqs hinv 0
        { storeName := "", keyedResourceRequests := [], namespacedResources := [] } with
      ⟨msg, hg⟩ | ⟨m, hg⟩
    · rw [hg]
      exact ⟨by rw [(txCommit_log s _).1, hl.1]; simp, Or.inl ⟨msg, rfl⟩⟩
    · rw [hg]
      exact ⟨by rw [(txCommit_log s _).1, hl.1]; simp, Or.inr ⟨m, rfl⟩⟩
  · intro h1 h2 h3
    have hq := fun op => lookupQuery_unknown req op h1 h2 h3
    refine ⟨?_, ?_, ?_, ?_, ?_, ?_, ?_, ?_, ?_, ?_⟩
    · cases wrapper <;> simp [StoreV2.CreateOrUpdate, hu, hq]
    · cases wrapper <;> simp [StoreV2.CreateOrUpdate, hu, hq]
    · cases wrapper <;> simp [StoreV2.UpdateIfExists, hu, hq]
    · cases wrapper <;> simp [StoreV2.UpdateIfExists, hu, hq]
    · cases wrapper <;> simp [StoreV2.CreateIfNotExists, hu, hq]
    · cases wrapper <;> simp [StoreV2.CreateIfNotExists, hu, hq]
    · simp [StoreV2.Get, hu, hq]
    · simp [StoreV2.Delete, hu, hq]
    · simp [StoreV2.List, hu, hq]
    · simp [StoreV2.Exists, hu, hq]

/-- Witness of C4: Patch of a request with an empty name on the relational path. -/
theorem C4_validation_before_statements_witness :
    ({ pgReq with Name := "" } : ResourceRequest).UsePostgres = true
    ∧ plainDeps.Validate { pgReq with Name := "" } = some "invalid resource request: missing name"
    ∧ ((scriptedStore okScript).Patch plainDeps { pgReq with Name := "" } (.pg fooWrapper)
        (fun b => .ok b) none world0).2.log = [] :=
  ⟨rfl, rfl, by
    rw [(C4_validation_before_statements (scriptedStore okScript) plainDeps
      { pgReq with Name := "" } (.pg fooWrapper) none (fun b => .ok b) none 0 [] world0 rfl).1
      "invalid resource request: missing name" rfl]
    rfl⟩

/-- Counterexample to C4 as stated: a request with an empty name fails Validate, yet
CreateOrUpdate, Get and Delete send their statement to the database, and GetMultiple
opens a transaction. -/
theorem C4_counterexample :
    plainDeps.Validate { pgReq with Name := "" } ≠ none
    ∧ ((scriptedStore okScript).CreateOrUpdate { pgReq with Name := "" } (.pg fooWrapper) world0).2.log
        = [.Exec .createOrUpdateEntityConfigQuery [.text "default", .text "foo"]]
    ∧ ((scriptedStore okScript).Get { pgReq with Name := "" } world0).2.log
        = [.QueryRow .getEntityConfigQuery [.text "default", .text ""]]
    ∧ ((scriptedStore okScript).Delete { pgReq with Name := "" } world0).2.log
        = [.Exec .deleteEntityConfigQuery [.text "default", .text ""]]
    ∧ ((scriptedStore okScript).GetMultiple plainDeps 0 [{ pgReq with Name := "" }] world0).2.log
        = [.Begin, .Commit] := by
  decide

/-! ### Delete of an entity state -/

/-- C5 (the code at the failing input): the entity state foo of namespace default is
stored and not deleted. The first Delete succeeds and leaves the row with `deleted_at`
set. The second Delete of the same identity succeeds again, where NotFound is expected:
the soft delete statement has no `deleted_at IS NULL` condition and updates the
tombstone. Get of the identity returns NotFound after either Delete. -/
theorem C5_second_delete_of_entity_state_succeeds :
    (entityStateStore.Delete fooStateReq fooWorld).1 = none
    ∧ (entityStateStore.Delete fooStateReq fooWorld).2.pg.committed.entity_states.map
        (fun r => (r.name, r.deleted_at)) = [("foo", some 100)]
    ∧ (entityStateStore.Delete fooStateReq (entityStateStore.Delete fooStateReq fooWorld).2).1
        = none
    ∧ (entityStateStore.Get fooStateReq (entityStateStore.Delete fooStateReq fooWorld).2).1
        = .ret (none, some (.ErrNotFound "default.foo"))
    ∧ (entityStateStore.Get fooStateReq
        (entityStateStore.Delete fooStateReq (entityStateStore.Delete fooStateReq fooWorld).2).2).1
        = .ret (none, some (.ErrNotFound "default.foo")) := by
  decide

/-! ### Patch: the shape of a run -/

theorem txQueryRow_log (s : StoreV2 σ τ) (q : Query) (ps : List SqlValue) (w : World σ τ) :
    (txQueryRow s q ps w).1 = (s.db.txQueryRow q ps w.pg).1
    ∧ (txQueryRow s q ps w).2.pg = (s.db.txQueryRow q ps w.pg).2
    ∧ (txQueryRow s q ps w).2.log = w.log ++ [.TxQueryRow q ps]
    ∧ (txQueryRow s q ps w).2.etcd = w.etcd := by
  simp [txQueryRow]

theorem txExec_log (s : StoreV2 σ τ) (q : Query) (ps : List SqlValue) (w : World σ τ) :
    (txExec s q ps w).1 = (s.db.txExec q ps w.pg).1
    ∧ (txExec s q ps w).2.pg = (s.db.txExec q ps w.pg).2
    ∧ (txExec s q ps w).2.log = w.log ++ [.TxExec q ps]
    ∧ (txExec s q ps w).2.etcd = w.etcd := by
  simp [txExec]

/-- The three ways the body of Patch can run: the read fails; the read succeeds and a
step before the upsert fails; the read and all steps succeed and the upsert is executed. -/
theorem patchBody_cases (s : StoreV2 σ τ) (D : Deps) (req : ResourceRequest) (q : Query)
    (params : List SqlValue) (kind : WrapperKind) (patcher : Patcher)
    (conditions : Option ETagCondition) (w : World σ τ) :
    (∃ err, (txQueryRow s q params w).1 = .error err
        ∧ patchBody s D req q params kind patcher conditions w
          = (some (if err = .ErrNoRows then .ErrNotFound (dotKey req) else .ErrInternal err.Error),
              (txQueryRow s q params w).2))
    ∨ (∃ row e, (txQueryRow s q params w).1 = .ok row
        ∧ patchPrepare D req (scanInto kind row) patcher conditions = .error e
        ∧ patchBody s D req q params kind patcher conditions w = (some e, (txQueryRow s q params w).2))
    ∨ (∃ row uq ups, (txQueryRow s q params w).1 = .ok row
        ∧ patchPrepare D req (scanInto kind row) patcher conditions = .ok (uq, ups)
        ∧ patchBody s D req q params kind patcher conditions w
          = ((match (txExec s uq ups (txQueryRow s q params w).2).1 with
              | .error err => some (.ErrInternal err.Error)
              | .ok _ => none),
              (txExec s uq ups (txQueryRow s q params w).2).2)) := by
  unfold patchBody
  generalize txQueryRow s q params w = r
  obtain ⟨res, w1⟩ := r
  cases res with
  | error err =>
    refine Or.inl ⟨err, rfl, ?_⟩
    simp only []
    split_ifs <;> rfl
  | ok row =>
    cases hp : patchPrepare D req (scanInto kind row) patcher conditions with
    | error e => exact Or.inr (Or.inl ⟨row, e, rfl, hp, by simp only [hp]⟩)
    | ok x =>
      obtain ⟨uq, ups⟩ := x
      refine Or.inr (Or.inr ⟨row, uq, ups, rfl, hp, ?_⟩)
      simp only [hp]
      generalize txExec s uq ups w1 = r2
      obtain ⟨res2, w2⟩ := r2
      cases res2 <;> rfl

/-- When the steps between the scan and the upsert succeed, the resource that is written
is the one decoded from the patched bytes, it passed its validation, and the parameters
of the upsert are those of its re-wrapping. -/
theorem patchPrepare_ok (D : Deps) (req : ResourceRequest) (ow : PgWrapper)
    (patcher : Patcher) (conditions : Option ETagCondition) (uq : Query) (ups : List SqlValue)
    (h : patchPrepare D req ow patcher conditions = .ok (uq, ups)) :
    ∃ resource etag original patched resource1 pwrap,
      D.Unwrap ow = .ok resource ∧ D.ETag resource = .ok etag
      ∧ (∀ c, conditions = some c →
          D.CheckIfMatch c.IfMatch etag = true ∧ D.CheckIfNoneMatch c.IfNoneMatch etag = true)
      ∧ D.Marshal resource = .ok original ∧ patcher original = .ok patched
      ∧ D.Unmarshal patched resource = .ok resource1 ∧ D.ResourceValidate resource1 = none
      ∧ wrapWithPostgres D resource1 = .ok (.pg pwrap)
      ∧ lookupQuery req .createOrUpdateQ = some uq ∧ ups = pwrap.SQLParams := by
  unfold patchPrepare at h
  cases h1 : D.Unwrap ow with
  | error err => rw [h1] at h; simp at h
  | ok resource =>
    rw [h1] at h
    simp only [] at h
    cases h2 : D.ETag resource with
    | error err => rw [h2] at h; simp at h
    | ok etag =>
      rw [h2] at h
      simp only [] at h
      split_ifs at h with hf
      cases h3 : D.Marshal resource with
      | error err => rw [h3] at h; simp at h
      | ok original =>
        rw [h3] at h
        simp only [] at h
        cases h4 : patcher original with
        | error err => rw [h4] at h; simp at h
        | ok patched =>
          rw [h4] at h
          simp only [] at h
          cases h5 : D.Unmarshal patched resource with
          | error err => rw [h5] at h; simp at h
          | ok resource1 =>
            rw [h5] at h
            simp only [] at h
            cases h6 : D.ResourceValidate resource1 with
            | some err => rw [h6] at h; simp at h
            | none =>
              rw [h6] at h
              simp only [] at h
              cases h7 : wrapWithPostgres D resource1 with
              | error err => rw [h7] at h; simp at h
              | ok wrapped =>
                rw [h7] at h
                cases wrapped with
                | generic t pl => simp at h
                | pg pwrap =>
                  simp only [] at h
                  cases h8 : lookupQuery req .createOrUpdateQ with
                  | none => rw [h8] at h; simp at h
                  | some q1 =>
                    rw [h8] at h
                    simp only [Except.ok.injEq, Prod.mk.injEq] at h
                    refine ⟨resource, etag, original, patched, resource1, pwrap, rfl, h2, ?_,
                      h3, h4, h5, h6, h7, by rw [h.1], h.2.symm⟩
                    intro c hc
                    subst hc
                    simp only [Bool.or_eq_true, Bool.not_eq_true', not_or,
                      Bool.not_eq_false] at hf
                    exact hf

/-- The deferred function of Patch after a failed body: Rollback is called, and its
error, if any, replaces the error of the body. -/
theorem patchDeferred_some (s : StoreV2 σ τ) (e : GoError) (w : World σ τ) :
    patchDeferred s (some e) w
      = ((match (s.db.rollback w.pg).1 with
          | some t => some (.driver t)
          | none => some e),
          { pg := (s.db.rollback w.pg).2, etcd := w.etcd, log := w.log ++ [.Rollback] }) := by
  simp only [patchDeferred, txRollback]
  cases (s.db.rollback w.pg).1 <;> rfl

/-- The deferred function of Patch after a body without error: Commit is called and its
error, if any, is returned. -/
theorem patchDeferred_none (s : StoreV2 σ τ) (w : World σ τ) :
    patchDeferred s none w
      = (((s.db.commit w.pg).1).map GoError.driver,
          { pg := (s.db.commit w.pg).2, etcd := w.etcd, log := w.log ++ [.Commit] }) := by
  simp only [patchDeferred, txCommit]

/-- Patch when the read of the stored row fails. -/
theorem patch_read_fails (s : StoreV2 σ τ) (D : Deps) (req : ResourceRequest) (wrapper : Wrapper)
    (patcher : Patcher) (conditions : Option ETagCondition) (w : World σ τ) (q : Query)
    (err : DriverError) (hu : req.UsePostgres = true) (hv : D.Validate req = none)
    (hq : lookupQuery req .getQ = some q) (hb : (s.db.beginTx w.pg).1 = none)
    (hread : (s.db.txQueryRow q (keyParams req) (s.db.beginTx w.pg).2).1 = .error err) :
    s.Patch D req wrapper patcher conditions w
      = (.ret (match (s.db.rollback (s.db.txQueryRow q (keyParams req) (s.db.beginTx w.pg).2).2).1 with
            | some t => some (.driver t)
            | none => some (if err = .ErrNoRows then .ErrNotFound (dotKey req)
                else .ErrInternal err.Error)),
          { pg := (s.db.rollback (s.db.txQueryRow q (keyParams req) (s.db.beginTx w.pg).2).2).2,
            etcd := w.etcd,
            log := w.log ++ [.Begin, .TxQueryRow q (keyParams req), .Rollback] }) := by
  obtain ⟨kind, hk⟩ := lookupWrapper_of_lookupQuery req .getQ .getQ q hq
  rw [patch_eq s D req wrapper patcher conditions w q kind hu hv hq hk hb]
  have hr : (txQueryRow s q (keyParams req) (dbBegin s w).2).1 = .error err := by
    rw [(txQueryRow_log s _ _ _).1]; exact hread
  rcases patchBody_cases s D req q (keyParams req) kind patcher conditions (dbBegin s w).2 with
    ⟨err1, h1, h2⟩ | ⟨row, e, h1, -, -⟩ | ⟨row, uq, ups, h1, -, -⟩
  · rw [hr] at h1
    cases h1
    rw [h2, patchDeferred_some]
    simp [txQueryRow, dbBegin]
  · rw [hr] at h1; cases h1
  · rw [hr] at h1; cases h1

/-- Patch when the read succeeds and a step before the upsert fails. -/
theorem patch_step_fails (s : StoreV2 σ τ) (D : Deps) (req : ResourceRequest) (wrapper : Wrapper)
    (patcher : Patcher) (conditions : Option ETagCondition) (w : World σ τ) (q : Query)
    (kind : WrapperKind) (row : Row) (e : GoError)
    (hu : req.UsePostgres = true) (hv : D.Validate req = none)
    (hq : lookupQuery req .getQ = some q) (hk : lookupWrapper req .getQ = .ret kind)
    (hb : (s.db.beginTx w.pg).1 = none)
    (hread : (s.db.txQueryRow q (keyParams req) (s.db.beginTx w.pg).2).1 = .ok row)
    (hstep : patchPrepare D req (scanInto kind row) patcher conditions = .error e) :
    s.Patch D req wrapper patcher conditions w
      = (.ret (match (s.db.rollback (s.db.txQueryRow q (keyParams req) (s.db.beginTx w.pg).2).2).1 with
            | some t => some (.driver t)
            | none => some e),
          { pg := (s.db.rollback (s.db.txQueryRow q (keyParams req) (s.db.beginTx w.pg).2).2).2,
            etcd := w.etcd,
            log := w.log ++ [.Begin, .TxQueryRow q (keyParams req), .Rollback] }) := by
  rw [patch_eq s D req wrapper patcher conditions w q kind hu hv hq hk hb]
  have hr : (txQueryRow s q (keyParams req) (dbBegin s w).2).1 = .ok row := by
    rw [(txQueryRow_log s _ _ _).1]; exact hread
  rcases patchBody_cases s D req q (keyParams req) kind patcher conditions (dbBegin s w).2 with
    ⟨err1, h1, -⟩ | ⟨row1, e1, h1, h2, h3⟩ | ⟨row1, uq, ups, h1, h2, -⟩
  · rw [hr] at h1; cases h1
  · rw [hr] at h1
    cases h1
    rw [hstep] at h2
    cases h2
    rw [h3, patchDeferred_some]
    simp [txQueryRow, dbBegin]
  · rw [hr] at h1
    cases h1
    rw [hstep] at h2
    cases h2

/-- Patch when the read and all steps succeed: the upsert is executed in the
transaction; if it fails the transaction is rolled back, otherwise it is committed. -/
theorem patch_upsert (s : StoreV2 σ τ) (D : Deps) (req : ResourceRequest) (wrapper : Wrapper)
    (patcher : Patcher) (conditions : Option ETagCondition) (w : World σ τ) (q : Query)
    (kind : WrapperKind) (row : Row) (uq : Query) (ups : List SqlValue)
    (hu : req.UsePostgres = true) (hv : D.Validate req = none)
    (hq : lookupQuery req .getQ = some q) (hk : lookupWrapper req .getQ = .ret kind)
    (hb : (s.db.beginTx w.pg).1 = none)
    (hread : (s.db.txQueryRow q (keyParams req) (s.db.beginTx w.pg).2).1 = .ok row)
    (hstep : patchPrepare D req (scanInto kind row) patcher conditions = .ok (uq, ups)) :
    s.Patch D req wrapper patcher conditions w
      = (match (s.db.txExec uq ups (s.db.txQueryRow q (keyParams req) (s.db.beginTx w.pg).2).2).1 with
          | .error err =>
            (.ret (match (s.db.rollback (s.db.txExec uq ups
                      (s.db.txQueryRow q (keyParams req) (s.db.beginTx w.pg).2).2).2).1 with
                | some t => some (.driver t)
                | none => some (.ErrInternal err.Error)),
              { pg := (s.db.rollback (s.db.txExec uq ups
                      (s.db.txQueryRow q (keyParams req) (s.db.beginTx w.pg).2).2).2).2,
                etcd := w.etcd,
                log := w.log ++ [.Begin, .TxQueryRow q (keyParams req), .TxExec uq ups, .Rollback] })
          | .ok _ =>
            (.ret (((s.db.commit (s.db.txExec uq ups
                      (s.db.txQueryRow q (keyParams req) (s.db.beginTx w.pg).2).2).2).1).map
                    GoError.driver),
              { pg := (s.db.commit (s.db.txExec uq ups
                      (s.db.txQueryRow q (keyParams req) (s.db.beginTx w.pg).2).2).2).2,
                etcd := w.etcd,
                log := w.log ++ [.Begin, .TxQueryRow q (keyParams req), .TxExec uq ups, .Commit] })) := by
  rw [patch_eq s D req wrapper patcher conditions w q kind hu hv hq hk hb]
  have hr : (txQueryRow s q (keyParams req) (dbBegin s w).2).1 = .ok row := by
    rw [(txQueryRow_log s _ _ _).1]; exact hread
  rcases patchBody_cases s D req q (keyParams req) kind patcher conditions (dbBegin s w).2 with
    ⟨err1, h1, -⟩ | ⟨row1, e1, h1, h2, -⟩ | ⟨row1, uq1, ups1, h1, h2, h3⟩
  · rw [hr] at h1; cases h1
  · rw [hr] at h1
    cases h1
    rw [hstep] at h2
    cases h2
  · rw [hr] at h1
    cases h1
    rw [hstep] at h2
    cases h2
    rw [h3]
    have hx : (txExec s uq ups (txQueryRow s q (keyParams req) (dbBegin s w).2).2).1
        = (s.db.txExec uq ups (s.db.txQueryRow q (keyParams req) (s.db.beginTx w.pg).2).2).1 := by
      simp [txExec, txQueryRow, dbBegin]
    rw [hx]
    cases hex : (s.db.txExec uq ups (s.db.txQueryRow q (keyParams req) (s.db.beginTx w.pg).2).2).1 with
    | error err =>
      simp only []
      rw [patchDeferred_some]
      simp [txExec, txQueryRow, dbBegin]
    | ok n =>
      simp only []
      rw [patchDeferred_none]
      simp [txExec, txQueryRow, dbBegin]

/-! ### Patch: preconditions, atomicity, validated writes -/

/-- The transactional driver keeps the committed state fixed until Commit. -/
theorem txPg_atomic {δ : Type} (stmts : Stmts δ) :
    (txPg stmts).Atomic (fun st => st.committed) := by
  constructor
  · intro st; rfl
  · intro q ps st
    simp only [txPg, inTx]
    cases st.tx with
    | idle => rfl
    | aborted => rfl
    | active d => simp only []; cases stmts.exec q ps d <;> rfl
  · intro q ps st
    simp only [txPg, inTxRows]
    cases st.tx with
    | idle => rfl
    | aborted => rfl
    | active d => simp only []; cases stmts.query q ps d <;> rfl
  · intro q ps st
    simp only [txPg, inTx]
    cases st.tx with
    | idle => rfl
    | aborted => rfl
    | active d => simp only []; cases stmts.queryRow q ps d <;> rfl
  · intro st
    simp only [txPg]
    cases st.tx <;> rfl

/-- C6 (as amended): when the stored row was read and decoded, its ETag computed, and the
preconditions supplied do not hold for it (the ifMatch check or the ifNoneMatch check is
false), Patch calls only Begin, the read and Rollback: no upsert, no Commit. It returns
PreconditionFailed, unless Rollback itself fails, in which case it returns the error of
Rollback. The patch engine has no influence on the call, and on a driver that keeps the
stored data fixed until Commit the stored data is unchanged. -/
theorem C6_precondition_failed (s : StoreV2 σ τ) (D : Deps) (req : ResourceRequest)
    (wrapper : Wrapper) (patcher : Patcher) (conditions : Option ETagCondition) (w : World σ τ)
    (q : Query) (kind : WrapperKind) (row : Row) (resource : Resource) (etag : String)
    (c : ETagCondition)
    (hu : req.UsePostgres = true) (hv : D.Validate req = none)
    (hq : lookupQuery req .getQ = some q) (hk : lookupWrapper req .getQ = .ret kind)
    (hb : (s.db.beginTx w.pg).1 = none)
    (hread : (s.db.txQueryRow q (keyParams req) (s.db.beginTx w.pg).2).1 = .ok row)
    (hun : D.Unwrap (scanInto kind row) = .ok resource) (het : D.ETag resource = .ok etag)
    (hc : conditions = some c)
    (hpre : D.CheckIfMatch c.IfMatch etag = false ∨ D.CheckIfNoneMatch c.IfNoneMatch etag = false) :
    s.Patch D req wrapper patcher conditions w
      = (.ret (match (s.db.rollback (s.db.txQueryRow q (keyParams req) (s.db.beginTx w.pg).2).2).1 with
            | some t => some (.driver t)
            | none => some (.ErrPreconditionFailed (D.StoreKey req))),
          { pg := (s.db.rollback (s.db.txQueryRow q (keyParams req) (s.db.beginTx w.pg).2).2).2,
            etcd := w.etcd,
            log := w.log ++ [.Begin, .TxQueryRow q (keyParams req), .Rollback] })
    ∧ (∀ patcher1 : Patcher, s.Patch D req wrapper patcher1 conditions w
        = s.Patch D req wrapper patcher conditions w)
    ∧ (∀ (κ : Type) (stored : σ → κ), s.db.Atomic stored →
        stored (s.Patch D req wrapper patcher conditions w).2.pg = stored w.pg) := by
  have hstep : ∀ p : Patcher, patchPrepare D req (scanInto kind row) p conditions
      = .error (.ErrPreconditionFailed (D.StoreKey req)) := by
    intro p
    unfold patchPrepare
    rw [hun]
    simp only []
    rw [het, hc]
    simp only []
    rcases hpre with h | h <;> simp [h]
  have hrun := fun p : Patcher =>
    patch_step_fails s D req wrapper p conditions w q kind row _ hu hv hq hk hb hread (hstep p)
  refine ⟨hrun patcher, ?_, ?_⟩
  · intro p
    rw [hrun p, hrun patcher]
  · intro κ stored ha
    rw [hrun patcher]
    simp only []
    rw [ha.rollback, ha.txQueryRow, ha.beginTx]

/-- Witness of C6: Patch of the stored entity state foo with an ifMatch that is not its
ETag; the committed database is the same after the call. -/
theorem C6_precondition_failed_witness :
    fooStateReq.UsePostgres = true ∧ plainDeps.Validate fooStateReq = none
    ∧ lookupQuery fooStateReq .getQ = some .getEntityStateQuery
    ∧ (entityStateStore.db.txQueryRow .getEntityStateQuery (keyParams fooStateReq)
        (entityStateStore.db.beginTx fooWorld.pg).2).1 = .ok fooStateRow
    ∧ plainDeps.CheckIfMatch staleCondition.IfMatch "foo" = false
    ∧ (entityStateStore.Patch plainDeps fooStateReq (.pg fooWrapper) (fun b => .ok b)
        (some staleCondition) fooWorld).2.pg.committed = fooWorld.pg.committed :=
  ⟨rfl, by decide, by decide, by rfl, by decide,
    (C6_precondition_failed entityStateStore plainDeps fooStateReq (.pg fooWrapper)
      (fun b => .ok b) (some staleCondition) fooWorld .getEntityStateQuery .EntityStateWrapper
      fooStateRow { type := .EntityState, content := "foo" } "foo" staleCondition
      rfl (by decide) (by decide) (by decide) rfl (by rfl) (by rfl) (by rfl) rfl
      (Or.inl (by decide))).2.2 _ (fun st => st.committed) (txPg_atomic _)⟩

/-- Counterexample to C6 as stated: the preconditions fail and the rollback fails too;
Patch then returns the error of the rollback, not PreconditionFailed. -/
theorem C6_counterexample :
    plainDeps.CheckIfMatch staleCondition.IfMatch "foo" = false
    ∧ ((scriptedStore { okScript with rollbackResult := some (.other "conn closed") }).Patch
        plainDeps pgReq (.pg fooWrapper) (fun b => .ok b) (some staleCondition) world0).1
      = .ret (some (.driver (.other "conn closed")))
    ∧ ((scriptedStore { okScript with rollbackResult := some (.other "conn closed") }).Patch
        plainDeps pgReq (.pg fooWrapper) (fun b => .ok b) (some staleCondition) world0).2.log
      = [.Begin, .TxQueryRow .getEntityConfigQuery [.text "default", .text "foo"], .Rollback] := by
  decide

/-- C7: Patch on the relational path with a valid request of a known store kind and an
opened transaction. If a step after the opening fails, that is the read of the stored row
fails, or a step between the read and the upsert fails (decode, ETag, precondition,
marshal, patch engine, unmarshal, validation, re-wrap), or the upsert fails, then Patch
returns an error, the calls it made are Begin, the read, possibly the upsert, and
Rollback, with no Commit; and on a driver that keeps the stored data fixed until Commit
the stored data is the same after the call as before it. -/
theorem C7_patch_failure_rolls_back (s : StoreV2 σ τ) (D : Deps) (req : ResourceRequest)
    (wrapper : Wrapper) (patcher : Patcher) (conditions : Option ETagCondition) (w : World σ τ)
    (q : Query) (kind : WrapperKind)
    (hu : req.UsePostgres = true) (hv : D.Validate req = none)
    (hq : lookupQuery req .getQ = some q) (hk : lookupWrapper req .getQ = .ret kind)
    (hb : (s.db.beginTx w.pg).1 = none)
    (hfail :
      (∃ err, (s.db.txQueryRow q (keyParams req) (s.db.beginTx w.pg).2).1 = .error err)
      ∨ (∃ row e, (s.db.txQueryRow q (keyParams req) (s.db.beginTx w.pg).2).1 = .ok row
          ∧ patchPrepare D req (scanInto kind row) patcher conditions = .error e)
      ∨ (∃ row uq ups err, (s.db.txQueryRow q (keyParams req) (s.db.beginTx w.pg).2).1 = .ok row
          ∧ patchPrepare D req (scanInto kind row) patcher conditions = .ok (uq, ups)
          ∧ (s.db.txExec uq ups (s.db.txQueryRow q (keyParams req) (s.db.beginTx w.pg).2).2).1
              = .error err)) :
    (∃ e, (s.Patch D req wrapper patcher conditions w).1 = .ret (some e))
    ∧ (∃ x, (x = [] ∨ ∃ uq ups, x = [DbEvent.TxExec uq ups])
        ∧ (s.Patch D req wrapper patcher conditions w).2.log
            = w.log ++ [.Begin, .TxQueryRow q (keyParams req)] ++ x ++ [.Rollback])
    ∧ (∀ (κ : Type) (stored : σ → κ), s.db.Atomic stored →
        stored (s.Patch D req wrapper patcher conditions w).2.pg = stored w.pg) := by
  rcases hfail with ⟨err, hread⟩ | ⟨row, e, hread, hstep⟩ | ⟨row, uq, ups, err, hread, hstep, hex⟩
  · rw [patch_read_fails s D req wrapper patcher conditions w q err hu hv hq hb hread]
    refine ⟨?_, ⟨[], Or.inl rfl, by simp⟩, ?_⟩
    · cases (s.db.rollback (s.db.txQueryRow q (keyParams req) (s.db.beginTx w.pg).2).2).1 with
      | some t => exact ⟨_, rfl⟩
      | none => exact ⟨_, rfl⟩
    · intro κ stored ha
      simp only []
      rw [ha.rollback, ha.txQueryRow, ha.beginTx]
  · rw [patch_step_fails s D req wrapper patcher conditions w q kind row e hu hv hq hk hb hread hstep]
    refine ⟨?_, ⟨[], Or.inl rfl, by simp⟩, ?_⟩
    · cases (s.db.rollback (s.db.txQueryRow q (keyParams req) (s.db.beginTx w.pg).2).2).1 with
      | some t => exact ⟨_, rfl⟩
      | none => exact ⟨_, rfl⟩
    · intro κ stored ha
      simp only []
      rw [ha.rollback, ha.txQueryRow, ha.beginTx]
  · rw [patch_upsert s D req wrapper patcher conditions w q kind row uq ups hu hv hq hk hb hread
      hstep, hex]
    simp only []
    refine ⟨?_, ⟨[.TxExec uq ups], Or.inr ⟨uq, ups, rfl⟩, by simp⟩, ?_⟩
    · cases (s.db.rollback (s.db.txExec uq ups
          (s.db.txQueryRow q (keyParams req) (s.db.beginTx w.pg).2).2).2).1 with
      | some t => exact ⟨_, rfl⟩
      | none => exact ⟨_, rfl⟩
    · intro κ stored ha
      rw [ha.rollback, ha.txExec, ha.txQueryRow, ha.beginTx]

/-- Witness of C7: Patch of an entity state that is not stored; the read finds no row,
the transaction is rolled back and the committed database is unchanged. -/
theorem C7_patch_failure_rolls_back_witness :
    missingStateReq.UsePostgres = true ∧ plainDeps.Validate missingStateReq = none
    ∧ (entityStateStore.db.beginTx fooWorld.pg).1 = none
    ∧ (entityStateStore.db.txQueryRow .getEntityStateQuery (keyParams missingStateReq)
        (entityStateStore.db.beginTx fooWorld.pg).2).1 = .error .ErrNoRows
    ∧ (entityStateStore.Patch plainDeps missingStateReq (.pg fooWrapper) (fun b => .ok b) none
        fooWorld).2.pg.committed = fooWorld.pg.committed :=
  ⟨rfl, by decide, rfl, by rfl,
    (C7_patch_failure_rolls_back entityStateStore plainDeps missingStateReq (.pg fooWrapper)
      (fun b => .ok b) none fooWorld .getEntityStateQuery .EntityStateWrapper
      rfl (by decide) (by decide) (by decide) rfl (Or.inl ⟨.ErrNoRows, by rfl⟩)).2.2
      _ (fun st => st.committed) (txPg_atomic _)⟩

/-- C8: in every run of Patch the calls it makes either contain no statement that writes
(no Exec on the pool and none on the transaction), or they are exactly Begin, the read of
the stored row, one upsert and then Commit or Rollback, all on the one transaction; and
in that case the patched bytes were decoded back into the resource, the validation of
that resource returned no error, and the parameters of the upsert are those of the
re-wrapping of that same resource. -/
theorem C8_patch_writes_only_validated (s : StoreV2 σ τ) (D : Deps) (req : ResourceRequest)
    (wrapper : Wrapper) (patcher : Patcher) (conditions : Option ETagCondition) (w : World σ τ) :
    ∃ l, (s.Patch D req wrapper patcher conditions w).2.log = w.log ++ l
      ∧ ((∀ q ps, DbEvent.TxExec q ps ∉ l ∧ DbEvent.Exec q ps ∉ l)
        ∨ ∃ q kind row resource original patched resource1 pwrap uq,
            lookupQuery req .getQ = some q ∧ lookupWrapper req .getQ = .ret kind
            ∧ (s.db.txQueryRow q (keyParams req) (s.db.beginTx w.pg).2).1 = .ok row
            ∧ D.Unwrap (scanInto kind row) = .ok resource
            ∧ D.Marshal resource = .ok original ∧ patcher original = .ok patched
            ∧ D.Unmarshal patched resource = .ok resource1
            ∧ D.ResourceValidate resource1 = none
            ∧ wrapWithPostgres D resource1 = .ok (.pg pwrap)
            ∧ lookupQuery req .createOrUpdateQ = some uq
            ∧ (l = [.Begin, .TxQueryRow q (keyParams req), .TxExec uq pwrap.SQLParams, .Commit]
              ∨ l = [.Begin, .TxQueryRow q (keyParams req), .TxExec uq pwrap.SQLParams,
                      .Rollback])) := by
  cases hu : req.UsePostgres with
  | false => exact ⟨[], by simp [StoreV2.Patch, hu, onEtcd], Or.inl (by simp)⟩
  | true =>
    cases hv : D.Validate req with
    | some msg => exact ⟨[], by simp [StoreV2.Patch, hu, hv], Or.inl (by simp)⟩
    | none =>
      cases hq : lookupQuery req .getQ with
      | none => exact ⟨[], by simp [StoreV2.Patch, hu, hv, hq], Or.inl (by simp)⟩
      | some q =>
        obtain ⟨kind, hk⟩ := lookupWrapper_of_lookupQuery req .getQ .getQ q hq
        cases hb : (s.db.beginTx w.pg).1 with
        | some err =>
          refine ⟨[.Begin], ?_, Or.inl (by simp)⟩
          have hbb : (dbBegin s w).1 = some err := by simpa [dbBegin] using hb
          have hl := dbBegin_log s w
          unfold StoreV2.Patch
          simp only [hu, hv, hq, hk, Bool.not_true, Bool.false_eq_true, if_false]
          generalize dbBegin s w = b at hbb hl
          obtain ⟨res, w1⟩ := b
          simp only [] at hbb hl
          subst hbb
          exact hl.1
        | none =>
          cases hread : (s.db.txQueryRow q (keyParams req) (s.db.beginTx w.pg).2).1 with
          | error err =>
            rw [patch_read_fails s D req wrapper patcher conditions w q err hu hv hq hb hread]
            exact ⟨[.Begin, .TxQueryRow q (keyParams req), .Rollback], rfl, Or.inl (by simp)⟩
          | ok row =>
            cases hstep : patchPrepare D req (scanInto kind row) patcher conditions with
            | error e =>
              rw [patch_step_fails s D req wrapper patcher conditions w q kind row e hu hv hq hk hb
                hread hstep]
              exact ⟨[.Begin, .TxQueryRow q (keyParams req), .Rollback], rfl, Or.inl (by simp)⟩
            | ok x =>
              obtain ⟨uq, ups⟩ := x
              obtain ⟨resource, etag, original, patched, resource1, pwrap, h1, -, -, h4, h5, h6,
                h7, h8, h9, h10⟩ := patchPrepare_ok D req _ patcher conditions uq ups hstep
              subst h10
              rw [patch_upsert s D req wrapper patcher conditions w q kind row uq _ hu hv hq hk hb
                hread hstep]
              cases (s.db.txExec uq pwrap.SQLParams
                  (s.db.txQueryRow q (keyParams req) (s.db.beginTx w.pg).2).2).1 with
              | error err =>
                exact ⟨_, rfl, Or.inr ⟨q, kind, row, resource, original, patched, resource1, pwrap,
                  uq, rfl, hk, hread, h1, h4, h5, h6, h7, h8, h9, Or.inr rfl⟩⟩
              | ok n =>
                exact ⟨_, rfl, Or.inr ⟨q, kind, row, resource, original, patched, resource1, pwrap,
                  uq, rfl, hk, hread, h1, h4, h5, h6, h7, h8, h9, Or.inl rfl⟩⟩

/-! ### Go maps as association lists -/

theorem mapGet_mapSet {κ ν : Type} [DecidableEq κ] (m : List (κ × ν)) (k k1 : κ) (v : ν) :
    mapGet (mapSet m k v) k1 = if k = k1 then some v else mapGet m k1 := by
  induction m with
  | nil => simp [mapSet, mapGet]
  | cons p rest ih =>
    obtain ⟨k2, v2⟩ := p
    simp only [mapSet]
    by_cases h : k2 = k
    · subst h
      simp only [if_true, mapGet]
      split_ifs <;> rfl
    · simp only [h, if_false, mapGet, ih]
      by_cases h2 : k2 = k1
      · subst h2
        simp [Ne.symm h]
      · simp [h2]

theorem mapSet_keys {κ ν : Type} [DecidableEq κ] (m : List (κ × ν)) (k : κ) (v : ν) :
    (mapSet m k v).map Prod.fst
      = if k ∈ m.map Prod.fst then m.map Prod.fst else m.map Prod.fst ++ [k] := by
  induction m with
  | nil => simp [mapSet]
  | cons p rest ih =>
    obtain ⟨k2, v2⟩ := p
    simp only [mapSet]
    by_cases h : k2 = k
    · subst h
      simp
    · simp only [h, if_false, List.map_cons, ih, List.mem_cons]
      have h3 : ¬ k = k2 := fun e => h e.symm
      by_cases h2 : k ∈ rest.map Prod.fst
      · simp [h2]
      · simp [h2, h3]

theorem mapSet_nodup {κ ν : Type} [DecidableEq κ] (m : List (κ × ν)) (k : κ) (v : ν)
    (h : (m.map Prod.fst).Nodup) : ((mapSet m k v).map Prod.fst).Nodup := by
  rw [mapSet_keys]
  split_ifs with hk
  · exact h
  · exact List.Nodup.append h (List.nodup_singleton k) (by
      intro a ha hb
      rw [List.mem_singleton] at hb
      subst hb
      exact hk ha)

theorem mapGet_of_mem {κ ν : Type} [DecidableEq κ] (m : List (κ × ν)) (k : κ) (v : ν)
    (h : (m.map Prod.fst).Nodup) (hm : (k, v) ∈ m) : mapGet m k = some v := by
  induction m with
  | nil => cases hm
  | cons p rest ih =>
    obtain ⟨k2, v2⟩ := p
    simp only [List.map_cons, List.nodup_cons] at h
    simp only [mapGet]
    rcases List.mem_cons.mp hm with h1 | h1
    · cases h1
      simp
    · have hne : k2 ≠ k := by
        intro e
        subst e
        exact h.1 (List.mem_map.mpr ⟨(k2, v), h1, rfl⟩)
      simp only [hne, if_false]
      exact ih h.2 h1

theorem mem_of_mapGet {κ ν : Type} [DecidableEq κ] (m : List (κ × ν)) (k : κ) (v : ν)
    (h : mapGet m k = some v) : (k, v) ∈ m := by
  induction m with
  | nil => simp [mapGet] at h
  | cons p rest ih =>
    obtain ⟨k2, v2⟩ := p
    simp only [mapGet] at h
    split_ifs at h with hk
    · cases h
      subst hk
      exact List.mem_cons_self _ _
    · exact List.mem_cons_of_mem _ (ih h)

theorem mem_mapRange {α : Type} (seed : Nat) (m : List α) (x : α) :
    x ∈ mapRange seed m ↔ x ∈ m := by
  unfold mapRange
  by_cases h : seed < (m.permutations').length
  · rw [List.getD_eq_getElem _ _ h]
    have hp : (m.permutations')[seed] ∈ m.permutations' := List.getElem_mem h
    exact (List.mem_permutations'.mp hp).mem_iff
  · rw [List.getD_eq_default _ _ (Nat.le_of_not_lt h)]

/-! ### GetMultiple: the result map -/

theorem namesOf_append (P : List ResourceRequest) (r : ResourceRequest) (ns : String) :
    namesOf (P ++ [r]) ns = namesOf P ns ++ (if r.Namespace = ns then [r.Name] else []) := by
  unfold namesOf
  rw [List.filter_append, List.map_append]
  by_cases h : r.Namespace = ns <;> simp [List.filter, h]

theorem lastWithKey_append (P : List ResourceRequest) (r : ResourceRequest) (k : requestKey) :
    lastWithKey (P ++ [r]) k = if keyOf r = k then some r else lastWithKey P k := by
  unfold lastWithKey
  rw [List.filter_append]
  by_cases h : keyOf r = k
  · simp [List.filter, h]
  · simp [List.filter, h]

theorem lastWithKey_some (reqs : List ResourceRequest) (k : requestKey) (r : ResourceRequest)
    (h : lastWithKey reqs k = some r) : r ∈ reqs ∧ keyOf r = k := by
  unfold lastWithKey at h
  have hm := List.mem_of_getLast?_eq_some h
  obtain ⟨h1, h2⟩ := List.mem_filter.mp hm
  exact ⟨h1, by simpa using h2⟩

theorem lastWithKey_unique (reqs : List ResourceRequest) (r : ResourceRequest) (hr : r ∈ reqs)
    (hinj : ∀ r2 ∈ reqs, keyOf r2 = keyOf r → r2 = r) : lastWithKey reqs (keyOf r) = some r := by
  cases h : lastWithKey reqs (keyOf r) with
  | none =>
    unfold lastWithKey at h
    rw [List.getLast?_eq_none_iff] at h
    have hm : r ∈ reqs.filter (fun r2 => keyOf r2 = keyOf r) :=
      List.mem_filter.mpr ⟨hr, by simp⟩
    rw [h] at hm
    cases hm
  | some r2 =>
    obtain ⟨h1, h2⟩ := lastWithKey_some _ _ _ h
    rw [hinj r2 h1 h2]

theorem groupingOf_nil (sn : String) :
    GroupingOf [] sn { storeName := "", keyedResourceRequests := [], namespacedResources := [] } where
  storeName := fun h => absurd rfl h
  nodup := List.nodup_nil
  names := fun ns => by simp [mapGet, namesOf]
  keyed_sound := fun k r h => by simp [mapGet] at h
  keyed_complete := fun r h => by cases h
  keyed_last := fun k => by simp [mapGet, lastWithKey]

theorem groupingOf_step (P : List ResourceRequest) (sn : String) (g : Grouping)
    (r : ResourceRequest) (hg : GroupingOf P sn g) (hr : r.StoreName = sn) (sn1 : String)
    (hs : sn1 = sn) :
    GroupingOf (P ++ [r]) sn
      { storeName := sn1
        keyedResourceRequests := mapSet g.keyedResourceRequests
          { Namespace := r.Namespace, Name := r.Name } r
        namespacedResources :=
          mapSet g.namespacedResources r.Namespace
            ((mapGet g.namespacedResources r.Namespace).getD [] ++ [r.Name]) } where
  storeName := fun _ => hs
  nodup := mapSet_nodup _ _ _ hg.nodup
  names := by
    intro ns
    simp only [mapGet_mapSet, namesOf_append]
    by_cases h : r.Namespace = ns
    · subst h
      simp only [if_true, hg.names]
      by_cases h2 : namesOf P r.Namespace = []
      · simp [h2]
      · simp [h2]
    · simp only [h, if_false, List.append_nil, hg.names]
  keyed_sound := by
    intro k r1 h
    simp only [mapGet_mapSet] at h
    split_ifs at h with hk
    · cases h
      exact ⟨by simp, hk⟩
    · obtain ⟨h1, h2⟩ := hg.keyed_sound k r1 h
      exact ⟨List.mem_append_left _ h1, h2⟩
  keyed_complete := by
    intro r1 h1
    simp only [mapGet_mapSet]
    split_ifs with hk
    · exact ⟨_, rfl⟩
    · rcases List.mem_append.mp h1 with h2 | h2
      · exact hg.keyed_complete r1 h2
      · rw [List.mem_singleton] at h2
        subst h2
        exact absurd rfl hk
  keyed_last := by
    intro k
    rw [mapGet_mapSet, lastWithKey_append, hg.keyed_last]
    rfl

/-- The first loop of GetMultiple on valid requests of one store kind ends without error
and describes all requests. -/
theorem groupRequests_ok (D : Deps) (sn : String) (rest : List ResourceRequest) :
    ∀ (P : List ResourceRequest) (g : Grouping),
      (∀ r ∈ rest, D.Validate r = none) → (∀ r ∈ rest, r.StoreName = sn) →
      GroupingOf P sn g →
      ∃ g1, groupRequests D P.length rest g = .ret (.ok g1) ∧ GroupingOf (P ++ rest) sn g1 := by
  induction rest with
  | nil =>
    intro P g _ _ hg
    exact ⟨g, rfl, by simpa using hg⟩
  | cons r rest ih =>
    intro P g hv hs hg
    have hvr := hv r (List.mem_cons_self _ _)
    have hsr := hs r (List.mem_cons_self _ _)
    have hsn1 : (if P.length = 0 then r.StoreName else g.storeName) = sn := by
      split_ifs with h0
      · exact hsr
      · exact hg.storeName (by intro e; subst e; exact h0 rfl)
    simp only [groupRequests, hvr]
    rw [hsn1]
    simp only [hsr, ne_eq, not_true_eq_false, if_false]
    have hstep := groupingOf_step P sn g r hg hsr sn rfl
    obtain ⟨g1, h1, h2⟩ := ih (P ++ [r]) _ (fun x hx => hv x (List.mem_cons_of_mem _ hx))
      (fun x hx => hs x (List.mem_cons_of_mem _ hx)) hstep
    refine ⟨g1, ?_, by simpa using h2⟩
    rw [← h1]
    simp

theorem mapGet_mapSet_isSome {κ ν : Type} [DecidableEq κ] (m : List (κ × ν)) (k k1 : κ) (v : ν)
    (h : (mapGet m k1).isSome) : (mapGet (mapSet m k v) k1).isSome := by
  rw [mapGet_mapSet]
  split_ifs
  · rfl
  · exact h

/-- The row loop of GetMultiple for one group whose rows all scan and all have a keyed
request: it ends without error; it keeps every entry it started with, adds an entry for
the keyed request of every row, and every entry it holds at the end was there before or
comes from a row. -/
theorem scanGroupRows_ok (req0 : ResourceRequest) (keyed : List (requestKey × ResourceRequest))
    (ns : String) (kind : WrapperKind) (hk : lookupWrapper req0 .getMultipleQ = .ret kind)
    (rows : List Row) :
    ∀ (m : ResultMap),
      (∀ row ∈ rows, ∃ r, mapGet keyed { Namespace := ns, Name := row.Name } = some r) →
      ∃ m1, scanGroupRows req0 keyed ns (rows.map RowOutcome.row) m = .ret (.ok m1)
        ∧ (∀ r, (mapGet m r).isSome → (mapGet m1 r).isSome)
        ∧ (∀ row ∈ rows, ∀ r, mapGet keyed { Namespace := ns, Name := row.Name } = some r →
            (mapGet m1 r).isSome)
        ∧ (∀ r x, mapGet m1 r = some x → mapGet m r = some x
            ∨ ∃ row ∈ rows, mapGet keyed { Namespace := ns, Name := row.Name } = some r
                ∧ x = .pg (scanInto kind row)) := by
  induction rows with
  | nil =>
    intro m _
    exact ⟨m, rfl, fun r h => h, fun row h => (by cases h), fun r x h => Or.inl h⟩
  | cons row rest ih =>
    intro m hrows
    obtain ⟨r0, hr0⟩ := hrows row (List.mem_cons_self _ _)
    simp only [List.map_cons, scanGroupRows, hk, scanInto, PgWrapper.GetName, hr0]
    obtain ⟨m1, h1, h2, h3, h4⟩ := ih (mapSet m r0 (.pg (scanInto kind row)))
      (fun x hx => hrows x (List.mem_cons_of_mem _ hx))
    simp only [scanInto] at h1 h4
    refine ⟨m1, h1, ?_, ?_, ?_⟩
    · intro r hr
      exact h2 r (mapGet_mapSet_isSome _ _ _ _ hr)
    · intro row1 hrow1 r hr
      rcases List.mem_cons.mp hrow1 with h | h
      · subst h
        rw [hr0] at hr
        cases hr
        apply h2
        rw [mapGet_mapSet]
        simp
      · exact h3 row1 h r hr
    · intro r x hx
      rcases h4 r x hx with h | ⟨row1, hrow1, h5, h6⟩
      · rw [mapGet_mapSet] at h
        split_ifs at h with he
        · cases h
          subst he
          exact Or.inr ⟨row, List.mem_cons_self _ _, hr0, rfl⟩
        · exact Or.inl h
      · exact Or.inr ⟨row1, List.mem_cons_of_mem _ hrow1, h5, h6⟩

/-- The second loop of GetMultiple on a driver that, in every state of the open
transaction (`Inv`), answers the query of each group with rows that scan and stays in
such a state: it ends without error and in such a state, and the entries of the result
are the entries it started with and, for every row of every group, an entry for the
keyed request of the row. -/
theorem queryGroups_ok (s : StoreV2 σ τ) (req0 : ResourceRequest) (tl : List ResourceRequest)
    (sn : String) (keyed : List (requestKey × ResourceRequest)) (q : Query) (kind : WrapperKind)
    (Inv : σ → Prop) (rowsOf : String → List Row)
    (hq : lookupQuery req0 .getMultipleQ = some q)
    (hk : lookupWrapper req0 .getMultipleQ = .ret kind)
    (gs : List (String × List String)) :
    ∀ (m : ResultMap) (w : World σ τ), Inv w.pg →
      (∀ g ∈ gs, ∀ st, Inv st →
        (s.db.txQuery q (groupArgs sn g.1 g.2) st).1 = .ok ((rowsOf g.1).map RowOutcome.row)
        ∧ Inv (s.db.txQuery q (groupArgs sn g.1 g.2) st).2) →
      (∀ g ∈ gs, ∀ row ∈ rowsOf g.1,
        ∃ r, mapGet keyed { Namespace := g.1, Name := row.Name } = some r) →
      ∃ m1, (queryGroups s (req0 :: tl) sn keyed gs m w).1 = .ret (.ok m1)
        ∧ Inv (queryGroups s (req0 :: tl) sn keyed gs m w).2.pg
        ∧ (∀ r, (mapGet m r).isSome → (mapGet m1 r).isSome)
        ∧ (∀ g ∈ gs, ∀ row ∈ rowsOf g.1, ∀ r,
            mapGet keyed { Namespace := g.1, Name := row.Name } = some r → (mapGet m1 r).isSome)
        ∧ (∀ r x, mapGet m1 r = some x → mapGet m r = some x
            ∨ ∃ g ∈ gs, ∃ row ∈ rowsOf g.1,
                mapGet keyed { Namespace := g.1, Name := row.Name } = some r
                ∧ x = .pg (scanInto kind row)) := by
  induction gs with
  | nil =>
    intro m w hinv _ _
    exact ⟨m, rfl, hinv, fun r h => h, fun g h => (by cases h), fun r x h => Or.inl h⟩
  | cons g rest ih =>
    intro m w hinv hrows hg
    obtain ⟨ns, names⟩ := g
    simp only [queryGroups, hq]
    obtain ⟨hr0, hinv0⟩ := hrows (ns, names) (List.mem_cons_self _ _) w.pg hinv
    have hr : (txQuery s q (groupArgs sn ns names) w).1
        = .ok ((rowsOf ns).map RowOutcome.row) := by
      simpa [txQuery] using hr0
    have hinv1 : Inv (txQuery s q (groupArgs sn ns names) w).2.pg := by
      simpa [txQuery] using hinv0
    generalize txQuery s q (groupArgs sn ns names) w = res at hr hinv1
    obtain ⟨rs, w1⟩ := res
    simp only [] at hr hinv1
    subst hr
    simp only []
    obtain ⟨m1, h1, h2, h3, h4⟩ := scanGroupRows_ok req0 keyed ns kind hk
      (rowsOf ns) m (hg (ns, names) (List.mem_cons_self _ _))
    rw [h1]
    simp only []
    obtain ⟨m2, k1, kinv, k2, k3, k4⟩ := ih m1 w1 hinv1
      (fun x hx => hrows x (List.mem_cons_of_mem _ hx))
      (fun x hx => hg x (List.mem_cons_of_mem _ hx))
    refine ⟨m2, k1, kinv, fun r hr => k2 r (h2 r hr), ?_, ?_⟩
    · intro g1 hg1 row hrow r hr
      rcases List.mem_cons.mp hg1 with h | h
      · subst h
        exact k2 r (h3 row hrow r hr)
      · exact k3 g1 h row hrow r hr
    · intro r x hx
      rcases k4 r x hx with h | ⟨g1, hg1, row, hrow, h5, h6⟩
      · rcases h4 r x h with h7 | ⟨row, hrow, h5, h6⟩
        · exact Or.inl h7
        · exact Or.inr ⟨(ns, names), List.mem_cons_self _ _, row, hrow, h5, h6⟩
      · exact Or.inr ⟨g1, List.mem_cons_of_mem _ hg1, row, hrow, h5, h6⟩

theorem mem_namesOf (reqs : List ResourceRequest) (ns name : String) :
    name ∈ namesOf reqs ns ↔ ∃ r ∈ reqs, r.Namespace = ns ∧ r.Name = name := by
  simp [namesOf, and_assoc]

theorem group_mem_iff (reqs : List ResourceRequest) (sn : String) (g : Grouping)
    (hg : GroupingOf reqs sn g) (ns : String) (names : List String) :
    (ns, names) ∈ g.namespacedResources ↔ names = namesOf reqs ns ∧ namesOf reqs ns ≠ [] := by
  constructor
  · intro h
    have h1 := mapGet_of_mem _ _ _ hg.nodup h
    rw [hg.names] at h1
    split_ifs at h1 with h2
    cases h1
    exact ⟨rfl, h2⟩
  · rintro ⟨h1, h2⟩
    apply mem_of_mapGet
    rw [hg.names, h1]
    simp [h2]

theorem lookupWrapper_congr (r1 r2 : ResourceRequest) (op1 op2 : crudOp)
    (h : r1.StoreName = r2.StoreName) : lookupWrapper r1 op1 = lookupWrapper r2 op2 := by
  simp only [lookupWrapper, h]

/-- C10 (as amended): a batch of valid requests of one known store kind, on a driver that
opens the transaction and, in every state of the open transaction (`Inv`), answers the
query of each namespace group of the batch with rows that scan (`rowsOf` of the
namespace), all with a name requested in that group, stays in such a state, and commits.
GetMultiple returns no error and a map that has an entry for a descriptor exactly when
the descriptor is the last one of the batch with its (namespace, name) and the driver
returned a row with that name in the group of that namespace; so a requested key without
a row is absent, and of several descriptors with one key only the last can have an entry.
A descriptor of the batch whose key no other descriptor of the batch has is the last one
with its key. The value of an entry is the wrapper scanned from such a row. -/
theorem C10_getMultiple_result (s : StoreV2 σ τ) (D : Deps) (seed : Nat)
    (reqs : List ResourceRequest) (w : World σ τ) (sn : String) (q : Query)
    (Inv : σ → Prop) (rowsOf : String → List Row)
    (hvalid : ∀ r ∈ reqs, D.Validate r = none)
    (hkind : ∀ r ∈ reqs, r.StoreName = sn ∧ lookupQuery r .getMultipleQ = some q)
    (hb : (s.db.beginTx w.pg).1 = none ∧ Inv (s.db.beginTx w.pg).2)
    (hrows : ∀ r ∈ reqs, ∀ st, Inv st →
      (s.db.txQuery q (groupArgs sn r.Namespace (namesOf reqs r.Namespace)) st).1
        = .ok ((rowsOf r.Namespace).map RowOutcome.row)
      ∧ Inv (s.db.txQuery q (groupArgs sn r.Namespace (namesOf reqs r.Namespace)) st).2)
    (hsound : ∀ r ∈ reqs, ∀ row ∈ rowsOf r.Namespace, row.Name ∈ namesOf reqs r.Namespace)
    (hc : ∀ st, Inv st → (s.db.commit st).1 = none) :
    ∃ m, (s.GetMultiple D seed reqs w).1 = .ret (some m, none)
      ∧ (∀ r, (mapGet m r).isSome ↔
          lastWithKey reqs (keyOf r) = some r ∧ ∃ row ∈ rowsOf r.Namespace, row.Name = r.Name)
      ∧ (∀ r, lastWithKey reqs (keyOf r) = some r → r ∈ reqs)
      ∧ (∀ r ∈ reqs, (∀ r2 ∈ reqs, keyOf r2 = keyOf r → r2 = r) →
          lastWithKey reqs (keyOf r) = some r)
      ∧ (∀ r1 ∈ reqs, ∀ r2, keyOf r1 = keyOf r2 → (mapGet m r1).isSome →
          (mapGet m r2).isSome → r1 = r2)
      ∧ (∀ r x, mapGet m r = some x →
          ∃ kind row, lookupWrapper r .getMultipleQ = .ret kind
            ∧ row ∈ rowsOf r.Namespace ∧ row.Name = r.Name ∧ x = .pg (scanInto kind row)) := by
  have hbb : (dbBegin s w).1 = none := by simpa [dbBegin] using hb.1
  have hbi : Inv (dbBegin s w).2.pg := by simpa [dbBegin] using hb.2
  unfold StoreV2.GetMultiple
  generalize dbBegin s w = b at hbb hbi
  obtain ⟨res, w1⟩ := b
  simp only [] at hbb hbi
  subst hbb
  simp only []
  unfold getMultipleBody
  obtain ⟨g1, hg1, hG⟩ := groupRequests_ok D sn reqs [] _ hvalid (fun r hr => (hkind r hr).1)
    (groupingOf_nil sn)
  simp only [List.length_nil, List.nil_append] at hg1 hG
  rw [hg1]
  simp only []
  have hlast1 : ∀ r, lastWithKey reqs (keyOf r) = some r → r ∈ reqs :=
    fun r h => (lastWithKey_some _ _ _ h).1
  have hlast2 : ∀ r ∈ reqs, (∀ r2 ∈ reqs, keyOf r2 = keyOf r → r2 = r) →
      lastWithKey reqs (keyOf r) = some r := fun r hr h => lastWithKey_unique reqs r hr h
  cases reqs with
  | nil =>
    have hn : g1.namespacedResources = [] := by
      cases hm : g1.namespacedResources with
      | nil => rfl
      | cons x rest =>
        obtain ⟨ns, names⟩ := x
        have := (group_mem_iff [] sn g1 hG ns names).mp (by rw [hm]; exact List.mem_cons_self _ _)
        exact absurd (by simp [namesOf]) this.2
    have hr : mapRange seed g1.namespacedResources = [] := by
      cases hm : mapRange seed g1.namespacedResources with
      | nil => rfl
      | cons x rest =>
        have := (mem_mapRange seed g1.namespacedResources x).mp (by rw [hm]; exact List.mem_cons_self _ _)
        rw [hn] at this
        cases this
    rw [hr]
    simp only [queryGroups]
    have hcc : (txCommit s w1).1 = none := by simpa [txCommit] using hc w1.pg hbi
    generalize txCommit s w1 = c at hcc
    obtain ⟨cr, w2⟩ := c
    simp only [] at hcc
    subst hcc
    refine ⟨[], rfl, ?_, hlast1, hlast2, ?_, ?_⟩
    · intro r
      simp [mapGet, lastWithKey]
    · intro r1 hr1
      cases hr1
    · simp [mapGet]
  | cons req0 tl =>
    have hq0 := (hkind req0 (List.mem_cons_self _ _)).2
    have hs0 := (hkind req0 (List.mem_cons_self _ _)).1
    obtain ⟨kind, hk⟩ := lookupWrapper_of_lookupQuery req0 .getMultipleQ .getMultipleQ q hq0
    have hsn : g1.storeName = sn := hG.storeName (by simp)
    rw [hsn]
    have hgroups : ∀ g ∈ mapRange seed g1.namespacedResources,
        g.2 = namesOf (req0 :: tl) g.1 ∧ ∃ r ∈ req0 :: tl, r.Namespace = g.1 := by
      intro g hg
      obtain ⟨ns, names⟩ := g
      have h1 := (group_mem_iff _ sn g1 hG ns names).mp ((mem_mapRange _ _ _).mp hg)
      refine ⟨h1.1, ?_⟩
      obtain ⟨name, hname⟩ := List.exists_mem_of_ne_nil _ h1.2
      obtain ⟨r, hr, hrn, -⟩ := (mem_namesOf _ _ _).mp hname
      exact ⟨r, hr, hrn⟩
    have hpre : ∀ g ∈ mapRange seed g1.namespacedResources, ∀ row ∈ rowsOf g.1,
        ∃ r, mapGet g1.keyedResourceRequests { Namespace := g.1, Name := row.Name } = some r := by
      intro g hg row hrow
      obtain ⟨h1, r, hr, hrn⟩ := hgroups g hg
      rw [← hrn] at hrow
      have h2 := hsound r hr row hrow
      obtain ⟨r2, hr2, hns2, hname2⟩ := (mem_namesOf _ _ _).mp h2
      obtain ⟨r3, hr3⟩ := hG.keyed_complete r2 hr2
      refine ⟨r3, ?_⟩
      rw [← hr3, keyOf, hns2, hname2, hrn]
    have hq1 : ∀ g ∈ mapRange seed g1.namespacedResources, ∀ st, Inv st →
        (s.db.txQuery q (groupArgs sn g.1 g.2) st).1 = .ok ((rowsOf g.1).map RowOutcome.row)
        ∧ Inv (s.db.txQuery q (groupArgs sn g.1 g.2) st).2 := by
      intro g hg st hst
      obtain ⟨h1, r, hr, hrn⟩ := hgroups g hg
      rw [h1, ← hrn]
      exact hrows r hr st hst
    obtain ⟨m1, k1, kinv, -, k3, k4⟩ := queryGroups_ok s req0 tl sn g1.keyedResourceRequests q
      kind Inv rowsOf hq0 hk (mapRange seed g1.namespacedResources) [] w1 hbi hq1 hpre
    generalize queryGroups s (req0 :: tl) sn g1.keyedResourceRequests
      (mapRange seed g1.namespacedResources) [] w1 = qr at k1 kinv
    obtain ⟨qres, w2⟩ := qr
    simp only [] at k1 kinv
    subst k1
    simp only []
    have hcc : (txCommit s w2).1 = none := by simpa [txCommit] using hc w2.pg kinv
    generalize txCommit s w2 = c at hcc
    obtain ⟨cr, w3⟩ := c
    simp only [] at hcc
    subst hcc
    have hentry : ∀ r x, mapGet m1 r = some x →
        lastWithKey (req0 :: tl) (keyOf r) = some r
          ∧ ∃ row ∈ rowsOf r.Namespace, row.Name = r.Name ∧ x = .pg (scanInto kind row) := by
      intro r x hx
      rcases k4 r x hx with h | ⟨g, hg, row, hrow, h5, h6⟩
      · simp [mapGet] at h
      · obtain ⟨h7, h8⟩ := hG.keyed_sound _ _ h5
        have hns : r.Namespace = g.1 := by
          have := congrArg requestKey.Namespace h8
          simpa [keyOf] using this
        have hname : r.Name = row.Name := by
          have := congrArg requestKey.Name h8
          simpa [keyOf] using this
        refine ⟨?_, row, ?_, hname.symm, h6⟩
        · rw [← hG.keyed_last, h8]
          exact h5
        · rw [hns]
          exact hrow
    have hiff : ∀ r, (mapGet m1 r).isSome ↔
        lastWithKey (req0 :: tl) (keyOf r) = some r
          ∧ ∃ row ∈ rowsOf r.Namespace, row.Name = r.Name := by
      intro r
      constructor
      · intro hsome
        obtain ⟨x, hx⟩ := Option.isSome_iff_exists.mp hsome
        obtain ⟨h1, row, h2, h3, -⟩ := hentry r x hx
        exact ⟨h1, row, h2, h3⟩
      · rintro ⟨hl, row, hrow, hname⟩
        have hr := hlast1 r hl
        have hmem : (r.Namespace, namesOf (req0 :: tl) r.Namespace) ∈
            mapRange seed g1.namespacedResources := by
          rw [mem_mapRange]
          apply (group_mem_iff _ sn g1 hG _ _).mpr
          refine ⟨rfl, ?_⟩
          intro hnil
          have : r.Name ∈ namesOf (req0 :: tl) r.Namespace :=
            (mem_namesOf _ _ _).mpr ⟨r, hr, rfl, rfl⟩
          rw [hnil] at this
          cases this
        apply k3 _ hmem row hrow r
        rw [hG.keyed_last, ← hl, keyOf, hname]
    refine ⟨m1, rfl, hiff, hlast1, hlast2, ?_, ?_⟩
    · intro r1 _ r2 hkey h1 h2
      have l1 := ((hiff r1).mp h1).1
      have l2 := ((hiff r2).mp h2).1
      rw [hkey, l2] at l1
      exact (Option.some.inj l1).symm
    · intro r x hx
      obtain ⟨h1, row, h2, h3, h4⟩ := hentry r x hx
      refine ⟨kind, row, ?_, h2, h3, h4⟩
      rw [← hk]
      exact lookupWrapper_congr _ _ _ _ (by rw [(hkind r (hlast1 r h1)).1, hs0])

/-- Witness of C10: the batch `mixedBatch` on the transactional driver over `fooAndBar`.
The state of the open transaction is `insideFooAndBar` throughout. -/
theorem C10_getMultiple_result_witness :
    (∀ r ∈ mixedBatch, plainDeps.Validate r = none)
    ∧ (∀ r ∈ mixedBatch, r.StoreName = entityStateStoreName
        ∧ lookupQuery r .getMultipleQ = some .getEntityStatesQuery)
    ∧ ((entityStoreOver noStmts emptyEtcd).db.beginTx (worldOf fooAndBar).pg).2 = insideFooAndBar
    ∧ (∀ r ∈ mixedBatch, ∀ row ∈ mixedBatchRows r.Namespace,
        row.Name ∈ namesOf mixedBatch r.Namespace)
    ∧ ∃ m, ((entityStoreOver noStmts emptyEtcd).GetMultiple plainDeps 0 mixedBatch
          (worldOf fooAndBar)).1 = .ret (some m, none)
      ∧ (∀ r, (mapGet m r).isSome ↔
          lastWithKey mixedBatch (keyOf r) = some r
            ∧ ∃ row ∈ mixedBatchRows r.Namespace, row.Name = r.Name)
      ∧ (∀ r, lastWithKey mixedBatch (keyOf r) = some r → r ∈ mixedBatch)
      ∧ (∀ r ∈ mixedBatch, (∀ r2 ∈ mixedBatch, keyOf r2 = keyOf r → r2 = r) →
          lastWithKey mixedBatch (keyOf r) = some r)
      ∧ (∀ r1 ∈ mixedBatch, ∀ r2, keyOf r1 = keyOf r2 → (mapGet m r1).isSome →
          (mapGet m r2).isSome → r1 = r2)
      ∧ (∀ r x, mapGet m r = some x →
          ∃ kind row, lookupWrapper r .getMultipleQ = .ret kind
            ∧ row ∈ mixedBatchRows r.Namespace ∧ row.Name = r.Name
            ∧ x = .pg (scanInto kind row)) :=
  ⟨by decide, by decide, rfl, by decide,
    C10_getMultiple_result (entityStoreOver noStmts emptyEtcd) plainDeps 0 mixedBatch
      (worldOf fooAndBar) entityStateStoreName .getEntityStatesQuery
      (fun st => st = insideFooAndBar) mixedBatchRows (by decide) (by decide) ⟨rfl, rfl⟩
      (fun r hr st hst => by
        subst hst
        simp only [mixedBatch, List.mem_cons, List.mem_singleton, List.not_mem_nil,
          or_false] at hr
        rcases hr with h | h | h | h | h <;> subst h <;> exact ⟨rfl, rfl⟩)
      (by decide)
      (fun st hst => by subst hst; rfl)⟩

/-- Counterexample to C10 as stated: two valid descriptors of one store kind that differ
only in their sort order, and a driver that returns the row foo. Both descriptors are
requested and a row with their (namespace, name) is returned, but only the later one has
an entry in the map. -/
theorem C10_counterexample :
    (∀ r ∈ [pgReqAscending, pgReq], plainDeps.Validate r = none
        ∧ r.StoreName = entityConfigStoreName ∧ r.Namespace = "default" ∧ r.Name = fooRow.Name)
    ∧ ((scriptedStore okScript).GetMultiple plainDeps 0 [pgReqAscending, pgReq] world0).1
        = .ret (some [(pgReq, .pg (scanInto .EntityConfigWrapper fooRow))], none)
    ∧ mapGet [(pgReq, Wrapper.pg (scanInto .EntityConfigWrapper fooRow))] pgReqAscending = none := by
  decide

/-! ### GetMultiple: batches that mix store kinds -/

/-- The first loop of GetMultiple passes over a prefix of valid requests of one store
kind and goes on with the rest of the batch. -/
theorem groupRequests_initial (D : Deps) (sn : String) (rest : List ResourceRequest)
    (pre : List ResourceRequest) :
    ∀ (P : List ResourceRequest) (g : Grouping),
      (∀ r ∈ pre, D.Validate r = none) → (∀ r ∈ pre, r.StoreName = sn) →
      GroupingOf P sn g →
      ∃ g1, GroupingOf (P ++ pre) sn g1
        ∧ groupRequests D P.length (pre ++ rest) g = groupRequests D (P ++ pre).length rest g1 := by
  induction pre with
  | nil =>
    intro P g _ _ hg
    exact ⟨g, by simpa using hg, by simp⟩
  | cons r pre ih =>
    intro P g hv hs hg
    have hvr := hv r (List.mem_cons_self _ _)
    have hsr := hs r (List.mem_cons_self _ _)
    have hsn1 : (if P.length = 0 then r.StoreName else g.storeName) = sn := by
      split_ifs with h0
      · exact hsr
      · exact hg.storeName (by intro e; subst e; exact h0 rfl)
    simp only [List.cons_append, groupRequests, hvr]
    rw [hsn1]
    simp only [hsr, ne_eq, not_true_eq_false, if_false]
    have hstep := groupingOf_step P sn g r hg hsr sn rfl
    obtain ⟨g1, h1, h2⟩ := ih (P ++ [r]) _ (fun x hx => hv x (List.mem_cons_of_mem _ hx))
      (fun x hx => hs x (List.mem_cons_of_mem _ hx)) hstep
    refine ⟨g1, by simpa using h1, ?_⟩
    have h3 : (P ++ [r]).length = P.length + 1 := by simp
    rw [h3] at h2
    exact h2.trans (by simp)

/-- C11 (as amended): a batch whose request `r` has another store name than the first
request, where the transaction opens and the first request, the requests between it and
`r`, and `r` itself pass Validate. GetMultiple then panics, before any query is issued;
the only calls on the driver are Begin and the Commit of the deferred function. -/
theorem C11_mixed_batch_panics (s : StoreV2 σ τ) (D : Deps) (seed : Nat) (w : World σ τ)
    (first r : ResourceRequest) (mid post : List ResourceRequest)
    (hb : (s.db.beginTx w.pg).1 = none)
    (hfirst : D.Validate first = none)
    (hmid : ∀ x ∈ mid, D.Validate x = none ∧ x.StoreName = first.StoreName)
    (hr : D.Validate r = none) (hdiff : r.StoreName ≠ first.StoreName) :
    (s.GetMultiple D seed (first :: mid ++ r :: post) w).1
        = .panic "GetMultiple() does not support requests with differing store names"
    ∧ (s.GetMultiple D seed (first :: mid ++ r :: post) w).2.log = w.log ++ [.Begin, .Commit] := by
  have hbb : (dbBegin s w).1 = none := by simpa [dbBegin] using hb
  have hl := dbBegin_log s w
  unfold StoreV2.GetMultiple
  generalize dbBegin s w = b at hbb hl
  obtain ⟨res, w1⟩ := b
  simp only [] at hbb hl
  subst hbb
  simp only []
  have hbody : getMultipleBody s D seed (first :: mid ++ r :: post) w1
      = (.panic "GetMultiple() does not support requests with differing store names", w1) := by
    unfold getMultipleBody
    obtain ⟨g1, hg1, heq⟩ := groupRequests_initial D first.StoreName (r :: post) (first :: mid) []
      { storeName := "", keyedResourceRequests := [], namespacedResources := [] }
      (by
        intro x hx
        rcases List.mem_cons.mp hx with h | h
        · rw [h]; exact hfirst
        · exact (hmid x h).1)
      (by
        intro x hx
        rcases List.mem_cons.mp hx with h | h
        · rw [h]
        · exact (hmid x h).2)
      (groupingOf_nil _)
    simp only [List.length_nil, List.nil_append] at heq hg1
    have hstore : g1.storeName = first.StoreName := hg1.storeName (by simp)
    have hpanic : groupRequests D (first :: mid).length (r :: post) g1
        = .panic "GetMultiple() does not support requests with differing store names" := by
      simp only [groupRequests, hr, List.length_cons, Nat.add_one_ne_zero, if_false, hstore]
      simp [Ne.symm hdiff]
    have hlist : first :: mid ++ r :: post = (first :: mid) ++ r :: post := by simp
    rw [hlist, heq, hpanic]
  rw [hbody]
  exact ⟨rfl, by rw [(txCommit_log s _).1, hl.1]; simp⟩

/-- Witness of C11: an entity config request followed by an entity state request, both
valid, on a driver that answers every call. -/
theorem C11_mixed_batch_panics_witness :
    ((scriptedStore okScript).db.beginTx world0.pg).1 = none
    ∧ plainDeps.Validate pgReq = none ∧ plainDeps.Validate fooStateReq = none
    ∧ fooStateReq.StoreName ≠ pgReq.StoreName
    ∧ ((scriptedStore okScript).GetMultiple plainDeps 0 (pgReq :: [] ++ fooStateReq :: []) world0).1
        = .panic "GetMultiple() does not support requests with differing store names"
    ∧ ((scriptedStore okScript).GetMultiple plainDeps 0 (pgReq :: [] ++ fooStateReq :: []) world0).2.log
        = world0.log ++ [.Begin, .Commit] :=
  ⟨rfl, by decide, by decide, by decide,
    C11_mixed_batch_panics (scriptedStore okScript) plainDeps 0 world0 pgReq fooStateReq [] []
      rfl (by decide) (by simp) (by decide) (by decide)⟩

/-- Counterexample to C11 as stated: two batches that mix store kinds and do not panic.
In the first the transaction cannot be opened and the error of Begin is returned; in the
second the request of the other store kind fails Validate, which is tested before the
store names are compared, and a not-valid error is returned. -/
theorem C11_counterexample :
    fooStateReq.StoreName ≠ pgReq.StoreName
    ∧ ((scriptedStore { okScript with beginResult := some (.other "connection refused") }).GetMultiple
        plainDeps 0 [pgReq, fooStateReq] world0).1
      = .ret (none, some (.driver (.other "connection refused")))
    ∧ namelessStateReq.StoreName ≠ pgReq.StoreName
    ∧ ((scriptedStore okScript).GetMultiple plainDeps 0 [pgReq, namelessStateReq] world0).1
      = .ret (none, some (.ErrNotValid "invalid resource request: missing name")) := by
  decide

/-! ### Get and Delete: how the outcome of the statement is reported -/

theorem dbQueryRow_fst (s : StoreV2 σ τ) (q : Query) (ps : List SqlValue) (w : World σ τ) :
    (dbQueryRow s q ps w).1 = (s.db.queryRow q ps w.pg).1 := rfl

theorem dbExec_fst (s : StoreV2 σ τ) (q : Query) (ps : List SqlValue) (w : World σ τ) :
    (dbExec s q ps w).1 = (s.db.exec q ps w.pg).1 := rfl

theorem dbQuery_fst (s : StoreV2 σ τ) (q : Query) (ps : List SqlValue) (w : World σ τ) :
    (dbQuery s q ps w).1 = (s.db.query q ps w.pg).1 := rfl

/-- Get on the relational path, by the outcome of the scan of the row. -/
theorem get_by_scan (s : StoreV2 σ τ) (req : ResourceRequest) (w : World σ τ) (q : Query)
    (hu : req.UsePostgres = true) (hq : lookupQuery req .getQ = some q) :
    ∃ kind, lookupWrapper req .getQ = .ret kind
      ∧ (s.Get req w).1
        = (match (s.db.queryRow q (keyParams req) w.pg).1 with
          | .error err =>
            if err = .ErrNoRows then .ret (none, some (.ErrNotFound (dotKey req)))
            else .ret (none, some (.ErrInternal err.Error))
          | .ok row => .ret (some (.pg (scanInto kind row)), none)) := by
  obtain ⟨kind, hk⟩ := lookupWrapper_of_lookupQuery req .getQ .getQ q hq
  refine ⟨kind, hk, ?_⟩
  simp only [StoreV2.Get, hu, hq, Bool.not_true, Bool.false_eq_true, if_false, hk]
  rw [← dbQueryRow_fst]
  generalize dbQueryRow s q (keyParams req) w = r
  obtain ⟨res, w1⟩ := r
  cases res with
  | error err =>
    simp only []
    split_ifs <;> rfl
  | ok row => rfl

/-- C12: Get on the relational path. It returns a nil wrapper and NotFound with the key
namespace.name exactly when a statement was found for the store and the scan of its row
reports that no row matched; every other scan error is returned as Internal with the
message of the driver; and when the scan succeeds Get returns the scanned wrapper and a
nil error. -/
theorem C12_get_not_found_iff_no_rows (s : StoreV2 σ τ) (req : ResourceRequest) (w : World σ τ)
    (hu : req.UsePostgres = true) :
    ((s.Get req w).1 = .ret (none, some (.ErrNotFound (req.Namespace ++ "." ++ req.Name)))
        ↔ ∃ q, lookupQuery req .getQ = some q
            ∧ (s.db.queryRow q (keyParams req) w.pg).1 = .error .ErrNoRows)
    ∧ (∀ q err, lookupQuery req .getQ = some q →
        (s.db.queryRow q (keyParams req) w.pg).1 = .error err → err ≠ .ErrNoRows →
        (s.Get req w).1 = .ret (none, some (.ErrInternal err.Error)))
    ∧ (∀ q row, lookupQuery req .getQ = some q →
        (s.db.queryRow q (keyParams req) w.pg).1 = .ok row →
        ∃ kind, lookupWrapper req .getQ = .ret kind
          ∧ (s.Get req w).1 = .ret (some (.pg (scanInto kind row)), none)) := by
  refine ⟨⟨?_, ?_⟩, ?_, ?_⟩
  · intro h
    cases hq : lookupQuery req .getQ with
    | none => simp [StoreV2.Get, hu, hq, errNoQuery] at h
    | some q =>
      refine ⟨q, rfl, ?_⟩
      obtain ⟨kind, -, hg⟩ := get_by_scan s req w q hu hq
      rw [hg] at h
      cases hr : (s.db.queryRow q (keyParams req) w.pg).1 with
      | error err =>
        rw [hr] at h
        simp only [] at h
        split_ifs at h with he
        · rw [he]
        · simp at h
      | ok row => rw [hr] at h; simp at h
  · rintro ⟨q, hq, hr⟩
    obtain ⟨kind, -, hg⟩ := get_by_scan s req w q hu hq
    rw [hg, hr]
    simp [dotKey]
  · intro q err hq hr hne
    obtain ⟨kind, -, hg⟩ := get_by_scan s req w q hu hq
    rw [hg, hr]
    simp [hne]
  · intro q row hq hr
    obtain ⟨kind, hk, hg⟩ := get_by_scan s req w q hu hq
    exact ⟨kind, hk, by rw [hg, hr]⟩

/-- Witness of C12: Get of an entity state that is not stored. -/
theorem C12_get_not_found_iff_no_rows_witness :
    missingStateReq.UsePostgres = true
    ∧ (entityStateStore.Get missingStateReq fooWorld).1
        = .ret (none, some (.ErrNotFound ("default" ++ "." ++ "missing"))) :=
  ⟨rfl, (C12_get_not_found_iff_no_rows entityStateStore missingStateReq fooWorld rfl).1.mpr
    ⟨.getEntityStateQuery, by decide, by rfl⟩⟩

/-- Delete on the relational path, by the outcome of the statement. -/
theorem delete_by_exec (s : StoreV2 σ τ) (req : ResourceRequest) (w : World σ τ) (q : Query)
    (hu : req.UsePostgres = true) (hq : lookupQuery req .deleteQ = some q) :
    (s.Delete req w).1
      = (match (s.db.exec q (keyParams req) w.pg).1 with
        | .error err => some (.ErrInternal err.Error)
        | .ok affected => if affected < 1 then some (.ErrNotFound (dotKey req)) else none) := by
  simp only [StoreV2.Delete, hu, hq, Bool.not_true, Bool.false_eq_true, if_false]
  rw [← dbExec_fst]
  generalize dbExec s q (keyParams req) w = r
  obtain ⟨res, w1⟩ := r
  cases res with
  | error err => rfl
  | ok n =>
    simp only []
    split_ifs <;> rfl

/-- C16: Delete on the relational path. It returns NotFound with the key namespace.name
exactly when a statement was found for the store, ran without an error of the driver and
affected fewer than one row; an error of the driver is returned as Internal with its
message; otherwise Delete returns nil. -/
theorem C16_delete_not_found_iff_no_row_affected (s : StoreV2 σ τ) (req : ResourceRequest)
    (w : World σ τ) (hu : req.UsePostgres = true) :
    ((s.Delete req w).1 = some (.ErrNotFound (req.Namespace ++ "." ++ req.Name))
        ↔ ∃ q affected, lookupQuery req .deleteQ = some q
            ∧ (s.db.exec q (keyParams req) w.pg).1 = .ok affected ∧ affected < 1)
    ∧ (∀ q err, lookupQuery req .deleteQ = some q →
        (s.db.exec q (keyParams req) w.pg).1 = .error err →
        (s.Delete req w).1 = some (.ErrInternal err.Error))
    ∧ (∀ q affected, lookupQuery req .deleteQ = some q →
        (s.db.exec q (keyParams req) w.pg).1 = .ok affected → ¬ affected < 1 →
        (s.Delete req w).1 = none) := by
  refine ⟨⟨?_, ?_⟩, ?_, ?_⟩
  · intro h
    cases hq : lookupQuery req .deleteQ with
    | none => simp [StoreV2.Delete, hu, hq, errNoQuery] at h
    | some q =>
      rw [delete_by_exec s req w q hu hq] at h
      cases hr : (s.db.exec q (keyParams req) w.pg).1 with
      | error err => rw [hr] at h; simp at h
      | ok n =>
        rw [hr] at h
        simp only [] at h
        split_ifs at h with hn
        exact ⟨q, n, rfl, hr, hn⟩
  · rintro ⟨q, n, hq, hr, hn⟩
    rw [delete_by_exec s req w q hu hq, hr]
    simp [hn, dotKey]
  · intro q err hq hr
    rw [delete_by_exec s req w q hu hq, hr]
  · intro q n hq hr hn
    rw [delete_by_exec s req w q hu hq, hr]
    simp [hn]

/-- Witness of C16: Delete of an entity state that is not stored affects no row. -/
theorem C16_delete_not_found_iff_no_row_affected_witness :
    missingStateReq.UsePostgres = true
    ∧ (entityStateStore.Delete missingStateReq fooWorld).1
        = some (.ErrNotFound ("default" ++ "." ++ "missing")) :=
  ⟨rfl, (C16_delete_not_found_iff_no_row_affected entityStateStore missingStateReq fooWorld rfl).1.mpr
    ⟨.deleteEntityStateQuery, 0, by decide, by rfl, by decide⟩⟩

/-! ### List: the rows it returns and the continuation token -/

/-- When the row loop of List ends without error, every row was scanned: the wrappers are
the scanned rows in the order of the result set, and the count is their number. -/
theorem listRows_ok (req : ResourceRequest) (rows : List RowOutcome) :
    ∀ (acc : List Wrapper) (n : Int) (wl : List Wrapper) (c : Int),
      listRows req rows acc n = .ret (.ok (wl, c)) →
      c = n + rows.length
      ∧ ∃ rs : List Row, rows = rs.map RowOutcome.row
        ∧ (rs = [] ∧ wl = acc
          ∨ ∃ kind, lookupWrapper req .listQ = .ret kind
              ∧ wl = acc ++ rs.map (fun r => Wrapper.pg (scanInto kind r))) := by
  induction rows with
  | nil =>
    intro acc n wl c h
    simp only [listRows, Outcome.ret.injEq, Except.ok.injEq, Prod.mk.injEq] at h
    exact ⟨by simp [h.2], [], rfl, Or.inl ⟨rfl, h.1.symm⟩⟩
  | cons r rest ih =>
    intro acc n wl c h
    simp only [listRows] at h
    cases hw : lookupWrapper req .listQ with
    | panic msg => rw [hw] at h; simp at h
    | ret kind =>
      rw [hw] at h
      cases r with
      | scanError err => simp at h
      | rowThenErr row err => simp at h
      | row row =>
        simp only [] at h
        obtain ⟨h1, rs, h2, h3⟩ := ih _ _ _ _ h
        refine ⟨by rw [h1]; simp; ring, row :: rs, by simp [h2], Or.inr ⟨kind, rfl, ?_⟩⟩
        rcases h3 with ⟨h4, h5⟩ | ⟨kind1, h4, h5⟩
        · subst h4; simp [h5]
        · rw [hw] at h4
          cases h4
          simp [h5]

/-- A successful List on the relational path: the statement was found, the helper gave
limit and offset, the query succeeded with rows that all scan; the wrappers are those
rows, and the predicate returned is the one the helper left, with its token cleared when
there are fewer rows than its limit. -/
theorem list_success (s : StoreV2 σ τ) (D : Deps) (req : ResourceRequest)
    (pred : Option SelectionPredicate) (w : World σ τ) (wl : List Wrapper)
    (p1 : Option SelectionPredicate) (hu : req.UsePostgres = true)
    (h : (s.List D req pred w).1 = .ret ((some wl, none), p1)) :
    ∃ (q : Query) (limit offset : SqlValue) (rs : List Row),
      lookupQuery req .listQ = some q
      ∧ D.getLimitAndOffset pred = (limit, offset, none)
      ∧ (s.db.query q (listParams req limit offset) w.pg).1 = .ok (rs.map RowOutcome.row)
      ∧ wl.length = rs.length
      ∧ (∀ kind, lookupWrapper req .listQ = .ret kind →
          wl = rs.map (fun r => Wrapper.pg (scanInto kind r)))
      ∧ p1 = (pred.map D.getLimitAndOffsetEffect).map (fun p =>
          if (rs.length : Int) < p.Limit then { p with Continue := "" } else p) := by
  simp only [StoreV2.List, hu, Bool.not_true, Bool.false_eq_true, if_false] at h
  cases hq : lookupQuery req .listQ with
  | none => rw [hq] at h; simp at h
  | some q =>
    rw [hq] at h
    simp only [] at h
    obtain ⟨kind0, hk0⟩ := lookupWrapper_of_lookupQuery req .listQ .listQ q hq
    cases hlo : D.getLimitAndOffset pred with
    | mk limit rest =>
      obtain ⟨offset, oerr⟩ := rest
      rw [hlo] at h
      cases oerr with
      | some err => simp at h
      | none =>
        simp only [] at h
        have hfst := dbQuery_fst s q (listParams req limit offset) w
        generalize dbQuery s q (listParams req limit offset) w = r at h hfst
        obtain ⟨res, w1⟩ := r
        simp only [] at hfst
        cases res with
        | error rerr => simp at h
        | ok rows =>
          simp only [] at h
          cases hl : listRows req rows [] 0 with
          | panic msg => rw [hl] at h; simp at h
          | ret x =>
            rw [hl] at h
            cases x with
            | error e1 => simp at h
            | ok y =>
              obtain ⟨wl1, c⟩ := y
              simp only [Outcome.ret.injEq, Prod.mk.injEq, Option.some.injEq, and_true] at h
              obtain ⟨hc, rs, hrs, hwl⟩ := listRows_ok req rows [] 0 wl1 c hl
              obtain ⟨hwl1, hp⟩ := h
              subst hwl1
              have hlen : wl1.length = rs.length := by
                rcases hwl with ⟨h4, h5⟩ | ⟨kind1, h4, h5⟩
                · simp [h4, h5]
                · simp [h5]
              refine ⟨q, limit, offset, rs, rfl, rfl, by rw [← hfst, hrs], hlen, ?_, ?_⟩
              · intro kind hk
                rcases hwl with ⟨h4, h5⟩ | ⟨kind1, h4, h5⟩
                · simp [h4, h5]
                · rw [hk] at h4
                  cases h4
                  simpa using h5
              · rw [← hp]
                have hc2 : c = (rs.length : Int) := by rw [hc, hrs]; simp
                cases pred with
                | none => rfl
                | some p =>
                  simp only [Option.map_some', hc2]
                  split_ifs <;> rfl

/-- C18: a successful List on the relational path with a non-nil predicate. If the number
of rows returned is smaller than the limit of the predicate, the continuation token of
the predicate is the empty string when List returns. -/
theorem C18_token_cleared_below_limit (s : StoreV2 σ τ) (D : Deps) (req : ResourceRequest)
    (pred : SelectionPredicate) (w : World σ τ) (wl : List Wrapper)
    (p1 : Option SelectionPredicate) (hu : req.UsePostgres = true)
    (h : (s.List D req (some pred) w).1 = .ret ((some wl, none), p1)) :
    ∃ after, p1 = some after ∧ ((wl.length : Int) < after.Limit → after.Continue = "") := by
  obtain ⟨q, limit, offset, rs, -, -, -, hlen, -, hp⟩ := list_success s D req (some pred) w wl p1 hu h
  simp only [Option.map_some'] at hp
  rw [hlen]
  by_cases hlt : (rs.length : Int) < (D.getLimitAndOffsetEffect pred).Limit
  · rw [if_pos hlt] at hp
    exact ⟨_, hp, fun _ => rfl⟩
  · rw [if_neg hlt] at hp
    exact ⟨_, hp, fun h2 => absurd h2 hlt⟩

/-- Witness of C18: List with limit 5 on a driver that returns one row; a token left in
the predicate is cleared. -/
theorem C18_token_cleared_below_limit_witness :
    pgReq.UsePostgres = true
    ∧ ((scriptedStore okScript).List plainDeps pgReq (some { Limit := 5, Continue := "token" })
        world0).1
      = .ret ((some [.pg (scanInto .EntityConfigWrapper fooRow)], none),
          some { Limit := 5, Continue := "" })
    ∧ ∃ after, some ({ Limit := 5, Continue := "" } : SelectionPredicate) = some after
        ∧ ((([Wrapper.pg (scanInto .EntityConfigWrapper fooRow)]).length : Int) < after.Limit →
            after.Continue = "") :=
  ⟨rfl, by decide,
    C18_token_cleared_below_limit (scriptedStore okScript) plainDeps pgReq
      { Limit := 5, Continue := "token" } world0 _ _ rfl (by decide)⟩

/-! ### The write operations: how the outcome of the statement is reported -/

/-- UpdateIfExists on the relational path with a postgres wrapper, by the outcome of the
statement. -/
theorem updateIfExists_by_query (s : StoreV2 σ τ) (req : ResourceRequest) (pw : PgWrapper)
    (w : World σ τ) (q : Query) (hu : req.UsePostgres = true)
    (hq : lookupQuery req .updateIfExistsQ = some q) :
    (s.UpdateIfExists req (.pg pw) w).1
      = (match (s.db.query q pw.SQLParams w.pg).1 with
        | .error err => some (.ErrInternal err.Error)
        | .ok rows => if rows.length = 0 then some (.ErrNotFound (dotKey req)) else none)
    ∧ (s.UpdateIfExists req (.pg pw) w).2.pg = (s.db.query q pw.SQLParams w.pg).2 := by
  simp only [StoreV2.UpdateIfExists, hu, hq, Bool.not_true, Bool.false_eq_true, if_false]
  have h1 := dbQuery_fst s q pw.SQLParams w
  have h2 : (dbQuery s q pw.SQLParams w).2.pg = (s.db.query q pw.SQLParams w.pg).2 := rfl
  generalize dbQuery s q pw.SQLParams w = r at h1 h2
  obtain ⟨res, w1⟩ := r
  simp only [] at h1 h2
  rw [← h1, ← h2]
  cases res with
  | error err => exact ⟨rfl, rfl⟩
  | ok rows =>
    simp only []
    split_ifs <;> exact ⟨rfl, rfl⟩

/-- CreateOrUpdate on the relational path with a postgres wrapper, by the outcome of the
statement. -/
theorem createOrUpdate_by_exec (s : StoreV2 σ τ) (req : ResourceRequest) (pw : PgWrapper)
    (w : World σ τ) (q : Query) (hu : req.UsePostgres = true)
    (hq : lookupQuery req .createOrUpdateQ = some q) :
    (s.CreateOrUpdate req (.pg pw) w).1
      = (match (s.db.exec q pw.SQLParams w.pg).1 with
        | .error err => some (.ErrInternal err.Error)
        | .ok _ => none)
    ∧ (s.CreateOrUpdate req (.pg pw) w).2.pg = (s.db.exec q pw.SQLParams w.pg).2 := by
  simp only [StoreV2.CreateOrUpdate, hu, hq, Bool.not_true, Bool.false_eq_true, if_false]
  have h1 := dbExec_fst s q pw.SQLParams w
  have h2 : (dbExec s q pw.SQLParams w).2.pg = (s.db.exec q pw.SQLParams w.pg).2 := rfl
  generalize dbExec s q pw.SQLParams w = r at h1 h2
  obtain ⟨res, w1⟩ := r
  simp only [] at h1 h2
  rw [← h1, ← h2]
  cases res with
  | error err => exact ⟨rfl, rfl⟩
  | ok n => exact ⟨rfl, rfl⟩

/-- CreateIfNotExists on the relational path with a postgres wrapper, by the outcome of
the statement. -/
theorem createIfNotExists_by_exec (s : StoreV2 σ τ) (req : ResourceRequest) (pw : PgWrapper)
    (w : World σ τ) (q : Query) (hu : req.UsePostgres = true)
    (hq : lookupQuery req .createIfNotExistsQ = some q) :
    (s.CreateIfNotExists req (.pg pw) w).1
      = (match (s.db.exec q pw.SQLParams w.pg).1 with
        | .error (.PgError code constraintName m) =>
          if constraintName = "entity_config_unique" ∨ constraintName = "entity_state_unique"
              ∨ constraintName = "namespace_unique" then
            some (.ErrAlreadyExists (slashKey req))
          else some (.ErrInternal (DriverError.PgError code constraintName m).Error)
        | .error err => some (.ErrInternal err.Error)
        | .ok _ => none)
    ∧ (s.CreateIfNotExists req (.pg pw) w).2.pg = (s.db.exec q pw.SQLParams w.pg).2 := by
  simp only [StoreV2.CreateIfNotExists, hu, hq, Bool.not_true, Bool.false_eq_true, if_false]
  have h1 := dbExec_fst s q pw.SQLParams w
  have h2 : (dbExec s q pw.SQLParams w).2.pg = (s.db.exec q pw.SQLParams w.pg).2 := rfl
  generalize dbExec s q pw.SQLParams w = r at h1 h2
  obtain ⟨res, w1⟩ := r
  simp only [] at h1 h2
  rw [← h1, ← h2]
  cases res with
  | error err =>
    cases err with
    | PgError code c m =>
      simp only []
      split_ifs <;> exact ⟨rfl, rfl⟩
    | ErrNoRows => exact ⟨rfl, rfl⟩
    | ErrTxClosed => exact ⟨rfl, rfl⟩
    | other m => exact ⟨rfl, rfl⟩
  | ok n => exact ⟨rfl, rfl⟩

theorem lookupQuery_entityState (req : ResourceRequest) (h : req.StoreName = entityStateStoreName) :
    lookupQuery req .createOrUpdateQ = some .createOrUpdateEntityStateQuery
    ∧ lookupQuery req .updateIfExistsQ = some .updateIfExistsEntityStateQuery
    ∧ lookupQuery req .createIfNotExistsQ = some .createIfNotExistsEntityStateQuery
    ∧ lookupQuery req .getQ = some .getEntityStateQuery
    ∧ lookupQuery req .getMultipleQ = some .getEntityStatesQuery
    ∧ lookupQuery req .deleteQ = some .deleteEntityStateQuery
    ∧ lookupQuery req .existsQ = some .existsEntityStateQuery
    ∧ (lookupQuery req .listQ = some .listEntityStateQuery
      ∨ lookupQuery req .listQ = some .listEntityStateDescQuery)
    ∧ lookupWrapper req .getQ = .ret .EntityStateWrapper := by
  have h1 : ¬ entityStateStoreName = entityConfigStoreName := by decide
  unfold lookupQuery lookupWrapper
  simp only [h, h1, if_false, if_true, true_and]
  cases req.SortOrder <;> simp

/-! ### The entity state statements on the tables -/

theorem scalarSubquery_mem {ids : List Nat} {v : Nat} (h : scalarSubquery ids = .ok (some v)) :
    v ∈ ids := by
  match ids, h with
  | [x], h =>
    simp only [scalarSubquery, Except.ok.injEq, Option.some.injEq] at h
    simp [h]

theorem filter_length_le_one {α β : Type} [DecidableEq β] (f : α → β) (b : β) :
    ∀ l : List α, (l.map f).Nodup → (l.filter (fun a => decide (f a = b))).length ≤ 1 := by
  intro l
  induction l with
  | nil => intro _; simp
  | cons a l ih =>
    intro h
    rw [List.map_cons, List.nodup_cons] at h
    by_cases hab : f a = b
    · have hnil : l.filter (fun a => decide (f a = b)) = [] := by
        rw [List.filter_eq_nil_iff]
        intro x hx hfx
        simp only [decide_eq_true_eq] at hfx
        exact h.1 (by rw [hab, ← hfx]; exact List.mem_map_of_mem f hx)
      simp [List.filter_cons, hab, hnil]
    · simpa [List.filter_cons, hab] using ih h.2

/-- Under the unique constraint on namespace names the namespace subquery yields NULL or
one id, never an error. -/
theorem namespace_lookup_ok (db : Database) (ns : String) (h : namespaceUnique db) :
    ∃ v, scalarSubquery ((namespaceCte db ns).map (fun r => r.id)) = .ok v := by
  have hlen := filter_length_le_one (fun r : NamespaceRow => r.name) ns db.namespaces h
  unfold namespaceCte
  generalize db.namespaces.filter (fun r => decide (r.name = ns)) = l at hlen
  match l, hlen with
  | [], _ => exact ⟨none, rfl⟩
  | [x], _ => exact ⟨some x.id, rfl⟩
  | _ :: _ :: _, h => simp at h

theorem entityStore_query_update {τ : Type} (rest : Stmts Database) (etcd : Etcd τ)
    (ps : List SqlValue) (p : EntityStateParams) (st : TxState Database)
    (hp : entityStateParams ps = some p) :
    (entityStoreOver rest etcd).db.query .updateIfExistsEntityStateQuery ps st
      = autoCommitRows (fun db => updateIfExistsEntityState db p) st := by
  simp only [entityStoreOver, txPg, entityStateStmts, hp]

theorem entityStore_exec_upsert {τ : Type} (rest : Stmts Database) (etcd : Etcd τ)
    (ps : List SqlValue) (p : EntityStateParams) (st : TxState Database)
    (hp : entityStateParams ps = some p) :
    (entityStoreOver rest etcd).db.exec .createOrUpdateEntityStateQuery ps st
      = autoCommit (fun db => createOrUpdateEntityState db p) st := by
  simp only [entityStoreOver, txPg, entityStateStmts, hp]

theorem entityStore_exec_insert {τ : Type} (rest : Stmts Database) (etcd : Etcd τ)
    (ps : List SqlValue) (p : EntityStateParams) (st : TxState Database)
    (hp : entityStateParams ps = some p) :
    (entityStoreOver rest etcd).db.exec .createIfNotExistsEntityStateQuery ps st
      = autoCommit (fun db => createIfNotExistsEntityState db p) st := by
  simp only [entityStoreOver, txPg, entityStateStmts, hp]

/-- The rows `updateIfExistsEntityStateQuery` returns: one for every row with the key. -/
theorem updateIfExists_rows (db : Database) (p : EntityStateParams) (nsid : Option Nat)
    (h : scalarSubquery ((namespaceCte db p.Namespace).map (fun r => r.id)) = .ok nsid) :
    ∃ db1, updateIfExistsEntityState db p
      = .ok (((db.entity_states.filter (keyMatches nsid p.Name)).map (fun r => r.id)).map
          (fun (sid : Nat) => RowOutcome.row { Name := "", Columns := [.int sid] }), db1) := by
  simp only [updateIfExistsEntityState, h]
  exact ⟨_, rfl⟩

theorem resolveId_zero {lookup : Except DriverError (Option Nat)} {n : Int}
    (h : resolveId 0 lookup = .ok (some n)) : ∃ v : Nat, lookup = .ok (some v) ∧ n = (v : Int) := by
  unfold resolveId at h
  simp only [ne_eq, not_true_eq_false, if_false] at h
  cases lookup with
  | error e => simp at h
  | ok o =>
    cases o with
    | none => simp at h
    | some v =>
      simp only [Option.map_some', Except.ok.injEq, Option.some.injEq] at h
      exact ⟨v, rfl, h.symm⟩

theorem conflictsWith_cast (v : Nat) (name : String) (r : EntityStateRow) :
    conflictsWith (v : Int) name r = keyMatches (some v) name r := by
  simp [conflictsWith, keyMatches]

/-- The update branch of the upsert leaves the key of every row as it was. -/
theorem filter_conflicts_update (l : List EntityStateRow) (c : EntityStateRow → Bool)
    (lastSeen : Int) (selectors annotations : String) (m : Int) (name : String) :
    ((l.map (fun r => if c r = true then
        { r with last_seen := lastSeen, selectors := selectors, annotations := annotations,
                 deleted_at := none }
      else r)).filter (conflictsWith m name)).length
      = (l.filter (conflictsWith m name)).length := by
  induction l with
  | nil => rfl
  | cons a l ih =>
    simp only [List.map_cons, List.filter_cons]
    have ha : conflictsWith m name (if c a = true then
        { a with last_seen := lastSeen, selectors := selectors, annotations := annotations,
                 deleted_at := none }
      else a) = conflictsWith m name a := by
      split_ifs <;> rfl
    rw [ha]
    split_ifs <;> simp [ih]

theorem filter_conflicts_append (l : List EntityStateRow) (new : EntityStateRow) (m : Int)
    (name : String) :
    ((l ++ [new]).filter (conflictsWith m name)).length
      = (l.filter (conflictsWith m name)).length + (if conflictsWith m name new = true then 1 else 0) := by
  simp only [List.filter_append, List.length_append, List.filter_cons, List.filter_nil]
  split_ifs <;> rfl

/-- What a successful `createOrUpdateEntityStateQuery` leaves: the namespace id was
resolved, the tables of namespaces and entity configs are as before, a row with the
resolved key is there and not soft deleted, and the unique constraint still holds. -/
theorem createOrUpdate_ok (db db1 : Database) (p : EntityStateParams) (k : Nat)
    (h : createOrUpdateEntityState db p = .ok (k, db1)) :
    ∃ n : Int,
      resolveId p.NamespaceID (scalarSubquery ((namespaceCte db p.Namespace).map (fun r => r.id)))
        = .ok (some n)
      ∧ (∃ c : Int, resolveId p.EntityConfigID (configLookup db (some n) p.Name) = .ok (some c))
      ∧ db1.namespaces = db.namespaces ∧ db1.entity_configs = db.entity_configs
      ∧ (∃ r ∈ db1.entity_states, conflictsWith n p.Name r = true ∧ r.deleted_at = none)
      ∧ (entityStateUnique db → entityStateUnique db1) := by
  unfold createOrUpdateEntityState at h
  split at h
  · exact absurd h (by simp)
  · rename_i nsid hns
    split at h
    · exact absurd h (by simp)
    · rename_i cfgid hcfg
      split at h
      · rename_i n c
        refine ⟨n, hns, ⟨c, hcfg⟩, ?_⟩
        split at h
        · rename_i existing hfind
          simp only [Except.ok.injEq, writeSubRecords, Prod.mk.injEq] at h
          obtain ⟨_, rfl⟩ := h
          have hmem := List.mem_of_find?_eq_some hfind
          have hc := List.find?_some hfind
          refine ⟨rfl, rfl, ?_, ?_⟩
          · refine ⟨_, List.mem_map.mpr ⟨existing, hmem, rfl⟩, ?_, ?_⟩
            · simp only [hc, if_true]
              exact hc
            · simp only [hc, if_true]
          · intro hu m name
            dsimp only
            rw [filter_conflicts_update]
            exact hu m name
        · rename_i hfind
          split at h
          · rename_i hfk
            simp only [Except.ok.injEq, writeSubRecords, Prod.mk.injEq] at h
            obtain ⟨_, rfl⟩ := h
            have hn : ((n.toNat : Nat) : Int) = n := by
              simp only [foreignKeysHold, Bool.and_eq_true, List.any_eq_true,
                decide_eq_true_eq] at hfk
              obtain ⟨⟨r, _, hr⟩, _⟩ := hfk
              rw [← hr]
              simp
            refine ⟨rfl, rfl, ?_, ?_⟩
            · refine ⟨_, List.mem_append_right _ (List.mem_singleton_self _), ?_, rfl⟩
              simp [conflictsWith, hn]
            · intro hu m name
              dsimp only
              rw [filter_conflicts_append]
              split_ifs with hc
              · simp only [conflictsWith, decide_eq_true_eq, hn] at hc
                obtain ⟨rfl, rfl⟩ := hc
                have hnone : db.entity_states.filter (conflictsWith n p.Name) = [] := by
                  rw [List.filter_eq_nil_iff]
                  intro x hx hcx
                  exact absurd hcx (by simpa using List.find?_eq_none.mp hfind x hx)
                rw [hnone]
                simp
              · exact hu m name
          · exact absurd h (by simp)
      · exact absurd h (by simp)

/-- A successful CreateOrUpdate of an entity state ran the upsert on the committed
tables and left its result there. -/
theorem createOrUpdate_committed {τ : Type} (rest : Stmts Database) (etcd : Etcd τ)
    (req : ResourceRequest) (pw : PgWrapper) (p : EntityStateParams)
    (w : World (TxState Database) τ) (hu : req.UsePostgres = true)
    (hs : req.StoreName = entityStateStoreName) (hp : entityStateParams pw.SQLParams = some p)
    (h : ((entityStoreOver rest etcd).CreateOrUpdate req (.pg pw) w).1 = none) :
    ∃ k, createOrUpdateEntityState w.pg.committed p
      = .ok (k, ((entityStoreOver rest etcd).CreateOrUpdate req (.pg pw) w).2.pg.committed) := by
  obtain ⟨h1, h2⟩ := createOrUpdate_by_exec (entityStoreOver rest etcd) req pw w _ hu
    (lookupQuery_entityState req hs).1
  rw [h1] at h
  rw [h2]
  rw [entityStore_exec_upsert rest etcd _ p _ hp] at h ⊢
  dsimp only [autoCommit] at h ⊢
  cases hr : createOrUpdateEntityState w.pg.committed p with
  | error e => rw [hr] at h; simp at h
  | ok v =>
    obtain ⟨a, d⟩ := v
    exact ⟨a, rfl⟩

/-- UpdateIfExists of an entity state, by the rows with the key on the committed tables. -/
theorem updateIfExists_entityState {τ : Type} (rest : Stmts Database) (etcd : Etcd τ)
    (req : ResourceRequest) (pw : PgWrapper) (p : EntityStateParams)
    (w : World (TxState Database) τ) (nsid : Option Nat) (hu : req.UsePostgres = true)
    (hs : req.StoreName = entityStateStoreName) (hp : entityStateParams pw.SQLParams = some p)
    (hns : scalarSubquery ((namespaceCte w.pg.committed p.Namespace).map (fun r => r.id)) = .ok nsid) :
    ((entityStoreOver rest etcd).UpdateIfExists req (.pg pw) w).1
      = if w.pg.committed.entity_states.filter (keyMatches nsid p.Name) = [] then
          some (.ErrNotFound (dotKey req))
        else none := by
  rw [(updateIfExists_by_query (entityStoreOver rest etcd) req pw w _ hu
    (lookupQuery_entityState req hs).2.1).1, entityStore_query_update rest etcd _ p _ hp]
  obtain ⟨db1, hrows⟩ := updateIfExists_rows w.pg.committed p nsid hns
  simp only [autoCommitRows, hrows, List.length_map, List.length_eq_zero]

/-- C13: UpdateIfExists on the relational path drops the error of a statement that fails
while it runs. It returns NotFound with the key namespace.name exactly when the wrapper
carries parameters, a statement was found for the store, `Query` returned no error and no
row was delivered; an error returned by `Query` itself gives Internal with its message,
and a delivered row gives nil. The error `rows.Err()` holds is never read: when the
statement fails while it runs, no row is delivered and UpdateIfExists returns NotFound,
not Internal; so it is on the entity state tables when the update statement fails. For
an identity that has no row UpdateIfExists returns NotFound, and once CreateOrUpdate with
the same request and wrapper has succeeded (the namespace resolved by its name)
UpdateIfExists returns nil. -/
theorem C13_updateIfExists_drops_statement_error (s : StoreV2 σ τ) (req : ResourceRequest)
    (wrapper : Wrapper) (w : World σ τ) (hu : req.UsePostgres = true)
    {τ' : Type} (rest : Stmts Database) (etcd : Etcd τ') (sreq : ResourceRequest)
    (spw : PgWrapper) (p : EntityStateParams) (sw : World (TxState Database) τ')
    (hsu : sreq.UsePostgres = true) (hss : sreq.StoreName = entityStateStoreName)
    (hp : entityStateParams spw.SQLParams = some p) :
    ((s.UpdateIfExists req wrapper w).1 = some (.ErrNotFound (req.Namespace ++ "." ++ req.Name))
        ↔ ∃ pw q, wrapper = .pg pw ∧ lookupQuery req .updateIfExistsQ = some q
            ∧ (s.db.query q pw.SQLParams w.pg).1 = .ok [])
    ∧ (∀ pw q err, wrapper = .pg pw → lookupQuery req .updateIfExistsQ = some q →
        (s.db.query q pw.SQLParams w.pg).1 = .error err →
        (s.UpdateIfExists req wrapper w).1 = some (.ErrInternal err.Error))
    ∧ (∀ pw q rows, wrapper = .pg pw → lookupQuery req .updateIfExistsQ = some q →
        (s.db.query q pw.SQLParams w.pg).1 = .ok rows → rows ≠ [] →
        (s.UpdateIfExists req wrapper w).1 = none)
    ∧ (∀ pw q err, wrapper = .pg pw → lookupQuery req .updateIfExistsQ = some q →
        (s.db.query q pw.SQLParams w.pg).1 = .ok [] →
        s.db.queryErr q pw.SQLParams w.pg = some err →
        (s.UpdateIfExists req wrapper w).1
            = some (.ErrNotFound (req.Namespace ++ "." ++ req.Name))
        ∧ (s.UpdateIfExists req wrapper w).1 ≠ some (.ErrInternal err.Error))
    ∧ (∀ err, updateIfExistsEntityState sw.pg.committed p = .error err →
        (entityStoreOver rest etcd).db.queryErr .updateIfExistsEntityStateQuery spw.SQLParams
            sw.pg = some err
        ∧ ((entityStoreOver rest etcd).UpdateIfExists sreq (.pg spw) sw).1
            = some (.ErrNotFound (sreq.Namespace ++ "." ++ sreq.Name)))
    ∧ (namespaceUnique sw.pg.committed →
        (∀ r ∈ sw.pg.committed.entity_states, ∀ n ∈ sw.pg.committed.namespaces,
          n.name = p.Namespace → r.namespace_id = n.id → r.name ≠ p.Name) →
        ((entityStoreOver rest etcd).UpdateIfExists sreq (.pg spw) sw).1
          = some (.ErrNotFound (sreq.Namespace ++ "." ++ sreq.Name)))
    ∧ (p.NamespaceID = 0 →
        ((entityStoreOver rest etcd).CreateOrUpdate sreq (.pg spw) sw).1 = none →
        ((entityStoreOver rest etcd).UpdateIfExists sreq (.pg spw)
          ((entityStoreOver rest etcd).CreateOrUpdate sreq (.pg spw) sw).2).1 = none) := by
  refine ⟨⟨?_, ?_⟩, ?_, ?_, ?_, ?_, ?_, ?_⟩
  · intro h
    cases wrapper with
    | generic t c => simp [StoreV2.UpdateIfExists, hu, badWrapper] at h
    | pg pw =>
      cases hq : lookupQuery req .updateIfExistsQ with
      | none => simp [StoreV2.UpdateIfExists, hu, hq, errNoQuery] at h
      | some q =>
        rw [(updateIfExists_by_query s req pw w q hu hq).1] at h
        cases hr : (s.db.query q pw.SQLParams w.pg).1 with
        | error err => rw [hr] at h; simp at h
        | ok rows =>
          rw [hr] at h
          simp only [] at h
          split_ifs at h with hn
          exact ⟨pw, q, rfl, rfl, hr.trans (by rw [List.length_eq_zero.mp hn])⟩
  · rintro ⟨pw, q, rfl, hq, hr⟩
    rw [(updateIfExists_by_query s req pw w q hu hq).1, hr]
    simp [dotKey]
  · rintro pw q err rfl hq hr
    rw [(updateIfExists_by_query s req pw w q hu hq).1, hr]
  · rintro pw q rows rfl hq hr hne
    rw [(updateIfExists_by_query s req pw w q hu hq).1, hr]
    simp [hne]
  · rintro pw q err rfl hq hr _
    rw [(updateIfExists_by_query s req pw w q hu hq).1, hr]
    simp [dotKey]
  · intro err herr
    constructor
    · simp only [entityStoreOver, txPg, entityStateStmts, hp, autoCommitRowsErr, herr]
    · rw [(updateIfExists_by_query (entityStoreOver rest etcd) sreq spw sw _ hsu
        (lookupQuery_entityState sreq hss).2.1).1, entityStore_query_update rest etcd _ p _ hp]
      simp only [autoCommitRows, herr]
      simp [dotKey]
  · intro hnu hnever
    obtain ⟨nsid, hns⟩ := namespace_lookup_ok sw.pg.committed p.Namespace hnu
    rw [updateIfExists_entityState rest etcd sreq spw p sw nsid hsu hss hp hns, if_pos]
    · rfl
    · rw [List.filter_eq_nil_iff]
      intro r hr hk
      simp only [keyMatches, decide_eq_true_eq] at hk
      have hmem := scalarSubquery_mem (hk.1 ▸ hns)
      obtain ⟨n, hn, hid⟩ := List.mem_map.mp hmem
      have hn2 := List.mem_filter.mp hn
      exact hnever r hr n hn2.1 (by simpa using hn2.2) hid.symm hk.2
  · intro hzero hcu
    obtain ⟨k, hk⟩ := createOrUpdate_committed rest etcd sreq spw p sw hsu hss hp hcu
    obtain ⟨n, hres, _, hnsp, _, ⟨r, hr, hc, _⟩, _⟩ := createOrUpdate_ok _ _ p k hk
    rw [hzero] at hres
    obtain ⟨v, hv, rfl⟩ := resolveId_zero hres
    have hns : scalarSubquery ((namespaceCte
        ((entityStoreOver rest etcd).CreateOrUpdate sreq (.pg spw) sw).2.pg.committed
        p.Namespace).map (fun r => r.id)) = .ok (some v) := by
      simpa only [namespaceCte, hnsp] using hv
    rw [updateIfExists_entityState rest etcd sreq spw p _ (some v) hsu hss hp hns, if_neg]
    intro hnil
    rw [List.filter_eq_nil_iff] at hnil
    exact hnil r hr (by rw [← conflictsWith_cast]; exact hc)

/-- Witness of C13: on a driver whose update statement fails while it runs with a
violation of a not-null constraint, `Query` returns no error, `rows.Err()` holds the
error, and UpdateIfExists of foo returns NotFound. -/
theorem C13_updateIfExists_drops_statement_error_witness :
    pgReq.UsePostgres = true
    ∧ lookupQuery pgReq .updateIfExistsQ = some .updateIfExistsEntityConfigQuery
    ∧ ((scriptedStore failsWhileRunningScript).db.query .updateIfExistsEntityConfigQuery
        fooWrapper.SQLParams world0.pg).1 = .ok []
    ∧ (scriptedStore failsWhileRunningScript).db.queryErr .updateIfExistsEntityConfigQuery
        fooWrapper.SQLParams world0.pg
        = some (.PgError "23502" "" "null value violates not-null constraint")
    ∧ ((scriptedStore failsWhileRunningScript).UpdateIfExists pgReq (.pg fooWrapper) world0).1
        = some (.ErrNotFound ("default" ++ "." ++ "foo")) :=
  ⟨rfl, by decide, rfl, rfl,
    ((C13_updateIfExists_drops_statement_error (scriptedStore failsWhileRunningScript) pgReq
      (.pg fooWrapper) world0 rfl noStmts emptyEtcd (stateReq "default" "foo")
      (stateWrapper "default" "foo" []) fooStateParams (worldOf emptyStates) rfl rfl
      (by decide)).2.2.2.1 fooWrapper .updateIfExistsEntityConfigQuery _ rfl (by decide) rfl
      rfl).1⟩

/-- What a successful `createIfNotExistsEntityStateQuery` leaves: the ids were resolved,
the tables of namespaces and entity configs are as before, and a row with the resolved
key is there. -/
theorem createIfNotExists_ok (db db1 : Database) (p : EntityStateParams) (k : Nat)
    (h : createIfNotExistsEntityState db p = .ok (k, db1)) :
    ∃ n c : Int,
      resolveId p.NamespaceID (scalarSubquery ((namespaceCte db p.Namespace).map (fun r => r.id)))
        = .ok (some n)
      ∧ resolveId p.EntityConfigID (configLookup db (some n) p.Name) = .ok (some c)
      ∧ db1.namespaces = db.namespaces ∧ db1.entity_configs = db.entity_configs
      ∧ ∃ r ∈ db1.entity_states, conflictsWith n p.Name r = true := by
  unfold createIfNotExistsEntityState at h
  split at h
  · exact absurd h (by simp)
  · rename_i nsid hns
    split at h
    · exact absurd h (by simp)
    · rename_i cfgid hcfg
      split at h
      · rename_i n c
        refine ⟨n, c, hns, hcfg, ?_⟩
        split at h
        · exact absurd h (by simp)
        · split at h
          · rename_i hfk
            split at h
            · simp only [Except.ok.injEq, Prod.mk.injEq] at h
              obtain ⟨_, rfl⟩ := h
              have hn : ((n.toNat : Nat) : Int) = n := by
                simp only [foreignKeysHold, Bool.and_eq_true, List.any_eq_true,
                  decide_eq_true_eq] at hfk
                obtain ⟨⟨r, _, hr⟩, _⟩ := hfk
                rw [← hr]
                simp
              refine ⟨rfl, rfl, _, List.mem_append_right _ (List.mem_singleton_self _), ?_⟩
              simp [conflictsWith, hn]
            · exact absurd h (by simp)
          · exact absurd h (by simp)
      · exact absurd h (by simp)

/-- Right after a successful insert of an entity state the same insert violates the
unique constraint `entity_state_unique`. -/
theorem createIfNotExists_again (db db1 : Database) (p : EntityStateParams) (k : Nat)
    (h : createIfNotExistsEntityState db p = .ok (k, db1)) :
    createIfNotExistsEntityState db1 p
      = .error (.PgError "23505" "entity_state_unique"
          "duplicate key value violates unique constraint") := by
  obtain ⟨n, c, hns, hcfg, hnsp, hcfgs, r, hr, hc⟩ := createIfNotExists_ok db db1 p k h
  have e1 : namespaceCte db1 p.Namespace = namespaceCte db p.Namespace := by
    unfold namespaceCte
    rw [hnsp]
  have e2 : configLookup db1 (some n) p.Name = configLookup db (some n) p.Name := by
    unfold configLookup
    rw [hcfgs]
  have hany : db1.entity_states.any (conflictsWith n p.Name) = true :=
    List.any_eq_true.mpr ⟨r, hr, hc⟩
  unfold createIfNotExistsEntityState
  rw [e1, hns]
  simp only []
  rw [e2, hcfg]
  simp only [hany, if_true]

/-- A successful CreateIfNotExists of an entity state ran the insert on the committed
tables and left its result there. -/
theorem createIfNotExists_committed {τ : Type} (rest : Stmts Database) (etcd : Etcd τ)
    (req : ResourceRequest) (pw : PgWrapper) (p : EntityStateParams)
    (w : World (TxState Database) τ) (hu : req.UsePostgres = true)
    (hs : req.StoreName = entityStateStoreName) (hp : entityStateParams pw.SQLParams = some p)
    (h : ((entityStoreOver rest etcd).CreateIfNotExists req (.pg pw) w).1 = none) :
    ∃ k, createIfNotExistsEntityState w.pg.committed p
      = .ok (k, ((entityStoreOver rest etcd).CreateIfNotExists req (.pg pw) w).2.pg.committed) := by
  obtain ⟨h1, h2⟩ := createIfNotExists_by_exec (entityStoreOver rest etcd) req pw w _ hu
    (lookupQuery_entityState req hs).2.2.1
  rw [h1] at h
  rw [h2]
  rw [entityStore_exec_insert rest etcd _ p _ hp] at h ⊢
  dsimp only [autoCommit] at h ⊢
  cases hr : createIfNotExistsEntityState w.pg.committed p with
  | error e =>
    rw [hr] at h
    cases e with
    | PgError code c m =>
      simp only [] at h
      split_ifs at h
    | ErrNoRows => simp at h
    | ErrTxClosed => simp at h
    | other m => simp at h
  | ok v =>
    obtain ⟨a, d⟩ := v
    exact ⟨a, rfl⟩

/-- C14, counterexample: an insert that fails with a violation of a unique constraint is
reported as Internal when the constraint is not one of the three that are named. The
driver reports SQLSTATE 23505 on another constraint; and on the entity state tables,
CreateIfNotExists of a new entity state whose wrapper lists the same network interface
twice violates the unique constraint of `entities_networks`. -/
theorem C14_counterexample :
    ((scriptedStore otherUniqueScript).db.exec .createIfNotExistsEntityConfigQuery
        fooWrapper.SQLParams world0.pg).1
      = .error (.PgError "23505" "entities_systems_pkey"
          "duplicate key value violates unique constraint")
    ∧ ((scriptedStore otherUniqueScript).CreateIfNotExists pgReq (.pg fooWrapper) world0).1
      = some (.ErrInternal (DriverError.PgError "23505" "entities_systems_pkey"
          "duplicate key value violates unique constraint").Error)
    ∧ (worldOf emptyStates).pg.committed.entity_states = []
    ∧ ((entityStoreOver noStmts emptyEtcd).CreateIfNotExists (stateReq "default" "foo")
        (.pg (stateWrapper "default" "foo" [eth0, eth0])) (worldOf emptyStates)).1
      = some (.ErrInternal (DriverError.PgError "23505" "entities_networks_unique"
          "duplicate key value violates unique constraint").Error) := by
  refine ⟨rfl, ?_, rfl, ?_⟩
  · decide
  · decide

/-- C14, amended: CreateIfNotExists on the relational path. It returns AlreadyExists with
the key namespace/name exactly when the wrapper carries parameters, a statement was found
for the store, and the insert failed with an error of the database that names one of the
constraints entity_config_unique, entity_state_unique and namespace_unique; every other
failure of the insert is returned as Internal with its message, and a successful insert
gives nil. On the entity state tables, a second CreateIfNotExists with the same request
and wrapper right after a successful one returns AlreadyExists. -/
theorem C14_already_exists_iff_named_constraint (s : StoreV2 σ τ) (req : ResourceRequest)
    (wrapper : Wrapper) (w : World σ τ) (hu : req.UsePostgres = true)
    {τ' : Type} (rest : Stmts Database) (etcd : Etcd τ') (sreq : ResourceRequest)
    (spw : PgWrapper) (p : EntityStateParams) (sw : World (TxState Database) τ')
    (hsu : sreq.UsePostgres = true) (hss : sreq.StoreName = entityStateStoreName)
    (hp : entityStateParams spw.SQLParams = some p) :
    ((s.CreateIfNotExists req wrapper w).1
        = some (.ErrAlreadyExists (req.Namespace ++ "/" ++ req.Name))
        ↔ ∃ pw q code c m, wrapper = .pg pw ∧ lookupQuery req .createIfNotExistsQ = some q
            ∧ (s.db.exec q pw.SQLParams w.pg).1 = .error (.PgError code c m)
            ∧ (c = "entity_config_unique" ∨ c = "entity_state_unique" ∨ c = "namespace_unique"))
    ∧ (∀ pw q err, wrapper = .pg pw → lookupQuery req .createIfNotExistsQ = some q →
        (s.db.exec q pw.SQLParams w.pg).1 = .error err →
        (∀ code c m, err = .PgError code c m →
          ¬ (c = "entity_config_unique" ∨ c = "entity_state_unique" ∨ c = "namespace_unique")) →
        (s.CreateIfNotExists req wrapper w).1 = some (.ErrInternal err.Error))
    ∧ (∀ pw q n, wrapper = .pg pw → lookupQuery req .createIfNotExistsQ = some q →
        (s.db.exec q pw.SQLParams w.pg).1 = .ok n →
        (s.CreateIfNotExists req wrapper w).1 = none)
    ∧ (((entityStoreOver rest etcd).CreateIfNotExists sreq (.pg spw) sw).1 = none →
        ((entityStoreOver rest etcd).CreateIfNotExists sreq (.pg spw)
          ((entityStoreOver rest etcd).CreateIfNotExists sreq (.pg spw) sw).2).1
          = some (.ErrAlreadyExists (sreq.Namespace ++ "/" ++ sreq.Name))) := by
  refine ⟨⟨?_, ?_⟩, ?_, ?_, ?_⟩
  · intro h
    cases wrapper with
    | generic t c => simp [StoreV2.CreateIfNotExists, hu, badWrapper] at h
    | pg pw =>
      cases hq : lookupQuery req .createIfNotExistsQ with
      | none => simp [StoreV2.CreateIfNotExists, hu, hq, errNoQuery] at h
      | some q =>
        rw [(createIfNotExists_by_exec s req pw w q hu hq).1] at h
        cases hr : (s.db.exec q pw.SQLParams w.pg).1 with
        | ok n => rw [hr] at h; simp at h
        | error err =>
          rw [hr] at h
          cases err with
          | PgError code c m =>
            simp only [] at h
            split_ifs at h with hc
            · exact ⟨pw, q, code, c, m, rfl, rfl, hr, hc⟩
            · simp at h
          | ErrNoRows => simp at h
          | ErrTxClosed => simp at h
          | other m => simp at h
  · rintro ⟨pw, q, code, c, m, rfl, hq, hr, hc⟩
    rw [(createIfNotExists_by_exec s req pw w q hu hq).1, hr]
    simp only [hc, if_true, slashKey]
  · rintro pw q err rfl hq hr hnot
    rw [(createIfNotExists_by_exec s req pw w q hu hq).1, hr]
    cases err with
    | PgError code c m =>
      simp only [hnot code c m rfl, if_false]
    | ErrNoRows => rfl
    | ErrTxClosed => rfl
    | other m => rfl
  · rintro pw q n rfl hq hr
    rw [(createIfNotExists_by_exec s req pw w q hu hq).1, hr]
  · intro hfirst
    obtain ⟨k, hk⟩ := createIfNotExists_committed rest etcd sreq spw p sw hsu hss hp hfirst
    rw [(createIfNotExists_by_exec (entityStoreOver rest etcd) sreq spw _ _ hsu
      (lookupQuery_entityState sreq hss).2.2.1).1, entityStore_exec_insert rest etcd _ p _ hp]
    dsimp only [autoCommit]
    rw [createIfNotExists_again _ _ p k hk]
    simp [slashKey]

/-- Witness of C14: on tables without an entity state, CreateIfNotExists of foo succeeds
and the second one returns AlreadyExists. -/
theorem C14_already_exists_iff_named_constraint_witness :
    pgReq.UsePostgres = true ∧ (stateReq "default" "foo").UsePostgres = true
    ∧ (stateReq "default" "foo").StoreName = entityStateStoreName
    ∧ entityStateParams (stateWrapper "default" "foo" []).SQLParams = some fooStateParams
    ∧ ((entityStoreOver noStmts emptyEtcd).CreateIfNotExists (stateReq "default" "foo")
        (.pg (stateWrapper "default" "foo" []))
        ((entityStoreOver noStmts emptyEtcd).CreateIfNotExists (stateReq "default" "foo")
          (.pg (stateWrapper "default" "foo" [])) (worldOf emptyStates)).2).1
        = some (.ErrAlreadyExists ("default" ++ "/" ++ "foo")) :=
  ⟨rfl, rfl, rfl, by decide,
    (C14_already_exists_iff_named_constraint (scriptedStore okScript) pgReq (.pg fooWrapper)
      world0 rfl noStmts emptyEtcd (stateReq "default" "foo") (stateWrapper "default" "foo" [])
      fooStateParams (worldOf emptyStates) rfl rfl (by decide)).2.2.2 (by decide)⟩

/-- CreateOrUpdate of an entity state, by the upsert on the committed tables. -/
theorem createOrUpdate_entityState {τ : Type} (rest : Stmts Database) (etcd : Etcd τ)
    (req : ResourceRequest) (pw : PgWrapper) (p : EntityStateParams)
    (w : World (TxState Database) τ) (hu : req.UsePostgres = true)
    (hs : req.StoreName = entityStateStoreName) (hp : entityStateParams pw.SQLParams = some p) :
    ((entityStoreOver rest etcd).CreateOrUpdate req (.pg pw) w).1
      = (match createOrUpdateEntityState w.pg.committed p with
        | .error e => some (.ErrInternal e.Error)
        | .ok _ => none)
    ∧ ((entityStoreOver rest etcd).CreateOrUpdate req (.pg pw) w).2.pg.committed
      = (match createOrUpdateEntityState w.pg.committed p with
        | .error _ => w.pg.committed
        | .ok v => v.2) := by
  obtain ⟨h1, h2⟩ := createOrUpdate_by_exec (entityStoreOver rest etcd) req pw w _ hu
    (lookupQuery_entityState req hs).1
  rw [h1, h2, entityStore_exec_upsert rest etcd _ p _ hp]
  dsimp only [autoCommit]
  cases createOrUpdateEntityState w.pg.committed p with
  | error e => exact ⟨rfl, rfl⟩
  | ok v => exact ⟨rfl, rfl⟩

/-- Right after a successful upsert of an entity state the same upsert succeeds, with the
namespace resolved to the same id. -/
theorem createOrUpdate_again (db db1 : Database) (p : EntityStateParams) (k : Nat)
    (h : createOrUpdateEntityState db p = .ok (k, db1)) :
    (∃ v, createOrUpdateEntityState db1 p = .ok v)
    ∧ resolveId p.NamespaceID (scalarSubquery ((namespaceCte db1 p.Namespace).map (fun r => r.id)))
      = resolveId p.NamespaceID (scalarSubquery ((namespaceCte db p.Namespace).map (fun r => r.id))) := by
  obtain ⟨n, hns, ⟨c, hcfg⟩, hnsp, hcfgs, ⟨r, hr, hc, _⟩, _⟩ := createOrUpdate_ok db db1 p k h
  have e1 : namespaceCte db1 p.Namespace = namespaceCte db p.Namespace := by
    unfold namespaceCte
    rw [hnsp]
  have e2 : configLookup db1 (some n) p.Name = configLookup db (some n) p.Name := by
    unfold configLookup
    rw [hcfgs]
  refine ⟨?_, by rw [e1]⟩
  unfold createOrUpdateEntityState
  rw [e1, hns]
  simp only []
  rw [e2, hcfg]
  simp only []
  cases hfind : db1.entity_states.find? (conflictsWith n p.Name) with
  | none => exact absurd hc (by simpa using List.find?_eq_none.mp hfind r hr)
  | some existing => exact ⟨_, rfl⟩

/-- C15: CreateOrUpdate on the relational path is an idempotent upsert. Its only errors
are NotValid and Internal, and it returns AlreadyExists for no request, wrapper and state
of the backend. On the entity state tables, where (namespace_id, name) is unique: when
CreateOrUpdate of an entity state has succeeded, the same call succeeds again, and after
either call exactly one row has the namespace and name of the entity state. -/
theorem C15_createOrUpdate_idempotent (s : StoreV2 σ τ) (req : ResourceRequest)
    (wrapper : Wrapper) (w : World σ τ) (hu : req.UsePostgres = true)
    {τ' : Type} (rest : Stmts Database) (etcd : Etcd τ') (sreq : ResourceRequest)
    (spw : PgWrapper) (p : EntityStateParams) (sw : World (TxState Database) τ')
    (hsu : sreq.UsePostgres = true) (hss : sreq.StoreName = entityStateStoreName)
    (hp : entityStateParams spw.SQLParams = some p)
    (hunique : entityStateUnique sw.pg.committed)
    (hfirst : ((entityStoreOver rest etcd).CreateOrUpdate sreq (.pg spw) sw).1 = none) :
    (∀ e, (s.CreateOrUpdate req wrapper w).1 = some e →
        (∃ m, e = .ErrNotValid m) ∨ ∃ m, e = .ErrInternal m)
    ∧ (∀ key, (s.CreateOrUpdate req wrapper w).1 ≠ some (.ErrAlreadyExists key))
    ∧ ((entityStoreOver rest etcd).CreateOrUpdate sreq (.pg spw)
        ((entityStoreOver rest etcd).CreateOrUpdate sreq (.pg spw) sw).2).1 = none
    ∧ ∃ n : Int,
        resolveId p.NamespaceID
          (scalarSubquery ((namespaceCte sw.pg.committed p.Namespace).map (fun r => r.id)))
          = .ok (some n)
        ∧ (((entityStoreOver rest etcd).CreateOrUpdate sreq (.pg spw)
            sw).2.pg.committed.entity_states.filter (conflictsWith n p.Name)).length = 1
        ∧ (((entityStoreOver rest etcd).CreateOrUpdate sreq (.pg spw)
            ((entityStoreOver rest etcd).CreateOrUpdate sreq (.pg spw)
              sw).2).2.pg.committed.entity_states.filter (conflictsWith n p.Name)).length
            = 1 := by
  have hdom : ∀ e, (s.CreateOrUpdate req wrapper w).1 = some e →
      (∃ m, e = .ErrNotValid m) ∨ ∃ m, e = .ErrInternal m := by
    intro e he
    rcases createOrUpdate_domain s req wrapper w hu e he with h | h | h
    · exact Or.inl ⟨_, h⟩
    · exact Or.inl ⟨_, h⟩
    · exact Or.inr h
  refine ⟨hdom, ?_, ?_⟩
  · intro key hkey
    rcases hdom _ hkey with ⟨m, hm⟩ | ⟨m, hm⟩ <;> cases hm
  · obtain ⟨k, hk⟩ := createOrUpdate_committed rest etcd sreq spw p sw hsu hss hp hfirst
    obtain ⟨⟨v, hv⟩, hsame⟩ := createOrUpdate_again _ _ p k hk
    obtain ⟨h1, h2⟩ := createOrUpdate_entityState rest etcd sreq spw p
      ((entityStoreOver rest etcd).CreateOrUpdate sreq (.pg spw) sw).2 hsu hss hp
    rw [hv] at h1 h2
    obtain ⟨n, hns, _, _, _, ⟨r, hr, hc, _⟩, hu1⟩ := createOrUpdate_ok _ _ p k hk
    obtain ⟨n2, hns2, _, _, _, ⟨r2, hr2, hc2, _⟩, hu2⟩ := createOrUpdate_ok _ _ p v.1 hv
    have hn : n2 = n := by
      rw [hsame, hns] at hns2
      simpa using hns2.symm
    subst hn
    refine ⟨h1, n2, hns, ?_, ?_⟩
    · refine le_antisymm (hu1 hunique n2 p.Name) ?_
      exact List.length_pos.mpr (List.ne_nil_of_mem (List.mem_filter.mpr ⟨hr, hc⟩))
    · rw [h2]
      refine le_antisymm (hu2 (hu1 hunique) n2 p.Name) ?_
      exact List.length_pos.mpr (List.ne_nil_of_mem (List.mem_filter.mpr ⟨hr2, hc2⟩))

/-- Witness of C15: on tables without an entity state, CreateOrUpdate of foo twice
succeeds twice. -/
theorem C15_createOrUpdate_idempotent_witness :
    pgReq.UsePostgres = true ∧ (stateReq "default" "foo").UsePostgres = true
    ∧ (stateReq "default" "foo").StoreName = entityStateStoreName
    ∧ entityStateParams (stateWrapper "default" "foo" [eth0]).SQLParams
        = some { fooStateParams with Networks := [eth0] }
    ∧ entityStateUnique (worldOf emptyStates).pg.committed
    ∧ ((entityStoreOver noStmts emptyEtcd).CreateOrUpdate (stateReq "default" "foo")
        (.pg (stateWrapper "default" "foo" [eth0])) (worldOf emptyStates)).1 = none
    ∧ ((entityStoreOver noStmts emptyEtcd).CreateOrUpdate (stateReq "default" "foo")
        (.pg (stateWrapper "default" "foo" [eth0]))
        ((entityStoreOver noStmts emptyEtcd).CreateOrUpdate (stateReq "default" "foo")
          (.pg (stateWrapper "default" "foo" [eth0])) (worldOf emptyStates)).2).1 = none :=
  ⟨rfl, rfl, rfl, by decide, fun _ _ => Nat.zero_le 1, by decide,
    (C15_createOrUpdate_idempotent (scriptedStore okScript) pgReq (.pg fooWrapper) world0 rfl
      noStmts emptyEtcd (stateReq "default" "foo") (stateWrapper "default" "foo" [eth0])
      { fooStateParams with Networks := [eth0] } (worldOf emptyStates) rfl rfl (by decide)
      (fun _ _ => Nat.zero_le 1) (by decide)).2.2.1⟩

/-! ### Soft delete on the entity state tables -/

theorem keyParams_entityState (req : ResourceRequest) (hs : req.StoreName = entityStateStoreName) :
    keyParams req = [.text req.Namespace, .text req.Name] := by
  have h1 : ¬ entityStateStoreName = namespaceStoreName := by decide
  simp [keyParams, hs, h1]

/-- Get of an entity state, by the rows of the statement on the committed tables. -/
theorem get_entityState {τ : Type} (rest : Stmts Database) (etcd : Etcd τ)
    (req : ResourceRequest) (w : World (TxState Database) τ) (hu : req.UsePostgres = true)
    (hs : req.StoreName = entityStateStoreName) :
    ((entityStoreOver rest etcd).Get req w).1
      = (match firstRow (getEntityStateRows w.pg.committed req.Namespace req.Name) with
        | .error err =>
          if err = .ErrNoRows then .ret (none, some (.ErrNotFound (dotKey req)))
          else .ret (none, some (.ErrInternal err.Error))
        | .ok row => .ret (some (.pg (scanInto .EntityStateWrapper row)), none)) := by
  simp only [StoreV2.Get, hu, (lookupQuery_entityState req hs).2.2.2.1,
    (lookupQuery_entityState req hs).2.2.2.2.2.2.2.2,
    keyParams_entityState req hs, Bool.not_true, Bool.false_eq_true, if_false, dbQueryRow,
    entityStoreOver, txPg, entityStateStmts, autoCommit]
  cases firstRow (getEntityStateRows w.pg.committed req.Namespace req.Name) with
  | error e =>
    simp only [Except.map]
    split_ifs <;> rfl
  | ok v => rfl

/-- Exists of an entity state, by the rows of the statement on the committed tables. -/
theorem exists_entityState {τ : Type} (rest : Stmts Database) (etcd : Etcd τ)
    (req : ResourceRequest) (w : World (TxState Database) τ) (hu : req.UsePostgres = true)
    (hs : req.StoreName = entityStateStoreName) :
    ((entityStoreOver rest etcd).Exists req w).1
      = (match (firstRow (existsEntityStateRows w.pg.committed req.Namespace req.Name)).bind
            scanBool with
        | .ok found => (found, none)
        | .error err =>
          if err = .ErrNoRows then (false, none) else (false, some (.ErrInternal err.Error))) := by
  simp only [StoreV2.Exists, hu, (lookupQuery_entityState req hs).2.2.2.2.2.2.1,
    keyParams_entityState req hs, Bool.not_true, Bool.false_eq_true, if_false, dbQueryRow,
    entityStoreOver, txPg, entityStateStmts, autoCommit]
  cases firstRow (existsEntityStateRows w.pg.committed req.Namespace req.Name) with
  | error e =>
    simp only [Except.map, Except.bind]
    split_ifs <;> rfl
  | ok v =>
    simp only [Except.map, Except.bind]
    cases scanBool v with
    | error e => simp only []; split_ifs <;> rfl
    | ok b => rfl

theorem groupRequests_valid_later (D : Deps) :
    ∀ (rs : List ResourceRequest) (i : Nat) (g g1 : Grouping), i ≠ 0 →
      groupRequests D i rs g = .ret (.ok g1) →
      ∀ r ∈ rs, D.Validate r = none ∧ r.StoreName = g.storeName := by
  intro rs
  induction rs with
  | nil => intro i g g1 _ _ r hr; cases hr
  | cons a rest ih =>
    intro i g g1 hi h r hr
    simp only [groupRequests, hi, if_false] at h
    cases hv : D.Validate a with
    | some m => rw [hv] at h; simp at h
    | none =>
      rw [hv] at h
      simp only [] at h
      split_ifs at h with hne
      rcases List.mem_cons.mp hr with rfl | hr1
      · exact ⟨hv, (not_not.mp hne).symm⟩
      · have := ih (i + 1) _ g1 (Nat.succ_ne_zero i) h r hr1
        exact this

/-- When the first loop of GetMultiple ends without error, its variables describe the
whole batch. -/
theorem groupRequests_grouping (D : Deps) (r0 : ResourceRequest) (tl : List ResourceRequest)
    (g1 : Grouping)
    (h : groupRequests D 0 (r0 :: tl)
      { storeName := "", keyedResourceRequests := [], namespacedResources := [] }
      = .ret (.ok g1)) :
    GroupingOf (r0 :: tl) r0.StoreName g1 := by
  have hall : ∀ r ∈ r0 :: tl, D.Validate r = none ∧ r.StoreName = r0.StoreName := by
    have h2 := h
    simp only [groupRequests, if_true] at h2
    cases hv : D.Validate r0 with
    | some m => rw [hv] at h2; simp at h2
    | none =>
      rw [hv] at h2
      simp only [] at h2
      split_ifs at h2 with hne
      intro r hr
      rcases List.mem_cons.mp hr with rfl | hr1
      · exact ⟨hv, rfl⟩
      · have := groupRequests_valid_later D tl 1 _ g1 (Nat.succ_ne_zero 0) h2 r hr1
        exact this
  obtain ⟨g2, hg2, hgo⟩ := groupRequests_ok D r0.StoreName (r0 :: tl) [] _
    (fun r hr => (hall r hr).1) (fun r hr => (hall r hr).2) (groupingOf_nil r0.StoreName)
  simp only [List.length_nil] at hg2
  rw [h] at hg2
  simp only [Outcome.ret.injEq, Except.ok.injEq] at hg2
  subst hg2
  simpa using hgo

theorem listParams_read (req : ResourceRequest) (limit offset : SqlValue)
    (hs : req.StoreName = entityStateStoreName) (hw : windowValues limit offset) :
    ∃ lim off, listStatementParams (listParams req limit offset)
      = some (if req.Namespace = "" then none else some req.Namespace, lim, off) := by
  have h1 : ¬ entityStateStoreName = namespaceStoreName := by decide
  obtain ⟨hl, o, rfl⟩ := hw
  rcases hl with rfl | ⟨l, rfl⟩ <;> by_cases hns : req.Namespace = "" <;>
    simp [listParams, listStatementParams, hs, h1, hns]

theorem lookupQuery_list (req : ResourceRequest) :
    (req.StoreName = entityConfigStoreName →
      lookupQuery req .listQ = some (if req.SortOrder = .SortDescend
        then .listEntityConfigDescQuery else .listEntityConfigQuery))
    ∧ (req.StoreName = entityStateStoreName →
      lookupQuery req .listQ = some (if req.SortOrder = .SortDescend
        then .listEntityStateDescQuery else .listEntityStateQuery))
    ∧ (req.StoreName = namespaceStoreName →
      lookupQuery req .listQ = some (if req.SortOrder = .SortDescend
        then .listNamespaceDescQuery else .listNamespaceQuery)) := by
  have h1 : ¬ entityStateStoreName = entityConfigStoreName := by decide
  have h2 : ¬ namespaceStoreName = entityConfigStoreName := by decide
  have h3 : ¬ namespaceStoreName = entityStateStoreName := by decide
  refine ⟨?_, ?_, ?_⟩ <;> intro hs <;> unfold lookupQuery <;>
    simp only [hs, h1, h2, h3, if_true, if_false] <;> cases req.SortOrder <;> rfl

/-- The list statements of the entity state store on the committed tables: the window of
the rows of the statement, and no row when the statement fails. -/
theorem entityStore_query_list {τ : Type} (rest : Stmts Database) (etcd : Etcd τ)
    (ps : List SqlValue) (ns : Option String) (lim : Option Nat) (off : Nat)
    (st : TxState Database) (hp : listStatementParams ps = some (ns, lim, off)) :
    ((entityStoreOver rest etcd).db.query .listEntityStateQuery ps st).1
      = .ok (match listEntityStateAll st.committed ns false with
          | .error _ => []
          | .ok rows => (window lim off rows).map RowOutcome.row)
    ∧ ((entityStoreOver rest etcd).db.query .listEntityStateDescQuery ps st).1
      = .ok (match listEntityStateAll st.committed ns true with
          | .error _ => []
          | .ok rows => (window lim off rows).map RowOutcome.row) := by
  simp only [entityStoreOver, txPg, entityStateStmts, hp, autoCommitRows]
  constructor
  · cases listEntityStateAll st.committed ns false with
    | error e => rfl
    | ok rows => rfl
  · cases listEntityStateAll st.committed ns true with
    | error e => rfl
    | ok rows => rfl

theorem window_nil {α : Type} (limit : Option Nat) (offset : Nat) :
    window limit offset ([] : List α) = [] := by
  cases limit <;> simp [window]

/-- A successful List of the entity state store returns the scans of a window of the rows
of the list statement the sort order selects, for the namespace of the request or for all
namespaces when it is empty; when the statement fails while it runs, it returns no
wrapper. -/
theorem list_entityState_window {τ : Type} (rest : Stmts Database) (etcd : Etcd τ) (D : Deps)
    (req : ResourceRequest) (pred : Option SelectionPredicate) (w : World (TxState Database) τ)
    (wl : List Wrapper) (p1 : Option SelectionPredicate) (hu : req.UsePostgres = true)
    (hs : req.StoreName = entityStateStoreName)
    (hwin : ∀ limit offset, D.getLimitAndOffset pred = (limit, offset, none) →
      windowValues limit offset)
    (h : ((entityStoreOver rest etcd).List D req pred w).1 = .ret ((some wl, none), p1)) :
    ∃ (lim : Option Nat) (off : Nat) (all : List Row),
      (listEntityStateAll w.pg.committed (if req.Namespace = "" then none else some req.Namespace)
          (decide (req.SortOrder = .SortDescend)) = .ok all ∨ all = [])
      ∧ wl = (window lim off all).map (fun r => Wrapper.pg (scanInto .EntityStateWrapper r)) := by
  obtain ⟨q, limit, offset, rs, hq, hlo, hquery, _, hwl, _⟩ :=
    list_success (entityStoreOver rest etcd) D req pred w wl p1 hu h
  have hkind : lookupWrapper req .listQ = .ret .EntityStateWrapper :=
    (lookupWrapper_congr req req .listQ .getQ rfl).trans
      (lookupQuery_entityState req hs).2.2.2.2.2.2.2.2
  obtain ⟨lim, off, hread⟩ := listParams_read req limit offset hs (hwin limit offset hlo)
  obtain ⟨hasc, hdesc⟩ := entityStore_query_list rest etcd _ _ lim off w.pg hread
  have hsel := (lookupQuery_list req).2.1 hs
  rw [hq] at hsel
  have hinj : ∀ rows : List Row, rs.map RowOutcome.row = rows.map RowOutcome.row → rs = rows :=
    fun rows hrs => List.map_injective_iff.mpr (fun a b hab => by cases hab; rfl) hrs
  have key : ∀ d : Bool,
      (Except.ok (match listEntityStateAll w.pg.committed
          (if req.Namespace = "" then none else some req.Namespace) d with
        | .error _ => []
        | .ok rows => (window lim off rows).map RowOutcome.row)
        : Except DriverError (List RowOutcome)) = .ok (rs.map RowOutcome.row) →
      ∃ all : List Row,
        (listEntityStateAll w.pg.committed (if req.Namespace = "" then none else some req.Namespace)
            d = .ok all ∨ all = [])
        ∧ wl = (window lim off all).map (fun r => Wrapper.pg (scanInto .EntityStateWrapper r)) := by
    intro d hres
    simp only [Except.ok.injEq] at hres
    cases hr : listEntityStateAll w.pg.committed
        (if req.Namespace = "" then none else some req.Namespace) d with
    | error e =>
      rw [hr] at hres
      simp only [] at hres
      have hrs : rs = [] := hinj [] (by rw [← hres]; rfl)
      exact ⟨[], Or.inr rfl, by rw [hwl _ hkind, hrs, window_nil]⟩
    | ok rows =>
      rw [hr] at hres
      simp only [] at hres
      have hrs : rs = window lim off rows := hinj _ hres.symm
      exact ⟨rows, Or.inl rfl, by rw [hwl _ hkind, hrs]⟩
  by_cases hd : req.SortOrder = .SortDescend
  · simp only [hd, if_true, Option.some.injEq] at hsel
    subst hsel
    rw [hdesc] at hquery
    have hdec : decide (req.SortOrder = .SortDescend) = true := decide_eq_true hd
    rw [hdec]
    obtain ⟨all, h1, h2⟩ := key true hquery
    exact ⟨lim, off, all, h1, h2⟩
  · simp only [hd, if_false, Option.some.injEq] at hsel
    subst hsel
    rw [hasc] at hquery
    have hdec : decide (req.SortOrder = .SortDescend) = false := decide_eq_false hd
    rw [hdec]
    obtain ⟨all, h1, h2⟩ := key false hquery
    exact ⟨lim, off, all, h1, h2⟩

/-- C20: List of the entity state store with an empty namespace, without a window. On
tables with the namespaces default and other whose only entity state is foo of default,
the result reports foo twice, once under default and once under other. On tables with the
single namespace default and the entity state foo without a network interface, the
result is empty. -/
theorem C20_list_all_namespaces_diverges :
    twoNamespaces.entity_states.map (fun e => (e.namespace_id, e.name, e.deleted_at))
      = [(1, "foo", none)]
    ∧ listing ((entityStoreOver noStmts emptyEtcd).List plainDeps listAllStatesReq none
        (worldOf twoNamespaces)).1
      = some [[.text "default", .text "foo"], [.text "other", .text "foo"]]
    ∧ fooDatabase.entity_states.map (fun e => (e.namespace_id, e.name, e.deleted_at))
      = [(1, "foo", none)]
    ∧ listing ((entityStoreOver noStmts emptyEtcd).List plainDeps listAllStatesReq none
        (worldOf fooDatabase)).1 = some [] := by
  refine ⟨rfl, ?_, rfl, ?_⟩
  · decide
  · decide

/-! ### Pagination -/

/-- C27: Patch on the relational path when Begin fails, for a request that passes Validate
and has a statement. The error of Begin is not returned: Patch ends in the panic of a call
on the nil transaction, after Begin as its only call on the driver. -/
theorem C27_patch_begin_failure_panics (s : StoreV2 σ τ) (D : Deps) (req : ResourceRequest)
    (wrapper : Wrapper) (patcher : Patcher) (conditions : Option ETagCondition) (w : World σ τ)
    (q : Query) (err : DriverError) (hu : req.UsePostgres = true)
    (hv : D.Validate req = none) (hq : lookupQuery req .getQ = some q)
    (hb : (s.db.beginTx w.pg).1 = some err) :
    (s.Patch D req wrapper patcher conditions w).1
      = .panic "invalid memory address or nil pointer dereference"
    ∧ (s.Patch D req wrapper patcher conditions w).1 ≠ .ret (some (.ErrInternal err.Error))
    ∧ (s.Patch D req wrapper patcher conditions w).2.log = w.log ++ [.Begin] := by
  obtain ⟨kind, hk⟩ := lookupWrapper_of_lookupQuery req .getQ .getQ q hq
  have hbb : (dbBegin s w).1 = some err := by simpa [dbBegin] using hb
  have hlog : (dbBegin s w).2.log = w.log ++ [.Begin] := rfl
  unfold StoreV2.Patch
  simp only [hu, hv, hq, hk, Bool.not_true, Bool.false_eq_true, if_false]
  generalize dbBegin s w = b at hbb hlog
  obtain ⟨res, w1⟩ := b
  simp only [] at hbb hlog
  subst hbb
  exact ⟨rfl, by simp, hlog⟩

/-- Witness of C27: Patch of the entity config foo on a driver whose Begin is refused. -/
theorem C27_patch_begin_failure_panics_witness :
    pgReq.UsePostgres = true ∧ plainDeps.Validate pgReq = none
    ∧ lookupQuery pgReq .getQ = some .getEntityConfigQuery
    ∧ ((scriptedStore beginFailsScript).db.beginTx world0.pg).1 = some (.other "connection refused")
    ∧ ((scriptedStore beginFailsScript).Patch plainDeps pgReq (.pg fooWrapper) (fun b => .ok b)
        none world0).1 = .panic "invalid memory address or nil pointer dereference" :=
  ⟨rfl, by decide, by decide, rfl,
    (C27_patch_begin_failure_panics (scriptedStore beginFailsScript) plainDeps pgReq
      (.pg fooWrapper) (fun b => .ok b) none world0 .getEntityConfigQuery
      (.other "connection refused") rfl (by decide) (by decide) rfl).1⟩

/-! ### The namespace field of requests for the namespace store -/

theorem get_world (s : StoreV2 σ τ) (req : ResourceRequest) (w : World σ τ)
    (hu : req.UsePostgres = true) :
    (s.Get req w).2 = (match lookupQuery req .getQ with
      | none => w
      | some q => (dbQueryRow s q (keyParams req) w).2) := by
  simp only [StoreV2.Get, hu, Bool.not_true, Bool.false_eq_true, if_false]
  cases lookupQuery req .getQ with
  | none => rfl
  | some q =>
    simp only []
    generalize dbQueryRow s q (keyParams req) w = r
    obtain ⟨row, w1⟩ := r
    cases lookupWrapper req .getQ with
    | panic msg => rfl
    | ret kind =>
      cases row with
      | error err => simp only []; split_ifs <;> rfl
      | ok r => rfl

theorem delete_world (s : StoreV2 σ τ) (req : ResourceRequest) (w : World σ τ)
    (hu : req.UsePostgres = true) :
    (s.Delete req w).2 = (match lookupQuery req .deleteQ with
      | none => w
      | some q => (dbExec s q (keyParams req) w).2) := by
  simp only [StoreV2.Delete, hu, Bool.not_true, Bool.false_eq_true, if_false]
  cases lookupQuery req .deleteQ with
  | none => rfl
  | some q =>
    simp only []
    generalize dbExec s q (keyParams req) w = r
    obtain ⟨res, w1⟩ := r
    cases res with
    | error err => rfl
    | ok n => simp only []; split_ifs <;> rfl

theorem exists_world (s : StoreV2 σ τ) (req : ResourceRequest) (w : World σ τ)
    (hu : req.UsePostgres = true) :
    (s.Exists req w).2 = (match lookupQuery req .existsQ with
      | none => w
      | some q => (dbQueryRow s q (keyParams req) w).2) := by
  simp only [StoreV2.Exists, hu, Bool.not_true, Bool.false_eq_true, if_false]
  cases lookupQuery req .existsQ with
  | none => rfl
  | some q =>
    simp only []
    generalize dbQueryRow s q (keyParams req) w = r
    obtain ⟨row, w1⟩ := r
    simp only []
    cases row.bind scanBool with
    | error err => simp only []; split_ifs <;> rfl
    | ok b => rfl

theorem list_world (s : StoreV2 σ τ) (D : Deps) (req : ResourceRequest)
    (pred : Option SelectionPredicate) (w : World σ τ) (hu : req.UsePostgres = true) :
    (s.List D req pred w).2 = (match lookupQuery req .listQ, D.getLimitAndOffset pred with
      | none, _ => w
      | some _, (_, _, some _) => w
      | some q, (limit, offset, none) => (dbQuery s q (listParams req limit offset) w).2) := by
  simp only [StoreV2.List, hu, Bool.not_true, Bool.false_eq_true, if_false]
  cases lookupQuery req .listQ with
  | none => rfl
  | some q =>
    simp only []
    generalize D.getLimitAndOffset pred = lo
    obtain ⟨limit, offset, oerr⟩ := lo
    cases oerr with
    | some err => rfl
    | none =>
      simp only []
      generalize dbQuery s q (listParams req limit offset) w = r
      obtain ⟨res, w1⟩ := r
      cases res with
      | error rerr => rfl
      | ok rows =>
        simp only []
        cases listRows req rows [] 0 with
        | panic msg => rfl
        | ret v =>
          cases v with
          | error e => rfl
          | ok x => rfl

/-- The statement and parameters `patchPrepare` yields do not depend on the namespace
field of the request; only the keys in its errors do. -/
theorem patchPrepare_namespace (D : Deps) (req : ResourceRequest) (ns : String)
    (ow : PgWrapper) (patcher : Patcher) (conditions : Option ETagCondition) :
    (patchPrepare D { req with Namespace := ns } ow patcher conditions).toOption
      = (patchPrepare D req ow patcher conditions).toOption := by
  have hq : lookupQuery { req with Namespace := ns } .createOrUpdateQ
      = lookupQuery req .createOrUpdateQ := rfl
  unfold patchPrepare
  rw [hq]
  cases D.Unwrap ow with
  | error e => rfl
  | ok resource =>
    simp only []
    cases D.ETag resource with
    | error e => rfl
    | ok etag =>
      simp only []
      split_ifs
      · rfl
      · rfl

/-- The calls of the body of Patch and whether it ends without error do not depend on the
namespace field of the request when statement, parameters and wrapper type are given. -/
theorem patchBody_namespace (s : StoreV2 σ τ) (D : Deps) (req : ResourceRequest) (ns : String)
    (q : Query) (params : List SqlValue) (kind : WrapperKind) (patcher : Patcher)
    (conditions : Option ETagCondition) (w : World σ τ) :
    (patchBody s D { req with Namespace := ns } q params kind patcher conditions w).2
      = (patchBody s D req q params kind patcher conditions w).2
    ∧ ((patchBody s D { req with Namespace := ns } q params kind patcher conditions w).1.isSome
      = (patchBody s D req q params kind patcher conditions w).1.isSome) := by
  unfold patchBody
  generalize txQueryRow s q params w = r
  obtain ⟨res, w1⟩ := r
  cases res with
  | error err =>
    simp only []
    split_ifs <;> exact ⟨rfl, rfl⟩
  | ok row =>
    simp only []
    have h := patchPrepare_namespace D req ns (scanInto kind row) patcher conditions
    cases h1 : patchPrepare D req (scanInto kind row) patcher conditions with
    | error e1 =>
      cases h2 : patchPrepare D { req with Namespace := ns } (scanInto kind row) patcher
          conditions with
      | error e2 => exact ⟨rfl, rfl⟩
      | ok v2 => rw [h1, h2] at h; simp [Except.toOption] at h
    | ok v1 =>
      cases h2 : patchPrepare D { req with Namespace := ns } (scanInto kind row) patcher
          conditions with
      | error e2 => rw [h1, h2] at h; simp [Except.toOption] at h
      | ok v2 =>
        rw [h1, h2] at h
        simp only [Except.toOption, Option.some.injEq] at h
        subst h
        obtain ⟨uq, ups⟩ := v2
        simp only []
        generalize txExec s uq ups w1 = r2
        obtain ⟨res2, w2⟩ := r2
        cases res2 with
        | error e => refine ⟨?_, ?_⟩ <;> first | rfl | trivial
        | ok n => refine ⟨?_, ?_⟩ <;> first | rfl | trivial

theorem patchDeferred_world (s : StoreV2 σ τ) (e1 e2 : Option GoError) (w : World σ τ)
    (h : e1.isSome = e2.isSome) : (patchDeferred s e1 w).2 = (patchDeferred s e2 w).2 := by
  cases e1 with
  | none =>
    cases e2 with
    | none => rfl
    | some b => simp at h
  | some a =>
    cases e2 with
    | none => simp at h
    | some b =>
      simp only [patchDeferred]
      generalize txRollback s w = r
      obtain ⟨res, w1⟩ := r
      cases res <;> rfl

/-- Patch makes the same calls for two requests that pass validation, select the same
statements with the same parameters and wrapper type, and whose bodies agree. -/
theorem patch_world_congr (s : StoreV2 σ τ) (D : Deps) (r1 r2 : ResourceRequest)
    (wrapper : Wrapper) (patcher : Patcher) (conditions : Option ETagCondition) (w : World σ τ)
    (hu1 : r1.UsePostgres = true) (hu2 : r2.UsePostgres = true)
    (hv1 : D.Validate r1 = none) (hv2 : D.Validate r2 = none)
    (hq : lookupQuery r2 .getQ = lookupQuery r1 .getQ) (hk : keyParams r2 = keyParams r1)
    (hw : lookupWrapper r2 .getQ = lookupWrapper r1 .getQ)
    (hbody : ∀ q params kind w1,
      (patchBody s D r2 q params kind patcher conditions w1).2
        = (patchBody s D r1 q params kind patcher conditions w1).2
      ∧ ((patchBody s D r2 q params kind patcher conditions w1).1.isSome
        = (patchBody s D r1 q params kind patcher conditions w1).1.isSome)) :
    (s.Patch D r2 wrapper patcher conditions w).2
      = (s.Patch D r1 wrapper patcher conditions w).2 := by
  cases hq1 : lookupQuery r1 .getQ with
  | none =>
    have hq2 : lookupQuery r2 .getQ = none := hq.trans hq1
    simp only [StoreV2.Patch, hu1, hu2, hv1, hv2, hq1, hq2, Bool.not_true, Bool.false_eq_true,
      if_false]
  | some q =>
    have hq2 : lookupQuery r2 .getQ = some q := hq.trans hq1
    obtain ⟨kind, hk1⟩ := lookupWrapper_of_lookupQuery r1 .getQ .getQ q hq1
    obtain ⟨kind2, hk2⟩ := lookupWrapper_of_lookupQuery r2 .getQ .getQ q hq2
    cases hb : (s.db.beginTx w.pg).1 with
    | some err =>
      have hbb : (dbBegin s w).1 = some err := by simpa [dbBegin] using hb
      unfold StoreV2.Patch
      simp only [hu1, hu2, hv1, hv2, hq1, hq2, hk1, hk2, Bool.not_true, Bool.false_eq_true,
        if_false]
      generalize dbBegin s w = b at hbb
      obtain ⟨res, w1⟩ := b
      simp only [] at hbb
      subst hbb
      rfl
    | none =>
      rw [patch_eq s D r2 wrapper patcher conditions w q kind2 hu2 hv2 hq2 hk2 hb,
        patch_eq s D r1 wrapper patcher conditions w q kind hu1 hv1 hq1 hk1 hb]
      simp only [hk]
      have e1 : (patchBody s D r2 q (keyParams r1) kind2 patcher conditions (dbBegin s w).2).2
          = (patchBody s D r1 q (keyParams r1) kind patcher conditions (dbBegin s w).2).2
          ∧ ((patchBody s D r2 q (keyParams r1) kind2 patcher conditions (dbBegin s w).2).1.isSome
            = (patchBody s D r1 q (keyParams r1) kind patcher conditions
                (dbBegin s w).2).1.isSome) := by
        have hkk : kind2 = kind := by
          rw [hk1, hk2] at hw
          cases hw
          rfl
        subst hkk
        exact hbody q (keyParams r1) kind2 (dbBegin s w).2
      rw [e1.1]
      exact patchDeferred_world s _ _ _ e1.2

/-- C26: requests for the namespace store on the relational path. Two requests that
differ only in the namespace field select the same statement for every operation and bind
the same parameters: the name alone for Get, Delete, Exists and the read of Patch, limit
and offset alone for List. So Get, Delete, Exists and List make the same calls on the
driver and leave the same state for both requests, and so does Patch when both requests
pass validation. -/
theorem C26_namespace_ignored_for_namespace_store (s : StoreV2 σ τ) (D : Deps)
    (req : ResourceRequest) (ns : String) (wrapper : Wrapper) (patcher : Patcher)
    (conditions : Option ETagCondition) (pred : Option SelectionPredicate) (w : World σ τ)
    (hu : req.UsePostgres = true) (hs : req.StoreName = namespaceStoreName) :
    (∀ op, lookupQuery { req with Namespace := ns } op = lookupQuery req op)
    ∧ keyParams { req with Namespace := ns } = [.text req.Name]
    ∧ keyParams req = [.text req.Name]
    ∧ (∀ limit offset, listParams { req with Namespace := ns } limit offset = [limit, offset]
        ∧ listParams req limit offset = [limit, offset])
    ∧ (s.Get { req with Namespace := ns } w).2 = (s.Get req w).2
    ∧ (s.Delete { req with Namespace := ns } w).2 = (s.Delete req w).2
    ∧ (s.Exists { req with Namespace := ns } w).2 = (s.Exists req w).2
    ∧ (s.List D { req with Namespace := ns } pred w).2 = (s.List D req pred w).2
    ∧ (D.Validate req = none → D.Validate { req with Namespace := ns } = none →
        (s.Patch D { req with Namespace := ns } wrapper patcher conditions w).2
          = (s.Patch D req wrapper patcher conditions w).2) := by
  have hq : ∀ op, lookupQuery { req with Namespace := ns } op = lookupQuery req op :=
    fun _ => rfl
  have hk1 : keyParams { req with Namespace := ns } = [.text req.Name] := by
    simp [keyParams, hs]
  have hk2 : keyParams req = [.text req.Name] := by
    simp [keyParams, hs]
  have hl : ∀ limit offset,
      listParams { req with Namespace := ns } limit offset = [limit, offset]
      ∧ listParams req limit offset = [limit, offset] := by
    intro limit offset
    simp [listParams, hs]
  refine ⟨hq, hk1, hk2, hl, ?_, ?_, ?_, ?_, ?_⟩
  · rw [get_world s { req with Namespace := ns } w hu, get_world s req w hu, hq, hk1, hk2]
  · rw [delete_world s { req with Namespace := ns } w hu, delete_world s req w hu, hq, hk1, hk2]
  · rw [exists_world s { req with Namespace := ns } w hu, exists_world s req w hu, hq, hk1, hk2]
  · rw [list_world s D { req with Namespace := ns } pred w hu, list_world s D req pred w hu, hq]
    cases lookupQuery req .listQ with
    | none => rfl
    | some q =>
      generalize D.getLimitAndOffset pred = lo
      obtain ⟨limit, offset, oerr⟩ := lo
      cases oerr with
      | some e => rfl
      | none =>
        simp only []
        rw [(hl limit offset).1, (hl limit offset).2]
  · intro hv1 hv2
    exact patch_world_congr s D req { req with Namespace := ns } wrapper patcher conditions w hu
      hu hv1 hv2 (hq _) (hk1.trans hk2.symm) rfl
      (fun q params kind w1 => patchBody_namespace s D req ns q params kind patcher conditions w1)

/-- Witness of C26: the request for the namespace bar with the namespace field set to
other makes the same calls as with the field empty. -/
theorem C26_namespace_ignored_for_namespace_store_witness :
    barNamespaceReq.UsePostgres = true ∧ barNamespaceReq.StoreName = namespaceStoreName
    ∧ ((scriptedStore okScript).Get { barNamespaceReq with Namespace := "other" } world0).2.log
      = [.QueryRow .getNamespaceQuery [.text "bar"]]
    ∧ ((scriptedStore okScript).Get { barNamespaceReq with Namespace := "other" } world0).2
      = ((scriptedStore okScript).Get barNamespaceReq world0).2 :=
  ⟨rfl, rfl, by decide,
    (C26_namespace_ignored_for_namespace_store (scriptedStore okScript) plainDeps barNamespaceReq
      "other" (.pg fooWrapper) (fun b => .ok b) none none world0 rfl rfl).2.2.2.2.1⟩

/-! ### The order of List -/

theorem listOrder_total (d : Bool) (a b : String × String) :
    listOrder d a b = true ∨ listOrder d b a = true := by
  have key : ∀ x y : String × String,
      (x.1.toList < y.1.toList ∨ (x.1 = y.1 ∧ x.2.toList ≤ y.2.toList))
      ∨ (y.1.toList < x.1.toList ∨ (y.1 = x.1 ∧ y.2.toList ≤ x.2.toList)) := by
    intro x y
    rcases lt_trichotomy x.1.toList y.1.toList with h | h | h
    · exact Or.inl (Or.inl h)
    · have he : x.1 = y.1 := String.ext h
      rcases le_total x.2.toList y.2.toList with h2 | h2
      · exact Or.inl (Or.inr ⟨he, h2⟩)
      · exact Or.inr (Or.inr ⟨he.symm, h2⟩)
    · exact Or.inr (Or.inl h)
  cases d with
  | false => simpa [listOrder] using key a b
  | true => simpa [listOrder] using key b a

theorem listOrder_trans (d : Bool) (a b c : String × String)
    (h1 : listOrder d a b = true) (h2 : listOrder d b c = true) : listOrder d a c = true := by
  have key : ∀ x y z : String × String,
      (x.1.toList < y.1.toList ∨ (x.1 = y.1 ∧ x.2.toList ≤ y.2.toList)) →
      (y.1.toList < z.1.toList ∨ (y.1 = z.1 ∧ y.2.toList ≤ z.2.toList)) →
      (x.1.toList < z.1.toList ∨ (x.1 = z.1 ∧ x.2.toList ≤ z.2.toList)) := by
    intro x y z hxy hyz
    rcases hxy with h | ⟨he, h⟩
    · rcases hyz with h3 | ⟨he3, h3⟩
      · exact Or.inl (lt_trans h h3)
      · exact Or.inl (by rw [← he3]; exact h)
    · rcases hyz with h3 | ⟨he3, h3⟩
      · exact Or.inl (by rw [he]; exact h3)
      · exact Or.inr ⟨he.trans he3, le_trans h h3⟩
  cases d with
  | false =>
    simp only [listOrder, Bool.false_eq_true, if_false, decide_eq_true_eq] at h1 h2 ⊢
    exact key a b c h1 h2
  | true =>
    simp only [listOrder, if_true, decide_eq_true_eq] at h1 h2 ⊢
    exact key c b a h2 h1

/-- The rows of the entity state list statements are in the order of the statement:
ascending or descending by (namespace name, name). -/
theorem listEntityStateAll_sorted (db : Database) (nsParam : Option String) (descending : Bool)
    (rows : List Row) (h : listEntityStateAll db nsParam descending = .ok rows) :
    rows.Sorted (fun a b => listOrder descending (rowKey a) (rowKey b) = true) := by
  unfold listEntityStateAll at h
  simp only [] at h
  split at h
  · exact absurd h (by simp)
  · rename_i grouped _
    simp only [Except.ok.injEq] at h
    subst h
    haveI : IsTotal (NamespaceRow × EntityStateRow × List SqlValue) (fun a b =>
        listOrder descending (a.1.name, a.2.1.name) (b.1.name, b.2.1.name) = true) :=
      ⟨fun a b => listOrder_total descending _ _⟩
    haveI : IsTrans (NamespaceRow × EntityStateRow × List SqlValue) (fun a b =>
        listOrder descending (a.1.name, a.2.1.name) (b.1.name, b.2.1.name) = true) :=
      ⟨fun a b c => listOrder_trans descending _ _ _⟩
    have hs := List.sorted_insertionSort (fun (a b : NamespaceRow × EntityStateRow × List SqlValue) =>
        listOrder descending (a.1.name, a.2.1.name) (b.1.name, b.2.1.name) = true)
      (db.entity_states.flatMap (fun e =>
        if e.deleted_at = none ∧ grouped e = true ∧ db.entities_networks ≠ [] then
          (systemJoin db e).flatMap (fun facts =>
            (db.namespaces.filter (fun r =>
              decide (nsParam = none ∨ some r.name = nsParam))).map (fun nsrow => (nsrow, e, facts)))
        else []))
    unfold List.Sorted at hs ⊢
    rw [List.pairwise_map]
    exact hs

/-- The wrappers List returns from the entity state store are the scans of rows in the
order of the statement the sort order selects. -/
theorem list_entityState_sorted {τ : Type} (rest : Stmts Database) (etcd : Etcd τ) (D : Deps)
    (req : ResourceRequest) (pred : Option SelectionPredicate) (w : World (TxState Database) τ)
    (wl : List Wrapper) (p1 : Option SelectionPredicate) (hu : req.UsePostgres = true)
    (hs : req.StoreName = entityStateStoreName)
    (hwin : ∀ limit offset, D.getLimitAndOffset pred = (limit, offset, none) →
      windowValues limit offset)
    (h : ((entityStoreOver rest etcd).List D req pred w).1 = .ret ((some wl, none), p1)) :
    ∃ rs : List Row, wl = rs.map (fun r => Wrapper.pg (scanInto .EntityStateWrapper r))
      ∧ rs.Sorted (fun a b =>
          listOrder (decide (req.SortOrder = .SortDescend)) (rowKey a) (rowKey b) = true) := by
  obtain ⟨lim, off, all, hall, hwl⟩ :=
    list_entityState_window rest etcd D req pred w wl p1 hu hs hwin h
  refine ⟨window lim off all, hwl, ?_⟩
  have hsorted : all.Sorted (fun a b =>
      listOrder (decide (req.SortOrder = .SortDescend)) (rowKey a) (rowKey b) = true) := by
    rcases hall with hall | hall
    · exact listEntityStateAll_sorted _ _ _ all hall
    · rw [hall]
      exact List.sorted_nil
  unfold window
  cases lim with
  | none => exact List.Pairwise.sublist (List.drop_sublist _ _) hsorted
  | some l =>
    exact List.Pairwise.sublist ((List.take_sublist _ _).trans (List.drop_sublist _ _)) hsorted

/-- C21: the order of List on the relational path. For each of the three store kinds the
descending sort order selects the descending list statement and every other sort order
the ascending one. The wrappers of a successful List are the scans of the rows the
selected statement returned, in the order of the rows. For the entity state store the
rows are in the order of the statement, descending or ascending by (namespace name,
name). With the entity states foo-0 to foo-9 the first wrapper is foo-9 for the descending
order and foo-0 for the ascending and the unspecified order. -/
theorem C21_list_sort_order (s : StoreV2 σ τ) (D : Deps) (req : ResourceRequest)
    (pred : Option SelectionPredicate) (w : World σ τ) (hu : req.UsePostgres = true)
    {τ' : Type} (rest : Stmts Database) (etcd : Etcd τ') (sreq : ResourceRequest)
    (sw : World (TxState Database) τ') (hsu : sreq.UsePostgres = true)
    (hss : sreq.StoreName = entityStateStoreName)
    (hwin : ∀ limit offset, D.getLimitAndOffset pred = (limit, offset, none) →
      windowValues limit offset) :
    ((req.StoreName = entityConfigStoreName →
        lookupQuery req .listQ = some (if req.SortOrder = .SortDescend
          then .listEntityConfigDescQuery else .listEntityConfigQuery))
      ∧ (req.StoreName = entityStateStoreName →
        lookupQuery req .listQ = some (if req.SortOrder = .SortDescend
          then .listEntityStateDescQuery else .listEntityStateQuery))
      ∧ (req.StoreName = namespaceStoreName →
        lookupQuery req .listQ = some (if req.SortOrder = .SortDescend
          then .listNamespaceDescQuery else .listNamespaceQuery)))
    ∧ (∀ wl p1, (s.List D req pred w).1 = .ret ((some wl, none), p1) →
        ∃ (q : Query) (limit offset : SqlValue) (rs : List Row) (kind : WrapperKind),
          lookupQuery req .listQ = some q ∧ lookupWrapper req .listQ = .ret kind
          ∧ D.getLimitAndOffset pred = (limit, offset, none)
          ∧ (s.db.query q (listParams req limit offset) w.pg).1 = .ok (rs.map RowOutcome.row)
          ∧ wl = rs.map (fun r => Wrapper.pg (scanInto kind r)))
    ∧ (∀ wl p1, ((entityStoreOver rest etcd).List D sreq pred sw).1 = .ret ((some wl, none), p1) →
        ∃ rs : List Row, wl = rs.map (fun r => Wrapper.pg (scanInto .EntityStateWrapper r))
          ∧ rs.Sorted (fun a b =>
              listOrder (decide (sreq.SortOrder = .SortDescend)) (rowKey a) (rowKey b) = true))
    ∧ (listing ((entityStoreOver noStmts emptyEtcd).List plainDeps (listStatesReq .SortDescend)
          none (worldOf tenStates)).1).map List.head?
        = some (some [.text "default", .text "foo-9"])
    ∧ (listing ((entityStoreOver noStmts emptyEtcd).List plainDeps (listStatesReq .SortAscend)
          none (worldOf tenStates)).1).map List.head?
        = some (some [.text "default", .text "foo-0"])
    ∧ (listing ((entityStoreOver noStmts emptyEtcd).List plainDeps (listStatesReq .SortNone)
          none (worldOf tenStates)).1).map List.head?
        = some (some [.text "default", .text "foo-0"]) := by
  refine ⟨lookupQuery_list req, ?_, ?_, by decide, by decide, by decide⟩
  · intro wl p1 h
    obtain ⟨q, limit, offset, rs, hq, hlo, hquery, _, hwl, _⟩ :=
      list_success s D req pred w wl p1 hu h
    obtain ⟨kind, hk⟩ := lookupWrapper_of_lookupQuery req .listQ .listQ q hq
    exact ⟨q, limit, offset, rs, kind, hq, hk, hlo, hquery, hwl kind hk⟩
  · intro wl p1 h
    exact list_entityState_sorted rest etcd D sreq pred sw wl p1 hsu hss hwin h

/-- Witness of C21: the descending request for entity states selects the descending
statement, and the wrappers of the ten entity states come in descending order. -/
theorem C21_list_sort_order_witness :
    (listStatesReq .SortDescend).UsePostgres = true
    ∧ (listStatesReq .SortDescend).StoreName = entityStateStoreName
    ∧ (∀ limit offset, plainDeps.getLimitAndOffset none = (limit, offset, none) →
        windowValues limit offset)
    ∧ lookupQuery (listStatesReq .SortDescend) .listQ = some .listEntityStateDescQuery
    ∧ listing ((entityStoreOver noStmts emptyEtcd).List plainDeps (listStatesReq .SortDescend)
        none (worldOf tenStates)).1
      = some ([9, 8, 7, 6, 5, 4, 3, 2, 1, 0].map (fun i =>
          [.text "default", .text ("foo-" ++ String.singleton (Char.ofNat (48 + i)))])) :=
  ⟨rfl, rfl,
    fun limit offset h => (by
      have h1 : limit = .null := (congrArg Prod.fst h).symm
      have h2 : offset = .int 0 := (congrArg (fun x => x.2.1) h).symm
      subst h1 h2
      exact ⟨Or.inl rfl, 0, rfl⟩),
    ((C21_list_sort_order (scriptedStore okScript) plainDeps (listStatesReq .SortDescend) none
      world0 rfl noStmts emptyEtcd (listStatesReq .SortDescend) (worldOf tenStates) rfl rfl
      (fun limit offset h => (by
        have h1 : limit = .null := (congrArg Prod.fst h).symm
        have h2 : offset = .int 0 := (congrArg (fun x => x.2.1) h).symm
        subst h1 h2
        exact ⟨Or.inl rfl, 0, rfl⟩))).1.2.1 rfl),
    by decide⟩

/-! ### The network rows of an entity state -/

/-- C22: the entity state foo is stored with the interface eth0. CreateOrUpdate and
UpdateIfExists of foo with an empty set of interfaces both succeed and leave the row of
eth0 in `entities_networks`; CreateOrUpdate with the set of eth1 alone replaces the row
of eth0 by that of eth1. -/
theorem C22_empty_interface_set_keeps_rows :
    fooWithEth0.pg.committed.entities_networks
      = [{ entity_id := 1, name := "eth0", mac := "00:00:00:00:00:01",
           addresses := "[\"127.0.0.1\"]" }]
    ∧ ((entityStoreOver noStmts emptyEtcd).CreateOrUpdate (stateReq "default" "foo")
        (.pg (stateWrapper "default" "foo" [])) fooWithEth0).1 = none
    ∧ ((entityStoreOver noStmts emptyEtcd).CreateOrUpdate (stateReq "default" "foo")
        (.pg (stateWrapper "default" "foo" [])) fooWithEth0).2.pg.committed.entities_networks
      = [{ entity_id := 1, name := "eth0", mac := "00:00:00:00:00:01",
           addresses := "[\"127.0.0.1\"]" }]
    ∧ ((entityStoreOver noStmts emptyEtcd).UpdateIfExists (stateReq "default" "foo")
        (.pg (stateWrapper "default" "foo" [])) fooWithEth0).1 = none
    ∧ ((entityStoreOver noStmts emptyEtcd).UpdateIfExists (stateReq "default" "foo")
        (.pg (stateWrapper "default" "foo" [])) fooWithEth0).2.pg.committed.entities_networks
      = [{ entity_id := 1, name := "eth0", mac := "00:00:00:00:00:01",
           addresses := "[\"127.0.0.1\"]" }]
    ∧ ((entityStoreOver noStmts emptyEtcd).CreateOrUpdate (stateReq "default" "foo")
        (.pg (stateWrapper "default" "foo" [eth1])) fooWithEth0).2.pg.committed.entities_networks
      = [{ entity_id := 1, name := "eth1", mac := "00:00:00:00:00:02",
           addresses := "[\"10.0.0.1\"]" }] := by
  decide

/-! ### The three read paths on entity states -/

/-- C28: on tables with the entity states foo, without a network interface, and bar, with
the interface eth0, both not deleted. Get of foo returns foo with no interface.
GetMultiple for foo alone returns an empty map, and for foo and bar a map with bar alone.
List of the namespace returns bar and foo, and pairs foo with the interface of bar. -/
theorem C28_read_paths_disagree :
    (match ((entityStoreOver noStmts emptyEtcd).Get (stateReq "default" "foo")
        (worldOf fooAndBar)).1 with
      | .ret (some x, none) => some (nameAndNetworks x)
      | _ => none) = some ("foo", [.null, .null, .null])
    ∧ ((entityStoreOver noStmts emptyEtcd).GetMultiple plainDeps 0 [stateReq "default" "foo"]
        (worldOf fooAndBar)).1 = .ret (some [], none)
    ∧ (match ((entityStoreOver noStmts emptyEtcd).GetMultiple plainDeps 0
        [stateReq "default" "foo", stateReq "default" "bar"] (worldOf fooAndBar)).1 with
      | .ret (some m, none) => some (m.map (fun e => (e.1.Name, nameAndNetworks e.2)))
      | _ => none)
      = some [("bar", "bar", [.textArray ["eth0"], .textArray ["00:00:00:00:00:01"],
          .textArray ["[\"127.0.0.1\"]"]])]
    ∧ (match ((entityStoreOver noStmts emptyEtcd).List plainDeps (listStatesReq .SortNone) none
        (worldOf fooAndBar)).1 with
      | .ret ((some wl, none), _) => some (wl.map nameAndNetworks)
      | _ => none)
      = some [("bar", [.textArray ["eth0"], .textArray ["00:00:00:00:00:01"],
                .textArray ["[\"127.0.0.1\"]"]]),
              ("foo", [.textArray ["eth0"], .textArray ["00:00:00:00:00:01"],
                .textArray ["[\"127.0.0.1\"]"]])] := by
  decide

/-! ### Writes and reads of a soft deleted entity state -/

theorem firstRow_of_ne_nil (rows : List Row) (h : rows ≠ []) :
    ∃ row, firstRow (.ok rows) = .ok row := by
  cases rows with
  | nil => exact absurd rfl h
  | cons r rest => exact ⟨r, rfl⟩

theorem namespaceCte_of_lookup (db : Database) (ns : String) (v : Nat)
    (hns : scalarSubquery ((namespaceCte db ns).map (fun r => r.id)) = .ok (some v)) :
    ∃ nsrow, nsrow ∈ namespaceCte db ns := by
  obtain ⟨n, hn, _⟩ := List.mem_map.mp (scalarSubquery_mem hns)
  exact ⟨n, hn⟩

/-- When every row with the key is soft deleted, the get statement and the exists
statement find no row. -/
theorem reads_of_dead (db : Database) (ns name : String) (v : Nat)
    (hns : scalarSubquery ((namespaceCte db ns).map (fun r => r.id)) = .ok (some v))
    (hdead : ∀ r ∈ db.entity_states, r.namespace_id = v → r.name = name → r.deleted_at ≠ none) :
    getEntityStateRows db ns name = .ok [] ∧ existsEntityStateRows db ns name = .ok [] := by
  have hf : db.entity_states.filter (fun r =>
      keyMatches (some v) name r && decide (r.deleted_at = none)) = [] := by
    rw [List.filter_eq_nil_iff]
    intro r hr hk
    simp only [keyMatches, Bool.and_eq_true, decide_eq_true_eq, Option.some.injEq] at hk
    exact hdead r hr hk.1.1 hk.1.2 hk.2
  constructor
  · unfold getEntityStateRows
    rw [hns]
    simp only []
    rw [hf]
    simp
  · unfold existsEntityStateRows
    rw [hns]
    simp only []
    rw [hf]
    rfl

/-- When a row with the key is not soft deleted, the get statement yields a row and the
exists statement yields true. -/
theorem reads_of_live (db : Database) (ns name : String) (v : Nat) (r : EntityStateRow)
    (hns : scalarSubquery ((namespaceCte db ns).map (fun r => r.id)) = .ok (some v))
    (hr : r ∈ db.entity_states) (hk : r.namespace_id = v ∧ r.name = name)
    (hl : r.deleted_at = none) :
    (∃ row, firstRow (getEntityStateRows db ns name) = .ok row)
    ∧ (firstRow (existsEntityStateRows db ns name)).bind scanBool = .ok true := by
  have hmem : r ∈ db.entity_states.filter (fun r =>
      keyMatches (some v) name r && decide (r.deleted_at = none)) := by
    rw [List.mem_filter]
    refine ⟨hr, ?_⟩
    simp [keyMatches, hk.1, hk.2, hl]
  obtain ⟨nsrow, hnsrow⟩ := namespaceCte_of_lookup db ns v hns
  constructor
  · unfold getEntityStateRows
    rw [hns]
    simp only []
    apply firstRow_of_ne_nil
    intro hnil
    rw [List.flatMap_eq_nil_iff] at hnil
    have h1 := hnil r hr
    have hj : ∃ facts, facts ∈ (if db.entities_systems.filter (fun y => y.entity_id = r.id) = []
        then [List.replicate 13 SqlValue.null]
        else (db.entities_systems.filter (fun y => y.entity_id = r.id)).map (fun y => y.facts)) := by
      split_ifs with hsys
      · exact ⟨_, List.mem_singleton_self _⟩
      · obtain ⟨y, hy⟩ := List.exists_mem_of_ne_nil _ hsys
        exact ⟨_, List.mem_map_of_mem _ hy⟩
    obtain ⟨facts, hfacts⟩ := hj
    rw [List.flatMap_eq_nil_iff] at h1
    have h2 := h1 facts hfacts
    rw [List.flatMap_eq_nil_iff] at h2
    have h3 := h2 nsrow hnsrow
    rw [List.map_eq_nil_iff, List.filter_eq_nil_iff] at h3
    exact h3 r.id (List.mem_map_of_mem _ hmem) (by simp)
  · unfold existsEntityStateRows
    rw [hns]
    simp only []
    obtain ⟨x, rest, hx⟩ := List.exists_cons_of_ne_nil (List.ne_nil_of_mem hmem)
    rw [hx]
    rfl

theorem writeSubRecords_foldl (p : EntityStateParams) :
    ∀ (ids : List Nat) (d : Database),
      (ids.foldl (fun d sid => (writeSubRecords d sid p).2) d).entity_states = d.entity_states
      ∧ (ids.foldl (fun d sid => (writeSubRecords d sid p).2) d).namespaces = d.namespaces := by
  intro ids
  induction ids with
  | nil => intro d; exact ⟨rfl, rfl⟩
  | cons a rest ih =>
    intro d
    simp only [List.foldl_cons]
    obtain ⟨h1, h2⟩ := ih (writeSubRecords d a p).2
    exact ⟨h1, h2⟩

/-- What `updateIfExistsEntityStateQuery` leaves: the namespaces are as before and every
row with the key has the new columns and `deleted_at` NULL. -/
theorem updateIfExists_ok (db : Database) (p : EntityStateParams) (nsid : Option Nat)
    (h : scalarSubquery ((namespaceCte db p.Namespace).map (fun r => r.id)) = .ok nsid) :
    ∃ rows db1, updateIfExistsEntityState db p = .ok (rows, db1)
      ∧ db1.namespaces = db.namespaces
      ∧ db1.entity_states = db.entity_states.map (fun r =>
          if keyMatches nsid p.Name r then
            { r with last_seen := p.LastSeen, selectors := p.Selectors,
                     annotations := p.Annotations, deleted_at := none }
          else r) := by
  simp only [updateIfExistsEntityState, h]
  exact ⟨_, _, rfl, (writeSubRecords_foldl p _ _).2, (writeSubRecords_foldl p _ _).1⟩

/-- The state UpdateIfExists of an entity state leaves in the committed tables. -/
theorem updateIfExists_committed {τ : Type} (rest : Stmts Database) (etcd : Etcd τ)
    (req : ResourceRequest) (pw : PgWrapper) (p : EntityStateParams)
    (w : World (TxState Database) τ) (hu : req.UsePostgres = true)
    (hs : req.StoreName = entityStateStoreName) (hp : entityStateParams pw.SQLParams = some p) :
    ((entityStoreOver rest etcd).UpdateIfExists req (.pg pw) w).2.pg.committed
      = (match updateIfExistsEntityState w.pg.committed p with
        | .error _ => w.pg.committed
        | .ok v => v.2) := by
  rw [(updateIfExists_by_query (entityStoreOver rest etcd) req pw w _ hu
    (lookupQuery_entityState req hs).2.1).2, entityStore_query_update rest etcd _ p _ hp]
  dsimp only [autoCommitRows]
  cases updateIfExistsEntityState w.pg.committed p with
  | error e => rfl
  | ok v => rfl

/-- Patch of an entity state whose rows with the key are all soft deleted returns
NotFound. -/
theorem patch_of_dead {τ : Type} (rest : Stmts Database) (etcd : Etcd τ) (D : Deps)
    (req : ResourceRequest) (wrapper : Wrapper) (patcher : Patcher)
    (conditions : Option ETagCondition) (w : World (TxState Database) τ) (v : Nat)
    (hu : req.UsePostgres = true) (hs : req.StoreName = entityStateStoreName)
    (hv : D.Validate req = none)
    (hns : scalarSubquery ((namespaceCte w.pg.committed req.Namespace).map (fun r => r.id))
      = .ok (some v))
    (hdead : ∀ r ∈ w.pg.committed.entity_states, r.namespace_id = v → r.name = req.Name →
      r.deleted_at ≠ none) :
    ((entityStoreOver rest etcd).Patch D req wrapper patcher conditions w).1
      = .ret (some (.ErrNotFound (dotKey req))) := by
  have hread : ((entityStoreOver rest etcd).db.txQueryRow .getEntityStateQuery (keyParams req)
      ((entityStoreOver rest etcd).db.beginTx w.pg).2).1 = .error .ErrNoRows := by
    simp only [entityStoreOver, txPg, inTx, keyParams_entityState req hs, entityStateStmts,
      (reads_of_dead _ _ _ v hns hdead).1, firstRow, Except.map]
  rw [patch_read_fails (entityStoreOver rest etcd) D req wrapper patcher conditions w
    .getEntityStateQuery .ErrNoRows hu hv (lookupQuery_entityState req hs).2.2.2.1 rfl hread]
  simp only [entityStoreOver, txPg, inTx, keyParams_entityState req hs, entityStateStmts,
    (reads_of_dead _ _ _ v hns hdead).1, firstRow, Except.map, if_true]

/-- C29: an entity state that is soft deleted: the namespace of the request has an id, a
row with that id and the name is stored, and every such row has `deleted_at` set. Get of
the request returns NotFound and Exists returns false. UpdateIfExists with a wrapper of
the same identity returns nil, not NotFound, and afterwards every row with the key has
`deleted_at` NULL, Get returns a wrapper and Exists returns true. CreateOrUpdate with the
wrapper, when the namespace is resolved by its name and the id of the entity config can
be resolved, returns nil, and afterwards Get returns a wrapper and Exists returns true.
Patch of the request, when the request passes validation, returns NotFound. -/
theorem C29_writes_revive_soft_deleted {τ : Type} (rest : Stmts Database) (etcd : Etcd τ)
    (D : Deps) (req : ResourceRequest) (pw : PgWrapper) (p : EntityStateParams)
    (wrapper : Wrapper) (patcher : Patcher) (conditions : Option ETagCondition)
    (w : World (TxState Database) τ) (v : Nat)
    (hu : req.UsePostgres = true) (hs : req.StoreName = entityStateStoreName)
    (hp : entityStateParams pw.SQLParams = some p)
    (hpn : p.Namespace = req.Namespace) (hpm : p.Name = req.Name)
    (hns : scalarSubquery ((namespaceCte w.pg.committed req.Namespace).map (fun r => r.id))
      = .ok (some v))
    (hrow : ∃ r ∈ w.pg.committed.entity_states, r.namespace_id = v ∧ r.name = req.Name)
    (hdead : ∀ r ∈ w.pg.committed.entity_states, r.namespace_id = v → r.name = req.Name →
      r.deleted_at ≠ none) :
    ((entityStoreOver rest etcd).Get req w).1
        = .ret (none, some (.ErrNotFound (req.Namespace ++ "." ++ req.Name)))
    ∧ ((entityStoreOver rest etcd).Exists req w).1 = (false, none)
    ∧ ((entityStoreOver rest etcd).UpdateIfExists req (.pg pw) w).1 = none
    ∧ (∀ r ∈ ((entityStoreOver rest etcd).UpdateIfExists req (.pg pw) w).2.pg.committed.entity_states,
        r.namespace_id = v → r.name = req.Name → r.deleted_at = none)
    ∧ (∃ x, ((entityStoreOver rest etcd).Get req
        ((entityStoreOver rest etcd).UpdateIfExists req (.pg pw) w).2).1 = .ret (some x, none))
    ∧ ((entityStoreOver rest etcd).Exists req
        ((entityStoreOver rest etcd).UpdateIfExists req (.pg pw) w).2).1 = (true, none)
    ∧ (p.NamespaceID = 0 →
        (∃ c : Int, resolveId p.EntityConfigID
          (configLookup w.pg.committed (some (v : Int)) p.Name) = .ok (some c)) →
        ((entityStoreOver rest etcd).CreateOrUpdate req (.pg pw) w).1 = none
        ∧ (∃ x, ((entityStoreOver rest etcd).Get req
            ((entityStoreOver rest etcd).CreateOrUpdate req (.pg pw) w).2).1
              = .ret (some x, none))
        ∧ ((entityStoreOver rest etcd).Exists req
            ((entityStoreOver rest etcd).CreateOrUpdate req (.pg pw) w).2).1 = (true, none))
    ∧ (D.Validate req = none →
        ((entityStoreOver rest etcd).Patch D req wrapper patcher conditions w).1
          = .ret (some (.ErrNotFound (req.Namespace ++ "." ++ req.Name)))) := by
  obtain ⟨r0, hr0, hr0k⟩ := hrow
  have hvisible : ∀ (w1 : World (TxState Database) τ) (r : EntityStateRow),
      w1.pg.committed.namespaces = w.pg.committed.namespaces →
      r ∈ w1.pg.committed.entity_states → r.namespace_id = v ∧ r.name = req.Name →
      r.deleted_at = none →
      (∃ x, ((entityStoreOver rest etcd).Get req w1).1 = .ret (some x, none))
      ∧ ((entityStoreOver rest etcd).Exists req w1).1 = (true, none) := by
    intro w1 r hnsp hr hk hl
    have hns1 : scalarSubquery ((namespaceCte w1.pg.committed req.Namespace).map
        (fun r => r.id)) = .ok (some v) := by
      simpa only [namespaceCte, hnsp] using hns
    obtain ⟨⟨row, hrowg⟩, hex⟩ := reads_of_live _ _ _ v r hns1 hr hk hl
    refine ⟨⟨.pg (scanInto .EntityStateWrapper row), ?_⟩, ?_⟩
    · rw [get_entityState rest etcd req w1 hu hs, hrowg]
    · rw [exists_entityState rest etcd req w1 hu hs, hex]
  have hnsp : scalarSubquery ((namespaceCte w.pg.committed p.Namespace).map (fun r => r.id))
      = .ok (some v) := by rw [hpn]; exact hns
  obtain ⟨rows, db1, hupd, hunsp, hues⟩ := updateIfExists_ok w.pg.committed p (some v) hnsp
  have hucomm := updateIfExists_committed rest etcd req pw p w hu hs hp
  rw [hupd] at hucomm
  simp only [] at hucomm
  have hkey0 : keyMatches (some v) p.Name r0 = true := by
    simp [keyMatches, hr0k.1, hr0k.2, hpm]
  refine ⟨?_, ?_, ?_, ?_, ?_, ?_, ?_, ?_⟩
  · rw [get_entityState rest etcd req w hu hs, (reads_of_dead _ _ _ v hns hdead).1]
    rfl
  · rw [exists_entityState rest etcd req w hu hs, (reads_of_dead _ _ _ v hns hdead).2]
    rfl
  · rw [updateIfExists_entityState rest etcd req pw p w (some v) hu hs hp hnsp, if_neg]
    intro hnil
    rw [List.filter_eq_nil_iff] at hnil
    exact hnil r0 hr0 hkey0
  · intro r hr h1 h2
    rw [hucomm, hues] at hr
    obtain ⟨r1, _, rfl⟩ := List.mem_map.mp hr
    by_cases hk : keyMatches (some v) p.Name r1 = true
    · simp [hk]
    · simp only [hk, Bool.false_eq_true, if_false] at h1 h2
      exact absurd (by simp [keyMatches, h1, h2, hpm]) hk
  · refine (hvisible _ _ (by rw [hucomm]; exact hunsp) (by
      rw [hucomm, hues]
      exact List.mem_map.mpr ⟨r0, hr0, rfl⟩) ?_ ?_).1
    · simp only [hkey0, if_true]
      exact hr0k
    · simp only [hkey0, if_true]
  · refine (hvisible _ _ (by rw [hucomm]; exact hunsp) (by
      rw [hucomm, hues]
      exact List.mem_map.mpr ⟨r0, hr0, rfl⟩) ?_ ?_).2
    · simp only [hkey0, if_true]
      exact hr0k
    · simp only [hkey0, if_true]
  · intro hzero ⟨c, hcfg⟩
    have hres : resolveId p.NamespaceID
        (scalarSubquery ((namespaceCte w.pg.committed p.Namespace).map (fun r => r.id)))
        = .ok (some (v : Int)) := by
      rw [hzero, hnsp]
      rfl
    have hok : ∃ res, createOrUpdateEntityState w.pg.committed p = .ok res := by
      unfold createOrUpdateEntityState
      rw [hres]
      simp only []
      rw [hcfg]
      simp only []
      cases hfind : w.pg.committed.entity_states.find? (conflictsWith (v : Int) p.Name) with
      | none =>
        have := List.find?_eq_none.mp hfind r0 hr0
        rw [conflictsWith_cast] at this
        exact absurd hkey0 this
      | some existing => exact ⟨_, rfl⟩
    obtain ⟨⟨k, db2⟩, hcu⟩ := hok
    obtain ⟨h1, h2⟩ := createOrUpdate_entityState rest etcd req pw p w hu hs hp
    rw [hcu] at h1 h2
    simp only [] at h1 h2
    obtain ⟨n, hn, _, hnsp2, _, ⟨r, hr, hc, hl⟩, _⟩ := createOrUpdate_ok _ _ p k hcu
    have hnv : n = (v : Int) := by
      rw [hres] at hn
      simpa using hn.symm
    subst hnv
    rw [conflictsWith_cast] at hc
    have hk : r.namespace_id = v ∧ r.name = req.Name := by
      simp only [keyMatches, decide_eq_true_eq, Option.some.injEq] at hc
      exact ⟨hc.1, hc.2.trans hpm⟩
    exact ⟨h1, hvisible _ r (by rw [h2]; exact hnsp2) (by rw [h2]; exact hr) hk hl⟩
  · intro hv
    exact patch_of_dead rest etcd D req wrapper patcher conditions w v hu hs hv hns hdead

/-- Witness of C29: after Delete of the entity state foo, UpdateIfExists and
CreateOrUpdate of foo return nil and Patch returns NotFound. -/
theorem C29_writes_revive_soft_deleted_witness :
    fooStateReq.UsePostgres = true ∧ fooStateReq.StoreName = entityStateStoreName
    ∧ entityStateParams (stateWrapper "default" "foo" []).SQLParams = some fooStateParams
    ∧ scalarSubquery ((namespaceCte fooDeleted.pg.committed "default").map (fun r => r.id))
        = .ok (some 1)
    ∧ (∃ r ∈ fooDeleted.pg.committed.entity_states, r.namespace_id = 1 ∧ r.name = "foo")
    ∧ (∀ r ∈ fooDeleted.pg.committed.entity_states, r.namespace_id = 1 → r.name = "foo" →
        r.deleted_at ≠ none)
    ∧ ((entityStoreOver noStmts emptyEtcd).UpdateIfExists fooStateReq
        (.pg (stateWrapper "default" "foo" [])) fooDeleted).1 = none
    ∧ ((entityStoreOver noStmts emptyEtcd).CreateOrUpdate fooStateReq
        (.pg (stateWrapper "default" "foo" [])) fooDeleted).1 = none
    ∧ ((entityStoreOver noStmts emptyEtcd).Patch plainDeps fooStateReq (.pg fooWrapper)
        (fun b => .ok b) none fooDeleted).1
      = .ret (some (.ErrNotFound ("default" ++ "." ++ "foo"))) :=
  ⟨rfl, rfl, by decide, by rfl, by decide, by decide,
    (C29_writes_revive_soft_deleted noStmts emptyEtcd plainDeps fooStateReq
      (stateWrapper "default" "foo" []) fooStateParams (.pg fooWrapper) (fun b => .ok b) none
      fooDeleted 1 rfl rfl (by decide) rfl rfl (by rfl) (by decide) (by decide)).2.2.1,
    ((C29_writes_revive_soft_deleted noStmts emptyEtcd plainDeps fooStateReq
      (stateWrapper "default" "foo" []) fooStateParams (.pg fooWrapper) (fun b => .ok b) none
      fooDeleted 1 rfl rfl (by decide) rfl rfl (by rfl) (by decide)
      (by decide)).2.2.2.2.2.2.1 rfl ⟨1, by rfl⟩).1,
    (C29_writes_revive_soft_deleted noStmts emptyEtcd plainDeps fooStateReq
      (stateWrapper "default" "foo" []) fooStateParams (.pg fooWrapper) (fun b => .ok b) none
      fooDeleted 1 rfl rfl (by decide) rfl rfl (by rfl) (by decide)
      (by decide)).2.2.2.2.2.2.2 (by decide)⟩

/-! ### The panics of the lookups -/

theorem groupRequests_panic (D : Deps) :
    ∀ (rs : List ResourceRequest) (i : Nat) (g : Grouping) (msg : String),
      groupRequests D i rs g = .panic msg →
      msg = "GetMultiple() does not support requests with differing store names" := by
  intro rs
  induction rs with
  | nil => intro i g msg h; simp [groupRequests] at h
  | cons r rest ih =>
    intro i g msg h
    simp only [groupRequests] at h
    cases hv : D.Validate r with
    | some m => rw [hv] at h; simp at h
    | none =>
      rw [hv] at h
      simp only [] at h
      split_ifs at h
      all_goals first
        | exact ih _ _ _ h
        | (simp only [Outcome.panic.injEq] at h; exact h.symm)

/-- The row loop of GetMultiple panics only because a row has no keyed request. -/
theorem scanGroupRows_panic (req0 : ResourceRequest)
    (keyed : List (requestKey × ResourceRequest)) (ns : String) (kind : WrapperKind)
    (hk : lookupWrapper req0 .getMultipleQ = .ret kind) :
    ∀ (rows : List RowOutcome) (m : ResultMap) (msg : String),
      scanGroupRows req0 keyed ns rows m = .panic msg →
      msg = "keyedResourceRequests key does not exist"
      ∧ ∃ ro ∈ rows, ∃ row, (ro = .row row ∨ ∃ e, ro = .rowThenErr row e)
          ∧ mapGet keyed { Namespace := ns, Name := row.Name } = none := by
  intro rows
  induction rows with
  | nil => intro m msg h; simp [scanGroupRows] at h
  | cons ro rest ih =>
    intro m msg h
    simp only [scanGroupRows, hk] at h
    have lift : (msg = "keyedResourceRequests key does not exist"
        ∧ ∃ ro1 ∈ rest, ∃ row, (ro1 = .row row ∨ ∃ e, ro1 = .rowThenErr row e)
            ∧ mapGet keyed { Namespace := ns, Name := row.Name } = none) →
        (msg = "keyedResourceRequests key does not exist"
        ∧ ∃ ro1 ∈ ro :: rest, ∃ row, (ro1 = .row row ∨ ∃ e, ro1 = .rowThenErr row e)
            ∧ mapGet keyed { Namespace := ns, Name := row.Name } = none) := by
      rintro ⟨h1, ro1, hro1, h2⟩
      exact ⟨h1, ro1, List.mem_cons_of_mem _ hro1, h2⟩
    have key : ∀ row, (ro = .row row ∨ ∃ e, ro = .rowThenErr row e) →
        (match mapGet keyed { Namespace := ns, Name := (scanInto kind row).GetName } with
          | none => Outcome.panic "keyedResourceRequests key does not exist"
          | some req => scanGroupRows req0 keyed ns rest (mapSet m req (.pg (scanInto kind row))))
          = .panic msg →
        (msg = "keyedResourceRequests key does not exist"
        ∧ ∃ ro1 ∈ ro :: rest, ∃ row, (ro1 = .row row ∨ ∃ e, ro1 = .rowThenErr row e)
            ∧ mapGet keyed { Namespace := ns, Name := row.Name } = none) := by
      intro row hrow h
      cases hg : mapGet keyed { Namespace := ns, Name := (scanInto kind row).GetName } with
      | none =>
        rw [hg] at h
        simp only [Outcome.panic.injEq] at h
        exact ⟨h.symm, ro, List.mem_cons_self _ _, row, hrow, hg⟩
      | some req =>
        rw [hg] at h
        exact lift (ih _ msg h)
    cases ro with
    | scanError err =>
      simp only [] at h
      split_ifs at h with he
      exact lift (ih m msg h)
    | row row => exact key row (Or.inl rfl) h
    | rowThenErr row e => exact key row (Or.inr ⟨e, rfl⟩) h

/-- The second loop of GetMultiple panics only because a row of a group has no keyed
request. -/
theorem queryGroups_panic (s : StoreV2 σ τ) (req0 : ResourceRequest)
    (tl : List ResourceRequest) (sn : String) (keyed : List (requestKey × ResourceRequest)) :
    ∀ (gs : List (String × List String)) (m : ResultMap) (w : World σ τ) (msg : String),
      (queryGroups s (req0 :: tl) sn keyed gs m w).1 = .panic msg →
      msg = "keyedResourceRequests key does not exist"
      ∧ ∃ q g st rows, lookupQuery req0 .getMultipleQ = some q ∧ g ∈ gs
          ∧ (s.db.txQuery q (groupArgs sn g.1 g.2) st).1 = .ok rows
          ∧ ∃ ro ∈ rows, ∃ row, (ro = .row row ∨ ∃ e, ro = .rowThenErr row e)
              ∧ mapGet keyed { Namespace := g.1, Name := row.Name } = none := by
  intro gs
  induction gs with
  | nil => intro m w msg h; simp [queryGroups] at h
  | cons g rest ih =>
    intro m w msg h
    obtain ⟨ns, names⟩ := g
    simp only [queryGroups] at h
    cases hq : lookupQuery req0 .getMultipleQ with
    | none => rw [hq] at h; simp at h
    | some q =>
      rw [hq] at h
      simp only [] at h
      obtain ⟨kind, hk⟩ := lookupWrapper_of_lookupQuery req0 .getMultipleQ .getMultipleQ q hq
      have e1 : (txQuery s q (groupArgs sn ns names) w).1
          = (s.db.txQuery q (groupArgs sn ns names) w.pg).1 := rfl
      generalize txQuery s q (groupArgs sn ns names) w = res at h e1
      obtain ⟨rs, w1⟩ := res
      simp only [] at e1
      cases rs with
      | error err => simp at h
      | ok rows =>
        simp only [] at h
        cases hsg : scanGroupRows req0 keyed ns rows m with
        | panic msg1 =>
          rw [hsg] at h
          simp only [Outcome.panic.injEq] at h
          subst h
          obtain ⟨h1, h2⟩ := scanGroupRows_panic req0 keyed ns kind hk rows m msg1 hsg
          exact ⟨h1, q, (ns, names), w.pg, rows, rfl, List.mem_cons_self _ _, e1.symm, h2⟩
        | ret v =>
          rw [hsg] at h
          cases v with
          | error e => simp at h
          | ok m2 =>
            simp only [] at h
            obtain ⟨h1, q1, g, st, rows1, hq1, hg, h2, h3⟩ := ih m2 w1 msg h
            exact ⟨h1, q1, g, st, rows1, hq.symm.trans hq1, List.mem_cons_of_mem _ hg, h2, h3⟩

theorem listRows_no_panic (req : ResourceRequest) (kind : WrapperKind)
    (hk : lookupWrapper req .listQ = .ret kind) :
    ∀ (rows : List RowOutcome) (acc : List Wrapper) (n : Int) (msg : String),
      listRows req rows acc n ≠ .panic msg := by
  intro rows
  induction rows with
  | nil => intro acc n msg h; simp [listRows] at h
  | cons r rest ih =>
    intro acc n msg h
    simp only [listRows, hk] at h
    cases r with
    | scanError err => simp at h
    | rowThenErr row err => simp at h
    | row row => exact ih _ _ msg h

theorem get_no_panic (s : StoreV2 σ τ) (req : ResourceRequest) (w : World σ τ)
    (msg : String) : (s.Get req w).1 ≠ .panic msg := by
  intro h
  unfold StoreV2.Get at h
  split_ifs at h with hu
  simp only [] at h
  cases hq : lookupQuery req .getQ with
  | none => rw [hq] at h; simp at h
  | some q =>
    rw [hq] at h
    obtain ⟨kind, hk⟩ := lookupWrapper_of_lookupQuery req .getQ .getQ q hq
    simp only [hk] at h
    generalize dbQueryRow s q (keyParams req) w = res at h
    obtain ⟨row, w1⟩ := res
    cases row with
    | error err =>
      simp only [] at h
      split_ifs at h
    | ok r => simp at h

theorem list_no_panic (s : StoreV2 σ τ) (D : Deps) (req : ResourceRequest)
    (pred : Option SelectionPredicate) (w : World σ τ) (msg : String) :
    (s.List D req pred w).1 ≠ .panic msg := by
  intro h
  unfold StoreV2.List at h
  split_ifs at h with hu
  simp only [] at h
  cases hq : lookupQuery req .listQ with
  | none => rw [hq] at h; simp at h
  | some q =>
    rw [hq] at h
    obtain ⟨kind, hk⟩ := lookupWrapper_of_lookupQuery req .listQ .listQ q hq
    simp only [] at h
    generalize D.getLimitAndOffset pred = lo at h
    obtain ⟨limit, offset, lerr⟩ := lo
    cases lerr with
    | some e => simp at h
    | none =>
      simp only [] at h
      generalize dbQuery s q (listParams req limit offset) w = res at h
      obtain ⟨rows, w1⟩ := res
      cases rows with
      | error e => simp at h
      | ok rows =>
        simp only [] at h
        cases hl : listRows req rows [] 0 with
        | panic m => exact listRows_no_panic req kind hk rows [] 0 m hl
        | ret v =>
          rw [hl] at h
          cases v with
          | error e => simp at h
          | ok x => obtain ⟨wl, c⟩ := x; simp at h

theorem patch_panic (s : StoreV2 σ τ) (D : Deps) (req : ResourceRequest) (wrapper : Wrapper)
    (patcher : Patcher) (conditions : Option ETagCondition) (w : World σ τ) (msg : String)
    (h : (s.Patch D req wrapper patcher conditions w).1 = .panic msg) :
    msg = "invalid memory address or nil pointer dereference"
    ∧ ∃ err, (s.db.beginTx w.pg).1 = some err := by
  unfold StoreV2.Patch at h
  split_ifs at h with hu
  cases hv : D.Validate req with
  | some m => rw [hv] at h; simp at h
  | none =>
    rw [hv] at h
    simp only [] at h
    cases hq : lookupQuery req .getQ with
    | none => rw [hq] at h; simp at h
    | some q =>
      rw [hq] at h
      obtain ⟨kind, hk⟩ := lookupWrapper_of_lookupQuery req .getQ .getQ q hq
      simp only [hk] at h
      have e1 : (dbBegin s w).1 = (s.db.beginTx w.pg).1 := rfl
      generalize dbBegin s w = res at h e1
      obtain ⟨berr, w1⟩ := res
      simp only [] at e1
      cases berr with
      | none => simp at h
      | some err =>
        simp only [Outcome.panic.injEq] at h
        exact ⟨h.symm, err, e1.symm⟩

/-- A panic of GetMultiple is the one for differing store names, or comes from a row of a
group of the batch whose name was not requested in that group. -/
theorem getMultiple_panic (s : StoreV2 σ τ) (D : Deps) (seed : Nat)
    (reqs : List ResourceRequest) (w : World σ τ) (msg : String)
    (h : (s.GetMultiple D seed reqs w).1 = .panic msg) :
    msg = "GetMultiple() does not support requests with differing store names"
    ∨ (msg = "keyedResourceRequests key does not exist"
      ∧ ∃ r0 ∈ reqs.head?, ∃ r ∈ reqs, ∃ q st rows,
          lookupQuery r0 .getMultipleQ = some q
          ∧ (s.db.txQuery q (groupArgs r0.StoreName r.Namespace (namesOf reqs r.Namespace)) st).1
              = .ok rows
          ∧ ∃ ro ∈ rows, ∃ row, (ro = .row row ∨ ∃ e, ro = .rowThenErr row e)
              ∧ row.Name ∉ namesOf reqs r.Namespace) := by
  simp only [StoreV2.GetMultiple] at h
  generalize dbBegin s w = res at h
  obtain ⟨berr, w1⟩ := res
  cases berr with
  | some err => simp at h
  | none =>
    simp only [getMultipleBody] at h
    cases hg : groupRequests D 0 reqs
        { storeName := "", keyedResourceRequests := [], namespacedResources := [] } with
    | panic m =>
      rw [hg] at h
      simp only [Outcome.panic.injEq] at h
      subst h
      exact Or.inl (groupRequests_panic D _ _ _ _ hg)
    | ret v =>
      rw [hg] at h
      cases v with
      | error e => simp at h
      | ok g =>
        simp only [] at h
        cases reqs with
        | nil =>
          simp only [groupRequests, Outcome.ret.injEq, Except.ok.injEq] at hg
          subst hg
          have hmr : mapRange seed ([] : List (String × List String)) = [] :=
            List.eq_nil_iff_forall_not_mem.mpr
              (fun x hx => by have hx1 := (mem_mapRange seed [] x).mp hx; cases hx1)
          simp only [hmr, queryGroups] at h
          generalize txCommit s w1 = cres at h
          obtain ⟨cerr, w3⟩ := cres
          cases cerr <;> simp at h
        | cons r0 tl =>
          have hgo := groupRequests_grouping D r0 tl g hg
          have hsn : g.storeName = r0.StoreName := hgo.storeName (List.cons_ne_nil _ _)
          rw [hsn] at h
          have hp := queryGroups_panic s r0 tl r0.StoreName g.keyedResourceRequests
            (mapRange seed g.namespacedResources) [] w1 msg
          generalize queryGroups s (r0 :: tl) r0.StoreName g.keyedResourceRequests
            (mapRange seed g.namespacedResources) [] w1 = qres at h hp
          obtain ⟨out, w2⟩ := qres
          cases out with
          | ret v2 =>
            cases v2 with
            | error e => simp at h
            | ok m =>
              simp only [] at h
              generalize txCommit s w2 = cres at h
              obtain ⟨cerr, w3⟩ := cres
              cases cerr <;> simp at h
          | panic m =>
            simp only [Outcome.panic.injEq] at h
            subst h
            obtain ⟨h1, q, grp, st, rows, hq, hmem, hrows, ro, hro, row, hrow, hnone⟩ := hp rfl
            obtain ⟨ns, names⟩ := grp
            have hmem1 : (ns, names) ∈ g.namespacedResources := (mem_mapRange seed _ _).mp hmem
            obtain ⟨hnames, hne⟩ := (group_mem_iff (r0 :: tl) r0.StoreName g hgo ns names).mp hmem1
            subst hnames
            obtain ⟨nm, hnm⟩ := List.exists_mem_of_ne_nil _ hne
            obtain ⟨r, hr, hrns, _⟩ := (mem_namesOf (r0 :: tl) ns nm).mp hnm
            subst hrns
            refine Or.inr ⟨h1, r0, rfl, r, hr, q, st, rows, hq, hrows, ro, hro, row, hrow, ?_⟩
            intro hin
            obtain ⟨r2, hr2, hns2, hnm2⟩ := (mem_namesOf (r0 :: tl) r.Namespace row.Name).mp hin
            obtain ⟨r3, hr3⟩ := hgo.keyed_complete r2 hr2
            have hk : keyOf r2 = { Namespace := r.Namespace, Name := row.Name } := by
              unfold keyOf
              rw [hns2, hnm2]
            rw [hk] at hr3
            simp only [] at hnone
            rw [hnone] at hr3
            cases hr3

theorem wrapper_msg_ne_differing (sn : String) :
    "GetMultiple() does not support requests with differing store names"
      ≠ "no wrapper type defined for store: " ++ sn := by
  intro h
  have h2 := congrArg String.data h
  simp [String.data_append] at h2

theorem wrapper_msg_ne_key (sn : String) :
    "keyedResourceRequests key does not exist" ≠ "no wrapper type defined for store: " ++ sn := by
  intro h
  have h2 := congrArg String.data h
  simp [String.data_append] at h2

theorem wrapper_msg_ne_nil (sn : String) :
    "invalid memory address or nil pointer dereference"
      ≠ "no wrapper type defined for store: " ++ sn := by
  intro h
  have h2 := congrArg String.data h
  simp [String.data_append] at h2

theorem getMultiple_nil_no_panic (s : StoreV2 σ τ) (D : Deps) (seed : Nat) (w : World σ τ)
    (msg : String) : (s.GetMultiple D seed [] w).1 ≠ .panic msg := by
  intro h
  rcases getMultiple_panic s D seed [] w msg h with h1 | ⟨_, r0, hr0, _⟩
  · subst h1
    simp only [StoreV2.GetMultiple] at h
    generalize dbBegin s w = res at h
    obtain ⟨berr, w1⟩ := res
    cases berr with
    | some err => simp at h
    | none =>
      have hmr : mapRange seed ([] : List (String × List String)) = [] :=
        List.eq_nil_iff_forall_not_mem.mpr
          (fun x hx => by have hx1 := (mem_mapRange seed [] x).mp hx; cases hx1)
      simp only [getMultipleBody, groupRequests, hmr, queryGroups] at h
      generalize txCommit s w1 = cres at h
      obtain ⟨cerr, w3⟩ := cres
      cases cerr <;> simp at h
  · simp at hr0

theorem storeName_of_lookupQuery (req : ResourceRequest) (op : crudOp) (q : Query)
    (h : lookupQuery req op = some q) :
    req.StoreName = entityConfigStoreName ∨ req.StoreName = entityStateStoreName
      ∨ req.StoreName = namespaceStoreName := by
  unfold lookupQuery at h
  simp only [] at h
  split_ifs at h with h1 h2 h3
  · exact Or.inl h1
  · exact Or.inr (Or.inl h2)
  · exact Or.inr (Or.inr h3)

/-- Claim C30. The panics of the lookups are not reached. A request for which lookupQuery
finds a statement names one of the three store kinds, and lookupWrapper returns a wrapper
type for it. Get and List never panic. Patch panics only when Begin failed, with the nil
dereference, never with the message of lookupWrapper. No panic of GetMultiple carries
the message of lookupWrapper; when every row returned for a namespace group of the batch
has one of the names requested in that group, the only panic left is the one for differing
store names, so the missing-key panic is not reached; and the empty batch never panics. -/
theorem C30_lookup_panics_unreachable (s : StoreV2 σ τ) (D : Deps) (seed : Nat)
    (req : ResourceRequest) (reqs : List ResourceRequest) (wrapper : Wrapper)
    (patcher : Patcher) (conditions : Option ETagCondition)
    (pred : Option SelectionPredicate) (w : World σ τ) :
    (∀ op op1 q, lookupQuery req op = some q →
      (req.StoreName = entityConfigStoreName ∨ req.StoreName = entityStateStoreName
        ∨ req.StoreName = namespaceStoreName)
      ∧ ∃ kind, lookupWrapper req op1 = .ret kind)
    ∧ (∀ msg, (s.Get req w).1 ≠ .panic msg)
    ∧ (∀ msg, (s.List D req pred w).1 ≠ .panic msg)
    ∧ (∀ msg, (s.Patch D req wrapper patcher conditions w).1 = .panic msg →
        msg = "invalid memory address or nil pointer dereference"
        ∧ (∃ err, (s.db.beginTx w.pg).1 = some err)
        ∧ ∀ sn, msg ≠ "no wrapper type defined for store: " ++ sn)
    ∧ (∀ msg, (s.GetMultiple D seed reqs w).1 = .panic msg →
        ∀ sn, msg ≠ "no wrapper type defined for store: " ++ sn)
    ∧ ((∀ r0 ∈ reqs.head?, ∀ r ∈ reqs, ∀ q st rows,
          lookupQuery r0 .getMultipleQ = some q →
          (s.db.txQuery q (groupArgs r0.StoreName r.Namespace (namesOf reqs r.Namespace)) st).1
            = .ok rows →
          ∀ ro ∈ rows, ∀ row, (ro = .row row ∨ ∃ e, ro = .rowThenErr row e) →
            row.Name ∈ namesOf reqs r.Namespace) →
        (s.GetMultiple D seed reqs w).1 ≠ .panic "keyedResourceRequests key does not exist"
        ∧ ∀ msg, (s.GetMultiple D seed reqs w).1 = .panic msg →
            msg = "GetMultiple() does not support requests with differing store names")
    ∧ (∀ msg, (s.GetMultiple D seed [] w).1 ≠ .panic msg) := by
  refine ⟨?_, get_no_panic s req w, list_no_panic s D req pred w, ?_, ?_, ?_,
    getMultiple_nil_no_panic s D seed w⟩
  · intro op op1 q hq
    exact ⟨storeName_of_lookupQuery req op q hq, lookupWrapper_of_lookupQuery req op op1 q hq⟩
  · intro msg h
    obtain ⟨h1, h2⟩ := patch_panic s D req wrapper patcher conditions w msg h
    refine ⟨h1, h2, ?_⟩
    intro sn
    rw [h1]
    exact wrapper_msg_ne_nil sn
  · intro msg h sn
    rcases getMultiple_panic s D seed reqs w msg h with h1 | ⟨h1, _⟩
    · rw [h1]
      exact wrapper_msg_ne_differing sn
    · rw [h1]
      exact wrapper_msg_ne_key sn
  · intro hrows
    have hall : ∀ msg, (s.GetMultiple D seed reqs w).1 = .panic msg →
        msg = "GetMultiple() does not support requests with differing store names" := by
      intro msg h
      rcases getMultiple_panic s D seed reqs w msg h with h1 |
        ⟨_, r0, hr0, r, hr, q, st, rows, hq, hres, ro, hro, row, hrow, hnot⟩
      · exact h1
      · exact absurd (hrows r0 hr0 r hr q st rows hq hres ro hro row hrow) hnot
    refine ⟨?_, hall⟩
    intro h
    have h1 := hall _ h
    revert h1
    decide

/-- Witness of C30: with the driver whose every read yields the row foo, the batch of the
single request for foo meets the condition on the rows, and GetMultiple returns. -/
theorem C30_lookup_panics_unreachable_witness :
    (∀ r0 ∈ [pgReq].head?, ∀ r ∈ [pgReq], ∀ q st rows,
        lookupQuery r0 .getMultipleQ = some q →
        ((scriptedStore okScript).db.txQuery q
            (groupArgs r0.StoreName r.Namespace (namesOf [pgReq] r.Namespace)) st).1 = .ok rows →
        ∀ ro ∈ rows, ∀ row, (ro = .row row ∨ ∃ e, ro = .rowThenErr row e) →
          row.Name ∈ namesOf [pgReq] r.Namespace)
    ∧ ((scriptedStore okScript).GetMultiple plainDeps 0 [pgReq] world0).1
        ≠ .panic "keyedResourceRequests key does not exist"
    ∧ ((scriptedStore okScript).GetMultiple plainDeps 0 [pgReq] world0).1
        = .ret (some [(pgReq, .pg (scanInto .EntityConfigWrapper fooRow))], none) := by
  have hrows : ∀ r0 ∈ [pgReq].head?, ∀ r ∈ [pgReq], ∀ q st rows,
      lookupQuery r0 .getMultipleQ = some q →
      ((scriptedStore okScript).db.txQuery q
          (groupArgs r0.StoreName r.Namespace (namesOf [pgReq] r.Namespace)) st).1 = .ok rows →
      ∀ ro ∈ rows, ∀ row, (ro = .row row ∨ ∃ e, ro = .rowThenErr row e) →
        row.Name ∈ namesOf [pgReq] r.Namespace := by
    intro r0 _ r hr q st rows _ hres ro hro row hrow
    have hr1 : r = pgReq := List.mem_singleton.mp hr
    subst hr1
    have hres1 : (Except.ok [RowOutcome.row fooRow] : Except DriverError (List RowOutcome))
        = .ok rows := hres
    simp only [Except.ok.injEq] at hres1
    subst hres1
    have hro1 : ro = .row fooRow := List.mem_singleton.mp hro
    subst hro1
    rcases hrow with h1 | ⟨e, h1⟩
    · simp only [RowOutcome.row.injEq] at h1
      subst h1
      decide
    · cases h1
  exact ⟨hrows,
    ((C30_lookup_panics_unreachable (scriptedStore okScript) plainDeps 0 pgReq [pgReq]
      (.pg fooWrapper) (fun b => .ok b) none none world0).2.2.2.2.2.1 hrows).1, by rfl⟩

/-! ### The kinds of the errors of all operations -/

theorem read_eq (h : Heap) (p : Addr) :
    h.read p = (h.cells[p]?).getD (zeroValue (.Other "invalid address")) := by
  unfold Heap.read
  rw [List.getD_eq_getElem?_getD]

theorem decodeInto_length (C : ElementCodec) (x : Wrapper) (p : Addr) (h : Heap) :
    (decodeInto C x p h).2.cells.length = h.cells.length := by
  simp [decodeInto]

theorem decodeInto_read_ne (C : ElementCodec) (x : Wrapper) (p a : Addr) (h : Heap)
    (hne : a ≠ p) : (decodeInto C x p h).2.read a = h.read a := by
  rw [read_eq, read_eq]
  simp only [decodeInto]
  rw [List.getElem?_set_ne (Ne.symm hne)]

theorem decodeInto_read_self (C : ElementCodec) (x : Wrapper) (p : Addr) (h : Heap)
    (hp : p < h.cells.length) :
    (decodeInto C x p h).2.read p
      = { type := (h.read p).type, content := (C.UnwrapInto x (h.read p)).2 } := by
  rw [read_eq]
  simp only [decodeInto]
  rw [List.getElem?_set_self hp]
  rfl

theorem decodeInto_type (C : ElementCodec) (x : Wrapper) (p a : Addr) (h : Heap) :
    ((decodeInto C x p h).2.read a).type = (h.read a).type := by
  by_cases hne : a = p
  · subst hne
    by_cases hp : a < h.cells.length
    · rw [decodeInto_read_self C x a h hp]
    · rw [read_eq, read_eq]
      simp only [decodeInto]
      rw [List.getElem?_eq_none (by simpa using hp), List.getElem?_eq_none (by simpa using hp)]
  · rw [decodeInto_read_ne C x p a h hne]

theorem alloc_read_old (h : Heap) (T : ResourceType) (a : Addr) (ha : a < h.cells.length) :
    (h.alloc T).2.read a = h.read a := by
  rw [read_eq, read_eq]
  simp only [Heap.alloc]
  rw [List.getElem?_append_left ha]

theorem alloc_read_new (h : Heap) (T : ResourceType) :
    (h.alloc T).2.read (h.alloc T).1 = zeroValue T := by
  rw [read_eq]
  simp [Heap.alloc]

theorem alloc_length (h : Heap) (T : ResourceType) :
    (h.alloc T).2.cells.length = h.cells.length + 1 := by
  simp [Heap.alloc]

theorem pointerLoop_nil (C : ElementCodec) (T : ResourceType) (list : List (Option Addr))
    (h : Heap) : pointerLoop C T [] list h = (.ret none, list, h) := by
  cases list <;> rfl

theorem pointerLoop_some (C : ElementCodec) (T : ResourceType) (x : Wrapper) (rest : WrapList)
    (ptr : Addr) (tail : List (Option Addr)) (h : Heap) :
    pointerLoop C T (x :: rest) (some ptr :: tail) h = pointerStep C T x rest ptr tail h := rfl

theorem pointerLoop_none (C : ElementCodec) (T : ResourceType) (x : Wrapper) (rest : WrapList)
    (tail : List (Option Addr)) (h : Heap) :
    pointerLoop C T (x :: rest) (none :: tail) h
      = pointerStep C T x rest h.cells.length tail (h.alloc T).2 := rfl

/-- What the loop leaves alone: the length of the destination, the variables allocated
before (their type always, their content when the destination does not refer to them),
and the non-nil elements of the destination. -/
theorem pointerLoop_frame (C : ElementCodec) (T : ResourceType) :
    ∀ (w : WrapList) (list : List (Option Addr)) (h : Heap),
      (pointerLoop C T w list h).2.1.length = list.length
      ∧ h.cells.length ≤ (pointerLoop C T w list h).2.2.cells.length
      ∧ (∀ a, a < h.cells.length →
          ((pointerLoop C T w list h).2.2.read a).type = (h.read a).type)
      ∧ (∀ a, a < h.cells.length → some a ∉ (pointerLoop C T w list h).2.1 →
          (pointerLoop C T w list h).2.2.read a = h.read a)
      ∧ (∀ (i : Nat) (p : Addr), list[i]? = some (some p) →
          (pointerLoop C T w list h).2.1[i]? = some (some p)) := by
  intro w
  induction w with
  | nil =>
    intro list h
    rw [pointerLoop_nil]
    exact ⟨rfl, le_refl _, fun _ _ => rfl, fun _ _ _ => rfl, fun _ _ hp => hp⟩
  | cons x rest ih =>
    intro list h
    cases list with
    | nil =>
      exact ⟨rfl, le_refl _, fun _ _ => rfl, fun _ _ _ => rfl, fun _ _ hp => hp⟩
    | cons slot tail =>
      have step : ∀ (ptr : Addr) (h0 : Heap), h.cells.length ≤ h0.cells.length →
          (∀ a, a < h.cells.length → h0.read a = h.read a) →
          (∀ p, slot = some p → p = ptr) →
          (pointerStep C T x rest ptr tail h0).2.1.length = (slot :: tail).length
          ∧ h.cells.length ≤ (pointerStep C T x rest ptr tail h0).2.2.cells.length
          ∧ (∀ a, a < h.cells.length →
              ((pointerStep C T x rest ptr tail h0).2.2.read a).type = (h.read a).type)
          ∧ (∀ a, a < h.cells.length → some a ∉ (pointerStep C T x rest ptr tail h0).2.1 →
              (pointerStep C T x rest ptr tail h0).2.2.read a = h.read a)
          ∧ (∀ (i : Nat) (p : Addr), (slot :: tail)[i]? = some (some p) →
              (pointerStep C T x rest ptr tail h0).2.1[i]? = some (some p)) := by
        intro ptr h0 hle hread hslot
        have hlen := decodeInto_length C x ptr h0
        have htype := fun a => decodeInto_type C x ptr a h0
        have hne := fun a => decodeInto_read_ne C x ptr a h0
        unfold pointerStep
        generalize decodeInto C x ptr h0 = d at hlen htype hne
        obtain ⟨err, h1⟩ := d
        simp only [] at hlen htype hne
        cases err with
        | some e =>
          simp only []
          refine ⟨rfl, by omega, ?_, ?_, ?_⟩
          · intro a ha
            rw [htype a, hread a ha]
          · intro a ha hnot
            have hap : a ≠ ptr := by
              intro he
              subst he
              exact hnot (List.mem_cons_self _ _)
            rw [hne a hap, hread a ha]
          · intro i p hp
            cases i with
            | zero =>
              simp only [List.getElem?_cons_zero, Option.some.injEq] at hp ⊢
              rw [hslot p hp]
            | succ j => simpa using hp
        | none =>
          simp only []
          obtain ⟨i1, i2, i3, i4, i5⟩ := ih tail h1
          refine ⟨by simp [i1], by omega, ?_, ?_, ?_⟩
          · intro a ha
            rw [i3 a (by omega), htype a, hread a ha]
          · intro a ha hnot
            have hap : a ≠ ptr := by
              intro he
              subst he
              exact hnot (List.mem_cons_self _ _)
            rw [i4 a (by omega) (fun hm => hnot (List.mem_cons_of_mem _ hm)), hne a hap,
              hread a ha]
          · intro i p hp
            cases i with
            | zero =>
              simp only [List.getElem?_cons_zero, Option.some.injEq] at hp ⊢
              rw [hslot p hp]
            | succ j =>
              simp only [List.getElem?_cons_succ] at hp ⊢
              exact i5 j p hp
      cases slot with
      | some ptr =>
        rw [pointerLoop_some]
        exact step ptr h (le_refl _) (fun _ _ => rfl) (fun p hp => (Option.some.inj hp).symm)
      | none =>
        rw [pointerLoop_none]
        exact step h.cells.length (h.alloc T).2 (by rw [alloc_length]; omega)
          (fun a ha => alloc_read_old h T a ha) (fun p hp => by cases hp)

/-- The calls of `UnwrapInto` on elements the loop makes: the elements in order, each into
the variable of the same index, up to and including the first one that fails. -/
theorem pointerLoop_trace (C : ElementCodec) (T : ResourceType) :
    ∀ (w : WrapList) (list : List (Option Addr)) (h : Heap), w.length = list.length →
      ∃ evs : List DecodeEvent,
        (pointerLoop C T w list h).2.2.decoded = h.decoded ++ evs
        ∧ (∀ ev ∈ evs, ∃ c, ev.err = (C.UnwrapInto ev.wrapper c).1)
        ∧ (((pointerLoop C T w list h).1 = .ret none
            ∧ evs.map (fun ev => ev.wrapper) = w
            ∧ evs.map (fun ev => some ev.dest) = (pointerLoop C T w list h).2.1
            ∧ ∀ ev ∈ evs, ev.err = none)
          ∨ ∃ e init last post,
              (pointerLoop C T w list h).1 = .ret (some e)
              ∧ evs = init ++ [last] ∧ last.err = some e ∧ (∀ ev ∈ init, ev.err = none)
              ∧ w = evs.map (fun ev => ev.wrapper) ++ post) := by
  intro w
  induction w with
  | nil =>
    intro list h hl
    cases list with
    | cons a b => simp at hl
    | nil =>
      refine ⟨[], by simp [pointerLoop], by simp, Or.inl ?_⟩
      simp [pointerLoop]
  | cons x rest ih =>
    intro list h hl
    cases list with
    | nil => simp at hl
    | cons slot tail =>
      have hl1 : rest.length = tail.length := by simpa using hl
      have step : ∀ (ptr : Addr) (h0 : Heap), h0.decoded = h.decoded →
          ∃ evs : List DecodeEvent,
            (pointerStep C T x rest ptr tail h0).2.2.decoded = h.decoded ++ evs
            ∧ (∀ ev ∈ evs, ∃ c, ev.err = (C.UnwrapInto ev.wrapper c).1)
            ∧ (((pointerStep C T x rest ptr tail h0).1 = .ret none
                ∧ evs.map (fun ev => ev.wrapper) = x :: rest
                ∧ evs.map (fun ev => some ev.dest) = (pointerStep C T x rest ptr tail h0).2.1
                ∧ ∀ ev ∈ evs, ev.err = none)
              ∨ ∃ e init last post,
                  (pointerStep C T x rest ptr tail h0).1 = .ret (some e)
                  ∧ evs = init ++ [last] ∧ last.err = some e ∧ (∀ ev ∈ init, ev.err = none)
                  ∧ x :: rest = evs.map (fun ev => ev.wrapper) ++ post) := by
        intro ptr h0 hd0
        have hdec : (decodeInto C x ptr h0).2.decoded
            = h0.decoded ++ [{ wrapper := x, dest := ptr, err := (decodeInto C x ptr h0).1 }] := rfl
        have herr : (decodeInto C x ptr h0).1 = (C.UnwrapInto x (h0.read ptr)).1 := rfl
        unfold pointerStep
        generalize decodeInto C x ptr h0 = d at hdec herr
        obtain ⟨err, h1⟩ := d
        simp only [] at hdec herr
        cases err with
        | some e =>
          simp only []
          refine ⟨[{ wrapper := x, dest := ptr, err := some e }], by rw [hdec, hd0], ?_, Or.inr ?_⟩
          · intro ev hev
            rw [List.mem_singleton] at hev
            subst hev
            exact ⟨h0.read ptr, herr⟩
          · exact ⟨e, [], { wrapper := x, dest := ptr, err := some e }, rest, rfl, rfl, rfl,
              fun _ hm => absurd hm (List.not_mem_nil _), rfl⟩
        | none =>
          simp only []
          obtain ⟨evs, h1d, hcodec, hcase⟩ := ih tail h1 hl1
          refine ⟨{ wrapper := x, dest := ptr, err := none } :: evs, ?_, ?_, ?_⟩
          · rw [h1d, hdec, hd0]
            simp
          · intro ev hev
            rcases List.mem_cons.mp hev with rfl | hev1
            · exact ⟨h0.read ptr, herr⟩
            · exact hcodec ev hev1
          · rcases hcase with ⟨c1, c2, c3, c4⟩ | ⟨e, init, last, post, c1, c2, c3, c4, c5⟩
            · refine Or.inl ⟨c1, by simp [c2], by simp [c3], ?_⟩
              intro ev hev
              rcases List.mem_cons.mp hev with rfl | hev1
              · rfl
              · exact c4 ev hev1
            · refine Or.inr ⟨e, { wrapper := x, dest := ptr, err := none } :: init, last, post,
                c1, by simp [c2], c3, ?_, ?_⟩
              · intro ev hev
                rcases List.mem_cons.mp hev with rfl | hev1
                · rfl
                · exact c4 ev hev1
              · rw [List.map_cons, List.cons_append, ← c5]
      cases slot with
      | some ptr =>
        rw [pointerLoop_some]
        exact step ptr h rfl
      | none =>
        rw [pointerLoop_none]
        exact step h.cells.length (h.alloc T).2 rfl

/-- An element the loop leaves in the destination was there before, or stands where a nil
was and is a variable of type `T` allocated by the loop. -/
theorem pointerLoop_fresh (C : ElementCodec) (T : ResourceType) :
    ∀ (w : WrapList) (list : List (Option Addr)) (h : Heap) (i p : Nat),
      (pointerLoop C T w list h).2.1[i]? = some (some p) →
      list[i]? = some (some p)
      ∨ (list[i]? = some none ∧ h.cells.length ≤ p
          ∧ p < (pointerLoop C T w list h).2.2.cells.length
          ∧ ((pointerLoop C T w list h).2.2.read p).type = T) := by
  intro w
  induction w with
  | nil =>
    intro list h i p hp
    rw [pointerLoop_nil] at hp
    exact Or.inl hp
  | cons x rest ih =>
    intro list h i p hp
    cases list with
    | nil => exact Or.inl hp
    | cons slot tail =>
      have step : ∀ (ptr : Nat) (h0 : Heap), h.cells.length ≤ h0.cells.length →
          (slot = some ptr ∨ (slot = none ∧ h.cells.length ≤ ptr ∧ ptr < h0.cells.length
            ∧ (h0.read ptr).type = T)) →
          (pointerStep C T x rest ptr tail h0).2.1[i]? = some (some p) →
          (slot :: tail)[i]? = some (some p)
          ∨ ((slot :: tail)[i]? = some none ∧ h.cells.length ≤ p
              ∧ p < (pointerStep C T x rest ptr tail h0).2.2.cells.length
              ∧ ((pointerStep C T x rest ptr tail h0).2.2.read p).type = T) := by
        intro ptr h0 hle hslot
        have hlen := decodeInto_length C x ptr h0
        have htype := fun a => decodeInto_type C x ptr a h0
        unfold pointerStep
        generalize decodeInto C x ptr h0 = d at hlen htype
        obtain ⟨err, h1⟩ := d
        simp only [] at hlen htype
        obtain ⟨f1, f2, f3, _, _⟩ := pointerLoop_frame C T rest tail h1
        have head : (slot :: tail)[0]? = some (some ptr)
            ∨ ((slot :: tail)[0]? = some none ∧ h.cells.length ≤ ptr ∧ ptr < h1.cells.length
              ∧ (h1.read ptr).type = T) := by
          rcases hslot with hs | ⟨hs, a1, a2, a3⟩
          · exact Or.inl (by simp [hs])
          · exact Or.inr ⟨by simp [hs], a1, by omega, by rw [htype ptr, a3]⟩
        cases err with
        | some e =>
          simp only []
          intro hp
          cases i with
          | zero =>
            simp only [List.getElem?_cons_zero, Option.some.injEq] at hp
            subst hp
            exact head
          | succ j =>
            simp only [List.getElem?_cons_succ] at hp ⊢
            exact Or.inl hp
        | none =>
          simp only []
          intro hp
          cases i with
          | zero =>
            simp only [List.getElem?_cons_zero, Option.some.injEq] at hp
            subst hp
            rcases head with hd | ⟨b1, b2, b3, b4⟩
            · exact Or.inl hd
            · exact Or.inr ⟨b1, b2, by omega, by rw [f3 _ b3, b4]⟩
          | succ j =>
            simp only [List.getElem?_cons_succ] at hp ⊢
            rcases ih tail h1 j p hp with hd | ⟨b1, b2, b3, b4⟩
            · exact Or.inl hd
            · exact Or.inr ⟨b1, by omega, b3, b4⟩
      cases slot with
      | some ptr =>
        rw [pointerLoop_some] at hp
        exact step ptr h (le_refl _) (Or.inl rfl) hp
      | none =>
        rw [pointerLoop_none] at hp
        refine step h.cells.length (h.alloc T).2 (by rw [alloc_length]; omega)
          (Or.inr ⟨rfl, le_refl _, by rw [alloc_length]; omega, ?_⟩) hp
        have := alloc_read_new h T
        simp only [Heap.alloc] at this ⊢
        rw [this]
        rfl

theorem cellBefore_succ (T : ResourceType) (slot : Option Addr) (tail : List (Option Addr))
    (h : Heap) (j : Nat) : cellBefore T (slot :: tail) h (j + 1) = cellBefore T tail h j := by
  simp [cellBefore]

/-- With pairwise distinct elements in the destination after the loop, each variable holds
what its wrapper decoded into it. -/
theorem pointerLoop_content (C : ElementCodec) (T : ResourceType) :
    ∀ (w : WrapList) (list : List (Option Addr)) (h : Heap), w.length = list.length →
      (∀ p : Nat, some p ∈ list → p < h.cells.length) →
      (pointerLoop C T w list h).1 = .ret none →
      (pointerLoop C T w list h).2.1.Nodup →
      ∀ (i : Nat) (x : Wrapper), w[i]? = some x →
        ∃ p : Nat, (pointerLoop C T w list h).2.1[i]? = some (some p)
          ∧ (pointerLoop C T w list h).2.2.read p
              = { type := (cellBefore T list h i).type,
                  content := (C.UnwrapInto x (cellBefore T list h i)).2 } := by
  intro w
  induction w with
  | nil => intro list h _ _ _ _ i x hx; simp at hx
  | cons x0 rest ih =>
    intro list h hl hwf hok hnd i x hx
    cases list with
    | nil => simp at hl
    | cons slot tail =>
      have hl1 : rest.length = tail.length := by simpa using hl
      have hwf1 : ∀ p : Nat, some p ∈ tail → p < h.cells.length :=
        fun p hp => hwf p (List.mem_cons_of_mem _ hp)
      have step : ∀ (ptr : Nat) (h0 : Heap), h.cells.length ≤ h0.cells.length →
          (∀ a, a < h.cells.length → h0.read a = h.read a) →
          ptr < h0.cells.length →
          h0.read ptr = cellBefore T (slot :: tail) h 0 →
          (pointerStep C T x0 rest ptr tail h0).1 = .ret none →
          (pointerStep C T x0 rest ptr tail h0).2.1.Nodup →
          ∃ p : Nat, (pointerStep C T x0 rest ptr tail h0).2.1[i]? = some (some p)
            ∧ (pointerStep C T x0 rest ptr tail h0).2.2.read p
                = { type := (cellBefore T (slot :: tail) h i).type,
                    content := (C.UnwrapInto x (cellBefore T (slot :: tail) h i)).2 } := by
        intro ptr h0 hle hread hptr hcell
        have hlen := decodeInto_length C x0 ptr h0
        have hne := fun a => decodeInto_read_ne C x0 ptr a h0
        have hself := decodeInto_read_self C x0 ptr h0 hptr
        unfold pointerStep
        generalize decodeInto C x0 ptr h0 = d at hlen hne hself
        obtain ⟨err, h1⟩ := d
        simp only [] at hlen hne hself
        cases err with
        | some e => intro hok1; simp at hok1
        | none =>
          simp only []
          intro hok1 hnd1
          obtain ⟨_, _, _, f4, f5⟩ := pointerLoop_frame C T rest tail h1
          have hnot : some ptr ∉ (pointerLoop C T rest tail h1).2.1 := (List.nodup_cons.mp hnd1).1
          have hnd2 : (pointerLoop C T rest tail h1).2.1.Nodup := (List.nodup_cons.mp hnd1).2
          cases i with
          | zero =>
            simp only [List.getElem?_cons_zero, Option.some.injEq] at hx
            subst hx
            refine ⟨ptr, List.getElem?_cons_zero, ?_⟩
            rw [f4 ptr (by omega) hnot, hself, hcell]
          | succ j =>
            simp only [List.getElem?_cons_succ] at hx ⊢
            obtain ⟨p, hp1, hp2⟩ := ih tail h1 hl1 (fun p hp => by have := hwf1 p hp; omega)
              hok1 hnd2 j x hx
            refine ⟨p, hp1, ?_⟩
            rw [hp2, cellBefore_succ]
            have hcb : cellBefore T tail h1 j = cellBefore T tail h j := by
              unfold cellBefore
              cases htj : tail[j]? with
              | none => rfl
              | some o =>
                cases o with
                | none => rfl
                | some q =>
                  simp only []
                  have hq : some q ∈ tail := List.mem_iff_getElem?.mpr ⟨j, htj⟩
                  have hq1 : q < h.cells.length := hwf1 q hq
                  have hq2 : some q ∈ (pointerLoop C T rest tail h1).2.1 :=
                    List.mem_iff_getElem?.mpr ⟨j, f5 j q htj⟩
                  have hqp : q ≠ ptr := by
                    intro he
                    rw [he] at hq2
                    exact hnot hq2
                  rw [hne q hqp, hread q hq1]
            rw [hcb]
      cases slot with
      | some ptr =>
        rw [pointerLoop_some] at hok hnd ⊢
        exact step ptr h (le_refl _) (fun _ _ => rfl)
          (hwf ptr (List.mem_cons_self _ _)) (by simp [cellBefore]) hok hnd
      | none =>
        rw [pointerLoop_none] at hok hnd ⊢
        refine step h.cells.length (h.alloc T).2 (by rw [alloc_length]; omega)
          (fun a ha => alloc_read_old h T a ha) (by rw [alloc_length]; omega) ?_ hok hnd
        have := alloc_read_new h T
        simp only [Heap.alloc] at this ⊢
        rw [this]
        simp [cellBefore]

theorem valueLoop_eq (C : ElementCodec) (T : ResourceType) :
    ∀ (w : WrapList) (list : List Addr) (h : Heap),
      pointerLoop C T w (list.map some) h
        = ((valueLoop C w list h).1, list.map some, (valueLoop C w list h).2) := by
  intro w
  induction w with
  | nil =>
    intro list h
    rw [pointerLoop_nil]
    cases list <;> rfl
  | cons x rest ih =>
    intro list h
    cases list with
    | nil => rfl
    | cons ptr tail =>
      rw [List.map_cons, pointerLoop_some]
      unfold pointerStep
      simp only [valueLoop]
      generalize decodeInto C x ptr h = d
      obtain ⟨err, h1⟩ := d
      cases err with
      | some e => rfl
      | none =>
        simp only []
        rw [ih tail h1]

theorem prepared_same (w : WrapList) (dest : Destination) (h : Heap)
    (hl : dest.elements.length = w.length) : prepared w dest h = (dest.elements, h) := by
  unfold prepared
  simp [hl]

theorem prepared_length (w : WrapList) (dest : Destination) (h : Heap) :
    (prepared w dest h).1.length = w.length := by
  unfold prepared
  split_ifs with h1 h2
  · simp [Heap.make]
  · simp
  · exact not_not.mp h1

theorem prepared_decoded (w : WrapList) (dest : Destination) (h : Heap) :
    (prepared w dest h).2.decoded = h.decoded := by
  unfold prepared
  split_ifs <;> rfl

theorem make_read (h : Heap) (T : ResourceType) (n i : Nat) (hi : i < n) :
    (h.make T n).2.read (h.cells.length + i) = zeroValue T := by
  rw [read_eq]
  simp only [Heap.make]
  rw [List.getElem?_append_right (by omega)]
  simp [hi]

/-- When the destination is replaced, the sequence the loop starts from holds nil or fresh
zero values only. -/
theorem prepared_replaced (w : WrapList) (dest : Destination) (h : Heap)
    (hl : dest.elements.length ≠ w.length) (i p : Nat)
    (hp : (prepared w dest h).1[i]? = some (some p)) :
    h.cells.length ≤ p ∧ p < (prepared w dest h).2.cells.length
      ∧ (prepared w dest h).2.read p = zeroValue dest.elementType := by
  unfold prepared at hp ⊢
  simp only [hl, ne_eq, not_false_eq_true, if_true] at hp ⊢
  split_ifs at hp ⊢ with hv
  · simp only [Heap.make, List.getElem?_map, Option.map_eq_some'] at hp
    obtain ⟨a, ha, hap⟩ := hp
    simp only [Option.some.injEq] at hap
    subst hap
    have hi : i < w.length := by
      by_contra hc
      rw [List.getElem?_eq_none (by simpa using hc)] at ha
      cases ha
    rw [List.getElem?_range' _ _ hi] at ha
    simp only [one_mul, Option.some.injEq] at ha
    subst ha
    refine ⟨by omega, by simp [Heap.make]; omega, make_read h _ _ i hi⟩
  · exfalso
    by_cases hi : i < w.length
    · rw [List.getElem?_replicate] at hp
      simp [hi] at hp
    · rw [List.getElem?_eq_none (by simpa using hi)] at hp
      cases hp

theorem prepared_le (w : WrapList) (dest : Destination) (h : Heap) :
    h.cells.length ≤ (prepared w dest h).2.cells.length
    ∧ ∀ a, a < h.cells.length → (prepared w dest h).2.read a = h.read a := by
  unfold prepared
  split_ifs with h1 h2
  · refine ⟨by simp [Heap.make], ?_⟩
    intro a ha
    rw [read_eq, read_eq]
    simp only [Heap.make]
    rw [List.getElem?_append_left ha]
  · exact ⟨le_refl _, fun _ _ => rfl⟩
  · exact ⟨le_refl _, fun _ _ => rfl⟩

/-- On a supported destination `WrapList.UnwrapInto` is the loop over the prepared
sequence. -/
theorem unwrapInto_loop (C : ElementCodec) (w : WrapList) (dest : Destination) (h : Heap)
    (hs : dest.supported = true) :
    (WrapList.UnwrapInto C w dest h).1
      = (pointerLoop C dest.elementType w (prepared w dest h).1 (prepared w dest h).2).1
    ∧ (WrapList.UnwrapInto C w dest h).2.1.elements
      = (pointerLoop C dest.elementType w (prepared w dest h).1 (prepared w dest h).2).2.1
    ∧ (WrapList.UnwrapInto C w dest h).2.2
      = (pointerLoop C dest.elementType w (prepared w dest h).1 (prepared w dest h).2).2.2
    ∧ (WrapList.UnwrapInto C w dest h).2.1.ofValues = dest.ofValues
    ∧ (WrapList.UnwrapInto C w dest h).2.1.elementType = dest.elementType
    ∧ (WrapList.UnwrapInto C w dest h).2.1.supported = true := by
  have hv : ∀ (T : ResourceType) (list : List Addr),
      (unwrapIntoValueList C T w list h).1
        = (pointerLoop C T w
            (if (list.map some).length ≠ w.length then ((h.make T w.length).1.map some,
                (h.make T w.length).2) else (list.map some, h)).1
            (if (list.map some).length ≠ w.length then ((h.make T w.length).1.map some,
                (h.make T w.length).2) else (list.map some, h)).2).1
      ∧ (unwrapIntoValueList C T w list h).2.1.map some
        = (pointerLoop C T w
            (if (list.map some).length ≠ w.length then ((h.make T w.length).1.map some,
                (h.make T w.length).2) else (list.map some, h)).1
            (if (list.map some).length ≠ w.length then ((h.make T w.length).1.map some,
                (h.make T w.length).2) else (list.map some, h)).2).2.1
      ∧ (unwrapIntoValueList C T w list h).2.2
        = (pointerLoop C T w
            (if (list.map some).length ≠ w.length then ((h.make T w.length).1.map some,
                (h.make T w.length).2) else (list.map some, h)).1
            (if (list.map some).length ≠ w.length then ((h.make T w.length).1.map some,
                (h.make T w.length).2) else (list.map some, h)).2).2.2 := by
    intro T list
    unfold unwrapIntoValueList
    simp only [List.length_map]
    split_ifs with hl
    · simp only []
      rw [valueLoop_eq]
      exact ⟨rfl, rfl, rfl⟩
    · simp only []
      rw [valueLoop_eq]
      exact ⟨rfl, rfl, rfl⟩
  have hp : ∀ (T : ResourceType) (list : List (Option Addr)),
      unwrapIntoPointerList C T w list h
        = pointerLoop C T w
            (if list.length ≠ w.length then (List.replicate w.length none, h) else (list, h)).1
            (if list.length ≠ w.length then (List.replicate w.length none, h) else (list, h)).2 := by
    intro T list
    unfold unwrapIntoPointerList
    split_ifs <;> rfl
  cases dest with
  | other tn => cases hs
  | EntityConfigList list =>
    obtain ⟨a, b, c⟩ := hv .EntityConfig list
    exact ⟨a, b, c, rfl, rfl, rfl⟩
  | EntityStateList list =>
    obtain ⟨a, b, c⟩ := hv .EntityState list
    exact ⟨a, b, c, rfl, rfl, rfl⟩
  | NamespaceList list =>
    obtain ⟨a, b, c⟩ := hv .Namespace list
    exact ⟨a, b, c, rfl, rfl, rfl⟩
  | EntityConfigPointerList list =>
    have e := hp .EntityConfig list
    exact ⟨congrArg (·.1) e, congrArg (·.2.1) e, congrArg (·.2.2) e, rfl, rfl, rfl⟩
  | EntityStatePointerList list =>
    have e := hp .EntityState list
    exact ⟨congrArg (·.1) e, congrArg (·.2.1) e, congrArg (·.2.2) e, rfl, rfl, rfl⟩
  | NamespacePointerList list =>
    have e := hp .Namespace list
    exact ⟨congrArg (·.1) e, congrArg (·.2.1) e, congrArg (·.2.2) e, rfl, rfl, rfl⟩
  | ResourceList list =>
    have e := hp .EntityState list
    exact ⟨congrArg (·.1) e, congrArg (·.2.1) e, congrArg (·.2.2) e, rfl, rfl, rfl⟩

/-- A sequence of values that has the length of the list is not replaced. -/
theorem unwrapInto_values_same (C : ElementCodec) (w : WrapList) (dest : Destination)
    (h : Heap) (hv : dest.ofValues = true) (hl : dest.elements.length = w.length) :
    (WrapList.UnwrapInto C w dest h).2.1 = dest := by
  cases dest with
  | EntityConfigList list =>
    have hl1 : list.length = w.length := by simpa [Destination.elements] using hl
    simp [WrapList.UnwrapInto, WrapList.unwrapIntoEntityConfigList, unwrapIntoValueList, hl1]
  | EntityStateList list =>
    have hl1 : list.length = w.length := by simpa [Destination.elements] using hl
    simp [WrapList.UnwrapInto, WrapList.unwrapIntoEntityStateList, unwrapIntoValueList, hl1]
  | NamespaceList list =>
    have hl1 : list.length = w.length := by simpa [Destination.elements] using hl
    simp [WrapList.UnwrapInto, WrapList.unwrapIntoNamespaceList, unwrapIntoValueList, hl1]
  | EntityConfigPointerList list => cases hv
  | EntityStatePointerList list => cases hv
  | NamespacePointerList list => cases hv
  | ResourceList list => cases hv
  | other tn => cases hv

theorem pointerLoop_all_some (C : ElementCodec) (T : ResourceType) (w : WrapList)
    (list : List (Option Addr)) (h : Heap) (hl : w.length = list.length)
    (hok : (pointerLoop C T w list h).1 = .ret none) (i : Nat) (hi : i < w.length) :
    ∃ p : Nat, (pointerLoop C T w list h).2.1[i]? = some (some p) := by
  obtain ⟨evs, _, _, hcase⟩ := pointerLoop_trace C T w list h hl
  rcases hcase with ⟨_, c2, c3, _⟩ | ⟨e, _, _, _, c1, _⟩
  · have hlen : evs.length = w.length := by rw [← c2, List.length_map]
    have hi1 : i < evs.length := by omega
    refine ⟨(evs.get ⟨i, hi1⟩).dest, ?_⟩
    rw [← c3, List.getElem?_map, List.getElem?_eq_getElem hi1]
    rfl
  · rw [hok] at c1
    cases c1

theorem unwrap_eq (C : ElementCodec) (w : WrapList) (h : Heap) :
    WrapList.Unwrap C w h
      = (((pointerLoop C .EntityState w (List.replicate w.length none) h).2.1,
          (pointerLoop C .EntityState w (List.replicate w.length none) h).1),
         (pointerLoop C .EntityState w (List.replicate w.length none) h).2.2) := by
  simp [WrapList.Unwrap, WrapList.UnwrapInto, WrapList.unwrapIntoResourceList]

/-- Claim C23, counterexample. The destination is a supported one, a pointer to a sequence
of entity config values, and `UnwrapInto` fails all the same, with the error of the
element that cannot be decoded. -/
theorem C23_counterexample :
    (Destination.EntityConfigList []).supported = true
    ∧ (WrapList.UnwrapInto strictCodec [.generic "*wrap.Wrapper" ""] (.EntityConfigList [])
        heap0).1 = .ret (some (.plain "unexpected end of JSON input")) := by
  decide

/-- Claim C23, amended. For a destination that is none of the seven supported sequences
`WrapList.UnwrapInto` returns the error that names the type of the destination, decodes
no wrapper and leaves the destination and the memory as they are. For a supported
destination it never panics and fails exactly when the decoding of an element fails: the
elements are decoded in order, the first error is returned as it is and no later element
is decoded; when no element fails, all are decoded and the result is nil. -/
theorem C23_unwrapInto_failure (C : ElementCodec) (w : WrapList) (dest : Destination)
    (h : Heap) :
    (∀ tn, dest = .other tn →
      WrapList.UnwrapInto C w dest h
        = (.ret (some (.plain ("can't unwrap list into " ++ tn))), dest, h))
    ∧ (dest.supported = true →
        ∃ evs : List DecodeEvent,
          (WrapList.UnwrapInto C w dest h).2.2.decoded = h.decoded ++ evs
          ∧ (∀ ev ∈ evs, ∃ c, ev.err = (C.UnwrapInto ev.wrapper c).1)
          ∧ (((WrapList.UnwrapInto C w dest h).1 = .ret none
              ∧ evs.map (fun ev => ev.wrapper) = w ∧ ∀ ev ∈ evs, ev.err = none)
            ∨ ∃ e init last post,
                (WrapList.UnwrapInto C w dest h).1 = .ret (some e)
                ∧ evs = init ++ [last] ∧ last.err = some e ∧ (∀ ev ∈ init, ev.err = none)
                ∧ w = evs.map (fun ev => ev.wrapper) ++ post))
    ∧ (dest.supported = true → (∀ x ∈ w, ∀ c, (C.UnwrapInto x c).1 = none) →
        (WrapList.UnwrapInto C w dest h).1 = .ret none)
    ∧ (dest.supported = true → ∀ e, (WrapList.UnwrapInto C w dest h).1 = .ret (some e) →
        ∃ x ∈ w, ∃ c, (C.UnwrapInto x c).1 = some e) := by
  have main : dest.supported = true →
      ∃ evs : List DecodeEvent,
        (WrapList.UnwrapInto C w dest h).2.2.decoded = h.decoded ++ evs
        ∧ (∀ ev ∈ evs, ∃ c, ev.err = (C.UnwrapInto ev.wrapper c).1)
        ∧ (((WrapList.UnwrapInto C w dest h).1 = .ret none
            ∧ evs.map (fun ev => ev.wrapper) = w ∧ ∀ ev ∈ evs, ev.err = none)
          ∨ ∃ e init last post,
              (WrapList.UnwrapInto C w dest h).1 = .ret (some e)
              ∧ evs = init ++ [last] ∧ last.err = some e ∧ (∀ ev ∈ init, ev.err = none)
              ∧ w = evs.map (fun ev => ev.wrapper) ++ post) := by
    intro hs
    obtain ⟨e1, _, e3, _⟩ := unwrapInto_loop C w dest h hs
    obtain ⟨evs, t1, t2, t3⟩ := pointerLoop_trace C dest.elementType w (prepared w dest h).1
      (prepared w dest h).2 (prepared_length w dest h).symm
    rw [prepared_decoded] at t1
    refine ⟨evs, by rw [e3]; exact t1, t2, ?_⟩
    rw [e1]
    rcases t3 with ⟨c1, c2, _, c4⟩ | hf
    · exact Or.inl ⟨c1, c2, c4⟩
    · exact Or.inr hf
  refine ⟨?_, main, ?_, ?_⟩
  · intro tn ht
    subst ht
    rfl
  · intro hs hall
    obtain ⟨evs, _, t2, t3⟩ := main hs
    rcases t3 with ⟨c1, _⟩ | ⟨e, init, last, post, _, c2, c3, _, c5⟩
    · exact c1
    · exfalso
      have hmem : last ∈ evs := by rw [c2]; simp
      have hw : last.wrapper ∈ w := by
        rw [c5]
        exact List.mem_append_left _ (List.mem_map.mpr ⟨last, hmem, rfl⟩)
      obtain ⟨c, hc⟩ := t2 last hmem
      rw [hall _ hw c, c3] at hc
      cases hc
  · intro hs e he
    obtain ⟨evs, _, t2, t3⟩ := main hs
    rcases t3 with ⟨c1, _⟩ | ⟨e1, init, last, post, c1, c2, c3, _, c5⟩
    · rw [c1] at he
      cases he
    · rw [c1] at he
      simp only [Outcome.ret.injEq, Option.some.injEq] at he
      subst he
      have hmem : last ∈ evs := by rw [c2]; simp
      have hw : last.wrapper ∈ w := by
        rw [c5]
        exact List.mem_append_left _ (List.mem_map.mpr ⟨last, hmem, rfl⟩)
      obtain ⟨c, hc⟩ := t2 last hmem
      exact ⟨last.wrapper, hw, c, by rw [← hc, c3]⟩

/-- Witness of C23: a pointer to a string is not a supported destination and gives the
error naming it; a pointer to a sequence of entity states is supported and, with two
wrappers that decode, gives nil. -/
theorem C23_unwrapInto_failure_witness :
    WrapList.UnwrapInto strictCodec [.pg barStateWrapper] (.other "*string") heap0
      = (.ret (some (.plain "can't unwrap list into *string")), .other "*string", heap0)
    ∧ (Destination.EntityStateList []).supported = true
    ∧ (∀ x ∈ [Wrapper.pg fooWrapper, Wrapper.pg barStateWrapper],
        ∀ c, (lenientCodec.UnwrapInto x c).1 = none)
    ∧ (WrapList.UnwrapInto lenientCodec [.pg fooWrapper, .pg barStateWrapper]
        (.EntityStateList []) heap0).1 = .ret none := by
  have hall : ∀ x ∈ [Wrapper.pg fooWrapper, Wrapper.pg barStateWrapper],
      ∀ c, (lenientCodec.UnwrapInto x c).1 = none := by
    intro x hx c
    simp only [List.mem_cons, List.mem_singleton, List.not_mem_nil, or_false] at hx
    rcases hx with rfl | rfl <;> rfl
  exact ⟨(C23_unwrapInto_failure strictCodec [.pg barStateWrapper] (.other "*string") heap0).1
      "*string" rfl, rfl, hall,
    (C23_unwrapInto_failure lenientCodec [.pg fooWrapper, .pg barStateWrapper]
      (.EntityStateList []) heap0).2.2.1 rfl hall⟩

/-- Claim C25. What `WrapList.Unwrap` returns has the length of the list, and every
element of it that is not nil refers to an entity state, whatever the wrappers are: the
result starts all nil and each nil is replaced by `new(corev3.EntityState)`. For the list
of one entity config wrapper the result is an error with a codec that checks the type of
its destination, and an entity state holding the decoded content with one that does not;
it is an entity config with neither. -/
theorem C25_unwrap_yields_entity_states (C : ElementCodec) (w : WrapList) (h : Heap) :
    (WrapList.Unwrap C w h).1.1.length = WrapList.Len w
    ∧ (∀ (i p : Nat), (WrapList.Unwrap C w h).1.1[i]? = some (some p) →
        ((WrapList.Unwrap C w h).2.read p).type = .EntityState
        ∧ ((WrapList.Unwrap C w h).2.read p).type ≠ .EntityConfig
        ∧ ((WrapList.Unwrap C w h).2.read p).type ≠ .Namespace)
    ∧ fooWrapper.kind = .EntityConfigWrapper
    ∧ (WrapList.Unwrap strictCodec [.pg fooWrapper] heap0).1
        = ([some 0], .ret (some (.plain "unsupported destination type")))
    ∧ (WrapList.Unwrap lenientCodec [.pg fooWrapper] heap0).1 = ([some 0], .ret none)
    ∧ (WrapList.Unwrap lenientCodec [.pg fooWrapper] heap0).2.read 0
        = { type := .EntityState, content := "foo" } := by
  refine ⟨?_, ?_, rfl, by decide, by decide, by decide⟩
  · rw [unwrap_eq]
    simp only [WrapList.Len]
    rw [(pointerLoop_frame C .EntityState w (List.replicate w.length none) h).1,
      List.length_replicate]
  · intro i p hp
    rw [unwrap_eq] at hp ⊢
    simp only [] at hp ⊢
    rcases pointerLoop_fresh C .EntityState w (List.replicate w.length none) h i p hp with
      hold | ⟨_, _, _, ht⟩
    · exfalso
      by_cases hi : i < w.length
      · rw [List.getElem?_replicate] at hold
        simp [hi] at hold
      · rw [List.getElem?_eq_none (by simpa using hi)] at hold
        cases hold
    · rw [ht]
      exact ⟨rfl, by decide, by decide⟩

/-- Witness of C25: the element the list of the entity config wrapper foo unwraps to is
an entity state. -/
theorem C25_unwrap_yields_entity_states_witness :
    (WrapList.Unwrap lenientCodec [.pg fooWrapper] heap0).1.1[0]? = some (some 0)
    ∧ ((WrapList.Unwrap lenientCodec [.pg fooWrapper] heap0).2.read 0).type = .EntityState :=
  ⟨by decide,
    ((C25_unwrap_yields_entity_states lenientCodec [.pg fooWrapper] heap0).2.1 0 0
      (by decide)).1⟩

theorem cellBefore_prepared (w : WrapList) (dest : Destination) (h : Heap) (i : Nat) :
    cellBefore dest.elementType (prepared w dest h).1 (prepared w dest h).2 i
      = if dest.elements.length = w.length then cellBefore dest.elementType dest.elements h i
        else zeroValue dest.elementType := by
  split_ifs with hl
  · rw [prepared_same w dest h hl]
  · unfold cellBefore
    cases hp : (prepared w dest h).1[i]? with
    | none => rfl
    | some o =>
      cases o with
      | none => rfl
      | some q => exact (prepared_replaced w dest h hl i q hp).2.2

/-- Claim C24. `WrapList.UnwrapInto` into a supported destination never panics and leaves
a destination of `len(w)` elements. A destination that has `len(w)` elements already is
not replaced: a sequence of values stays the same sequence, every non-nil reference stays
where it is, and on success every nil is replaced by a variable allocated by the call. A
destination of another length is replaced, and on success all its elements are variables
allocated by the call. On success the decode calls made are those of wrapper `i` into
element `i`, for every `i` in order, none failing; and when the elements are pairwise
distinct, element `i` holds what wrapper `i` decoded into it, starting from the old
element when it was reused and from the zero value when it is fresh. -/
theorem C24_unwrapInto_reuses_elements (C : ElementCodec) (w : WrapList) (dest : Destination)
    (h : Heap) (hs : dest.supported = true) :
    (∀ msg, (WrapList.UnwrapInto C w dest h).1 ≠ .panic msg)
    ∧ (WrapList.UnwrapInto C w dest h).2.1.elements.length = w.length
    ∧ (dest.elements.length = w.length →
        (dest.ofValues = true → (WrapList.UnwrapInto C w dest h).2.1 = dest)
        ∧ (∀ (i p : Nat), dest.elements[i]? = some (some p) →
            (WrapList.UnwrapInto C w dest h).2.1.elements[i]? = some (some p))
        ∧ ((WrapList.UnwrapInto C w dest h).1 = .ret none →
            ∀ i : Nat, dest.elements[i]? = some none →
              ∃ p : Nat, (WrapList.UnwrapInto C w dest h).2.1.elements[i]? = some (some p)
                ∧ h.cells.length ≤ p
                ∧ ((WrapList.UnwrapInto C w dest h).2.2.read p).type = dest.elementType))
    ∧ (dest.elements.length ≠ w.length → (WrapList.UnwrapInto C w dest h).1 = .ret none →
        ∀ i : Nat, i < w.length →
          ∃ p : Nat, (WrapList.UnwrapInto C w dest h).2.1.elements[i]? = some (some p)
            ∧ h.cells.length ≤ p
            ∧ ((WrapList.UnwrapInto C w dest h).2.2.read p).type = dest.elementType)
    ∧ ((WrapList.UnwrapInto C w dest h).1 = .ret none →
        ∃ evs : List DecodeEvent,
          (WrapList.UnwrapInto C w dest h).2.2.decoded = h.decoded ++ evs
          ∧ evs.map (fun ev => ev.wrapper) = w
          ∧ evs.map (fun ev => some ev.dest) = (WrapList.UnwrapInto C w dest h).2.1.elements
          ∧ ∀ ev ∈ evs, ev.err = none)
    ∧ ((WrapList.UnwrapInto C w dest h).1 = .ret none →
        (∀ p : Nat, some p ∈ dest.elements → p < h.cells.length) →
        (WrapList.UnwrapInto C w dest h).2.1.elements.Nodup →
        ∀ (i : Nat) (x : Wrapper), w[i]? = some x →
          ∃ p : Nat, (WrapList.UnwrapInto C w dest h).2.1.elements[i]? = some (some p)
            ∧ (WrapList.UnwrapInto C w dest h).2.2.read p
                = { type := (if dest.elements.length = w.length
                      then cellBefore dest.elementType dest.elements h i
                      else zeroValue dest.elementType).type,
                    content := (C.UnwrapInto x (if dest.elements.length = w.length
                      then cellBefore dest.elementType dest.elements h i
                      else zeroValue dest.elementType)).2 }) := by
  obtain ⟨e1, e2, e3, _, _, _⟩ := unwrapInto_loop C w dest h hs
  have hpl := prepared_length w dest h
  obtain ⟨f1, _, f3, _, f5⟩ := pointerLoop_frame C dest.elementType w (prepared w dest h).1
    (prepared w dest h).2
  obtain ⟨evs, t1, _, t3⟩ := pointerLoop_trace C dest.elementType w (prepared w dest h).1
    (prepared w dest h).2 hpl.symm
  have hfresh := pointerLoop_fresh C dest.elementType w (prepared w dest h).1
    (prepared w dest h).2
  have hsome := pointerLoop_all_some C dest.elementType w (prepared w dest h).1
    (prepared w dest h).2 hpl.symm
  have hcontent := pointerLoop_content C dest.elementType w (prepared w dest h).1
    (prepared w dest h).2 hpl.symm
  obtain ⟨ple, _⟩ := prepared_le w dest h
  rw [prepared_decoded] at t1
  rw [← e1] at t3 hsome hcontent
  rw [← e2] at f1 f5 t3 hfresh hsome hcontent
  rw [← e3] at f3 t1 hfresh hcontent
  refine ⟨?_, by rw [f1, hpl], ?_, ?_, ?_, ?_⟩
  · intro msg hm
    rcases t3 with ⟨c1, _⟩ | ⟨e, _, _, _, c1, _⟩ <;> rw [c1] at hm <;> cases hm
  · intro hl
    have hps := prepared_same w dest h hl
    refine ⟨fun hv => unwrapInto_values_same C w dest h hv hl, ?_, ?_⟩
    · intro i p hp
      exact f5 i p (by rw [hps]; exact hp)
    · intro hok i hnil
      have hi : i < w.length := by
        by_contra hc
        rw [List.getElem?_eq_none (by omega)] at hnil
        cases hnil
      obtain ⟨p, hp⟩ := hsome hok i hi
      refine ⟨p, hp, ?_⟩
      rcases hfresh i p hp with hold | ⟨_, b2, _, b4⟩
      · rw [hps] at hold
        simp only [] at hold
        rw [hnil] at hold
        cases hold
      · exact ⟨by omega, b4⟩
  · intro hl hok i hi
    obtain ⟨p, hp⟩ := hsome hok i hi
    refine ⟨p, hp, ?_⟩
    rcases hfresh i p hp with hold | ⟨_, b2, _, b4⟩
    · obtain ⟨r1, r2, r3⟩ := prepared_replaced w dest h hl i p hold
      exact ⟨r1, by rw [f3 p r2, r3]; rfl⟩
    · exact ⟨by omega, b4⟩
  · intro hok
    rcases t3 with ⟨_, c2, c3, c4⟩ | ⟨e, _, _, _, c1, _⟩
    · exact ⟨evs, t1, c2, c3, c4⟩
    · rw [c1] at hok
      cases hok
  · intro hok hwf hnd i x hx
    have hwf1 : ∀ p : Nat, some p ∈ (prepared w dest h).1 → p < (prepared w dest h).2.cells.length := by
      intro p hp
      by_cases hl : dest.elements.length = w.length
      · rw [prepared_same w dest h hl] at hp ⊢
        exact hwf p hp
      · obtain ⟨j, hj⟩ := List.mem_iff_getElem?.mp hp
        exact (prepared_replaced w dest h hl j p hj).2.1
    obtain ⟨p, hp1, hp2⟩ := hcontent hwf1 hok hnd i x hx
    rw [cellBefore_prepared] at hp2
    exact ⟨p, hp1, hp2⟩

/-- Witness of C24: two wrappers decoded into a sequence of two references to entity
configs, the first to an existing variable and the second nil. The first reference is
kept and its variable overwritten, the second is a new variable, and the other old
variable is untouched. -/
theorem C24_unwrapInto_reuses_elements_witness :
    (Destination.EntityConfigPointerList [some 0, none]).supported = true
    ∧ (WrapList.UnwrapInto lenientCodec [.pg fooWrapper, .pg barStateWrapper]
        (.EntityConfigPointerList [some 0, none]) heap2).2.1.elements.length = 2
    ∧ WrapList.UnwrapInto lenientCodec [.pg fooWrapper, .pg barStateWrapper]
        (.EntityConfigPointerList [some 0, none]) heap2
      = (.ret none, .EntityConfigPointerList [some 0, some 2],
          { cells := [{ type := .EntityConfig, content := "foo" },
                      { type := .EntityConfig, content := "old-1" },
                      { type := .EntityConfig, content := "bar" }],
            decoded := [{ wrapper := .pg fooWrapper, dest := 0, err := none },
                        { wrapper := .pg barStateWrapper, dest := 2, err := none }] })
    ∧ WrapList.UnwrapInto lenientCodec [.pg fooWrapper]
        (.EntityConfigList [0, 1]) heap2
      = (.ret none, .EntityConfigList [2],
          { cells := [{ type := .EntityConfig, content := "old-0" },
                      { type := .EntityConfig, content := "old-1" },
                      { type := .EntityConfig, content := "foo" }],
            decoded := [{ wrapper := .pg fooWrapper, dest := 2, err := none }] }) :=
  ⟨rfl,
    (C24_unwrapInto_reuses_elements lenientCodec [.pg fooWrapper, .pg barStateWrapper]
      (.EntityConfigPointerList [some 0, none]) heap2 rfl).2.1, by decide, by decide⟩

end SensuStore
